import Mathlib

/-! # osmo-bts (sysmoBTS layer-1 driver): control plane

A shallow embedding of the control plane of `src/osmo-bts-sysmo/l1_if.c` and
`src/osmo-bts-sysmo/oml.c`, and of the handover access detection of
`src/common/handover.c` (in a section of its own, after the vocabulary of the
statements):

* the request/confirmation correlator (`_l1if_req_compl`, `is_prim_compat`,
  `l1if_handle_l1prim`, `l1if_handle_sysprim`);
* the per-channel SAPI command queue (`sapi_queue_exeute`, `sapi_queue_send`,
  `sapi_queue_dispatch`, `queue_sapi_command`) with its command callbacks and
  the completion callbacks registered with the correlator;
* the upper-layer entry points (`l1if_rsl_chan_act`, `l1if_rsl_chan_rel`,
  `l1if_rsl_deact_sacch`, `l1if_rsl_mode_modify`, the `PRIM_INFO_ACT_CIPH`
  branch of `bts_model_l1sap_down`).

Conventions.  C functions that mutate `struct gsm_lchan` / `struct femtol1_hdl`
become functions on a `World` record.  A `World` holds one logical channel and
the layer-1 handle of its transceiver; a confirmation given to a completion
callback is one whose `hLayer3` handle resolves to that channel.  Intrusive
linked lists are Lean lists (`llist_add_tail` appends, `llist_add` conses).
Logging calls are dropped.  Results live in `Except Fault`: `undefined_behaviour`
marks executions that are undefined in C (reading the head of an empty list),
`out_of_fuel` marks an exhausted iteration budget of the `sapi_queue_send` loop.
-/

namespace OsmoBts

/-! ## Vendor layer-1 API (sysmocom headers, outside the repository) -/

/-- Modelled from the spec: the vendor enum `GsmL1_Sapi_t` (gsml1const.h is not
part of the repository).  The members are the facilities named in the sources;
`GsmL1_Sapi_Idle` is the zero value left by `talloc_zero`. -/
inductive GsmL1_Sapi_t
  | GsmL1_Sapi_Idle
  | GsmL1_Sapi_Fcch
  | GsmL1_Sapi_Sch
  | GsmL1_Sapi_Sacch
  | GsmL1_Sapi_Sdcch
  | GsmL1_Sapi_Bcch
  | GsmL1_Sapi_Pch
  | GsmL1_Sapi_Agch
  | GsmL1_Sapi_Rach
  | GsmL1_Sapi_TchF
  | GsmL1_Sapi_FacchF
  | GsmL1_Sapi_TchH
  | GsmL1_Sapi_FacchH
  | GsmL1_Sapi_Pdtch
  | GsmL1_Sapi_Pacch
  | GsmL1_Sapi_Ptcch
  | GsmL1_Sapi_Prach
  deriving DecidableEq, Repr, Fintype

open GsmL1_Sapi_t

/-- Modelled from the spec: `GsmL1_Dir_t` of the vendor header gsml1const.h (not
part of the repository) is a bit mask over the two directions; the sources test
it with `dir & GsmL1_Dir_TxDownlink` and `dir & GsmL1_Dir_RxUplink`. -/
abbrev GsmL1_Dir_t := Nat

/-- Modelled from the spec: the downlink bit of `GsmL1_Dir_t` (vendor header
gsml1const.h, not part of the repository). -/
def GsmL1_Dir_TxDownlink : GsmL1_Dir_t := 1

/-- Modelled from the spec: the uplink bit of `GsmL1_Dir_t` (vendor header
gsml1const.h, not part of the repository). -/
def GsmL1_Dir_RxUplink : GsmL1_Dir_t := 2

/-- Modelled from the spec: `GsmL1_Status_t` of the vendor header gsml1const.h
(not part of the repository); the sources only compare it with
`GsmL1_Status_Success`. -/
abbrev GsmL1_Status_t := Int

/-- Modelled from the spec: the success status of the vendor header gsml1const.h
(not part of the repository). -/
def GsmL1_Status_Success : GsmL1_Status_t := 0

/-- Modelled from the spec: the vendor enum `GsmL1_ConfigParamId_t` (gsml1prim.h
is not part of the repository), with the members named in
`femtobts_l1cfgt_names`. -/
inductive GsmL1_ConfigParamId_t
  | GsmL1_ConfigParamId_SetNbTsc
  | GsmL1_ConfigParamId_SetTxPowerLevel
  | GsmL1_ConfigParamId_SetLogChParams
  | GsmL1_ConfigParamId_SetCipheringParams
  deriving DecidableEq, Repr

open GsmL1_ConfigParamId_t

/-- Modelled from the spec: the vendor enum `GsmL1_CipherId_t` (gsml1const.h is
not part of the repository), with the members named in `rsl2l1_ciph`. -/
inductive GsmL1_CipherId_t
  | GsmL1_CipherId_A50
  | GsmL1_CipherId_A51
  | GsmL1_CipherId_A52
  | GsmL1_CipherId_A53
  deriving DecidableEq, Repr

open GsmL1_CipherId_t

/-- The configuration carried by an MPH-CONFIG request: `cfgParamId` together
with the member of the union `cfgParams` it selects, with the fields the driver
sets.  `setTxPowerLevel` and `setNbTsc` do not concern a channel. -/
inductive GsmL1_ConfigParam_t
  | setLogChParams (sapi : GsmL1_Sapi_t) (dir : GsmL1_Dir_t)
  | setCipheringParams (dir : GsmL1_Dir_t) (cipherId : GsmL1_CipherId_t)
  | setTxPowerLevel
  | setNbTsc
  deriving DecidableEq, Repr

/-- The field `cfgParamId` of an MPH-CONFIG request. -/
def GsmL1_ConfigParam_t.cfgParamId : GsmL1_ConfigParam_t → GsmL1_ConfigParamId_t
  | .setLogChParams _ _ => GsmL1_ConfigParamId_SetLogChParams
  | .setCipheringParams _ _ => GsmL1_ConfigParamId_SetCipheringParams
  | .setTxPowerLevel => GsmL1_ConfigParamId_SetTxPowerLevel
  | .setNbTsc => GsmL1_ConfigParamId_SetNbTsc

/-- Primitive identifiers are compared as `unsigned int` (`conf_prim_id`). -/
abbrev GsmL1_PrimId_t := Nat

/-- Modelled from the spec: numeric values of the vendor enum `GsmL1_PrimId_t`
(gsml1prim.h is not part of the repository), numbered in the order of the
`switch` of `prim_init`.  Only their being distinct is used. -/
def GsmL1_PrimId_MphActivateReq : GsmL1_PrimId_t := 4

/-- Modelled from the spec: see `GsmL1_PrimId_MphActivateReq` (vendor header
gsml1prim.h, not part of the repository). -/
def GsmL1_PrimId_MphDeactivateReq : GsmL1_PrimId_t := 5

/-- Modelled from the spec: see `GsmL1_PrimId_MphActivateReq` (vendor header
gsml1prim.h, not part of the repository). -/
def GsmL1_PrimId_MphConfigReq : GsmL1_PrimId_t := 6

/-- Modelled from the spec: see `GsmL1_PrimId_MphActivateReq` (vendor header
gsml1prim.h, not part of the repository). -/
def GsmL1_PrimId_MphActivateCnf : GsmL1_PrimId_t := 12

/-- Modelled from the spec: see `GsmL1_PrimId_MphActivateReq` (vendor header
gsml1prim.h, not part of the repository). -/
def GsmL1_PrimId_MphDeactivateCnf : GsmL1_PrimId_t := 13

/-- Modelled from the spec: see `GsmL1_PrimId_MphActivateReq` (vendor header
gsml1prim.h, not part of the repository). -/
def GsmL1_PrimId_MphConfigCnf : GsmL1_PrimId_t := 14

/-- The primitive carried by a message buffer (`msgb_l1prim` / `msgb_sysprim`):
the identifier and the member of the union `u` that the driver's channel code
writes or reads.  Every other primitive, of either domain, is `other id`. -/
inductive msgb
  | mphActivateReq (sapi : GsmL1_Sapi_t) (dir : GsmL1_Dir_t)
  | mphDeactivateReq (sapi : GsmL1_Sapi_t) (dir : GsmL1_Dir_t)
  | mphConfigReq (cfgParams : GsmL1_ConfigParam_t)
  | mphActivateCnf (sapi : GsmL1_Sapi_t) (dir : GsmL1_Dir_t) (status : GsmL1_Status_t)
  | mphDeactivateCnf (sapi : GsmL1_Sapi_t) (dir : GsmL1_Dir_t) (status : GsmL1_Status_t)
  | mphConfigCnf (cfgParamId : GsmL1_ConfigParamId_t) (status : GsmL1_Status_t)
  | other (id : Nat)
  deriving DecidableEq, Repr

/-- The field `id` of the primitive (`l1p->id`, `sysp->id`). -/
def msgb.id : msgb → Nat
  | .mphActivateReq _ _ => GsmL1_PrimId_MphActivateReq
  | .mphDeactivateReq _ _ => GsmL1_PrimId_MphDeactivateReq
  | .mphConfigReq _ => GsmL1_PrimId_MphConfigReq
  | .mphActivateCnf _ _ _ => GsmL1_PrimId_MphActivateCnf
  | .mphDeactivateCnf _ _ _ => GsmL1_PrimId_MphDeactivateCnf
  | .mphConfigCnf _ _ => GsmL1_PrimId_MphConfigCnf
  | .other id => id

/-! ## femtobts.h / femtobts.c (declarations used by `l1_if.c`) -/

/-- Modelled from the spec: `enum l1prim_type` of femtobts.h (not under src/):
a primitive is a request, a confirmation or an indication. -/
inductive l1prim_type
  | L1P_T_REQ
  | L1P_T_CONF
  | L1P_T_IND
  deriving DecidableEq, Repr

open l1prim_type

/-- The four lookup tables of femtobts.c (not under src/) that `_l1if_req_compl`
indexes with the primitive identifier; they are a parameter of the correlator. -/
structure femtobts_tables where
  femtobts_l1prim_type : Nat → l1prim_type
  femtobts_sysprim_type : Nat → l1prim_type
  femtobts_l1prim_req2conf : Nat → Nat
  femtobts_sysprim_req2conf : Nat → Nat

/-- Modelled from the spec: the entries of the femtobts.c tables (not under
src/) for the three layer-1 requests the channel code submits: each is of
request type and is answered by the confirmation of the same name.  The system
domain is not used by the channel code. -/
def femtobts : femtobts_tables where
  femtobts_l1prim_type := fun id =>
    if id = GsmL1_PrimId_MphActivateReq ∨ id = GsmL1_PrimId_MphDeactivateReq
        ∨ id = GsmL1_PrimId_MphConfigReq then L1P_T_REQ
    else if id = GsmL1_PrimId_MphActivateCnf ∨ id = GsmL1_PrimId_MphDeactivateCnf
        ∨ id = GsmL1_PrimId_MphConfigCnf then L1P_T_CONF
    else L1P_T_IND
  femtobts_sysprim_type := fun _ => L1P_T_IND
  femtobts_l1prim_req2conf := fun id =>
    if id = GsmL1_PrimId_MphActivateReq then GsmL1_PrimId_MphActivateCnf
    else if id = GsmL1_PrimId_MphDeactivateReq then GsmL1_PrimId_MphDeactivateCnf
    else if id = GsmL1_PrimId_MphConfigReq then GsmL1_PrimId_MphConfigCnf
    else 0
  femtobts_sysprim_req2conf := fun _ => 0

/-- The errno value `EINVAL`. -/
def EINVAL : Int := 22

/-! ## The correlator state (`l1_if.c`) -/

/-- The completion callbacks (`l1if_compl_cb`) registered by `oml.c`; `other_cb`
stands for the callbacks of requests that do not belong to a channel
(`trx_init_compl_cb`, `opstart_compl_cb`, `chmod_txpower_compl_cb`, ...). -/
inductive l1if_compl_cb
  | lchan_act_compl_cb
  | lchan_deact_compl_cb
  | chmod_modif_compl_cb
  | other_cb (n : Nat)
  deriving DecidableEq, Repr

/-- The record `struct wait_l1_conf`: a pending transaction.  `cb = none` is a
NULL callback; `cb_data` is always NULL and the list linkage is the position in
`wlc_list`.  The timer lives in `femtol1_hdl.timers`. -/
structure wait_l1_conf where
  conf_prim_id : Nat
  is_sys_prim : Nat
  cb : Option l1if_compl_cb
  deriving DecidableEq, Repr

/-- An armed deadline timer (`wlc->timer` after `osmo_timer_schedule`): the
transaction it belongs to (`timer.data`) and its delay. -/
structure osmo_timer_list where
  data : wait_l1_conf
  secs : Nat
  usecs : Nat
  deriving DecidableEq, Repr

/-- The fields of `struct femtol1_hdl` used by the control plane.  `write_q_L1` and
`write_q_SYS` are `write_q[MQ_L1_WRITE]` and `write_q[MQ_SYS_WRITE]`;
`timers` are the armed deadline timers of the pending transactions;
`alive_timer` tells whether the alive timer is scheduled. -/
structure femtol1_hdl where
  write_q_L1 : List msgb
  write_q_SYS : List msgb
  wlc_list : List wait_l1_conf
  timers : List osmo_timer_list
  alive_timer : Bool
  alive_prim_cnt : Nat
  deriving DecidableEq, Repr

/-- The function `_l1if_req_compl` of l1_if.c.  `osmo_wqueue_enqueue` appends
to the write queue, `llist_add` puts the new transaction at the head of
`wlc_list`, and the deadline timer is scheduled for `timeout_secs`. -/
def _l1if_req_compl (T : femtobts_tables) (fl1h : femtol1_hdl) (msg : msgb)
    (is_system_prim : Int) (cb : Option l1if_compl_cb) : femtol1_hdl × Int :=
  if is_system_prim = 0 then
    if T.femtobts_l1prim_type msg.id ≠ L1P_T_REQ then
      (fl1h, -EINVAL)
    else
      let wlc : wait_l1_conf :=
        { cb := cb, is_sys_prim := 0, conf_prim_id := T.femtobts_l1prim_req2conf msg.id }
      let timeout_secs := 30
      ({ fl1h with
          write_q_L1 := fl1h.write_q_L1 ++ [msg]
          wlc_list := wlc :: fl1h.wlc_list
          timers := { data := wlc, secs := timeout_secs, usecs := 0 } :: fl1h.timers }, 0)
  else
    if T.femtobts_sysprim_type msg.id ≠ L1P_T_REQ then
      (fl1h, -EINVAL)
    else
      let wlc : wait_l1_conf :=
        { cb := cb, is_sys_prim := 1, conf_prim_id := T.femtobts_sysprim_req2conf msg.id }
      let timeout_secs := 30
      ({ fl1h with
          write_q_SYS := fl1h.write_q_SYS ++ [msg]
          wlc_list := wlc :: fl1h.wlc_list
          timers := { data := wlc, secs := timeout_secs, usecs := 0 } :: fl1h.timers }, 0)

/-- The function `l1if_req_compl`: a request of the system domain. -/
def l1if_req_compl (T : femtobts_tables) (fl1h : femtol1_hdl) (msg : msgb)
    (cb : Option l1if_compl_cb) : femtol1_hdl × Int :=
  _l1if_req_compl T fl1h msg 1 cb

/-- The function `l1if_gsm_req_compl`: a request of the layer-1 domain. -/
def l1if_gsm_req_compl (T : femtobts_tables) (fl1h : femtol1_hdl) (msg : msgb)
    (cb : Option l1if_compl_cb) : femtol1_hdl × Int :=
  _l1if_req_compl T fl1h msg 0 cb

/-- The function `release_wlc`: `osmo_timer_del` on the transaction's timer,
then the record is freed. -/
def release_wlc (wlc : wait_l1_conf) (fl1h : femtol1_hdl) : femtol1_hdl :=
  { fl1h with timers := fl1h.timers.eraseP (fun t => t.data = wlc) }

/-- The function `is_prim_compat` (returns 1 or 0). -/
def is_prim_compat (l1p : msgb) (wlc : wait_l1_conf) : Bool :=
  if wlc.is_sys_prim ≠ 0 then false
  else if l1p.id ≠ wlc.conf_prim_id then false
  else true

/-- The test of the loop of `l1if_handle_sysprim`:
`wlc->is_sys_prim && sysp->id == wlc->conf_prim_id`. -/
def is_sysprim_compat (sysp : msgb) (wlc : wait_l1_conf) : Bool :=
  wlc.is_sys_prim ≠ 0 && sysp.id = wlc.conf_prim_id

/-! ## Channel data (`struct gsm_lchan`, `struct sapi_cmd`) -/

/-- Outcome of an execution that C leaves undefined, or of an exhausted
iteration budget. -/
inductive Fault
  | out_of_fuel
  | undefined_behaviour
  deriving DecidableEq, Repr

deriving instance DecidableEq for Except

/-- The type `enum sapi_cmd_type` of oml.c. -/
inductive sapi_cmd_type
  | SAPI_CMD_ACTIVATE
  | SAPI_CMD_CONFIG_CIPHERING
  | SAPI_CMD_CONFIG_LOGCH_PARAM
  | SAPI_CMD_SACCH_REL_MARKER
  | SAPI_CMD_REL_MARKER
  | SAPI_CMD_DEACTIVATE
  deriving DecidableEq, Repr

open sapi_cmd_type

/-- The two functions stored in `sapi_cmd.callback`. -/
inductive sapi_cmd_callback
  | sapi_activate_cb
  | sapi_deactivate_cb
  deriving DecidableEq, Repr

/-- The record `struct sapi_cmd`; `callback = none` is the NULL pointer left by
`talloc_zero`, the list linkage is the position in `sapi_cmds`. -/
structure sapi_cmd where
  sapi : GsmL1_Sapi_t
  dir : GsmL1_Dir_t
  type : sapi_cmd_type
  callback : Option sapi_cmd_callback
  deriving DecidableEq, Repr

/-- The record `struct sapi_dir` of oml.c. -/
structure sapi_dir where
  sapi : GsmL1_Sapi_t
  dir : GsmL1_Dir_t
  deriving DecidableEq, Repr

/-- Modelled from the spec: `enum gsm_lchan_state` of the shared header
gsm_data_shared.h (not under src/), with the states named in the sources:
Idle, ActivationRequested, Active, ReleaseRequested, Broken. -/
inductive gsm_lchan_state
  | LCHAN_S_NONE
  | LCHAN_S_ACT_REQ
  | LCHAN_S_ACTIVE
  | LCHAN_S_REL_REQ
  | LCHAN_S_BROKEN
  deriving DecidableEq, Repr

open gsm_lchan_state

/-- Modelled from the spec: `enum lchan_sapi_state` of gsm_data_shared.h (not
under src/): Unassigned, Assigned, PendingRelease, Error. -/
inductive lchan_sapi_state
  | LCHAN_SAPI_S_NONE
  | LCHAN_SAPI_S_ASSIGNED
  | LCHAN_SAPI_S_REL
  | LCHAN_SAPI_S_ERROR
  deriving DecidableEq, Repr

open lchan_sapi_state

/-- Modelled from the spec: `enum lchan_ciph_state` of gsm_data_shared.h (not
under src/): None, UplinkKeyRequested, UplinkKeyConfirmed, BothRequested,
UplinkConfirmedDownlinkRequested, BothConfirmed.  `LCHAN_CIPH_NONE` is the
value 0. -/
inductive lchan_ciph_state
  | LCHAN_CIPH_NONE
  | LCHAN_CIPH_RX_REQ
  | LCHAN_CIPH_RX_CONF
  | LCHAN_CIPH_RXTX_REQ
  | LCHAN_CIPH_RX_CONF_TX_REQ
  | LCHAN_CIPH_RXTX_CONF
  deriving DecidableEq, Repr

open lchan_ciph_state

/-- Modelled from the spec: `enum gsm_chan_t` of gsm_data_shared.h (not under
src/), the index type of `sapis_for_lchan`. -/
inductive gsm_chan_t
  | GSM_LCHAN_NONE
  | GSM_LCHAN_SDCCH
  | GSM_LCHAN_TCH_F
  | GSM_LCHAN_TCH_H
  | GSM_LCHAN_UNKNOWN
  | GSM_LCHAN_CCCH
  | GSM_LCHAN_PDTCH
  deriving DecidableEq, Repr

open gsm_chan_t

/-- The fields of `struct gsm_lchan` used by the control plane; `encr_alg_id`
is `encr.alg_id` (a `uint8_t`), `sapi_cmds` is the command queue. -/
structure gsm_lchan where
  type : gsm_chan_t
  state : gsm_lchan_state
  ciph_state : lchan_ciph_state
  encr_alg_id : Nat
  sapis_dl : GsmL1_Sapi_t → lchan_sapi_state
  sapis_ul : GsmL1_Sapi_t → lchan_sapi_state
  sapi_cmds : List sapi_cmd
  deriving DecidableEq

/-- Modelled from the spec: `enum osmo_mph_info_type` of l1sap.h (not under
src/), the kind of an MPH-INFO primitive. -/
inductive osmo_mph_info_type
  | PRIM_INFO_TIME
  | PRIM_INFO_MEAS
  | PRIM_INFO_ACTIVATE
  | PRIM_INFO_DEACTIVATE
  | PRIM_INFO_MODIFY
  | PRIM_INFO_ACT_CIPH
  deriving DecidableEq, Repr

open osmo_mph_info_type

/-- The MPH-INFO confirmation built by `mph_info_chan_confirm` and passed to
`l1sap_up`: its type and cause (the channel number is that of the channel). -/
structure osmo_phsap_prim where
  type : osmo_mph_info_type
  cause : Nat
  deriving DecidableEq, Repr

/-- Modelled from the spec: the RSL cause value of libosmocore's gsm_08_58.h
(outside the repository) reported with a failed activation. -/
def RSL_ERR_EQUIPMENT_FAIL : Nat := 0x20

/-- Instrumentation of the queue code: an append to the command queue
(`llist_add_tail` in `queue_sapi_command`) and an invocation of a command's
callback (`cmd->callback(lchan, status)` in `sapi_queue_dispatch`). -/
inductive Event
  | llist_add_tail (cmd : sapi_cmd)
  | callback (cb : sapi_cmd_callback) (status : Int)
  deriving DecidableEq, Repr

/-- One logical channel, the layer-1 handle of its transceiver, the primitives
handed to `l1sap_up` so far (oldest first) and the instrumentation trace
(oldest first). -/
structure World where
  lchan : gsm_lchan
  fl1h : femtol1_hdl
  l1sap_up : List osmo_phsap_prim
  trace : List Event
  deriving DecidableEq

/-- Results of the embedded functions. -/
abbrev M := Except Fault

/-! ## oml.c: queue primitives and hardware submissions -/

/-- Modelled from the spec: `lchan_set_state` of the common code (not under
src/) stores the new lifecycle state in `lchan->state`. -/
def lchan_set_state (w : World) (state : gsm_lchan_state) : World :=
  { w with lchan := { w.lchan with state := state } }

/-- The function `mph_info_chan_confirm`: builds the MPH-INFO confirmation and
hands it to `l1sap_up`. -/
def mph_info_chan_confirm (w : World) (type : osmo_mph_info_type) (cause : Nat) : World :=
  { w with l1sap_up := w.l1sap_up ++ [{ type := type, cause := cause }] }

/-- The table `ccch_sapis`. -/
def ccch_sapis : List sapi_dir :=
  [ ⟨GsmL1_Sapi_Fcch, GsmL1_Dir_TxDownlink⟩,
    ⟨GsmL1_Sapi_Sch, GsmL1_Dir_TxDownlink⟩,
    ⟨GsmL1_Sapi_Bcch, GsmL1_Dir_TxDownlink⟩,
    ⟨GsmL1_Sapi_Agch, GsmL1_Dir_TxDownlink⟩,
    ⟨GsmL1_Sapi_Pch, GsmL1_Dir_TxDownlink⟩,
    ⟨GsmL1_Sapi_Rach, GsmL1_Dir_RxUplink⟩ ]

/-- The table `tchf_sapis`. -/
def tchf_sapis : List sapi_dir :=
  [ ⟨GsmL1_Sapi_TchF, GsmL1_Dir_TxDownlink⟩,
    ⟨GsmL1_Sapi_TchF, GsmL1_Dir_RxUplink⟩,
    ⟨GsmL1_Sapi_FacchF, GsmL1_Dir_TxDownlink⟩,
    ⟨GsmL1_Sapi_FacchF, GsmL1_Dir_RxUplink⟩,
    ⟨GsmL1_Sapi_Sacch, GsmL1_Dir_TxDownlink⟩,
    ⟨GsmL1_Sapi_Sacch, GsmL1_Dir_RxUplink⟩ ]

/-- The table `tchh_sapis`. -/
def tchh_sapis : List sapi_dir :=
  [ ⟨GsmL1_Sapi_TchH, GsmL1_Dir_TxDownlink⟩,
    ⟨GsmL1_Sapi_TchH, GsmL1_Dir_RxUplink⟩,
    ⟨GsmL1_Sapi_FacchH, GsmL1_Dir_TxDownlink⟩,
    ⟨GsmL1_Sapi_FacchH, GsmL1_Dir_RxUplink⟩,
    ⟨GsmL1_Sapi_Sacch, GsmL1_Dir_TxDownlink⟩,
    ⟨GsmL1_Sapi_Sacch, GsmL1_Dir_RxUplink⟩ ]

/-- The table `sdcch_sapis`. -/
def sdcch_sapis : List sapi_dir :=
  [ ⟨GsmL1_Sapi_Sdcch, GsmL1_Dir_TxDownlink⟩,
    ⟨GsmL1_Sapi_Sdcch, GsmL1_Dir_RxUplink⟩,
    ⟨GsmL1_Sapi_Sacch, GsmL1_Dir_TxDownlink⟩,
    ⟨GsmL1_Sapi_Sacch, GsmL1_Dir_RxUplink⟩ ]

/-- The table `pdtch_sapis` (the entries under `#if 0` are not compiled). -/
def pdtch_sapis : List sapi_dir :=
  [ ⟨GsmL1_Sapi_Pdtch, GsmL1_Dir_TxDownlink⟩,
    ⟨GsmL1_Sapi_Pdtch, GsmL1_Dir_RxUplink⟩,
    ⟨GsmL1_Sapi_Ptcch, GsmL1_Dir_TxDownlink⟩,
    ⟨GsmL1_Sapi_Prach, GsmL1_Dir_RxUplink⟩ ]

/-- The table `sapis_for_lchan`; channel types without an initialiser have
`num_sapis = 0`. -/
def sapis_for_lchan : gsm_chan_t → List sapi_dir
  | GSM_LCHAN_SDCCH => sdcch_sapis
  | GSM_LCHAN_TCH_F => tchf_sapis
  | GSM_LCHAN_TCH_H => tchh_sapis
  | GSM_LCHAN_CCCH => ccch_sapis
  | GSM_LCHAN_PDTCH => pdtch_sapis
  | GSM_LCHAN_NONE => []
  | GSM_LCHAN_UNKNOWN => []

/-- The function `lchan_to_GsmL1_Sapi_t`. -/
def lchan_to_GsmL1_Sapi_t (lchan : gsm_lchan) : GsmL1_Sapi_t :=
  match lchan.type with
  | GSM_LCHAN_TCH_F => GsmL1_Sapi_TchF
  | GSM_LCHAN_TCH_H => GsmL1_Sapi_TchH
  | _ => GsmL1_Sapi_Idle

/-- The table `rsl2l1_ciph`. -/
def rsl2l1_ciph : List GsmL1_CipherId_t :=
  [GsmL1_CipherId_A50, GsmL1_CipherId_A50, GsmL1_CipherId_A51, GsmL1_CipherId_A52,
   GsmL1_CipherId_A53]

/-- Hands a layer-1 request to `l1if_gsm_req_compl` with the handle of the
channel's transceiver (`trx_femtol1_hdl(lchan->ts->trx)`). -/
def World.gsm_req_compl (w : World) (msg : msgb) (cb : l1if_compl_cb) : World × Int :=
  let r := l1if_gsm_req_compl femtobts w.fl1h msg (some cb)
  ({ w with fl1h := r.1 }, r.2)

/-- The function `mph_send_activate_req`. -/
def mph_send_activate_req (w : World) (cmd : sapi_cmd) : World × Int :=
  w.gsm_req_compl (.mphActivateReq cmd.sapi cmd.dir) .lchan_act_compl_cb

/-- The function `mph_send_deactivate_req`. -/
def mph_send_deactivate_req (w : World) (cmd : sapi_cmd) : World × Int :=
  w.gsm_req_compl (.mphDeactivateReq cmd.sapi cmd.dir) .lchan_deact_compl_cb

/-- The function `mph_send_config_logchpar`. -/
def mph_send_config_logchpar (w : World) (cmd : sapi_cmd) : World × Int :=
  w.gsm_req_compl
    (.mphConfigReq (.setLogChParams (lchan_to_GsmL1_Sapi_t w.lchan) cmd.dir))
    .chmod_modif_compl_cb

/-- The function `mph_send_config_ciphering`: an algorithm identifier outside
`rsl2l1_ciph` returns `-EINVAL` before anything is submitted. -/
def mph_send_config_ciphering (w : World) (cmd : sapi_cmd) : World × Int :=
  if w.lchan.encr_alg_id ≥ rsl2l1_ciph.length then
    (w, -EINVAL)
  else
    w.gsm_req_compl
      (.mphConfigReq (.setCipheringParams cmd.dir
        (rsl2l1_ciph.getD w.lchan.encr_alg_id GsmL1_CipherId_A50)))
      .chmod_modif_compl_cb

/-- The function `sapi_clear_queue`. -/
def sapi_clear_queue (w : World) : World :=
  { w with lchan := { w.lchan with sapi_cmds := [] } }

/-- The statement `llist_add_tail(&cmd->entry, &lchan->sapi_cmds)`, recorded in the
trace. -/
def World.llist_add_tail (w : World) (cmd : sapi_cmd) : World :=
  { w with
      lchan := { w.lchan with sapi_cmds := w.lchan.sapi_cmds ++ [cmd] }
      trace := w.trace ++ [Event.llist_add_tail cmd] }

/-- The statements `llist_del(&cmd->entry); talloc_free(cmd)` for the head
command: the queue keeps its tail. -/
def World.llist_del_head (w : World) : World :=
  { w with lchan := { w.lchan with sapi_cmds := w.lchan.sapi_cmds.tail } }

/-- The function `queue_sapi_command`; `send` is `sapi_queue_send`. -/
def queue_sapi_command (send : World → M World) (w : World) (cmd : sapi_cmd) :
    M (World × Nat) :=
  let start := w.lchan.sapi_cmds.isEmpty
  let w := w.llist_add_tail cmd
  if !start then
    pure (w, 0)
  else do
    let w ← send w
    pure (w, 1)

/-- The function `enqueue_sapi_deact_cmd`. -/
def enqueue_sapi_deact_cmd (send : World → M World) (w : World) (sapi : GsmL1_Sapi_t)
    (dir : GsmL1_Dir_t) : M (World × Nat) :=
  queue_sapi_command send w
    { sapi := sapi, dir := dir, type := SAPI_CMD_DEACTIVATE,
      callback := some .sapi_deactivate_cb }

/-- The function `check_sapi_release`. -/
def check_sapi_release (send : World → M World) (w : World) (sapi : GsmL1_Sapi_t)
    (dir : GsmL1_Dir_t) : M (World × Nat) :=
  if dir &&& GsmL1_Dir_TxDownlink ≠ 0 then
    if w.lchan.sapis_dl sapi ≠ LCHAN_SAPI_S_ASSIGNED then
      pure (w, 0)
    else
      enqueue_sapi_deact_cmd send
        { w with lchan := { w.lchan with
            sapis_dl := Function.update w.lchan.sapis_dl sapi LCHAN_SAPI_S_REL } }
        sapi dir
  else if dir &&& GsmL1_Dir_RxUplink ≠ 0 then
    if w.lchan.sapis_ul sapi ≠ LCHAN_SAPI_S_ASSIGNED then
      pure (w, 0)
    else
      enqueue_sapi_deact_cmd send
        { w with lchan := { w.lchan with
            sapis_ul := Function.update w.lchan.sapis_ul sapi LCHAN_SAPI_S_REL } }
        sapi dir
  else
    enqueue_sapi_deact_cmd send w sapi dir

/-- The loop of `lchan_deactivate_sapis` over the table entries from the last
to the first (`entries` is the reversed table), accumulating `res`. -/
def lchan_deactivate_sapis_loop (send : World → M World) :
    List sapi_dir → World → Nat → M (World × Nat)
  | [], w, res => pure (w, res)
  | sd :: entries, w, res => do
    let w :=
      if sd.sapi = GsmL1_Sapi_Sch then
        { w with fl1h := { w.fl1h with alive_timer := false } }
      else w
    let r ← check_sapi_release send w sd.sapi sd.dir
    lchan_deactivate_sapis_loop send entries r.1 (res ||| r.2)

/-- The function `lchan_deactivate_sapis`. -/
def lchan_deactivate_sapis (send : World → M World) (w : World) : M (World × Nat) := do
  let r ← lchan_deactivate_sapis_loop send (sapis_for_lchan w.lchan.type).reverse w 0
  if r.2 = 0 then
    let w := lchan_set_state r.1 LCHAN_S_BROKEN
    let w := mph_info_chan_confirm w PRIM_INFO_DEACTIVATE 0
    pure (w, r.2)
  else
    pure (r.1, r.2)

/-- The function `sapi_queue_exeute`; `send` is `sapi_queue_send`, reached
again through the markers.  The head of an empty queue is undefined. -/
def sapi_queue_exeute (send : World → M World) (w : World) : M (World × Nat) :=
  match w.lchan.sapi_cmds with
  | [] => throw Fault.undefined_behaviour
  | cmd :: _ =>
    match cmd.type with
    | SAPI_CMD_ACTIVATE => pure ((mph_send_activate_req w cmd).1, 1)
    | SAPI_CMD_CONFIG_CIPHERING => pure ((mph_send_config_ciphering w cmd).1, 1)
    | SAPI_CMD_CONFIG_LOGCH_PARAM => pure ((mph_send_config_logchpar w cmd).1, 1)
    | SAPI_CMD_SACCH_REL_MARKER => do
      let w := w.llist_del_head
      let r1 ← check_sapi_release send w GsmL1_Sapi_Sacch GsmL1_Dir_TxDownlink
      let r2 ← check_sapi_release send r1.1 GsmL1_Sapi_Sacch GsmL1_Dir_RxUplink
      pure (r2.1, r1.2 ||| r2.2)
    | SAPI_CMD_REL_MARKER =>
      lchan_deactivate_sapis send w.llist_del_head
    | SAPI_CMD_DEACTIVATE => pure ((mph_send_deactivate_req w cmd).1, 1)

/-- The loop of `sapi_queue_send`, with an iteration budget: one unit per
executed head command; the re-entrant call made by a marker runs on the
remaining budget. -/
def sapi_queue_send_fuel : Nat → World → M World
  | 0, _ => throw Fault.out_of_fuel
  | fuel + 1, w => do
    let r ← sapi_queue_exeute (sapi_queue_send_fuel fuel) w
    if r.2 = 0 ∧ ¬ r.1.lchan.sapi_cmds.isEmpty then
      sapi_queue_send_fuel fuel r.1
    else
      pure r.1

/-- The function `sapi_queue_send`.  Every pass of the loop that does not end
it has removed a marker from the queue and markers only add `Deactivate`
commands, so the queue length plus one bounds the number of passes. -/
def sapi_queue_send (w : World) : M World :=
  sapi_queue_send_fuel (w.lchan.sapi_cmds.length + 1) w

/-! ## oml.c: command constructors, command callbacks, completion dispatch -/

/-- The function `enqueue_sapi_act_cmd`. -/
def enqueue_sapi_act_cmd (w : World) (sapi : GsmL1_Sapi_t) (dir : GsmL1_Dir_t) : M World := do
  let r ← queue_sapi_command sapi_queue_send w
    { sapi := sapi, dir := dir, type := SAPI_CMD_ACTIVATE,
      callback := some .sapi_activate_cb }
  pure r.1

/-- The function `enqueue_sapi_logchpar_cmd` (`talloc_zero` leaves `sapi` and
`callback` zero). -/
def enqueue_sapi_logchpar_cmd (w : World) (dir : GsmL1_Dir_t) : M World := do
  let r ← queue_sapi_command sapi_queue_send w
    { sapi := GsmL1_Sapi_Idle, dir := dir, type := SAPI_CMD_CONFIG_LOGCH_PARAM,
      callback := none }
  pure r.1

/-- The function `tx_confreq_logchpar`. -/
def tx_confreq_logchpar (w : World) (direction : GsmL1_Dir_t) : M (World × Int) := do
  let w ← enqueue_sapi_logchpar_cmd w direction
  pure (w, 0)

/-- The function `enqueue_sapi_ciphering_cmd` (`talloc_zero` leaves `sapi` and
`callback` zero). -/
def enqueue_sapi_ciphering_cmd (w : World) (dir : GsmL1_Dir_t) : M World := do
  let r ← queue_sapi_command sapi_queue_send w
    { sapi := GsmL1_Sapi_Idle, dir := dir, type := SAPI_CMD_CONFIG_CIPHERING,
      callback := none }
  pure r.1

/-- The function `l1if_set_ciphering`. -/
def l1if_set_ciphering (w : World) (dir_downlink : Int) : M (World × Int) :=
  if w.lchan.state ≠ LCHAN_S_ACTIVE then
    pure (w, -1)
  else do
    let dir := if dir_downlink ≠ 0 then GsmL1_Dir_RxUplink else GsmL1_Dir_TxDownlink
    let w ← enqueue_sapi_ciphering_cmd w dir
    pure (w, 0)

/-- The function `l1if_rsl_mode_modify`. -/
def l1if_rsl_mode_modify (w : World) : M (World × Int) :=
  if w.lchan.state ≠ LCHAN_S_ACTIVE then
    pure (w, -1)
  else do
    let r ← tx_confreq_logchpar w GsmL1_Dir_RxUplink
    let r ← tx_confreq_logchpar r.1 GsmL1_Dir_TxDownlink
    pure (r.1, 0)

/-- The function `sapi_activate_cb`. -/
def sapi_activate_cb (w : World) (status : Int) : M (World × Int) :=
  if status ≠ GsmL1_Status_Success then
    let w := lchan_set_state w LCHAN_S_BROKEN
    let w := sapi_clear_queue w
    let w := mph_info_chan_confirm w PRIM_INFO_ACTIVATE RSL_ERR_EQUIPMENT_FAIL
    pure (w, -1)
  else if ¬ w.lchan.sapi_cmds.isEmpty then
    pure (w, 0)
  else if w.lchan.state ≠ LCHAN_S_ACT_REQ then
    pure (w, 0)
  else do
    let w := lchan_set_state w LCHAN_S_ACTIVE
    let w := mph_info_chan_confirm w PRIM_INFO_ACTIVATE 0
    let r ← l1if_set_ciphering w 1
    let r ← l1if_set_ciphering r.1 0
    let w := r.1
    let w :=
      if w.lchan.encr_alg_id ≠ 0 then
        { w with lchan := { w.lchan with ciph_state := LCHAN_CIPH_RXTX_REQ } }
      else
        { w with lchan := { w.lchan with ciph_state := LCHAN_CIPH_NONE } }
    pure (w, 0)

/-- The function `sapi_deactivate_cb`. -/
def sapi_deactivate_cb (w : World) (status : Int) : M (World × Int) :=
  if status ≠ GsmL1_Status_Success ∧ w.lchan.state = LCHAN_S_REL_REQ then
    let w := lchan_set_state w LCHAN_S_BROKEN
    let w := sapi_clear_queue w
    let w := mph_info_chan_confirm w PRIM_INFO_DEACTIVATE 0
    pure (w, -1)
  else if ¬ w.lchan.sapi_cmds.isEmpty then
    pure (w, 0)
  else if w.lchan.state ≠ LCHAN_S_REL_REQ then
    pure (w, 0)
  else
    let w := lchan_set_state w LCHAN_S_NONE
    let w := mph_info_chan_confirm w PRIM_INFO_DEACTIVATE 0
    pure (w, 0)

/-- The call `cmd->callback(lchan, status)` through the function pointer,
recorded in the trace. -/
def call_sapi_cmd_callback (cb : sapi_cmd_callback) (w : World) (status : Int) :
    M (World × Int) :=
  let w := { w with trace := w.trace ++ [Event.callback cb status] }
  match cb with
  | .sapi_activate_cb => sapi_activate_cb w status
  | .sapi_deactivate_cb => sapi_deactivate_cb w status

/-- The statement `if (cmd->callback) cmd->callback(lchan, status);` of
`sapi_queue_dispatch`; the value returned by the callback is dropped. -/
def run_callback (cmd : sapi_cmd) (w : World) (status : Int) : M World :=
  match cmd.callback with
  | some cb => do
    let r ← call_sapi_cmd_callback cb w status
    pure r.1
  | none => pure w

/-- The function `sapi_queue_dispatch` (`end_` is the local `end`).  The head
of an empty queue is undefined. -/
def sapi_queue_dispatch (w : World) (status : Int) : M World :=
  match w.lchan.sapi_cmds with
  | [] => throw Fault.undefined_behaviour
  | cmd :: _ => do
    let w := w.llist_del_head
    let end_ := w.lchan.sapi_cmds.isEmpty
    let w ← run_callback cmd w status
    if end_ ∨ w.lchan.sapi_cmds.isEmpty then
      pure w
    else
      sapi_queue_send w

/-- The facility-state update shared by `lchan_act_compl_cb` and
`lchan_deact_compl_cb`:
`if (ic->dir & GsmL1_Dir_TxDownlink) lchan->sapis_dl[ic->sapi] = status;`
`if (ic->dir & GsmL1_Dir_RxUplink) lchan->sapis_ul[ic->sapi] = status;`. -/
def set_sapi_state (w : World) (sapi : GsmL1_Sapi_t) (dir : GsmL1_Dir_t)
    (status : lchan_sapi_state) : World :=
  let w :=
    if dir &&& GsmL1_Dir_TxDownlink ≠ 0 then
      { w with lchan := { w.lchan with sapis_dl := Function.update w.lchan.sapis_dl sapi status } }
    else w
  if dir &&& GsmL1_Dir_RxUplink ≠ 0 then
    { w with lchan := { w.lchan with sapis_ul := Function.update w.lchan.sapis_ul sapi status } }
  else w

/-- The function `lchan_act_compl_cb`, for a confirmation whose `hLayer3`
resolves to the channel.  It reads `u.mphActivateCnf`; any other primitive is
a read of the wrong union member. -/
def lchan_act_compl_cb (w : World) (l1_msg : msgb) : M (World × Int) :=
  match l1_msg with
  | .mphActivateCnf ic_sapi ic_dir ic_status =>
    let status :=
      if ic_status = GsmL1_Status_Success then LCHAN_SAPI_S_ASSIGNED else LCHAN_SAPI_S_ERROR
    let w := set_sapi_state w ic_sapi ic_dir status
    match w.lchan.sapi_cmds with
    | [] => pure (w, 0)
    | cmd :: _ =>
      if cmd.sapi ≠ ic_sapi ∨ cmd.dir ≠ ic_dir ∨ cmd.type ≠ SAPI_CMD_ACTIVATE then
        pure (w, 0)
      else do
        let w ← sapi_queue_dispatch w ic_status
        pure (w, 0)
  | _ => throw Fault.undefined_behaviour

/-- The function `lchan_deact_compl_cb`, for a confirmation whose `hLayer3`
resolves to the channel. -/
def lchan_deact_compl_cb (w : World) (l1_msg : msgb) : M (World × Int) :=
  match l1_msg with
  | .mphDeactivateCnf ic_sapi ic_dir ic_status =>
    let status :=
      if ic_status = GsmL1_Status_Success then LCHAN_SAPI_S_NONE else LCHAN_SAPI_S_ERROR
    let w := set_sapi_state w ic_sapi ic_dir status
    match w.lchan.sapi_cmds with
    | [] => pure (w, 0)
    | cmd :: _ =>
      if cmd.sapi ≠ ic_sapi ∨ cmd.dir ≠ ic_dir ∨ cmd.type ≠ SAPI_CMD_DEACTIVATE then
        pure (w, 0)
      else do
        let w ← sapi_queue_dispatch w ic_status
        pure (w, 0)
  | _ => throw Fault.undefined_behaviour

/-- The function `chmod_modif_compl_cb`, for a confirmation whose `hLayer3`
resolves to the channel. -/
def chmod_modif_compl_cb (w : World) (l1_msg : msgb) : M (World × Int) :=
  match l1_msg with
  | .mphConfigCnf cfgParamId cc_status =>
    match cfgParamId with
    | GsmL1_ConfigParamId_SetLogChParams => do
      let w ← sapi_queue_dispatch w cc_status
      pure (w, 0)
    | GsmL1_ConfigParamId_SetCipheringParams =>
      let ciph_state :=
        match w.lchan.ciph_state with
        | LCHAN_CIPH_RX_REQ => LCHAN_CIPH_RX_CONF
        | LCHAN_CIPH_RX_CONF_TX_REQ => LCHAN_CIPH_RXTX_CONF
        | LCHAN_CIPH_RXTX_REQ => LCHAN_CIPH_RX_CONF_TX_REQ
        | s => s
      let w := { w with lchan := { w.lchan with ciph_state := ciph_state } }
      if w.lchan.sapi_cmds.isEmpty then
        pure (w, 0)
      else do
        let w ← sapi_queue_dispatch w cc_status
        pure (w, 0)
    | _ => pure (w, 0)
  | _ => throw Fault.undefined_behaviour

/-- The loop of `lchan_activate` over the table entries, first to last. -/
def lchan_activate_loop : List sapi_dir → World → M World
  | [], w => pure w
  | sd :: entries, w => do
    let w :=
      if sd.sapi = GsmL1_Sapi_Sch then
        { w with fl1h := { w.fl1h with alive_timer := true, alive_prim_cnt := 0 } }
      else w
    let w ← enqueue_sapi_act_cmd w sd.sapi sd.dir
    lchan_activate_loop entries w

/-- The function `lchan_activate`: sets the state, then runs the loop over the
table `sapis_for_lchan[lchan->type]`.  `lchan_init_lapdm` belongs to the common
code and touches none of the modelled fields. -/
def lchan_activate (w : World) (lchan_state : gsm_lchan_state) : M (World × Int) := do
  let w := lchan_set_state w lchan_state
  let w ← lchan_activate_loop (sapis_for_lchan w.lchan.type) w
  pure (w, 0)

/-- The function `enqueue_rel_marker`. -/
def enqueue_rel_marker (w : World) : M World := do
  let r ← queue_sapi_command sapi_queue_send w
    { sapi := GsmL1_Sapi_Idle, dir := 0, type := SAPI_CMD_REL_MARKER, callback := none }
  pure r.1

/-- The function `lchan_deactivate`. -/
def lchan_deactivate (w : World) : M (World × Int) := do
  let w := lchan_set_state w LCHAN_S_REL_REQ
  let w := { w with lchan := { w.lchan with ciph_state := LCHAN_CIPH_NONE } }
  let w ← enqueue_rel_marker w
  pure (w, 0)

/-- The function `enqueue_sacch_rel_marker`. -/
def enqueue_sacch_rel_marker (w : World) : M World := do
  let r ← queue_sapi_command sapi_queue_send w
    { sapi := GsmL1_Sapi_Idle, dir := 0, type := SAPI_CMD_SACCH_REL_MARKER, callback := none }
  pure r.1

/-- The function `lchan_deactivate_sacch`. -/
def lchan_deactivate_sacch (w : World) : M (World × Int) := do
  let w ← enqueue_sacch_rel_marker w
  pure (w, 0)

/-- The function `l1if_rsl_chan_act`. -/
def l1if_rsl_chan_act (w : World) : M (World × Int) := do
  let r ← lchan_activate w LCHAN_S_ACT_REQ
  pure (r.1, 0)

/-- The function `l1if_rsl_chan_rel`. -/
def l1if_rsl_chan_rel (w : World) : M (World × Int) :=
  if w.lchan.state = LCHAN_S_REL_REQ then
    pure (w, 0)
  else do
    let r ← lchan_deactivate w
    pure (r.1, 0)

/-- The function `l1if_rsl_deact_sacch`. -/
def l1if_rsl_deact_sacch (w : World) : M (World × Int) :=
  if w.lchan.state ≠ LCHAN_S_ACTIVE then
    pure (w, 0)
  else
    lchan_deactivate_sacch w

/-- The `PRIM_INFO_ACT_CIPH` branch of `bts_model_l1sap_down` (l1_if.c) for the
channel addressed by the request; `uplink` and `downlink` are the flags of
`ciph_req`. -/
def bts_model_l1sap_down_act_ciph (w : World) (uplink downlink : Bool) : M World := do
  let w ← (if uplink then do
      let r ← l1if_set_ciphering w 1
      pure { r.1 with lchan := { r.1.lchan with ciph_state := LCHAN_CIPH_RX_REQ } }
    else pure w)
  let w ← (if downlink then do
      let r ← l1if_set_ciphering w 0
      pure { r.1 with lchan := { r.1.lchan with ciph_state := LCHAN_CIPH_RX_CONF_TX_REQ } }
    else pure w)
  if downlink ∧ uplink then
    pure { w with lchan := { w.lchan with ciph_state := LCHAN_CIPH_RXTX_REQ } }
  else
    pure w

/-! ## l1_if.c: inbound primitives -/

/-- The call `wlc->cb(fl1h->priv, msg)` through the function pointer, for the
completion callbacks of oml.c; the callbacks of requests that are not the
channel's free the message and leave the channel alone. -/
def call_l1if_compl_cb : l1if_compl_cb → World → msgb → M (World × Int)
  | .lchan_act_compl_cb, w, msg => lchan_act_compl_cb w msg
  | .lchan_deact_compl_cb, w, msg => lchan_deact_compl_cb w msg
  | .chmod_modif_compl_cb, w, msg => chmod_modif_compl_cb w msg
  | .other_cb _, w, _ => pure (w, 0)

/-- The scan shared by `l1if_handle_l1prim` and `l1if_handle_sysprim`: the
first pending transaction accepted by `compat` is unlinked (`llist_del`), its
callback is called with the message (a NULL callback frees the message and
yields 0), then `release_wlc` cancels its timer; without a match the message
goes to `l1if_handle_ind`. -/
def l1if_handle_prim (compat : msgb → wait_l1_conf → Bool)
    (call_cb : l1if_compl_cb → World → msgb → M (World × Int))
    (l1if_handle_ind : World → msgb → M (World × Int)) (w : World) (msg : msgb) :
    M (World × Int) :=
  match w.fl1h.wlc_list.find? (compat msg) with
  | some wlc => do
    let w := { w with fl1h := { w.fl1h with wlc_list := w.fl1h.wlc_list.eraseP (compat msg) } }
    let r ← match wlc.cb with
      | some cb => call_cb cb w msg
      | none => pure (w, 0)
    pure ({ r.1 with fl1h := release_wlc wlc r.1.fl1h }, r.2)
  | none => l1if_handle_ind w msg

/-- The function `l1if_handle_l1prim` (the queue number `wq` is only logged).
`call_cb` runs a completion callback and `l1if_handle_ind` is the indication
handler. -/
def l1if_handle_l1prim (call_cb : l1if_compl_cb → World → msgb → M (World × Int))
    (l1if_handle_ind : World → msgb → M (World × Int)) (w : World) (msg : msgb) :
    M (World × Int) :=
  l1if_handle_prim is_prim_compat call_cb l1if_handle_ind w msg

/-- The function `l1if_handle_sysprim`. -/
def l1if_handle_sysprim (call_cb : l1if_compl_cb → World → msgb → M (World × Int))
    (l1if_handle_ind : World → msgb → M (World × Int)) (w : World) (msg : msgb) :
    M (World × Int) :=
  l1if_handle_prim is_sysprim_compat call_cb l1if_handle_ind w msg

/-! ## Vocabulary of the statements -/

/-- The two marker kinds: commands without a hardware transaction. -/
def is_marker (cmd : sapi_cmd) : Bool :=
  cmd.type = SAPI_CMD_SACCH_REL_MARKER || cmd.type = SAPI_CMD_REL_MARKER

/-- The request primitive that `sapi_queue_exeute` builds for a non-marker
command on a channel of type `type` with cipher algorithm `alg_id`. -/
def request_of (type : gsm_chan_t) (alg_id : Nat) (cmd : sapi_cmd) : msgb :=
  match cmd.type with
  | SAPI_CMD_ACTIVATE => .mphActivateReq cmd.sapi cmd.dir
  | SAPI_CMD_DEACTIVATE => .mphDeactivateReq cmd.sapi cmd.dir
  | SAPI_CMD_CONFIG_CIPHERING =>
    .mphConfigReq (.setCipheringParams cmd.dir (rsl2l1_ciph.getD alg_id GsmL1_CipherId_A50))
  | SAPI_CMD_CONFIG_LOGCH_PARAM =>
    .mphConfigReq (.setLogChParams
      (match type with
        | GSM_LCHAN_TCH_F => GsmL1_Sapi_TchF
        | GSM_LCHAN_TCH_H => GsmL1_Sapi_TchH
        | _ => GsmL1_Sapi_Idle) cmd.dir)
  | _ => .other 0

/-- The pending transaction registered together with the request of a
non-marker command. -/
def wlc_for (cmd : sapi_cmd) : wait_l1_conf :=
  match cmd.type with
  | SAPI_CMD_ACTIVATE =>
    { conf_prim_id := GsmL1_PrimId_MphActivateCnf, is_sys_prim := 0,
      cb := some .lchan_act_compl_cb }
  | SAPI_CMD_DEACTIVATE =>
    { conf_prim_id := GsmL1_PrimId_MphDeactivateCnf, is_sys_prim := 0,
      cb := some .lchan_deact_compl_cb }
  | _ =>
    { conf_prim_id := GsmL1_PrimId_MphConfigCnf, is_sys_prim := 0,
      cb := some .chmod_modif_compl_cb }

/-- The layer-1 handle after `_l1if_req_compl` accepted `msg` for the
transaction `wlc`. -/
def femtol1_hdl.submitted (fl1h : femtol1_hdl) (msg : msgb) (wlc : wait_l1_conf) : femtol1_hdl :=
  { fl1h with
      write_q_L1 := fl1h.write_q_L1 ++ [msg]
      wlc_list := wlc :: fl1h.wlc_list
      timers := { data := wlc, secs := 30, usecs := 0 } :: fl1h.timers }

/-- Whether executing the non-marker command submits a request: every kind
does, except `ConfigureCiphering` with an algorithm outside `rsl2l1_ciph`. -/
def submits (alg_id : Nat) (cmd : sapi_cmd) : Bool :=
  !(cmd.type = SAPI_CMD_CONFIG_CIPHERING && decide (alg_id ≥ rsl2l1_ciph.length))

/-- The world after `sapi_queue_exeute` handled a non-marker head `cmd`. -/
def World.executed (w : World) (cmd : sapi_cmd) : World :=
  if submits w.lchan.encr_alg_id cmd then
    { w with fl1h :=
        (femtol1_hdl.submitted w.fl1h (request_of w.lchan.type w.lchan.encr_alg_id cmd)
          (wlc_for cmd)) }
  else w

/-- Relation between the correlator state before (`w`) and after (`w'`) a run
of the queue code: nothing was submitted, or exactly one request was, namely
the request of the command now at the head of the queue. -/
def Grow (w w' : World) : Prop :=
  (w'.fl1h.write_q_L1 = w.fl1h.write_q_L1 ∧ w'.fl1h.wlc_list = w.fl1h.wlc_list) ∨
  (∃ cmd rest, w'.lchan.sapi_cmds = cmd :: rest ∧ is_marker cmd = false ∧
      w'.fl1h.write_q_L1 =
        w.fl1h.write_q_L1 ++ [request_of w.lchan.type w.lchan.encr_alg_id cmd] ∧
      w'.fl1h.wlc_list = wlc_for cmd :: w.fl1h.wlc_list)

/-- The commands of a queue that are not markers. -/
def non_markers (q : List sapi_cmd) : List sapi_cmd :=
  q.filter (fun c => !is_marker c)

/-- What the re-entrant call of `sapi_queue_send` made by a marker has to do:
it is only reached with a queue holding the single `Deactivate` command just
added, and submits its request. -/
def SendOK (send : World → M World) : Prop :=
  ∀ w cmd, w.lchan.sapi_cmds = [cmd] → cmd.type = SAPI_CMD_DEACTIVATE →
    send w = .ok (w.executed cmd)

/-- Invariant of the marker code (`check_sapi_release` calls) started in `w0`,
the state right after the marker was unlinked: `ds` are the `Deactivate`
commands appended so far and `res` the accumulated result. -/
def MarkerInv (w0 w : World) (res : Nat) : Prop :=
  w.lchan.type = w0.lchan.type ∧ w.lchan.encr_alg_id = w0.lchan.encr_alg_id ∧
  w.lchan.state = w0.lchan.state ∧ w.lchan.ciph_state = w0.lchan.ciph_state ∧
  w.l1sap_up = w0.l1sap_up ∧ w.fl1h.write_q_SYS = w0.fl1h.write_q_SYS ∧
  ∃ ds : List sapi_cmd, (∀ d ∈ ds, d.type = SAPI_CMD_DEACTIVATE) ∧
    w.lchan.sapi_cmds = w0.lchan.sapi_cmds ++ ds ∧
    w.trace = w0.trace ++ ds.map Event.llist_add_tail ∧
    ((res = 0 ∧ w.fl1h.write_q_L1 = w0.fl1h.write_q_L1 ∧
        w.fl1h.wlc_list = w0.fl1h.wlc_list ∧ (w0.lchan.sapi_cmds = [] → ds = [])) ∨
     (res = 1 ∧ w0.lchan.sapi_cmds = [] ∧ ∃ d ds', ds = d :: ds' ∧
        w.fl1h.write_q_L1 =
          w0.fl1h.write_q_L1 ++ [request_of w0.lchan.type w0.lchan.encr_alg_id d] ∧
        w.fl1h.wlc_list = wlc_for d :: w0.fl1h.wlc_list))

/-- What a run of `sapi_queue_send` from `w` to `w'` guarantees: the channel
type, cipher algorithm and ciphering state are kept, at most one request was
submitted (that of the new head), and the only commands added to the queue are
`Deactivate` commands `ds`, appended at its tail. -/
def SendPost (w w' : World) : Prop :=
  w'.lchan.type = w.lchan.type ∧ w'.lchan.encr_alg_id = w.lchan.encr_alg_id ∧
  w'.lchan.ciph_state = w.lchan.ciph_state ∧
  w'.fl1h.write_q_SYS = w.fl1h.write_q_SYS ∧
  Grow w w' ∧
  ∃ ds : List sapi_cmd, (∀ d ∈ ds, d.type = SAPI_CMD_DEACTIVATE) ∧
    w'.trace = w.trace ++ ds.map Event.llist_add_tail ∧
    non_markers w'.lchan.sapi_cmds = non_markers w.lchan.sapi_cmds ++ ds

/-- What one pass of the loop of `sapi_queue_send` guarantees: `SendPost`, a
result of 0 or 1, and a result of 0 only when a marker was consumed without
any submission. -/
def PassPost (w : World) (r : World × Nat) : Prop :=
  SendPost w r.1 ∧ (r.2 = 0 ∨ r.2 = 1) ∧
  (r.2 = 0 →
    r.1.fl1h.write_q_L1 = w.fl1h.write_q_L1 ∧ r.1.fl1h.wlc_list = w.fl1h.wlc_list ∧
    r.1.lchan.sapi_cmds.countP is_marker < w.lchan.sapi_cmds.countP is_marker ∧
    (w.lchan.sapi_cmds.length = 1 → r.1.lchan.sapi_cmds = []))

/-- The commands appended to the queue according to a trace, oldest first. -/
def appended (t : List Event) : List sapi_cmd :=
  t.filterMap (fun e => match e with
    | .llist_add_tail cmd => some cmd
    | .callback _ _ => none)

/-- The non-marker commands appended to the queue, in the order of their
`llist_add_tail`. -/
def enqueued (w : World) : List sapi_cmd :=
  non_markers (appended w.trace)

/-- The request of a command on the channel of `w`. -/
def World.request_of (w : World) (cmd : sapi_cmd) : msgb :=
  OsmoBts.request_of w.lchan.type w.lchan.encr_alg_id cmd

/-- Single flight, for a channel of which the hardware has answered the first
`answered` requests of the layer-1 write queue: every request but at most one
has been answered, the pending transactions are as many as the unanswered
requests, and an unanswered request is the request of the non-marker command at
the head of the queue, with its transaction the only one pending. -/
def SingleFlight (answered : Nat) (w : World) : Prop :=
  answered + w.fl1h.wlc_list.length = w.fl1h.write_q_L1.length ∧
  (w.fl1h.wlc_list = [] ∨
    ∃ cmd rest, w.lchan.sapi_cmds = cmd :: rest ∧ is_marker cmd = false ∧
      w.fl1h.write_q_L1[answered]? = some (w.request_of cmd) ∧
      w.fl1h.wlc_list = [wlc_for cmd])

/-- First in, first out: the answered requests followed by the requests of the
non-marker commands still in the queue are the requests of the non-marker
commands in the order in which they were appended to the queue. -/
def Fifo (answered : Nat) (w : World) : Prop :=
  w.fl1h.write_q_L1.take answered ++ (non_markers w.lchan.sapi_cmds).map w.request_of =
    (enqueued w).map w.request_of

/-- The confirmation with which the layer-1 firmware answers a request of the
channel code, carrying `status`: it echoes the facility and direction (or the
configuration parameter) of the request. -/
def confirmation_of (req : msgb) (status : Int) : msgb :=
  match req with
  | .mphActivateReq sapi dir => .mphActivateCnf sapi dir status
  | .mphDeactivateReq sapi dir => .mphDeactivateCnf sapi dir status
  | .mphConfigReq cfgParams => .mphConfigCnf cfgParams.cfgParamId status
  | m => m

/-- The `default` branch of `l1if_handle_ind`, taken by a primitive that is
not an indication: the message is freed and 0 returned. -/
def l1if_handle_ind_default (w : World) (_msg : msgb) : M (World × Int) :=
  pure (w, 0)

/-- What can happen to a channel: a request of the upper layer (activate,
release, SACCH release, cipher, mode change), a command put on the queue
directly, or the arrival of the confirmation of the oldest unanswered request,
with some status. -/
inductive Action
  | activate
  | release
  | sacch_release
  | cipher (uplink downlink : Bool)
  | mode_change
  | enqueue (cmd : sapi_cmd)
  | confirm (status : Int)
  deriving DecidableEq, Repr

/-- A channel together with the number of requests of its layer-1 write queue
that the hardware has answered. -/
structure System where
  w : World
  answered : Nat
  deriving DecidableEq

/-- One step of the channel.  A confirmation answers the oldest unanswered
request of the write queue and enters through `l1if_handle_l1prim`; without an
unanswered request nothing happens. -/
def System.step (s : System) : Action → M System
  | .activate => do
    let r ← l1if_rsl_chan_act s.w
    pure { s with w := r.1 }
  | .release => do
    let r ← l1if_rsl_chan_rel s.w
    pure { s with w := r.1 }
  | .sacch_release => do
    let r ← l1if_rsl_deact_sacch s.w
    pure { s with w := r.1 }
  | .cipher uplink downlink => do
    let w ← bts_model_l1sap_down_act_ciph s.w uplink downlink
    pure { s with w := w }
  | .mode_change => do
    let r ← l1if_rsl_mode_modify s.w
    pure { s with w := r.1 }
  | .enqueue cmd => do
    let r ← queue_sapi_command sapi_queue_send s.w cmd
    pure { s with w := r.1 }
  | .confirm status =>
    match s.w.fl1h.write_q_L1[s.answered]? with
    | none => pure s
    | some req => do
      let r ← l1if_handle_l1prim call_l1if_compl_cb l1if_handle_ind_default s.w
        (confirmation_of req status)
      pure { w := r.1, answered := s.answered + 1 }

/-- A sequence of steps. -/
def System.run : System → List Action → M System
  | s, [] => pure s
  | s, a :: as => do
    let s ← s.step a
    System.run s as

/-- Two worlds that agree on what the queue statements look at: channel type,
cipher algorithm, command queue, layer-1 write queue, pending transactions and
appended commands. -/
def Same (w w' : World) : Prop :=
  w'.lchan.type = w.lchan.type ∧ w'.lchan.encr_alg_id = w.lchan.encr_alg_id ∧
  w'.lchan.sapi_cmds = w.lchan.sapi_cmds ∧ w'.fl1h.write_q_L1 = w.fl1h.write_q_L1 ∧
  w'.fl1h.wlc_list = w.fl1h.wlc_list ∧ appended w'.trace = appended w.trace

/-- The commands appended to the queue so far stay appended, in the same
order: the appended commands of `w'` extend those of `w`. -/
def Grows (w w' : World) : Prop :=
  ∃ X : List sapi_cmd, appended w'.trace = appended w.trace ++ X

/-- The outcome `w'` of a piece of queue code started in `w` with `answered`
requests answered: the channel type and cipher algorithm are kept, single
flight holds, the queue order is kept when it held before, and the appended
commands are extended. -/
structure Kept (answered : Nat) (w w' : World) : Prop where
  type_eq : w'.lchan.type = w.lchan.type
  alg_eq : w'.lchan.encr_alg_id = w.lchan.encr_alg_id
  single : SingleFlight answered w'
  fifo : Fifo answered w → Fifo answered w'
  grows : Grows w w'

/-- The commands that a sequence of steps puts on the queue directly. -/
def Action.enqueued_cmds (actions : List Action) : List sapi_cmd :=
  actions.filterMap (fun act => match act with
    | .enqueue cmd => some cmd
    | _ => none)

/-- Every confirmation of a sequence of steps carries the success status. -/
def Action.all_success (actions : List Action) : Prop :=
  ∀ status, Action.confirm status ∈ actions → status = GsmL1_Status_Success

/-! ## Concrete channels used by the witnesses and counterexamples -/

/-- A layer-1 handle with empty queues, no pending transaction and no timer. -/
def fl1h_idle : femtol1_hdl :=
  { write_q_L1 := [], write_q_SYS := [], wlc_list := [], timers := [],
    alive_timer := false, alive_prim_cnt := 0 }

/-- A TCH/F channel in lifecycle state `state` with cipher algorithm `alg_id`,
every facility unassigned, an empty queue and empty logs. -/
def tchf_channel (state : gsm_lchan_state) (alg_id : Nat) : World :=
  { lchan :=
      { type := GSM_LCHAN_TCH_F, state := state, ciph_state := LCHAN_CIPH_NONE,
        encr_alg_id := alg_id, sapis_dl := fun _ => LCHAN_SAPI_S_NONE,
        sapis_ul := fun _ => LCHAN_SAPI_S_NONE, sapi_cmds := [] }
    fl1h := fl1h_idle
    l1sap_up := []
    trace := [] }

/-- The command built by `enqueue_sapi_act_cmd`. -/
def activate_cmd (sapi : GsmL1_Sapi_t) (dir : GsmL1_Dir_t) : sapi_cmd :=
  { sapi := sapi, dir := dir, type := SAPI_CMD_ACTIVATE, callback := some .sapi_activate_cb }

/-- The command built by `enqueue_sapi_deact_cmd`. -/
def deactivate_cmd (sapi : GsmL1_Sapi_t) (dir : GsmL1_Dir_t) : sapi_cmd :=
  { sapi := sapi, dir := dir, type := SAPI_CMD_DEACTIVATE, callback := some .sapi_deactivate_cb }

/-- The command built by `enqueue_sapi_ciphering_cmd`. -/
def ciphering_cmd (dir : GsmL1_Dir_t) : sapi_cmd :=
  { sapi := GsmL1_Sapi_Idle, dir := dir, type := SAPI_CMD_CONFIG_CIPHERING, callback := none }

/-- The command built by `enqueue_sacch_rel_marker`. -/
def sacch_rel_marker : sapi_cmd :=
  { sapi := GsmL1_Sapi_Idle, dir := 0, type := SAPI_CMD_SACCH_REL_MARKER, callback := none }

/-- The command built by `enqueue_rel_marker`. -/
def rel_marker : sapi_cmd :=
  { sapi := GsmL1_Sapi_Idle, dir := 0, type := SAPI_CMD_REL_MARKER, callback := none }

/-- An active TCH/F channel whose SACCH is assigned in the downlink direction,
with no request answered yet. -/
def marker_order_system : System :=
  { w :=
      { tchf_channel LCHAN_S_ACTIVE 0 with
        lchan :=
          { (tchf_channel LCHAN_S_ACTIVE 0).lchan with
            sapis_dl := fun s =>
              if s = GsmL1_Sapi_Sacch then LCHAN_SAPI_S_ASSIGNED else LCHAN_SAPI_S_NONE } }
    answered := 0 }

/-- An activation, a SACCH release marker and a second activation are put on
the queue in this order; then three success confirmations arrive. -/
def marker_order_actions : List Action :=
  [ .enqueue (activate_cmd GsmL1_Sapi_TchF GsmL1_Dir_TxDownlink),
    .enqueue sacch_rel_marker,
    .enqueue (activate_cmd GsmL1_Sapi_TchF GsmL1_Dir_RxUplink),
    .confirm GsmL1_Status_Success,
    .confirm GsmL1_Status_Success,
    .confirm GsmL1_Status_Success ]

/-- The invocations of command callbacks recorded in a trace, oldest first. -/
def callback_events (t : List Event) : List (sapi_cmd_callback × Int) :=
  t.filterMap (fun e => match e with
    | .callback cb status => some (cb, status)
    | .llist_add_tail _ => none)

/-- A TCH/F channel in state ActivationRequested with cipher algorithm `alg_id`
whose queue holds the last Activate command of its activation. -/
def last_activation (alg_id : Nat) : World :=
  { tchf_channel LCHAN_S_ACT_REQ alg_id with
    lchan :=
      { (tchf_channel LCHAN_S_ACT_REQ alg_id).lchan with
        sapi_cmds := [activate_cmd GsmL1_Sapi_Sacch GsmL1_Dir_RxUplink] } }

/-- A TCH/F channel whose release was requested while its activation was
still running: TCH/F downlink is assigned, the last Activate command (SACCH
uplink) is at the head of the queue and the release marker is behind it. -/
def release_during_activation : World :=
  { tchf_channel LCHAN_S_REL_REQ 0 with
    lchan :=
      { (tchf_channel LCHAN_S_REL_REQ 0).lchan with
        sapis_dl := fun s =>
          if s = GsmL1_Sapi_TchF then LCHAN_SAPI_S_ASSIGNED else LCHAN_SAPI_S_NONE
        sapi_cmds := [activate_cmd GsmL1_Sapi_Sacch GsmL1_Dir_RxUplink, rel_marker] } }

/-- A pending transaction matches an inbound primitive: it has the primitive's
domain (`sys = true` for the system domain, `false` for layer 1) and it expects
the primitive's kind. -/
def wlc_matches (sys : Bool) (msg : msgb) (wlc : wait_l1_conf) : Prop :=
  (if sys then wlc.is_sys_prim ≠ 0 else wlc.is_sys_prim = 0) ∧ wlc.conf_prim_id = msg.id

/-- The inbound handler of a domain: `l1if_handle_sysprim` for the system
domain, `l1if_handle_l1prim` for layer 1. -/
def l1if_handle (sys : Bool) (call_cb : l1if_compl_cb → World → msgb → M (World × Int))
    (l1if_handle_ind : World → msgb → M (World × Int)) (w : World) (msg : msgb) :
    M (World × Int) :=
  if sys then l1if_handle_sysprim call_cb l1if_handle_ind w msg
  else l1if_handle_l1prim call_cb l1if_handle_ind w msg

/-- A handle with three pending transactions: a layer-1 one expecting kind 9,
a system one expecting kind 12 and a layer-1 one expecting kind 12. -/
def three_pending : World :=
  { tchf_channel LCHAN_S_NONE 0 with
    fl1h :=
      { fl1h_idle with
        wlc_list :=
          [ ⟨9, 0, some (.other_cb 0)⟩, ⟨12, 1, some (.other_cb 1)⟩,
            ⟨12, 0, some (.other_cb 2)⟩ ]
        timers :=
          [ ⟨⟨9, 0, some (.other_cb 0)⟩, 30, 0⟩, ⟨⟨12, 1, some (.other_cb 1)⟩, 30, 0⟩,
            ⟨⟨12, 0, some (.other_cb 2)⟩, 30, 0⟩ ] } }

/-- One step of the fixed ciphering sequence as the specification words it:
UplinkKeyRequested to UplinkKeyConfirmed, BothRequested to
UplinkConfirmedDownlinkRequested, UplinkConfirmedDownlinkRequested to
BothConfirmed; None, UplinkKeyConfirmed and BothConfirmed stay. -/
def ciph_step_spec : lchan_ciph_state → lchan_ciph_state
  | LCHAN_CIPH_NONE => LCHAN_CIPH_NONE
  | LCHAN_CIPH_RX_REQ => LCHAN_CIPH_RX_CONF
  | LCHAN_CIPH_RX_CONF => LCHAN_CIPH_RX_CONF
  | LCHAN_CIPH_RXTX_REQ => LCHAN_CIPH_RX_CONF_TX_REQ
  | LCHAN_CIPH_RX_CONF_TX_REQ => LCHAN_CIPH_RXTX_CONF
  | LCHAN_CIPH_RXTX_CONF => LCHAN_CIPH_RXTX_CONF

/-- The direction chosen by `l1if_set_ciphering` for its argument
`dir_downlink`. -/
def ciphering_dir (dir_downlink : Int) : GsmL1_Dir_t :=
  if dir_downlink ≠ 0 then GsmL1_Dir_RxUplink else GsmL1_Dir_TxDownlink

/-- A channel in state ActivationRequested whose queue holds Activate(RACH,
uplink) at the head and Activate(SDCCH, downlink) behind it. -/
def two_activations : World :=
  { tchf_channel LCHAN_S_ACT_REQ 0 with
    lchan :=
      { (tchf_channel LCHAN_S_ACT_REQ 0).lchan with
        type := GSM_LCHAN_SDCCH
        sapi_cmds :=
          [activate_cmd GsmL1_Sapi_Rach GsmL1_Dir_RxUplink,
           activate_cmd GsmL1_Sapi_Sdcch GsmL1_Dir_TxDownlink] } }

/-- An Active TCH/F channel with TCH/F assigned in both directions whose
release was requested while its two ConfigureCiphering commands were queued:
the state is ReleaseRequested and the release marker is behind them. -/
def release_during_ciphering : World :=
  { tchf_channel LCHAN_S_REL_REQ 1 with
    lchan :=
      { (tchf_channel LCHAN_S_REL_REQ 1).lchan with
        sapis_dl := fun s =>
          if s = GsmL1_Sapi_TchF then LCHAN_SAPI_S_ASSIGNED else LCHAN_SAPI_S_NONE
        sapis_ul := fun s =>
          if s = GsmL1_Sapi_TchF then LCHAN_SAPI_S_ASSIGNED else LCHAN_SAPI_S_NONE
        sapi_cmds :=
          [ciphering_cmd GsmL1_Dir_RxUplink, ciphering_cmd GsmL1_Dir_TxDownlink, rel_marker] } }

/-- An Active TCH/F channel with an empty queue whose TCH/F, FACCH/F and SACCH
are Assigned in both directions, every other facility being unassigned. -/
def tchf_assigned : World :=
  { tchf_channel LCHAN_S_ACTIVE 0 with
    lchan :=
      { (tchf_channel LCHAN_S_ACTIVE 0).lchan with
        sapis_dl := fun s =>
          if s = GsmL1_Sapi_TchF ∨ s = GsmL1_Sapi_FacchF ∨ s = GsmL1_Sapi_Sacch then
            LCHAN_SAPI_S_ASSIGNED
          else LCHAN_SAPI_S_NONE
        sapis_ul := fun s =>
          if s = GsmL1_Sapi_TchF ∨ s = GsmL1_Sapi_FacchF ∨ s = GsmL1_Sapi_Sacch then
            LCHAN_SAPI_S_ASSIGNED
          else LCHAN_SAPI_S_NONE } }

/-- Whether the facility state of a table entry, in the direction of the
entry, is Assigned. -/
def entry_assigned (lchan : gsm_lchan) (sd : sapi_dir) : Bool :=
  if sd.dir = GsmL1_Dir_TxDownlink then
    decide (lchan.sapis_dl sd.sapi = LCHAN_SAPI_S_ASSIGNED)
  else
    decide (lchan.sapis_ul sd.sapi = LCHAN_SAPI_S_ASSIGNED)

/-- The entries of the channel type's table that are Assigned, in the reverse
of the table order. -/
def assigned_entries (lchan : gsm_lchan) : List sapi_dir :=
  (sapis_for_lchan lchan.type).reverse.filter (entry_assigned lchan)

/-- The order in which the specification expects the facilities of a TCH/F
channel to be released: the associated control channels (SACCH, then FACCH)
before the TCH. -/
def tchf_release_order : List sapi_dir :=
  [ ⟨GsmL1_Sapi_Sacch, GsmL1_Dir_RxUplink⟩, ⟨GsmL1_Sapi_Sacch, GsmL1_Dir_TxDownlink⟩,
    ⟨GsmL1_Sapi_FacchF, GsmL1_Dir_RxUplink⟩, ⟨GsmL1_Sapi_FacchF, GsmL1_Dir_TxDownlink⟩,
    ⟨GsmL1_Sapi_TchF, GsmL1_Dir_RxUplink⟩, ⟨GsmL1_Sapi_TchF, GsmL1_Dir_TxDownlink⟩ ]

/-! ## common/handover.c

The handover code works on fields of `struct gsm_lchan` that the queue code of
`oml.c` does not touch (and reads the lifecycle state), so it is embedded over a
record of its own.  What the code hands to other modules (`l1sap_chan_modify`,
`rsl_tx_hando_det`, `rsl_tx_conn_fail`, `lapdm_rslms_recvmsg`) is appended to an
output log, oldest first.  Logging calls are dropped and the allocation of a
message buffer is taken to succeed, as everywhere in the embedding. -/

/-- The anonymous enum of handover.h, the values of `lchan->ho.active`. -/
inductive handover_active
  | HANDOVER_NONE
  | HANDOVER_ENABLED
  | HANDOVER_WAIT_FRAME
  deriving DecidableEq, Repr

open handover_active

/-- Modelled from the spec: the member `ho` of `struct gsm_lchan`
(gsm_data_shared.h, not under src/) with the fields handover.c uses: the
handover indicator, the expected handover reference, the timer T3105 and the
transmit count of PHYSICAL INFORMATION.  `t3105 = none` is a timer that is not
scheduled, `some (secs, usecs)` one scheduled by `osmo_timer_schedule` with
that delay; its callback is always `ho_t3105_cb` and its data the channel. -/
structure gsm_lchan_ho where
  active : handover_active
  ref : Nat
  t3105 : Option (Nat × Nat)
  phys_info_count : Nat
  deriving DecidableEq, Repr

/-- Modelled from the spec: the fields of `struct gsm_lchan` (gsm_data_shared.h,
not under src/) that handover.c reads or writes: the lifecycle state, the
required timing advance and the member `ho`. -/
structure handover_lchan where
  state : gsm_lchan_state
  rqd_ta : Nat
  ho : gsm_lchan_ho
  deriving DecidableEq, Repr

/-- Modelled from the spec: the fields of `struct gsm_bts_role_bts` (gsm_data.h,
not under src/) that handover.c reads: the T3105 interval in milliseconds and
the maximum number `ny1` of PHYSICAL INFORMATION transmissions. -/
structure gsm_bts_role_bts where
  t3105_ms : Nat
  ny1 : Nat
  deriving DecidableEq, Repr

/-- Modelled from the spec: the RSL cause value of libosmocore's gsm_08_58.h
(outside the repository) reported when the handover access fails. -/
def RSL_ERR_HANDOVER_ACC_FAIL : Nat := 0x02

/-- What handover.c hands to other modules: the mode change requested from
layer 1 (`l1sap_chan_modify`), the HANDOVER DETECTION sent to the BSC
(`rsl_tx_hando_det`), a PHYSICAL INFORMATION message with its timing advance
given to LAPDm (`lapdm_rslms_recvmsg`), and the CONNECTION FAILURE sent to
the BSC (`rsl_tx_conn_fail`). -/
inductive handover_output
  | l1sap_chan_modify (chan_nr : Nat)
  | rsl_tx_hando_det (acc_delay : Nat)
  | phys_info (ta : Nat)
  | rsl_tx_conn_fail (cause : Nat)
  deriving DecidableEq, Repr

/-- One logical channel as handover.c sees it, the configuration of its BTS
and the output log. -/
structure HoWorld where
  lchan : handover_lchan
  btsb : gsm_bts_role_bts
  out : List handover_output
  deriving DecidableEq, Repr

/-- The function `ho_tx_phys_info`: builds the PHYSICAL INFORMATION message
with the timing advance `ta` and gives it to `lapdm_rslms_recvmsg`. -/
def ho_tx_phys_info (w : HoWorld) (ta : Nat) : HoWorld × Int :=
  ({ w with out := w.out ++ [handover_output.phys_info ta] }, 0)

/-- The function `ho_t3105_cb`, the callback of T3105. -/
def ho_t3105_cb (w : HoWorld) : HoWorld :=
  if w.lchan.state ≠ LCHAN_S_ACTIVE then
    w
  else if w.lchan.ho.phys_info_count ≥ w.btsb.ny1 then
    { w with out := w.out ++ [handover_output.rsl_tx_conn_fail RSL_ERR_HANDOVER_ACC_FAIL] }
  else
    let w := (ho_tx_phys_info w w.lchan.rqd_ta).1
    let w := { w with lchan := { w.lchan with ho := { w.lchan.ho with
      phys_info_count := w.lchan.ho.phys_info_count + 1 } } }
    { w with lchan := { w.lchan with ho := { w.lchan.ho with
      t3105 := some (0, w.btsb.t3105_ms * 1000) } } }

/-- The function `handover_rach`: a random access with value `ra` and access
delay `acc_delay` was received on the dedicated channel `chan_nr`. -/
def handover_rach (w : HoWorld) (chan_nr ra acc_delay : Nat) : HoWorld :=
  if w.lchan.ho.ref ≠ ra then
    w
  else
    let w := { w with lchan := { w.lchan with rqd_ta := acc_delay } }
    let w := { w with lchan := { w.lchan with ho := { w.lchan.ho with
      active := HANDOVER_WAIT_FRAME } } }
    let w := { w with out := w.out ++ [handover_output.l1sap_chan_modify chan_nr] }
    let w := { w with out := w.out ++ [handover_output.rsl_tx_hando_det acc_delay] }
    let w := { w with lchan := { w.lchan with ho := { w.lchan.ho with
      phys_info_count := 1 } } }
    let w := (ho_tx_phys_info w acc_delay).1
    { w with lchan := { w.lchan with ho := { w.lchan.ho with
      t3105 := some (0, w.btsb.t3105_ms * 1000) } } }

/-- The function `reset_handover`: `osmo_timer_del` on T3105, then the
handover indicator is cleared. -/
def reset_handover (w : HoWorld) : HoWorld :=
  let w := { w with lchan := { w.lchan with ho := { w.lchan.ho with t3105 := none } } }
  { w with lchan := { w.lchan with ho := { w.lchan.ho with active := HANDOVER_NONE } } }

/-- The function `handover_frame`: the first valid frame was received. -/
def handover_frame (w : HoWorld) : HoWorld :=
  reset_handover w

/-- Modelled from the spec: an expiry of T3105 as the timer loop of libosmocore
(outside the repository) performs it: a scheduled timer is taken off the
schedule and its callback `ho_t3105_cb` is called; a timer that is not
scheduled does not expire. -/
def t3105_expire (w : HoWorld) : HoWorld :=
  match w.lchan.ho.t3105 with
  | none => w
  | some _ =>
    ho_t3105_cb { w with lchan := { w.lchan with ho := { w.lchan.ho with t3105 := none } } }

/-- The state after `k` expiries of T3105 in a row, with no other event in
between (in particular no first valid frame). -/
def t3105_expiries : Nat → HoWorld → HoWorld
  | 0, w => w
  | k + 1, w => t3105_expire (t3105_expiries k w)

/-- The PHYSICAL INFORMATION messages of an output log. -/
def phys_infos (out : List handover_output) : List Nat :=
  out.filterMap (fun o => match o with
    | .phys_info ta => some ta
    | _ => none)

/-- The CONNECTION FAILURE indications of an output log. -/
def conn_fails (out : List handover_output) : List Nat :=
  out.filterMap (fun o => match o with
    | .rsl_tx_conn_fail cause => some cause
    | _ => none)

/-- A channel in lifecycle state `state` that expects the handover reference
`ref`, with T3105 not scheduled, nothing sent, a T3105 interval of 50 ms and at
most `ny1` transmissions. -/
def ho_channel (state : gsm_lchan_state) (ref ny1 : Nat) : HoWorld :=
  { lchan :=
      { state := state, rqd_ta := 0,
        ho := { active := HANDOVER_ENABLED, ref := ref, t3105 := none, phys_info_count := 0 } }
    btsb := { t3105_ms := 50, ny1 := ny1 }
    out := [] }

/-! ## oml.c: the correlation handle -/

/-- The function `l1if_lchan_to_hLayer`, on the numbers of the channel
(`lchan->nr`), of its timeslot (`lchan->ts->nr`) and of its transceiver
(`lchan->ts->trx->nr`); the result is a `uint32_t`. -/
def l1if_lchan_to_hLayer (lchan_nr ts_nr trx_nr : Nat) : Nat :=
  ((lchan_nr <<< 8) ||| (ts_nr <<< 16) ||| (trx_nr <<< 24)) % 2 ^ 32

/-- The function `l1if_hLayer_to_lchan`.  `n_ts` is `ARRAY_SIZE(trx->ts)` and
`n_lchan` is `ARRAY_SIZE(ts->lchan)` (gsm_data_shared.h, not under src/).  The
result `some (ts_nr, lchan_nr)` is the pointer `&trx->ts[ts_nr].lchan[lchan_nr]`
and `none` is NULL. -/
def l1if_hLayer_to_lchan (n_ts n_lchan : Nat) (hLayer2 : Nat) : Option (Nat × Nat) :=
  let ts_nr := ((hLayer2 >>> 16) &&& 0xff) % 2 ^ 8
  let lchan_nr := ((hLayer2 >>> 8) &&& 0xff) % 2 ^ 8
  if ts_nr ≥ n_ts then
    none
  else if lchan_nr ≥ n_lchan then
    none
  else
    some (ts_nr, lchan_nr)

/-! ## The deadline of a pending transaction (`l1if_req_timeout`) -/

/-- The process that runs the driver: it is running in some state of the
channel, or it has ended through a call of `exit` with a status code, which
does not return; the state in which `exit` was called is kept for reference. -/
inductive Proc
  | running (s : System)
  | exited (code : Nat) (s : System)
  deriving DecidableEq

/-- The function `l1if_req_timeout`, the callback of the deadline timer of a
pending transaction (`timer.data`): it logs the kind of the transaction and
calls `exit(23)`. -/
def l1if_req_timeout (s : System) (_data : wait_l1_conf) : Proc :=
  .exited 23 s

/-- What can happen to the process: a step of the channel (a request of the
upper layer, a command put on the queue, the arrival of a confirmation) or the
expiry of a deadline timer. -/
inductive ProcEvent
  | act (a : Action)
  | expire (t : osmo_timer_list)
  deriving DecidableEq, Repr

/-- One event of the process.  A deadline timer expires only while it is
scheduled (`release_wlc` deletes the timer of an answered transaction), and
then `l1if_req_timeout` runs; a process that has ended does nothing. -/
def Proc.step : Proc → ProcEvent → M Proc
  | .exited code s, _ => pure (.exited code s)
  | .running s, .act a => do
    let s ← s.step a
    pure (.running s)
  | .running s, .expire t =>
    if t ∈ s.w.fl1h.timers then
      pure (l1if_req_timeout s t.data)
    else
      pure (.running s)

/-- A sequence of events of the process. -/
def Proc.run : Proc → List ProcEvent → M Proc
  | p, [] => pure p
  | p, e :: es => do
    let p ← p.step e
    Proc.run p es

/-! ## The pending transactions of the correlator, by domain and kind -/

/-- The pair (domain, expected confirmation kind) of a pending transaction;
the domain is `true` for the system domain and `false` for layer 1. -/
def wait_l1_conf.pair (wlc : wait_l1_conf) : Bool × Nat :=
  (decide (wlc.is_sys_prim ≠ 0), wlc.conf_prim_id)

/-- The number of pending transactions of a pair. -/
def pending (fl1h : femtol1_hdl) (p : Bool × Nat) : Nat :=
  fl1h.wlc_list.countP (fun wlc => decide (wlc.pair = p))

/-- The pair of the transaction that `_l1if_req_compl` registers for a request
`msg` submitted with the flag `is_system_prim`. -/
def submit_pair (T : femtobts_tables) (msg : msgb) (is_system_prim : Int) : Bool × Nat :=
  if is_system_prim = 0 then (false, T.femtobts_l1prim_req2conf msg.id)
  else (true, T.femtobts_sysprim_req2conf msg.id)

/-- What happens at the correlator: a request is submitted
(`_l1if_req_compl`), or a primitive arrives in one of the two domains
(`l1if_handle_sysprim` for `sys = true`, `l1if_handle_l1prim` otherwise). -/
inductive CorrEvent
  | submit (msg : msgb) (is_system_prim : Int) (cb : Option l1if_compl_cb)
  | arrive (sys : Bool) (msg : msgb)
  deriving DecidableEq, Repr

/-- A completion callback that leaves the correlator alone.  The requests that
a callback of the channel code submits are submissions like any other and
appear as events of their own. -/
def inert_cb (_cb : l1if_compl_cb) (w : World) (_msg : msgb) : M (World × Int) :=
  pure (w, 0)

/-- One event at the correlator. -/
def corr_step (T : femtobts_tables) (w : World) : CorrEvent → M World
  | .submit msg is_system_prim cb =>
    pure { w with fl1h := (_l1if_req_compl T w.fl1h msg is_system_prim cb).1 }
  | .arrive sys msg => do
    let r ← l1if_handle sys inert_cb l1if_handle_ind_default w msg
    pure r.1

/-- A sequence of events at the correlator. -/
def corr_run (T : femtobts_tables) : World → List CorrEvent → M World
  | w, [] => pure w
  | w, e :: es => do
    let w ← corr_step T w e
    corr_run T w es

/-- The obligation that the comment in `is_prim_compat` leaves to the callers
("we cannot have multiple callers sending the same primitive"), along a
sequence of events: every request is submitted while no transaction of its
pair is pending. -/
def exclusive_callers (T : femtobts_tables) : World → List CorrEvent → Bool
  | _, [] => true
  | w, e :: es =>
    (match e with
      | .submit msg is_system_prim _ =>
        decide (pending w.fl1h (submit_pair T msg is_system_prim) = 0)
      | .arrive _ _ => true) &&
    (match corr_step T w e with
      | .ok w' => exclusive_callers T w' es
      | .error _ => true)

/-- What a run of the queue code from `w` to `w'` does to the lifecycle state:
it keeps it, or it sets Broken, which only the execution of a release marker of
the queue does; and it puts no release marker on the queue. -/
def SendState (w w' : World) : Prop :=
  (w'.lchan.state = w.lchan.state ∨
    (w'.lchan.state = LCHAN_S_BROKEN ∧
      ∃ c ∈ w.lchan.sapi_cmds, c.type = SAPI_CMD_REL_MARKER)) ∧
  ∀ c ∈ w'.lchan.sapi_cmds, c.type = SAPI_CMD_REL_MARKER → c ∈ w.lchan.sapi_cmds

/-- Between `w` and `w'` exactly one request was submitted, the request of the
non-marker command now at the head of the queue, and its transaction was
registered: that command is in flight. -/
def Started (w w' : World) : Prop :=
  ∃ cmd rest, w'.lchan.sapi_cmds = cmd :: rest ∧ is_marker cmd = false ∧
    w'.fl1h.write_q_L1 =
      w.fl1h.write_q_L1 ++ [request_of w.lchan.type w.lchan.encr_alg_id cmd] ∧
    w'.fl1h.wlc_list = wlc_for cmd :: w.fl1h.wlc_list

/-- Between `w` and `w'` no request was submitted and no transaction was
registered. -/
def Quiet (w w' : World) : Prop :=
  w'.fl1h.write_q_L1 = w.fl1h.write_q_L1 ∧ w'.fl1h.wlc_list = w.fl1h.wlc_list

/-- The activation of an idle channel followed by `n` success confirmations. -/
def activation_confirmed (n : Nat) : List Action :=
  Action.activate :: List.replicate n (Action.confirm GsmL1_Status_Success)

/-- An activation, a release and a second activation are requested before any
confirmation arrives; then `n` success confirmations arrive. -/
def reactivation_confirmed (n : Nat) : List Action :=
  [Action.activate, Action.release, Action.activate] ++
    List.replicate n (Action.confirm GsmL1_Status_Success)

/-- An Active TCH/F channel with the cipher algorithm identifier 5 (A5/4, a
value of the RSL encryption information that is outside the table
`rsl2l1_ciph`) whose queue holds the ConfigureCiphering command of the uplink
direction, as `l1if_set_ciphering` puts it there. -/
def ciphering_unsupported : World :=
  { tchf_channel LCHAN_S_ACTIVE 5 with
    lchan :=
      { (tchf_channel LCHAN_S_ACTIVE 5).lchan with
        sapi_cmds := [ciphering_cmd GsmL1_Dir_RxUplink] } }

/-- The activation of an idle TCH/F channel with cipher algorithm 1, the six
success confirmations of its Activate requests, and then a confirmation with
the status `status` for the first ConfigureCiphering request. -/
def activation_then_ciphering_status (status : Int) : List Action :=
  [.activate, .confirm 0, .confirm 0, .confirm 0, .confirm 0, .confirm 0, .confirm 0,
    .confirm status]

/-- The command built by `enqueue_sapi_logchpar_cmd`. -/
def logchpar_cmd (dir : GsmL1_Dir_t) : sapi_cmd :=
  { sapi := GsmL1_Sapi_Idle, dir := dir, type := SAPI_CMD_CONFIG_LOGCH_PARAM, callback := none }

/-! # Lemmas -/

/-! ## Basic facts -/

@[simp] theorem M_bind_ok {α β : Type} (x : α) (f : α → M β) :
    (Except.ok x >>= f) = f x := rfl

@[simp] theorem M_bind_error {α β : Type} (e : Fault) (f : α → M β) :
    ((Except.error e : M α) >>= f) = Except.error e := rfl

@[simp] theorem M_pure {α : Type} (x : α) : (pure x : M α) = Except.ok x := rfl

@[simp] theorem M_throw {α : Type} (e : Fault) : (throw e : M α) = Except.error e := rfl

theorem gsm_req_compl_activate (w : World) (cmd : sapi_cmd) :
    (mph_send_activate_req w cmd).1 =
      { w with fl1h :=
          (femtol1_hdl.submitted w.fl1h (.mphActivateReq cmd.sapi cmd.dir)
            ⟨GsmL1_PrimId_MphActivateCnf, 0, some .lchan_act_compl_cb⟩) } := by
  simp [mph_send_activate_req, World.gsm_req_compl, l1if_gsm_req_compl, _l1if_req_compl,
    femtobts, msgb.id, femtol1_hdl.submitted]

theorem sapi_queue_exeute_non_marker (send : World → M World) (w : World) (cmd : sapi_cmd)
    (rest : List sapi_cmd) (hq : w.lchan.sapi_cmds = cmd :: rest) (hm : is_marker cmd = false) :
    sapi_queue_exeute send w = .ok (w.executed cmd, 1) := by
  unfold sapi_queue_exeute
  rw [hq]
  cases ht : cmd.type <;>
    simp_all [is_marker, World.executed, submits, request_of, wlc_for, mph_send_activate_req,
      mph_send_deactivate_req, mph_send_config_logchpar, mph_send_config_ciphering,
      World.gsm_req_compl, l1if_gsm_req_compl, _l1if_req_compl, femtobts, msgb.id,
      femtol1_hdl.submitted, lchan_to_GsmL1_Sapi_t, GsmL1_PrimId_MphActivateReq,
      GsmL1_PrimId_MphDeactivateReq, GsmL1_PrimId_MphConfigReq]
  split
  · rename_i h
    rw [if_neg (by omega)]
  · rename_i h
    rw [if_pos (by omega)]

theorem sapi_queue_send_fuel_SendOK (n : Nat) : SendOK (sapi_queue_send_fuel (n + 1)) := by
  intro w cmd hq ht
  have hm : is_marker cmd = false := by simp [is_marker, ht]
  simp [sapi_queue_send_fuel, sapi_queue_exeute_non_marker _ w cmd [] hq hm]

theorem MarkerInv_refl (w : World) : MarkerInv w w 0 := by
  refine ⟨rfl, rfl, rfl, rfl, rfl, rfl, [], ?_, ?_, ?_, ?_⟩ <;> simp

theorem MarkerInv_sapis (w0 w : World) (res : Nat) (dl ul : GsmL1_Sapi_t → lchan_sapi_state)
    (h : MarkerInv w0 w res) :
    MarkerInv w0 { w with lchan := { w.lchan with sapis_dl := dl, sapis_ul := ul } } res := h

theorem MarkerInv_alive (w0 w : World) (res : Nat) (b : Bool) (h : MarkerInv w0 w res) :
    MarkerInv w0 { w with fl1h := { w.fl1h with alive_timer := b } } res := h

theorem enqueue_sapi_deact_cmd_inv (send : World → M World) (hs : SendOK send)
    (w0 w : World) (res : Nat) (sapi : GsmL1_Sapi_t) (dir : GsmL1_Dir_t)
    (hinv : MarkerInv w0 w res) :
    ∃ r, enqueue_sapi_deact_cmd send w sapi dir = .ok r ∧ MarkerInv w0 r.1 (res ||| r.2) := by
  obtain ⟨hty, halg, hst, hci, hup, hsys, ds, hds, hq, htr, hcase⟩ := hinv
  set d : sapi_cmd :=
    { sapi := sapi, dir := dir, type := SAPI_CMD_DEACTIVATE, callback := some .sapi_deactivate_cb }
    with hd
  have hdt : d.type = SAPI_CMD_DEACTIVATE := rfl
  unfold enqueue_sapi_deact_cmd queue_sapi_command
  by_cases hemp : w.lchan.sapi_cmds = []
  · -- the queue was empty: the command is sent at once
    have hw0 : w0.lchan.sapi_cmds = [] ∧ ds = [] := by
      rw [hemp] at hq
      exact List.append_eq_nil.mp hq.symm
    have hsend := hs (w.llist_add_tail d) d (by simp [World.llist_add_tail, hemp]) hdt
    rw [← hd]
    simp only [hemp, List.isEmpty_nil, Bool.not_true, Bool.false_eq_true, ↓reduceIte, hsend,
      M_bind_ok, M_pure]
    refine ⟨_, rfl, ?_⟩
    have hres : res = 0 := by
      rcases hcase with ⟨h, _⟩ | ⟨_, _, d', ds', h, _⟩
      · exact h
      · rw [hw0.2] at h; cases h
    have hwq : w.fl1h.write_q_L1 = w0.fl1h.write_q_L1 ∧ w.fl1h.wlc_list = w0.fl1h.wlc_list := by
      rcases hcase with ⟨_, h1, h2, _⟩ | ⟨_, _, d', ds', h, _⟩
      · exact ⟨h1, h2⟩
      · rw [hw0.2] at h; cases h
    subst hres
    refine ⟨hty, halg, hst, hci, hup, ?_, [d], ?_, ?_, ?_, ?_⟩
    · simp [World.executed, submits, World.llist_add_tail, femtol1_hdl.submitted, hsys, hdt]
    · simp [hdt]
    · simp [World.executed, submits, World.llist_add_tail, hemp, hw0.1, hdt]
    · simp [World.executed, submits, World.llist_add_tail, htr, hw0.2, hdt]
    · right
      refine ⟨by simp, hw0.1, d, [], rfl, ?_, ?_⟩
      · simp [World.executed, submits, World.llist_add_tail, femtol1_hdl.submitted, hwq.1, hty,
          halg, hdt]
      · simp [World.executed, submits, World.llist_add_tail, femtol1_hdl.submitted, hwq.2, hdt]
  · -- the queue was not empty: the command is appended
    rw [← hd]
    have : w.lchan.sapi_cmds.isEmpty = false := by
      cases hq' : w.lchan.sapi_cmds with
      | nil => exact absurd hq' hemp
      | cons _ _ => rfl
    simp only [this, Bool.not_false, ↓reduceIte, M_pure]
    refine ⟨_, rfl, ?_⟩
    simp only [Nat.or_zero]
    refine ⟨hty, halg, hst, hci, hup, hsys, ds ++ [d], ?_, ?_, ?_, ?_⟩
    · intro x hx
      rcases List.mem_append.mp hx with h | h
      · exact hds x h
      · simp at h; subst h; exact hdt
    · simp [World.llist_add_tail, hq]
    · simp [World.llist_add_tail, htr]
    · rcases hcase with ⟨h0, h1, h2, h3⟩ | ⟨h1, h0, d', ds', h, h4, h5⟩
      · left
        refine ⟨h0, h1, h2, ?_⟩
        intro hw0
        exfalso
        apply hemp
        rw [hq, hw0, h3 hw0]
        rfl
      · right
        exact ⟨h1, h0, d', ds' ++ [d], by simp [h], h4, h5⟩

theorem check_sapi_release_inv (send : World → M World) (hs : SendOK send)
    (w0 w : World) (res : Nat) (sapi : GsmL1_Sapi_t) (dir : GsmL1_Dir_t)
    (hinv : MarkerInv w0 w res) :
    ∃ r, check_sapi_release send w sapi dir = .ok r ∧ MarkerInv w0 r.1 (res ||| r.2) := by
  unfold check_sapi_release
  split
  · split
    · exact ⟨_, rfl, by simpa using hinv⟩
    · exact enqueue_sapi_deact_cmd_inv send hs w0 _ res sapi dir hinv
  · split
    · split
      · exact ⟨_, rfl, by simpa using hinv⟩
      · exact enqueue_sapi_deact_cmd_inv send hs w0 _ res sapi dir hinv
    · exact enqueue_sapi_deact_cmd_inv send hs w0 _ res sapi dir hinv

theorem lchan_deactivate_sapis_loop_inv (send : World → M World) (hs : SendOK send)
    (w0 : World) (entries : List sapi_dir) :
    ∀ (w : World) (res : Nat), MarkerInv w0 w res →
      ∃ r, lchan_deactivate_sapis_loop send entries w res = .ok r ∧ MarkerInv w0 r.1 r.2 := by
  induction entries with
  | nil => intro w res h; exact ⟨_, rfl, h⟩
  | cons sd entries ih =>
    intro w res h
    unfold lchan_deactivate_sapis_loop
    have h' : MarkerInv w0
        (if sd.sapi = GsmL1_Sapi_Sch then
          { w with fl1h := { w.fl1h with alive_timer := false } } else w) res := by
      split
      · exact h
      · exact h
    obtain ⟨r, hr, hinv⟩ := check_sapi_release_inv send hs w0 _ res sd.sapi sd.dir h'
    simp only [hr, M_bind_ok]
    exact ih r.1 (res ||| r.2) hinv

theorem is_marker_of_deactivate (d : sapi_cmd) (h : d.type = SAPI_CMD_DEACTIVATE) :
    is_marker d = false := by
  simp [is_marker, h]

theorem non_markers_deacts (ds : List sapi_cmd) (h : ∀ d ∈ ds, d.type = SAPI_CMD_DEACTIVATE) :
    non_markers ds = ds := by
  unfold non_markers
  rw [List.filter_eq_self]
  intro d hd
  simp [is_marker_of_deactivate d (h d hd)]

theorem countP_marker_deacts (ds : List sapi_cmd) (h : ∀ d ∈ ds, d.type = SAPI_CMD_DEACTIVATE) :
    ds.countP is_marker = 0 := by
  rw [List.countP_eq_zero]
  intro d hd
  simp [is_marker_of_deactivate d (h d hd)]

theorem non_markers_append (q1 q2 : List sapi_cmd) :
    non_markers (q1 ++ q2) = non_markers q1 ++ non_markers q2 := by
  simp [non_markers]

theorem World_executed_post (w : World) (cmd : sapi_cmd) (rest : List sapi_cmd)
    (hq : w.lchan.sapi_cmds = cmd :: rest) (hm : is_marker cmd = false) :
    PassPost w (w.executed cmd, 1) := by
  have hl : (w.executed cmd).lchan = w.lchan := by
    unfold World.executed; split <;> rfl
  have ht : (w.executed cmd).trace = w.trace := by
    unfold World.executed; split <;> rfl
  have hsys : (w.executed cmd).fl1h.write_q_SYS = w.fl1h.write_q_SYS := by
    unfold World.executed; split <;> rfl
  refine ⟨⟨by rw [hl], by rw [hl], by rw [hl], hsys, ?_, [], by simp, by simp [ht], by simp [hl]⟩,
    Or.inr rfl, by simp⟩
  unfold Grow
  by_cases hs : submits w.lchan.encr_alg_id cmd = true
  · right
    refine ⟨cmd, rest, by rw [hl, hq], hm, ?_, ?_⟩ <;>
      simp [World.executed, hs, femtol1_hdl.submitted]
  · left
    simp [World.executed, hs]

theorem MarkerInv_pass_post (w w' : World) (res : Nat) (cmd : sapi_cmd) (rest : List sapi_cmd)
    (hq : w.lchan.sapi_cmds = cmd :: rest) (hm : is_marker cmd = true)
    (h : MarkerInv w.llist_del_head w' res) : PassPost w (w', res) := by
  obtain ⟨hty, halg, hst, hci, hup, hsys, ds, hds, hq', htr, hcase⟩ := h
  have hdel : w.llist_del_head.lchan.sapi_cmds = rest := by simp [World.llist_del_head, hq]
  rw [hdel] at hq' hcase
  have hnm : non_markers w'.lchan.sapi_cmds = non_markers w.lchan.sapi_cmds ++ ds := by
    rw [hq', hq, non_markers_append, non_markers_deacts ds hds]
    simp [non_markers, hm]
  refine ⟨⟨hty, halg, hci, hsys, ?_, ds, hds, htr, hnm⟩, ?_, ?_⟩
  · rcases hcase with ⟨_, h1, h2, _⟩ | ⟨_, h0, d, ds', hd, h4, h5⟩
    · exact Or.inl ⟨h1, h2⟩
    · right
      refine ⟨d, ds', by rw [hq', h0, hd]; rfl, ?_, h4, h5⟩
      exact is_marker_of_deactivate d (hds d (by simp [hd]))
  · rcases hcase with ⟨h, _⟩ | ⟨h, _⟩
    · exact Or.inl h
    · exact Or.inr h
  · intro hres
    rcases hcase with ⟨_, h1, h2, h3⟩ | ⟨h, _⟩
    · 
      refine ⟨h1, h2, ?_, ?_⟩
      · rw [hq', hq, List.countP_append, countP_marker_deacts ds hds, List.countP_cons]
        simp [hm]
      · intro hlen
        have hrest : rest = [] := by
          rw [hq] at hlen
          simpa using hlen
        rw [hq', hrest, h3 hrest]
        rfl
    · omega

theorem sapi_queue_exeute_post (send : World → M World) (hs : SendOK send) (w : World)
    (hq : w.lchan.sapi_cmds ≠ []) :
    ∃ r, sapi_queue_exeute send w = .ok r ∧ PassPost w r := by
  obtain ⟨cmd, rest, hq'⟩ := List.exists_cons_of_ne_nil hq
  by_cases hm : is_marker cmd = true
  · have hinv0 := MarkerInv_refl w.llist_del_head
    unfold sapi_queue_exeute
    rw [hq']
    simp only [is_marker, Bool.or_eq_true, decide_eq_true_eq] at hm
    rcases hm with hm | hm
    · simp only [hm]
      obtain ⟨r1, hr1, hi1⟩ := check_sapi_release_inv send hs _ _ 0 GsmL1_Sapi_Sacch
        GsmL1_Dir_TxDownlink hinv0
      obtain ⟨r2, hr2, hi2⟩ := check_sapi_release_inv send hs _ _ _ GsmL1_Sapi_Sacch
        GsmL1_Dir_RxUplink hi1
      simp only [hr1, hr2, M_bind_ok, M_pure]
      refine ⟨_, rfl, ?_⟩
      rw [Nat.zero_or] at hi2
      exact MarkerInv_pass_post w _ _ cmd rest hq' (by simp [is_marker, hm]) hi2
    · simp only [hm]
      unfold lchan_deactivate_sapis
      obtain ⟨r, hr, hi⟩ := lchan_deactivate_sapis_loop_inv send hs _
        (sapis_for_lchan w.llist_del_head.lchan.type).reverse _ 0 hinv0
      simp only [hr, M_bind_ok]
      have hp := MarkerInv_pass_post w r.1 r.2 cmd rest hq' (by simp [is_marker, hm]) hi
      split
      · refine ⟨_, rfl, ?_⟩
        exact hp
      · exact ⟨_, rfl, hp⟩
  · have hm' : is_marker cmd = false := by simpa using hm
    exact ⟨_, sapi_queue_exeute_non_marker send w cmd rest hq' hm',
      World_executed_post w cmd rest hq' hm'⟩

theorem SendPost_trans_unchanged (w w1 w2 : World) (h1 : SendPost w w1)
    (hq : w1.fl1h.write_q_L1 = w.fl1h.write_q_L1) (hl : w1.fl1h.wlc_list = w.fl1h.wlc_list)
    (h2 : SendPost w1 w2) : SendPost w w2 := by
  obtain ⟨ht1, ha1, hc1, hs1, _, ds1, hd1, htr1, hn1⟩ := h1
  obtain ⟨ht2, ha2, hc2, hs2, hg2, ds2, hd2, htr2, hn2⟩ := h2
  refine ⟨ht2.trans ht1, ha2.trans ha1, hc2.trans hc1, hs2.trans hs1, ?_, ds1 ++ ds2, ?_, ?_, ?_⟩
  · rcases hg2 with ⟨a, b⟩ | ⟨cmd, rest, a, b, c, d⟩
    · exact Or.inl ⟨a.trans hq, b.trans hl⟩
    · exact Or.inr ⟨cmd, rest, a, b, by rw [c, hq, ht1, ha1], by rw [d, hl]⟩
  · intro d hd
    rcases List.mem_append.mp hd with h | h
    · exact hd1 d h
    · exact hd2 d h
  · simp [htr2, htr1]
  · simp [hn2, hn1]

theorem sapi_queue_send_fuel_post :
    ∀ (n : Nat) (w : World), w.lchan.sapi_cmds ≠ [] →
      w.lchan.sapi_cmds.countP is_marker < n →
      ∃ w', sapi_queue_send_fuel n w = .ok w' ∧ SendPost w w' := by
  intro n
  induction n with
  | zero => intro w _ h; omega
  | succ n ih =>
    intro w hq hc
    obtain ⟨cmd, rest, hq'⟩ := List.exists_cons_of_ne_nil hq
    unfold sapi_queue_send_fuel
    by_cases hm : is_marker cmd = true
    · -- a marker: the budget left for the re-entrant call is positive
      have hn : 0 < n := by
        rw [hq', List.countP_cons] at hc
        simp [hm] at hc
        omega
      obtain ⟨m, rfl⟩ : ∃ m, n = m + 1 := ⟨n - 1, by omega⟩
      obtain ⟨r, hr, hp⟩ := sapi_queue_exeute_post _ (sapi_queue_send_fuel_SendOK m) w hq
      simp only [hr, M_bind_ok]
      obtain ⟨hsp, hres, hzero⟩ := hp
      split
      · rename_i hcont
        obtain ⟨h1, h2, h3⟩ := hzero hcont.1
        have hne : r.1.lchan.sapi_cmds ≠ [] := by
          intro h
          apply hcont.2
          simp [h]
        obtain ⟨w', hw', hp'⟩ := ih r.1 hne (by omega)
        exact ⟨w', hw', SendPost_trans_unchanged w r.1 w' hsp h1 h2 hp'⟩
      · exact ⟨_, rfl, hsp⟩
    · have hm' : is_marker cmd = false := by simpa using hm
      rw [sapi_queue_exeute_non_marker _ w cmd rest hq' hm']
      simp only [M_bind_ok]
      refine ⟨_, ?_, (World_executed_post w cmd rest hq' hm').1⟩
      simp

theorem countP_is_marker_lt (w : World) :
    w.lchan.sapi_cmds.countP is_marker < w.lchan.sapi_cmds.length + 1 :=
  Nat.lt_succ_of_le (List.countP_le_length _)

theorem sapi_queue_send_post (w : World) (hq : w.lchan.sapi_cmds ≠ []) :
    ∃ w', sapi_queue_send w = .ok w' ∧ SendPost w w' :=
  sapi_queue_send_fuel_post _ w hq (countP_is_marker_lt w)

/-- A non-marker head is executed in a single pass. -/
theorem sapi_queue_send_non_marker (w : World) (cmd : sapi_cmd) (rest : List sapi_cmd)
    (hq : w.lchan.sapi_cmds = cmd :: rest) (hm : is_marker cmd = false) :
    sapi_queue_send w = .ok (w.executed cmd) := by
  unfold sapi_queue_send sapi_queue_send_fuel
  rw [sapi_queue_exeute_non_marker _ w cmd rest hq hm]
  simp

theorem appended_append (t1 t2 : List Event) : appended (t1 ++ t2) = appended t1 ++ appended t2 := by
  simp [appended]

theorem appended_map_add (ds : List sapi_cmd) : appended (ds.map Event.llist_add_tail) = ds := by
  induction ds with
  | nil => rfl
  | cons d ds ih =>
    simp only [List.map_cons, appended, List.filterMap_cons] at ih ⊢
    rw [ih]

/-- A run of `sapi_queue_send` started without a pending transaction keeps
single flight and the queue order. -/
theorem SendPost_single_flight (a : Nat) (w w' : World) (h : SendPost w w')
    (hidle : w.fl1h.wlc_list = []) (hlen : a = w.fl1h.write_q_L1.length) :
    SingleFlight a w' ∧ (Fifo a w → Fifo a w') := by
  obtain ⟨hty, halg, hci, hsys, hg, ds, hds, htr, hnm⟩ := h
  have hreq : w'.request_of = w.request_of := by
    funext c; simp [World.request_of, hty, halg]
  refine ⟨?_, ?_⟩
  · rcases hg with ⟨h1, h2⟩ | ⟨cmd, rest, h1, h2, h3, h4⟩
    · exact ⟨by rw [h1, h2, hidle]; simpa using hlen, Or.inl (by rw [h2, hidle])⟩
    · refine ⟨by rw [h3, h4, hidle]; simp [hlen], Or.inr ⟨cmd, rest, h1, h2, ?_, by rw [h4, hidle]⟩⟩
      rw [h3, hreq, hlen]
      simp [World.request_of]
  · intro hf
    unfold Fifo at hf ⊢
    have htake : w'.fl1h.write_q_L1.take a = w.fl1h.write_q_L1.take a := by
      rcases hg with ⟨h1, _⟩ | ⟨cmd, rest, _, _, h3, _⟩
      · rw [h1]
      · rw [h3, List.take_append_of_le_length (by omega)]
    have henq : enqueued w' = enqueued w ++ ds := by
      unfold enqueued
      rw [htr, appended_append, appended_map_add, non_markers_append, non_markers_deacts ds hds]
    rw [htake, hnm, henq, hreq, List.map_append, List.map_append, ← List.append_assoc, hf]

theorem Grows_refl (w : World) : Grows w w := ⟨[], by simp⟩

theorem Grows_trans {w w1 w2 : World} (h1 : Grows w w1) (h2 : Grows w1 w2) : Grows w w2 := by
  obtain ⟨X, hX⟩ := h1
  obtain ⟨Y, hY⟩ := h2
  exact ⟨X ++ Y, by rw [hY, hX, List.append_assoc]⟩

theorem Grows_of_eq {w w' : World} (h : appended w'.trace = appended w.trace) : Grows w w' :=
  ⟨[], by simp [h]⟩

theorem SendPost_grows {w w' : World} (h : SendPost w w') : Grows w w' := by
  obtain ⟨_, _, _, _, _, ds, _, htr, _⟩ := h
  exact ⟨ds, by rw [htr, appended_append, appended_map_add]⟩

theorem Same_refl (w : World) : Same w w := ⟨rfl, rfl, rfl, rfl, rfl, rfl⟩

theorem Same_request_of (w w' : World) (h : Same w w') : w'.request_of = w.request_of := by
  funext c; simp [World.request_of, h.1, h.2.1]

theorem Same_single_flight (a : Nat) (w w' : World) (h : Same w w') (hs : SingleFlight a w) :
    SingleFlight a w' := by
  obtain ⟨h1, h2, h3, h4, h5, h6⟩ := h
  unfold SingleFlight at hs ⊢
  rw [h3, h4, h5, Same_request_of w w' ⟨h1, h2, h3, h4, h5, h6⟩]
  exact hs

theorem Same_fifo (a : Nat) (w w' : World) (h : Same w w') (hf : Fifo a w) : Fifo a w' := by
  have hr := Same_request_of w w' h
  obtain ⟨h1, h2, h3, h4, h5, h6⟩ := h
  unfold Fifo enqueued at hf ⊢
  rw [h3, h4, h6, hr]
  exact hf

theorem Same_kept (a : Nat) (w w' : World) (h : Same w w') (hs : SingleFlight a w) :
    Kept a w w' :=
  ⟨h.1, h.2.1, Same_single_flight a w w' h hs, Same_fifo a w w' h, Grows_of_eq h.2.2.2.2.2⟩

theorem Kept_trans (a : Nat) (w w1 w2 : World) (h1 : Kept a w w1) (h2 : Kept a w1 w2) :
    Kept a w w2 :=
  ⟨h2.type_eq.trans h1.type_eq, h2.alg_eq.trans h1.alg_eq, h2.single,
    fun hf => h2.fifo (h1.fifo hf), Grows_trans h1.grows h2.grows⟩

theorem Kept_refl (a : Nat) (w : World) (hs : SingleFlight a w) : Kept a w w :=
  ⟨rfl, rfl, hs, id, Grows_refl w⟩

theorem Kept_of_same_right (a : Nat) (w w1 w2 : World) (h : Kept a w w1) (hs : Same w1 w2) :
    Kept a w w2 :=
  Kept_trans a w w1 w2 h (Same_kept a w1 w2 hs h.single)

/-- Appending a command keeps single flight and the queue order. -/
theorem llist_add_tail_kept (a : Nat) (w : World) (cmd : sapi_cmd) (hs : SingleFlight a w) :
    Kept a w (w.llist_add_tail cmd) := by
  refine ⟨rfl, rfl, ?_, ?_, ⟨[cmd], by simp [World.llist_add_tail, appended]⟩⟩
  · obtain ⟨h1, h2⟩ := hs
    refine ⟨h1, ?_⟩
    rcases h2 with h | ⟨c, rest, hq, hm, hg, hl⟩
    · exact Or.inl h
    · exact Or.inr ⟨c, rest ++ [cmd], by simp [World.llist_add_tail, hq], hm, hg, hl⟩
  · intro hf
    unfold Fifo enqueued at hf ⊢
    have hr : (w.llist_add_tail cmd).request_of = w.request_of := rfl
    rw [hr]
    simp only [World.llist_add_tail, appended_append, non_markers_append, List.map_append,
      ← List.append_assoc, hf]
    rfl

theorem SingleFlight_idle_of_empty (a : Nat) (w : World) (hs : SingleFlight a w)
    (hq : w.lchan.sapi_cmds = []) :
    w.fl1h.wlc_list = [] ∧ a = w.fl1h.write_q_L1.length := by
  obtain ⟨h1, h2⟩ := hs
  rcases h2 with h | ⟨c, rest, hq', _⟩
  · rw [h] at h1
    exact ⟨h, by simpa using h1⟩
  · rw [hq] at hq'; cases hq'

theorem queue_sapi_command_kept (a : Nat) (w : World) (cmd : sapi_cmd)
    (hs : SingleFlight a w) :
    ∃ r, queue_sapi_command sapi_queue_send w cmd = .ok r ∧ Kept a w r.1 ∧
      (w.lchan.sapi_cmds ≠ [] → r = (w.llist_add_tail cmd, 0)) ∧
      (∃ X, appended r.1.trace = appended w.trace ++ cmd :: X) := by
  unfold queue_sapi_command
  have happ : appended (w.llist_add_tail cmd).trace = appended w.trace ++ [cmd] := by
    simp [World.llist_add_tail, appended]
  by_cases hq : w.lchan.sapi_cmds = []
  · obtain ⟨hidle, hlen⟩ := SingleFlight_idle_of_empty a w hs hq
    have hne : (w.llist_add_tail cmd).lchan.sapi_cmds ≠ [] := by
      simp [World.llist_add_tail]
    obtain ⟨w', hw', hp⟩ := sapi_queue_send_post (w.llist_add_tail cmd) hne
    simp only [hq, List.isEmpty_nil, Bool.not_true, Bool.false_eq_true, ↓reduceIte, hw',
      M_bind_ok, M_pure]
    refine ⟨_, rfl, ?_, fun h => absurd rfl h, ?_⟩
    · have hk := llist_add_tail_kept a w cmd hs
      have hsf := SendPost_single_flight a (w.llist_add_tail cmd) w' hp hidle hlen
      exact Kept_trans a w _ w' hk ⟨hp.1, hp.2.1, hsf.1, hsf.2, (SendPost_grows hp)⟩
    · obtain ⟨X, hX⟩ := (SendPost_grows hp)
      exact ⟨X, by rw [hX, happ]; simp⟩
  · have : w.lchan.sapi_cmds.isEmpty = false := by
      cases hq' : w.lchan.sapi_cmds with
      | nil => exact absurd hq' hq
      | cons _ _ => rfl
    simp only [this, Bool.not_false, ↓reduceIte, M_pure]
    exact ⟨_, rfl, llist_add_tail_kept a w cmd hs, fun _ => rfl, [], happ⟩

theorem Same_callback_event (w : World) (cb : sapi_cmd_callback) (status : Int) :
    Same w { w with trace := w.trace ++ [Event.callback cb status] } :=
  ⟨rfl, rfl, rfl, rfl, rfl, by simp [appended]⟩

theorem enqueue_sapi_ciphering_cmd_kept (a : Nat) (w : World) (dir : GsmL1_Dir_t)
    (hs : SingleFlight a w) :
    ∃ w', enqueue_sapi_ciphering_cmd w dir = .ok w' ∧ Kept a w w' := by
  unfold enqueue_sapi_ciphering_cmd
  obtain ⟨r, hr, hk, _⟩ := queue_sapi_command_kept a w
    { sapi := GsmL1_Sapi_Idle, dir := dir, type := SAPI_CMD_CONFIG_CIPHERING, callback := none } hs
  exact ⟨r.1, by simp [hr], hk⟩

theorem l1if_set_ciphering_kept (a : Nat) (w : World) (dir_downlink : Int)
    (hs : SingleFlight a w) :
    ∃ r, l1if_set_ciphering w dir_downlink = .ok r ∧ Kept a w r.1 := by
  unfold l1if_set_ciphering
  split
  · exact ⟨_, rfl, Kept_refl a w hs⟩
  · obtain ⟨w', hw', hk⟩ := enqueue_sapi_ciphering_cmd_kept a w
      (if dir_downlink ≠ 0 then GsmL1_Dir_RxUplink else GsmL1_Dir_TxDownlink) hs
    exact ⟨(w', 0), by simp only [hw', M_bind_ok, M_pure], hk⟩

/-- What a command callback guarantees when it runs without a pending
transaction. -/
theorem call_sapi_cmd_callback_kept (a : Nat) (cb : sapi_cmd_callback) (w : World)
    (status : Int) (hs : SingleFlight a w) (hidle : w.fl1h.wlc_list = []) :
    ∃ r, call_sapi_cmd_callback cb w status = .ok r ∧
      r.1.lchan.type = w.lchan.type ∧ r.1.lchan.encr_alg_id = w.lchan.encr_alg_id ∧
      SingleFlight a r.1 ∧
      (status = GsmL1_Status_Success → Fifo a w → Fifo a r.1) ∧
      (w.lchan.sapi_cmds ≠ [] →
        r.1.fl1h.wlc_list = w.fl1h.wlc_list ∧ r.1.fl1h.write_q_L1 = w.fl1h.write_q_L1) ∧
      Grows w r.1 := by
  have hsame := Same_callback_event w cb status
  set w1 : World := { w with trace := w.trace ++ [Event.callback cb status] } with hw1
  have hs1 : SingleFlight a w1 := Same_single_flight a w w1 hsame hs
  have hk1 : Kept a w w1 := Same_kept a w w1 hsame hs
  have hclear : ∀ (st : gsm_lchan_state) (ty : osmo_mph_info_type) (c : Nat),
      SingleFlight a (mph_info_chan_confirm (sapi_clear_queue (lchan_set_state w1 st)) ty c) := by
    intro st ty c
    exact ⟨hs.1, Or.inl hidle⟩
  have hset : ∀ (st : gsm_lchan_state) (ty : osmo_mph_info_type) (c : Nat),
      Same w1 (mph_info_chan_confirm (lchan_set_state w1 st) ty c) := by
    intro st ty c
    exact ⟨rfl, rfl, rfl, rfl, rfl, rfl⟩
  have hg1 : ∀ (st : gsm_lchan_state) (ty : osmo_mph_info_type) (c : Nat),
      Grows w (mph_info_chan_confirm (sapi_clear_queue (lchan_set_state w1 st)) ty c) :=
    fun _ _ _ => hk1.grows
  unfold call_sapi_cmd_callback
  rw [← hw1]
  cases cb with
  | sapi_activate_cb =>
    simp only
    unfold sapi_activate_cb
    split
    · rename_i hst
      exact ⟨_, rfl, rfl, rfl, hclear _ _ _, fun h => absurd h hst, fun _ => ⟨rfl, rfl⟩,
        hg1 _ _ _⟩
    · split
      · exact ⟨_, rfl, rfl, rfl, hs1, fun _ => hk1.fifo, fun _ => ⟨rfl, rfl⟩, hk1.grows⟩
      · rename_i hemp
        split
        · exact ⟨_, rfl, rfl, rfl, hs1, fun _ => hk1.fifo, fun _ => ⟨rfl, rfl⟩, hk1.grows⟩
        · have hk2 : Kept a w (mph_info_chan_confirm (lchan_set_state w1 LCHAN_S_ACTIVE)
              PRIM_INFO_ACTIVATE 0) := Kept_of_same_right a w w1 _ hk1 (hset _ _ _)
          obtain ⟨r1, hr1, hk3⟩ := l1if_set_ciphering_kept a _ 1 hk2.single
          obtain ⟨r2, hr2, hk4⟩ := l1if_set_ciphering_kept a r1.1 0 hk3.single
          simp only [hr1, hr2, M_bind_ok, M_pure]
          have hk5 := Kept_trans a w _ _ (Kept_trans a w _ _ hk2 hk3) hk4
          have hq : w.lchan.sapi_cmds = [] := by
            have : w1.lchan.sapi_cmds = w.lchan.sapi_cmds := rfl
            rw [← this]
            simpa using hemp
          split
          · have hk6 := Kept_of_same_right a w r2.1
              { r2.1 with lchan := { r2.1.lchan with ciph_state := LCHAN_CIPH_RXTX_REQ } } hk5
              ⟨rfl, rfl, rfl, rfl, rfl, rfl⟩
            exact ⟨_, rfl, hk6.type_eq, hk6.alg_eq, hk6.single, fun _ => hk6.fifo,
              fun h => absurd hq h, hk6.grows⟩
          · have hk6 := Kept_of_same_right a w r2.1
              { r2.1 with lchan := { r2.1.lchan with ciph_state := LCHAN_CIPH_NONE } } hk5
              ⟨rfl, rfl, rfl, rfl, rfl, rfl⟩
            exact ⟨_, rfl, hk6.type_eq, hk6.alg_eq, hk6.single, fun _ => hk6.fifo,
              fun h => absurd hq h, hk6.grows⟩
  | sapi_deactivate_cb =>
    simp only
    unfold sapi_deactivate_cb
    split
    · rename_i hst
      exact ⟨_, rfl, rfl, rfl, hclear _ _ _, fun h => absurd h hst.1, fun _ => ⟨rfl, rfl⟩,
        hg1 _ _ _⟩
    · split
      · exact ⟨_, rfl, rfl, rfl, hs1, fun _ => hk1.fifo, fun _ => ⟨rfl, rfl⟩, hk1.grows⟩
      · split
        · exact ⟨_, rfl, rfl, rfl, hs1, fun _ => hk1.fifo, fun _ => ⟨rfl, rfl⟩, hk1.grows⟩
        · have hk2 : Kept a w (mph_info_chan_confirm (lchan_set_state w1 LCHAN_S_NONE)
              PRIM_INFO_DEACTIVATE 0) := Kept_of_same_right a w w1 _ hk1 (hset _ _ _)
          exact ⟨_, rfl, rfl, rfl, hk2.single, fun _ => hk2.fifo, fun _ => ⟨rfl, rfl⟩,
            hk2.grows⟩

/-- The completion dispatch, started without a pending transaction on a queue
whose head is the completed command. -/
theorem sapi_queue_dispatch_kept (a : Nat) (w : World) (status : Int) (cmd : sapi_cmd)
    (rest : List sapi_cmd) (hq : w.lchan.sapi_cmds = cmd :: rest)
    (hidle : w.fl1h.wlc_list = []) (hlen : a = w.fl1h.write_q_L1.length) :
    ∃ w', sapi_queue_dispatch w status = .ok w' ∧
      w'.lchan.type = w.lchan.type ∧ w'.lchan.encr_alg_id = w.lchan.encr_alg_id ∧
      SingleFlight a w' ∧
      (status = GsmL1_Status_Success → Fifo a w.llist_del_head → Fifo a w') ∧
      Grows w w' := by
  have hmid : SingleFlight a w.llist_del_head := ⟨by simp [World.llist_del_head, hidle, hlen],
    Or.inl hidle⟩
  have hqmid : w.llist_del_head.lchan.sapi_cmds = rest := by simp [World.llist_del_head, hq]
  -- the callback stage
  have hcb : ∃ w1, run_callback cmd w.llist_del_head status = .ok w1 ∧
      w1.lchan.type = w.lchan.type ∧ w1.lchan.encr_alg_id = w.lchan.encr_alg_id ∧
      SingleFlight a w1 ∧
      (status = GsmL1_Status_Success → Fifo a w.llist_del_head → Fifo a w1) ∧
      (rest ≠ [] → w1.fl1h.wlc_list = [] ∧ w1.fl1h.write_q_L1 = w.fl1h.write_q_L1) ∧
      Grows w w1 := by
    unfold run_callback
    cases hc : cmd.callback with
    | none => exact ⟨_, rfl, rfl, rfl, hmid, fun _ h => h, fun _ => ⟨hidle, rfl⟩, Grows_refl _⟩
    | some cb =>
      obtain ⟨r, hr, h1, h2, h3, h4, h5, h6⟩ :=
        call_sapi_cmd_callback_kept a cb w.llist_del_head status hmid hidle
      refine ⟨r.1, by simp only [hr, M_bind_ok, M_pure], h1, h2, h3, h4, fun hne => ?_, h6⟩
      have := h5 (by rw [hqmid]; exact hne)
      exact ⟨this.1.trans hidle, this.2⟩
  obtain ⟨w1, hw1, ht1, ha1, hs1, hf1, hi1, hg1⟩ := hcb
  unfold sapi_queue_dispatch
  rw [hq]
  simp only [hw1, M_bind_ok]
  split
  · exact ⟨w1, rfl, ht1, ha1, hs1, hf1, hg1⟩
  · rename_i hcont
    have hrest : rest ≠ [] := by
      intro h
      apply hcont
      left
      rw [hqmid, h]
      rfl
    have hne : w1.lchan.sapi_cmds ≠ [] := by
      intro h
      apply hcont
      right
      rw [h]
      rfl
    obtain ⟨hi, hwq⟩ := hi1 hrest
    obtain ⟨w', hw', hp⟩ := sapi_queue_send_post w1 hne
    have hsf := SendPost_single_flight a w1 w' hp hi (by rw [hwq]; exact hlen)
    exact ⟨w', hw', hp.1.trans ht1, hp.2.1.trans ha1, hsf.1, fun hst hf => hsf.2 (hf1 hst hf),
      Grows_trans hg1 (SendPost_grows hp)⟩

theorem set_sapi_state_same (w : World) (sapi : GsmL1_Sapi_t) (dir : GsmL1_Dir_t)
    (st : lchan_sapi_state) :
    (set_sapi_state w sapi dir st).lchan.type = w.lchan.type ∧
    (set_sapi_state w sapi dir st).lchan.encr_alg_id = w.lchan.encr_alg_id ∧
    (set_sapi_state w sapi dir st).lchan.sapi_cmds = w.lchan.sapi_cmds ∧
    (set_sapi_state w sapi dir st).lchan.state = w.lchan.state ∧
    (set_sapi_state w sapi dir st).lchan.ciph_state = w.lchan.ciph_state ∧
    (set_sapi_state w sapi dir st).fl1h = w.fl1h ∧
    (set_sapi_state w sapi dir st).l1sap_up = w.l1sap_up ∧
    (set_sapi_state w sapi dir st).trace = w.trace := by
  unfold set_sapi_state
  split <;> split <;> simp

/-- The completion callback registered with the request of the head command,
called with the confirmation of that request. -/
theorem call_l1if_compl_cb_kept (a : Nat) (w : World) (status : Int) (cmd : sapi_cmd)
    (rest : List sapi_cmd) (cb : l1if_compl_cb) (hq : w.lchan.sapi_cmds = cmd :: rest)
    (hm : is_marker cmd = false) (hcb : (wlc_for cmd).cb = some cb)
    (hidle : w.fl1h.wlc_list = []) (hlen : a = w.fl1h.write_q_L1.length) :
    ∃ r, call_l1if_compl_cb cb w (confirmation_of (w.request_of cmd) status) = .ok r ∧
      r.1.lchan.type = w.lchan.type ∧ r.1.lchan.encr_alg_id = w.lchan.encr_alg_id ∧
      SingleFlight a r.1 ∧
      (status = GsmL1_Status_Success → Fifo a w.llist_del_head → Fifo a r.1) ∧
      Grows w r.1 := by
  -- dispatch after an update of the facility states
  have hupd : ∀ (st : lchan_sapi_state),
      ∃ w', sapi_queue_dispatch (set_sapi_state w cmd.sapi cmd.dir st) status = .ok w' ∧
        w'.lchan.type = w.lchan.type ∧ w'.lchan.encr_alg_id = w.lchan.encr_alg_id ∧
        SingleFlight a w' ∧
        (status = GsmL1_Status_Success → Fifo a w.llist_del_head → Fifo a w') ∧
        Grows w w' := by
    intro st
    obtain ⟨e1, e2, e3, e4, e5, e6, e7, e8⟩ := set_sapi_state_same w cmd.sapi cmd.dir st
    obtain ⟨w', hw', h1, h2, h3, h4, h5⟩ := sapi_queue_dispatch_kept a
      (set_sapi_state w cmd.sapi cmd.dir st) status cmd rest (by rw [e3, hq])
      (by rw [e6, hidle]) (by rw [e6]; exact hlen)
    refine ⟨w', hw', h1.trans e1, h2.trans e2, h3, fun hst hf => h4 hst ?_,
      Grows_trans (Grows_of_eq (by rw [e8])) h5⟩
    refine Same_fifo a w.llist_del_head _ ⟨e1, e2, ?_, by simp [World.llist_del_head, e6], by
      simp [World.llist_del_head, e6], by simp [World.llist_del_head, e8]⟩ hf
    simp [World.llist_del_head, e3]
  cases ht : cmd.type with
  | SAPI_CMD_ACTIVATE =>
    have : cb = .lchan_act_compl_cb := by simpa [wlc_for, ht] using hcb.symm
    subst this
    simp only [World.request_of, request_of, ht, confirmation_of, call_l1if_compl_cb,
      lchan_act_compl_cb]
    obtain ⟨w', hw', h⟩ := hupd
      (if status = GsmL1_Status_Success then LCHAN_SAPI_S_ASSIGNED else LCHAN_SAPI_S_ERROR)
    rw [(set_sapi_state_same w cmd.sapi cmd.dir _).2.2.1, hq]
    simp only [ne_eq, not_true_eq_false, ht, or_self, ↓reduceIte, hw', M_bind_ok, M_pure]
    exact ⟨_, rfl, h⟩
  | SAPI_CMD_DEACTIVATE =>
    have : cb = .lchan_deact_compl_cb := by simpa [wlc_for, ht] using hcb.symm
    subst this
    simp only [World.request_of, request_of, ht, confirmation_of, call_l1if_compl_cb,
      lchan_deact_compl_cb]
    obtain ⟨w', hw', h⟩ := hupd
      (if status = GsmL1_Status_Success then LCHAN_SAPI_S_NONE else LCHAN_SAPI_S_ERROR)
    rw [(set_sapi_state_same w cmd.sapi cmd.dir _).2.2.1, hq]
    simp only [ne_eq, not_true_eq_false, ht, or_self, ↓reduceIte, hw', M_bind_ok, M_pure]
    exact ⟨_, rfl, h⟩
  | SAPI_CMD_CONFIG_CIPHERING =>
    have : cb = .chmod_modif_compl_cb := by simpa [wlc_for, ht] using hcb.symm
    subst this
    simp only [World.request_of, request_of, ht, confirmation_of, call_l1if_compl_cb,
      chmod_modif_compl_cb, GsmL1_ConfigParam_t.cfgParamId]
    set w2 : World := { w with lchan := { w.lchan with ciph_state :=
      (match w.lchan.ciph_state with
        | LCHAN_CIPH_RX_REQ => LCHAN_CIPH_RX_CONF
        | LCHAN_CIPH_RX_CONF_TX_REQ => LCHAN_CIPH_RXTX_CONF
        | LCHAN_CIPH_RXTX_REQ => LCHAN_CIPH_RX_CONF_TX_REQ
        | s => s) } } with hw2
    obtain ⟨w', hw', h1, h2, h3, h4, h5⟩ :=
      sapi_queue_dispatch_kept a w2 status cmd rest hq hidle hlen
    have hne : w2.lchan.sapi_cmds.isEmpty = false := by rw [show w2.lchan.sapi_cmds = _ from hq]; rfl
    simp only [hne, Bool.false_eq_true, ↓reduceIte, hw', M_bind_ok, M_pure]
    exact ⟨_, rfl, h1, h2, h3, fun hst hf => h4 hst hf, h5⟩
  | SAPI_CMD_CONFIG_LOGCH_PARAM =>
    have : cb = .chmod_modif_compl_cb := by simpa [wlc_for, ht] using hcb.symm
    subst this
    simp only [World.request_of, request_of, ht, confirmation_of, call_l1if_compl_cb,
      chmod_modif_compl_cb, GsmL1_ConfigParam_t.cfgParamId]
    obtain ⟨w', hw', h⟩ := sapi_queue_dispatch_kept a w status cmd rest hq hidle hlen
    simp only [hw', M_bind_ok, M_pure]
    exact ⟨_, rfl, h⟩
  | SAPI_CMD_SACCH_REL_MARKER => simp [is_marker, ht] at hm
  | SAPI_CMD_REL_MARKER => simp [is_marker, ht] at hm

theorem wlc_for_cb (cmd : sapi_cmd) : ∃ cb, (wlc_for cmd).cb = some cb := by
  unfold wlc_for
  split <;> exact ⟨_, rfl⟩

theorem is_prim_compat_confirmation (ty : gsm_chan_t) (alg : Nat) (cmd : sapi_cmd)
    (status : Int) (hm : is_marker cmd = false) :
    is_prim_compat (confirmation_of (request_of ty alg cmd) status) (wlc_for cmd) = true := by
  cases ht : cmd.type <;>
    simp_all [is_marker, is_prim_compat, confirmation_of, request_of, wlc_for, msgb.id]

/-- The arrival of the confirmation of the request in flight. -/
theorem l1if_handle_l1prim_kept (a : Nat) (w : World) (status : Int) (cmd : sapi_cmd)
    (rest : List sapi_cmd) (hq : w.lchan.sapi_cmds = cmd :: rest)
    (hm : is_marker cmd = false) (hl : w.fl1h.wlc_list = [wlc_for cmd])
    (hlen : a + 1 = w.fl1h.write_q_L1.length)
    (hget : w.fl1h.write_q_L1[a]? = some (w.request_of cmd)) :
    ∃ r, l1if_handle_l1prim call_l1if_compl_cb l1if_handle_ind_default w
        (confirmation_of (w.request_of cmd) status) = .ok r ∧
      r.1.lchan.type = w.lchan.type ∧ r.1.lchan.encr_alg_id = w.lchan.encr_alg_id ∧
      SingleFlight (a + 1) r.1 ∧
      (status = GsmL1_Status_Success → Fifo a w → Fifo (a + 1) r.1) ∧
      Grows w r.1 := by
  have hcompat := is_prim_compat_confirmation w.lchan.type w.lchan.encr_alg_id cmd status hm
  obtain ⟨cb, hcb⟩ := wlc_for_cb cmd
  set we : World := { w with fl1h := { w.fl1h with wlc_list := [] } } with hwe
  obtain ⟨r, hr, h1, h2, h3, h4, h5⟩ := call_l1if_compl_cb_kept (a + 1) we status cmd rest cb
    hq hm hcb rfl hlen
  unfold l1if_handle_l1prim l1if_handle_prim
  have hreq : we.request_of = w.request_of := rfl
  rw [hreq] at hr
  simp only [hl, List.find?_cons, World.request_of, hcompat, List.eraseP_cons_of_pos,
    hcb, M_bind_ok, M_pure] at hr ⊢
  rw [← hwe, hr]
  simp only [M_bind_ok]
  refine ⟨_, rfl, h1, h2, ?_, fun hst hf => ?_, h5⟩
  · exact Same_single_flight (a + 1) r.1 _ ⟨rfl, rfl, rfl, rfl, rfl, rfl⟩ h3
  · refine Same_fifo (a + 1) r.1 _ ⟨rfl, rfl, rfl, rfl, rfl, rfl⟩ (h4 hst ?_)
    -- the queue order once the request is counted as answered and the head unlinked
    unfold Fifo at hf ⊢
    have e1 : we.llist_del_head.fl1h.write_q_L1 = w.fl1h.write_q_L1 := rfl
    have e2 : we.llist_del_head.lchan.sapi_cmds = rest := by
      simp [World.llist_del_head, hwe, hq]
    have e3 : we.llist_del_head.request_of = w.request_of := rfl
    have e4 : enqueued we.llist_del_head = enqueued w := rfl
    rw [e1, e2, e3, e4, ← hf, hq, List.take_succ, hget]
    simp [non_markers, hm]

theorem lchan_activate_loop_kept (a : Nat) (entries : List sapi_dir) :
    ∀ w : World, SingleFlight a w →
      ∃ w', lchan_activate_loop entries w = .ok w' ∧ Kept a w w' := by
  induction entries with
  | nil => intro w hs; exact ⟨w, rfl, Kept_refl a w hs⟩
  | cons sd entries ih =>
    intro w hs
    unfold lchan_activate_loop
    set w1 : World := (if sd.sapi = GsmL1_Sapi_Sch then
        { w with fl1h := { w.fl1h with alive_timer := true, alive_prim_cnt := 0 } }
      else w) with hw1
    have hsame : Same w w1 := by
      rw [hw1]; split <;> exact ⟨rfl, rfl, rfl, rfl, rfl, rfl⟩
    have hk1 := Same_kept a w w1 hsame hs
    obtain ⟨r, hr, hk2, _⟩ := queue_sapi_command_kept a w1
      { sapi := sd.sapi, dir := sd.dir, type := SAPI_CMD_ACTIVATE,
        callback := some .sapi_activate_cb } hk1.single
    obtain ⟨w', hw', hk3⟩ := ih r.1 hk2.single
    refine ⟨w', ?_, Kept_trans a w _ _ (Kept_trans a w _ _ hk1 hk2) hk3⟩
    simp only [enqueue_sapi_act_cmd, hr, M_bind_ok, M_pure, hw']

theorem l1if_rsl_chan_act_kept (a : Nat) (w : World) (hs : SingleFlight a w) :
    ∃ r, l1if_rsl_chan_act w = .ok r ∧ Kept a w r.1 := by
  unfold l1if_rsl_chan_act lchan_activate
  have hk1 : Kept a w (lchan_set_state w LCHAN_S_ACT_REQ) :=
    Same_kept a w _ ⟨rfl, rfl, rfl, rfl, rfl, rfl⟩ hs
  obtain ⟨w', hw', hk2⟩ := lchan_activate_loop_kept a
    (sapis_for_lchan (lchan_set_state w LCHAN_S_ACT_REQ).lchan.type) _ hk1.single
  exact ⟨(w', 0), by simp only [hw', M_bind_ok, M_pure], Kept_trans a w _ _ hk1 hk2⟩

theorem l1if_rsl_chan_rel_kept (a : Nat) (w : World) (hs : SingleFlight a w) :
    ∃ r, l1if_rsl_chan_rel w = .ok r ∧ Kept a w r.1 := by
  unfold l1if_rsl_chan_rel
  split
  · exact ⟨_, rfl, Kept_refl a w hs⟩
  · unfold lchan_deactivate enqueue_rel_marker
    set w1 : World := { lchan_set_state w LCHAN_S_REL_REQ with
      lchan := { (lchan_set_state w LCHAN_S_REL_REQ).lchan with ciph_state := LCHAN_CIPH_NONE } }
      with hw1
    have hk1 : Kept a w w1 := Same_kept a w _ ⟨rfl, rfl, rfl, rfl, rfl, rfl⟩ hs
    obtain ⟨r, hr, hk2, _⟩ := queue_sapi_command_kept a w1
      { sapi := GsmL1_Sapi_Idle, dir := 0, type := SAPI_CMD_REL_MARKER, callback := none }
      hk1.single
    exact ⟨(r.1, 0), by simp only [hr, M_bind_ok, M_pure], Kept_trans a w _ _ hk1 hk2⟩

theorem l1if_rsl_deact_sacch_kept (a : Nat) (w : World) (hs : SingleFlight a w) :
    ∃ r, l1if_rsl_deact_sacch w = .ok r ∧ Kept a w r.1 := by
  unfold l1if_rsl_deact_sacch
  split
  · exact ⟨_, rfl, Kept_refl a w hs⟩
  · unfold lchan_deactivate_sacch enqueue_sacch_rel_marker
    obtain ⟨r, hr, hk2, _⟩ := queue_sapi_command_kept a w
      { sapi := GsmL1_Sapi_Idle, dir := 0, type := SAPI_CMD_SACCH_REL_MARKER, callback := none }
      hs
    exact ⟨(r.1, 0), by simp only [hr, M_bind_ok, M_pure], hk2⟩

theorem tx_confreq_logchpar_kept (a : Nat) (w : World) (dir : GsmL1_Dir_t)
    (hs : SingleFlight a w) :
    ∃ r, tx_confreq_logchpar w dir = .ok r ∧ Kept a w r.1 := by
  unfold tx_confreq_logchpar enqueue_sapi_logchpar_cmd
  obtain ⟨r, hr, hk2, _⟩ := queue_sapi_command_kept a w
    { sapi := GsmL1_Sapi_Idle, dir := dir, type := SAPI_CMD_CONFIG_LOGCH_PARAM, callback := none }
    hs
  exact ⟨(r.1, 0), by simp only [hr, M_bind_ok, M_pure], hk2⟩

theorem l1if_rsl_mode_modify_kept (a : Nat) (w : World) (hs : SingleFlight a w) :
    ∃ r, l1if_rsl_mode_modify w = .ok r ∧ Kept a w r.1 := by
  unfold l1if_rsl_mode_modify
  split
  · exact ⟨_, rfl, Kept_refl a w hs⟩
  · obtain ⟨r1, hr1, hk1⟩ := tx_confreq_logchpar_kept a w GsmL1_Dir_RxUplink hs
    obtain ⟨r2, hr2, hk2⟩ := tx_confreq_logchpar_kept a r1.1 GsmL1_Dir_TxDownlink hk1.single
    exact ⟨(r2.1, 0), by simp only [hr1, hr2, M_bind_ok, M_pure], Kept_trans a w _ _ hk1 hk2⟩

theorem bts_model_l1sap_down_act_ciph_kept (a : Nat) (w : World) (uplink downlink : Bool)
    (hs : SingleFlight a w) :
    ∃ w', bts_model_l1sap_down_act_ciph w uplink downlink = .ok w' ∧ Kept a w w' := by
  unfold bts_model_l1sap_down_act_ciph
  have hciph : ∀ (w0 : World) (c : lchan_ciph_state), SingleFlight a w0 →
      Kept a w0 { w0 with lchan := { w0.lchan with ciph_state := c } } :=
    fun w0 c h => Same_kept a w0 _ ⟨rfl, rfl, rfl, rfl, rfl, rfl⟩ h
  -- uplink stage
  have h1 : ∃ w1, (if uplink = true then do
        let r ← l1if_set_ciphering w 1
        pure { r.1 with lchan := { r.1.lchan with ciph_state := LCHAN_CIPH_RX_REQ } }
      else pure w : M World) = .ok w1 ∧ Kept a w w1 := by
    split
    · obtain ⟨r, hr, hk⟩ := l1if_set_ciphering_kept a w 1 hs
      exact ⟨_, by simp only [hr, M_bind_ok, M_pure]; rfl,
        Kept_trans a w _ _ hk (hciph r.1 _ hk.single)⟩
    · exact ⟨w, rfl, Kept_refl a w hs⟩
  obtain ⟨w1, hw1, hk1⟩ := h1
  have h2 : ∃ w2, (if downlink = true then do
        let r ← l1if_set_ciphering w1 0
        pure { r.1 with lchan := { r.1.lchan with ciph_state := LCHAN_CIPH_RX_CONF_TX_REQ } }
      else pure w1 : M World) = .ok w2 ∧ Kept a w1 w2 := by
    split
    · obtain ⟨r, hr, hk⟩ := l1if_set_ciphering_kept a w1 0 hk1.single
      exact ⟨_, by simp only [hr, M_bind_ok, M_pure]; rfl,
        Kept_trans a w1 _ _ hk (hciph r.1 _ hk.single)⟩
    · exact ⟨w1, rfl, Kept_refl a w1 hk1.single⟩
  obtain ⟨w2, hw2, hk2⟩ := h2
  simp only [hw1, hw2, M_bind_ok]
  have hk := Kept_trans a w _ _ hk1 hk2
  split
  · exact ⟨_, rfl, Kept_trans a w _ _ hk (hciph w2 _ hk.single)⟩
  · exact ⟨_, rfl, hk⟩

theorem System_step_kept (s : System) (act : Action) (hs : SingleFlight s.answered s.w) :
    ∃ s', s.step act = .ok s' ∧
      s'.w.lchan.type = s.w.lchan.type ∧ s'.w.lchan.encr_alg_id = s.w.lchan.encr_alg_id ∧
      SingleFlight s'.answered s'.w ∧
      ((∀ status, act = .confirm status → status = GsmL1_Status_Success) →
        Fifo s.answered s.w → Fifo s'.answered s'.w) ∧
      (∃ X, appended s'.w.trace =
        appended s.w.trace ++ Action.enqueued_cmds [act] ++ X) := by
  have hfin : ∀ (w' : World), Kept s.answered s.w w' →
      ({ s with w := w' } : System).w.lchan.type = s.w.lchan.type ∧
      ({ s with w := w' } : System).w.lchan.encr_alg_id = s.w.lchan.encr_alg_id ∧
      SingleFlight ({ s with w := w' } : System).answered ({ s with w := w' } : System).w ∧
      (Fifo s.answered s.w →
        Fifo ({ s with w := w' } : System).answered ({ s with w := w' } : System).w) :=
    fun w' hk => ⟨hk.type_eq, hk.alg_eq, hk.single, hk.fifo⟩
  cases act with
  | activate =>
    obtain ⟨r, hr, hk⟩ := l1if_rsl_chan_act_kept s.answered s.w hs
    obtain ⟨h1, h2, h3, h4⟩ := hfin r.1 hk
    obtain ⟨X, hX⟩ := hk.grows
    exact ⟨_, by simp only [System.step, hr, M_bind_ok, M_pure], h1, h2, h3, fun _ => h4,
      X, by simpa [Action.enqueued_cmds] using hX⟩
  | release =>
    obtain ⟨r, hr, hk⟩ := l1if_rsl_chan_rel_kept s.answered s.w hs
    obtain ⟨h1, h2, h3, h4⟩ := hfin r.1 hk
    obtain ⟨X, hX⟩ := hk.grows
    exact ⟨_, by simp only [System.step, hr, M_bind_ok, M_pure], h1, h2, h3, fun _ => h4,
      X, by simpa [Action.enqueued_cmds] using hX⟩
  | sacch_release =>
    obtain ⟨r, hr, hk⟩ := l1if_rsl_deact_sacch_kept s.answered s.w hs
    obtain ⟨h1, h2, h3, h4⟩ := hfin r.1 hk
    obtain ⟨X, hX⟩ := hk.grows
    exact ⟨_, by simp only [System.step, hr, M_bind_ok, M_pure], h1, h2, h3, fun _ => h4,
      X, by simpa [Action.enqueued_cmds] using hX⟩
  | cipher uplink downlink =>
    obtain ⟨w', hr, hk⟩ := bts_model_l1sap_down_act_ciph_kept s.answered s.w uplink downlink hs
    obtain ⟨h1, h2, h3, h4⟩ := hfin w' hk
    obtain ⟨X, hX⟩ := hk.grows
    exact ⟨_, by simp only [System.step, hr, M_bind_ok, M_pure], h1, h2, h3, fun _ => h4,
      X, by simpa [Action.enqueued_cmds] using hX⟩
  | mode_change =>
    obtain ⟨r, hr, hk⟩ := l1if_rsl_mode_modify_kept s.answered s.w hs
    obtain ⟨h1, h2, h3, h4⟩ := hfin r.1 hk
    obtain ⟨X, hX⟩ := hk.grows
    exact ⟨_, by simp only [System.step, hr, M_bind_ok, M_pure], h1, h2, h3, fun _ => h4,
      X, by simpa [Action.enqueued_cmds] using hX⟩
  | enqueue cmd =>
    obtain ⟨r, hr, hk, _, X, hX⟩ := queue_sapi_command_kept s.answered s.w cmd hs
    obtain ⟨h1, h2, h3, h4⟩ := hfin r.1 hk
    exact ⟨_, by simp only [System.step, hr, M_bind_ok, M_pure], h1, h2, h3, fun _ => h4,
      X, by simpa [Action.enqueued_cmds] using hX⟩
  | confirm status =>
    obtain ⟨hlen, hcase⟩ := hs
    rcases hcase with hidle | ⟨cmd, rest, hq, hm, hget, hl⟩
    · -- nothing is in flight: every request has been answered
      have hnone : s.w.fl1h.write_q_L1[s.answered]? = none := by
        rw [List.getElem?_eq_none_iff]
        rw [hidle] at hlen
        simp at hlen
        omega
      refine ⟨s, by simp only [System.step, hnone, M_pure], rfl, rfl, ⟨hlen, Or.inl hidle⟩,
        fun _ h => h, [], by simp [Action.enqueued_cmds]⟩
    · obtain ⟨r, hr, h1, h2, h3, h4, X, hX⟩ := l1if_handle_l1prim_kept s.answered s.w status cmd
        rest hq hm hl (by rw [hl] at hlen; simpa using hlen) hget
      refine ⟨{ w := r.1, answered := s.answered + 1 },
        by simp only [System.step, hget, hr, M_bind_ok, M_pure], h1, h2, h3,
        fun hst hf => h4 (hst status rfl) hf, X, by simpa [Action.enqueued_cmds] using hX⟩

theorem System_run_kept (actions : List Action) :
    ∀ s : System, SingleFlight s.answered s.w →
      ∃ s', s.run actions = .ok s' ∧
        s'.w.lchan.type = s.w.lchan.type ∧ s'.w.lchan.encr_alg_id = s.w.lchan.encr_alg_id ∧
        SingleFlight s'.answered s'.w ∧
        (Action.all_success actions → Fifo s.answered s.w → Fifo s'.answered s'.w) ∧
        (∃ Y, appended s'.w.trace = appended s.w.trace ++ Y ∧
          List.Sublist (Action.enqueued_cmds actions) Y) := by
  induction actions with
  | nil =>
    intro s hs
    exact ⟨s, rfl, rfl, rfl, hs, fun _ h => h, [], by simp, by simp [Action.enqueued_cmds]⟩
  | cons act actions ih =>
    intro s hs
    obtain ⟨s1, hs1, ht1, ha1, hsf1, hf1, X, hX⟩ := System_step_kept s act hs
    obtain ⟨s2, hs2, ht2, ha2, hsf2, hf2, Y, hY, hsub⟩ := ih s1 hsf1
    refine ⟨s2, by simp only [System.run, hs1, hs2, M_bind_ok], ht2.trans ht1, ha2.trans ha1,
      hsf2, fun hall hf => ?_, Action.enqueued_cmds [act] ++ X ++ Y, ?_, ?_⟩
    · refine hf2 (fun st hst => hall st (List.mem_cons_of_mem _ hst))
        (hf1 (fun st hst => hall st (by rw [hst]; exact List.mem_cons_self _ _)) hf)
    · rw [hY, hX]; simp
    · have : Action.enqueued_cmds (act :: actions) =
          Action.enqueued_cmds [act] ++ Action.enqueued_cmds actions := by
        simp [Action.enqueued_cmds, List.filterMap_cons]
        cases act <;> simp
      rw [this, List.append_assoc]
      exact List.Sublist.append (List.Sublist.refl _)
        (hsub.trans (List.sublist_append_right X Y))

theorem callback_events_append (t1 t2 : List Event) :
    callback_events (t1 ++ t2) = callback_events t1 ++ callback_events t2 := by
  simp [callback_events]

theorem callback_events_map_add (ds : List sapi_cmd) :
    callback_events (ds.map Event.llist_add_tail) = [] := by
  induction ds with
  | nil => rfl
  | cons d ds ih =>
    simp only [List.map_cons, callback_events, List.filterMap_cons] at ih ⊢
    exact ih

theorem SendPost_callback_events {w w' : World} (h : SendPost w w') :
    callback_events w'.trace = callback_events w.trace := by
  obtain ⟨_, _, _, _, _, ds, _, htr, _⟩ := h
  rw [htr, callback_events_append, callback_events_map_add, List.append_nil]

/-- The queue code never fails and invokes no callback when a command is
queued. -/
theorem queue_sapi_command_total (w : World) (cmd : sapi_cmd) :
    ∃ r, queue_sapi_command sapi_queue_send w cmd = .ok r ∧
      callback_events r.1.trace = callback_events w.trace := by
  unfold queue_sapi_command
  have hev : callback_events (w.llist_add_tail cmd).trace = callback_events w.trace := by
    simp [World.llist_add_tail, callback_events]
  by_cases hq : w.lchan.sapi_cmds = []
  · obtain ⟨w', hw', hp⟩ := sapi_queue_send_post (w.llist_add_tail cmd)
      (by simp [World.llist_add_tail])
    simp only [hq, List.isEmpty_nil, Bool.not_true, Bool.false_eq_true, ↓reduceIte, hw',
      M_bind_ok, M_pure]
    exact ⟨_, rfl, (SendPost_callback_events hp).trans hev⟩
  · have : w.lchan.sapi_cmds.isEmpty = false := by
      cases hq' : w.lchan.sapi_cmds with
      | nil => exact absurd hq' hq
      | cons _ _ => rfl
    simp only [this, Bool.not_false, ↓reduceIte, M_pure]
    exact ⟨_, rfl, hev⟩

theorem l1if_set_ciphering_total (w : World) (dir_downlink : Int) :
    ∃ r, l1if_set_ciphering w dir_downlink = .ok r ∧
      callback_events r.1.trace = callback_events w.trace := by
  unfold l1if_set_ciphering enqueue_sapi_ciphering_cmd
  split
  · exact ⟨_, rfl, rfl⟩
  · obtain ⟨r, hr, hev⟩ := queue_sapi_command_total w
      { sapi := GsmL1_Sapi_Idle,
        dir := if dir_downlink ≠ 0 then GsmL1_Dir_RxUplink else GsmL1_Dir_TxDownlink,
        type := SAPI_CMD_CONFIG_CIPHERING, callback := none }
    exact ⟨(r.1, 0), by simp only [hr, M_bind_ok, M_pure], hev⟩

/-- A command callback never fails; the trace records its invocation, and no
other. -/
theorem call_sapi_cmd_callback_total (cb : sapi_cmd_callback) (w : World) (status : Int) :
    ∃ r, call_sapi_cmd_callback cb w status = .ok r ∧
      callback_events r.1.trace = callback_events w.trace ++ [(cb, status)] := by
  have hev : callback_events (w.trace ++ [Event.callback cb status]) =
      callback_events w.trace ++ [(cb, status)] := by
    simp [callback_events]
  unfold call_sapi_cmd_callback
  cases cb with
  | sapi_activate_cb =>
    simp only
    unfold sapi_activate_cb
    split
    · exact ⟨_, rfl, hev⟩
    · split
      · exact ⟨_, rfl, hev⟩
      · split
        · exact ⟨_, rfl, hev⟩
        · obtain ⟨r1, hr1, he1⟩ := l1if_set_ciphering_total
            (mph_info_chan_confirm (lchan_set_state
              { w with trace := w.trace ++ [Event.callback .sapi_activate_cb status] }
              LCHAN_S_ACTIVE) PRIM_INFO_ACTIVATE 0) 1
          obtain ⟨r2, hr2, he2⟩ := l1if_set_ciphering_total r1.1 0
          simp only [hr1, hr2, M_bind_ok, M_pure]
          have : callback_events r2.1.trace =
              callback_events w.trace ++ [(sapi_cmd_callback.sapi_activate_cb, status)] := by
            rw [he2, he1]
            exact hev
          split
          · exact ⟨_, rfl, this⟩
          · exact ⟨_, rfl, this⟩
  | sapi_deactivate_cb =>
    simp only
    unfold sapi_deactivate_cb
    split
    · exact ⟨_, rfl, hev⟩
    · split
      · exact ⟨_, rfl, hev⟩
      · split
        · exact ⟨_, rfl, hev⟩
        · exact ⟨_, rfl, hev⟩

theorem run_callback_total (cmd : sapi_cmd) (w : World) (status : Int) :
    ∃ w1, run_callback cmd w status = .ok w1 ∧
      callback_events w1.trace = callback_events w.trace ++
        (match cmd.callback with
          | some cb => [(cb, status)]
          | none => []) := by
  unfold run_callback
  cases hc : cmd.callback with
  | none => exact ⟨w, rfl, by simp⟩
  | some cb =>
    obtain ⟨r, hr, hev⟩ := call_sapi_cmd_callback_total cb w status
    exact ⟨r.1, by simp only [hr, M_bind_ok, M_pure], hev⟩

/-! ## C1 -/

theorem drop_of_single_flight (a : Nat) (l : List msgb) (x : msgb) (hlen : a + 1 = l.length)
    (hget : l[a]? = some x) : l.drop a = [x] := by
  have hlt : a < l.length := by omega
  rw [List.drop_eq_getElem_cons hlt, List.drop_of_length_le (by omega)]
  rw [List.getElem?_eq_getElem hlt] at hget
  simp at hget
  rw [hget]

/-- C1 (single-flight invariant).  A channel starts with no pending
transaction and every earlier request answered (as a channel with an empty
queue does).  After every sequence
of upper-layer requests (activate, release, SACCH release, cipher, mode change),
commands queued directly and confirmations answering the oldest unanswered
request with any status, the run has a result and in it: at most one request of
the layer-1 write queue is unanswered, the pending transactions are exactly as
many, and an unanswered request is the request of the (non-marker) command at
the head of the queue, whose transaction is the only pending one. -/
theorem single_flight_invariant (s0 : System) (actions : List Action)
    (hwlc : s0.w.fl1h.wlc_list = [])
    (hans : s0.answered = s0.w.fl1h.write_q_L1.length) :
    ∃ s, s0.run actions = .ok s ∧
      (s.w.fl1h.write_q_L1.drop s.answered).length ≤ 1 ∧
      s.w.fl1h.wlc_list.length = (s.w.fl1h.write_q_L1.drop s.answered).length ∧
      ∀ req ∈ s.w.fl1h.write_q_L1.drop s.answered,
        ∃ cmd rest, s.w.lchan.sapi_cmds = cmd :: rest ∧ is_marker cmd = false ∧
          req = s.w.request_of cmd ∧ s.w.fl1h.wlc_list = [wlc_for cmd] := by
  have h0 : SingleFlight s0.answered s0.w := ⟨by rw [hwlc, hans]; rfl, Or.inl hwlc⟩
  obtain ⟨s, hs, _, _, ⟨hlen, hcase⟩, _⟩ := System_run_kept actions s0 h0
  refine ⟨s, hs, ?_⟩
  rcases hcase with hidle | ⟨cmd, rest, hq', hm, hget, hl⟩
  · have hd : s.w.fl1h.write_q_L1.drop s.answered = [] := by
      rw [hidle] at hlen
      exact List.drop_of_length_le (by simp at hlen; omega)
    rw [hd, hidle]
    simp
  · have hd := drop_of_single_flight s.answered s.w.fl1h.write_q_L1 _
      (by rw [hl] at hlen; simpa using hlen) hget
    rw [hd, hl]
    refine ⟨by simp, by simp, ?_⟩
    intro req hreq
    simp at hreq
    exact ⟨cmd, rest, hq', hm, hreq, rfl⟩

/-- Witness of C1: a TCH/F channel is activated, two activations are confirmed
(one of them with a failure status), a release is requested and a further
confirmation arrives. -/
theorem single_flight_invariant_witness :
    ∃ s, System.run { w := tchf_channel LCHAN_S_NONE 0, answered := 0 }
        [.activate, .confirm 0, .cipher true true, .confirm 1, .release, .confirm 0] = .ok s ∧
      (s.w.fl1h.write_q_L1.drop s.answered).length ≤ 1 ∧
      s.w.fl1h.wlc_list.length = (s.w.fl1h.write_q_L1.drop s.answered).length ∧
      ∀ req ∈ s.w.fl1h.write_q_L1.drop s.answered,
        ∃ cmd rest, s.w.lchan.sapi_cmds = cmd :: rest ∧ is_marker cmd = false ∧
          req = s.w.request_of cmd ∧ s.w.fl1h.wlc_list = [wlc_for cmd] :=
  single_flight_invariant { w := tchf_channel LCHAN_S_NONE 0, answered := 0 } _ rfl rfl

/-! ## C4 -/

/-- C4, counterexample.  On an active TCH/F channel whose SACCH downlink is
assigned, Activate(TCH/F, downlink), a SACCH release marker and
Activate(TCH/F, uplink) are queued in this order and every request is confirmed
with success.  The Deactivate synthesized by the marker is submitted after the
request of the command that was queued after the marker, not at the marker's
position. -/
theorem marker_deactivate_not_at_marker_position :
    (System.run marker_order_system marker_order_actions).toOption.map
        (fun s => s.w.fl1h.write_q_L1) =
      some [ .mphActivateReq GsmL1_Sapi_TchF GsmL1_Dir_TxDownlink,
             .mphActivateReq GsmL1_Sapi_TchF GsmL1_Dir_RxUplink,
             .mphDeactivateReq GsmL1_Sapi_Sacch GsmL1_Dir_TxDownlink ] := by
  decide

/-- C4, amended.  A channel starts with an empty queue, nothing pending and
empty logs.  After every sequence of steps in which all confirmations carry
success, the run has a result in which: the requests on the layer-1 write queue
are a prefix of the requests of the non-marker commands in the order in which
they were appended to the queue (`llist_add_tail`), the whole of it once the
queue is empty; the answered requests followed by the requests of the
non-marker commands still queued are exactly that order; and the commands
queued directly were appended in their enqueue order.  The Deactivate commands
of a marker are appended when the marker is executed. -/
theorem fifo_submission_order (s0 : System) (actions : List Action)
    (hq : s0.w.lchan.sapi_cmds = []) (hwlc : s0.w.fl1h.wlc_list = [])
    (hlog : s0.w.fl1h.write_q_L1 = []) (htr : s0.w.trace = []) (hans : s0.answered = 0)
    (hsucc : Action.all_success actions) :
    ∃ s, s0.run actions = .ok s ∧
      s.w.fl1h.write_q_L1 <+: (enqueued s.w).map s.w.request_of ∧
      (s.w.lchan.sapi_cmds = [] → s.w.fl1h.write_q_L1 = (enqueued s.w).map s.w.request_of) ∧
      s.w.fl1h.write_q_L1.take s.answered ++ (non_markers s.w.lchan.sapi_cmds).map s.w.request_of
        = (enqueued s.w).map s.w.request_of ∧
      List.Sublist (Action.enqueued_cmds actions) (appended s.w.trace) := by
  have h0 : SingleFlight s0.answered s0.w := ⟨by rw [hwlc, hans, hlog]; rfl, Or.inl hwlc⟩
  have hf0 : Fifo s0.answered s0.w := by
    unfold Fifo enqueued
    rw [hq, hlog, htr]
    simp [non_markers, appended]
  obtain ⟨s, hs, _, _, ⟨hlen, hcase⟩, hf, Y, hY, hsub⟩ := System_run_kept actions s0 h0
  have hfifo := hf hsucc hf0
  have happ : appended s.w.trace = Y := by rw [hY, htr]; rfl
  refine ⟨s, hs, ?_, ?_, hfifo, by rw [happ]; exact hsub⟩
  · unfold Fifo at hfifo
    rw [← hfifo]
    rcases hcase with hidle | ⟨cmd, rest, hq', hm, hget, hl⟩
    · have : s.w.fl1h.write_q_L1.take s.answered = s.w.fl1h.write_q_L1 := by
        rw [hidle] at hlen
        exact List.take_of_length_le (by simp at hlen; omega)
      rw [this]
      exact List.prefix_append _ _
    · have hd := drop_of_single_flight s.answered s.w.fl1h.write_q_L1 _
        (by rw [hl] at hlen; simpa using hlen) hget
      have hsplit := List.take_append_drop s.answered s.w.fl1h.write_q_L1
      rw [hd] at hsplit
      rw [hq']
      simp only [non_markers, List.filter_cons, hm, Bool.not_false, ↓reduceIte, List.map_cons]
      refine ⟨List.map s.w.request_of (List.filter (fun c => !is_marker c) rest), ?_⟩
      calc s.w.fl1h.write_q_L1 ++
            List.map s.w.request_of (List.filter (fun c => !is_marker c) rest)
          = (s.w.fl1h.write_q_L1.take s.answered ++ [s.w.request_of cmd]) ++
            List.map s.w.request_of (List.filter (fun c => !is_marker c) rest) := by
            rw [hsplit]
        _ = _ := by simp
  · intro hemp
    unfold Fifo at hfifo
    rw [← hfifo, hemp]
    have hidle : s.w.fl1h.wlc_list = [] := by
      rcases hcase with h | ⟨cmd, rest, hq', _⟩
      · exact h
      · rw [hemp] at hq'; cases hq'
    have : s.w.fl1h.write_q_L1.take s.answered = s.w.fl1h.write_q_L1 := by
      rw [hidle] at hlen
      exact List.take_of_length_le (by simp at hlen; omega)
    rw [this]
    simp [non_markers]

/-- Witness of the amended C4, on the scenario of the counterexample. -/
theorem fifo_submission_order_witness :
    Action.all_success marker_order_actions ∧
    ∃ s, System.run marker_order_system marker_order_actions = .ok s ∧
      s.w.fl1h.write_q_L1 <+: (enqueued s.w).map s.w.request_of ∧
      (s.w.lchan.sapi_cmds = [] → s.w.fl1h.write_q_L1 = (enqueued s.w).map s.w.request_of) ∧
      s.w.fl1h.write_q_L1.take s.answered ++ (non_markers s.w.lchan.sapi_cmds).map s.w.request_of
        = (enqueued s.w).map s.w.request_of ∧
      List.Sublist (Action.enqueued_cmds marker_order_actions) (appended s.w.trace) :=
  have hall : Action.all_success marker_order_actions := by
    intro status h
    simp [marker_order_actions] at h
    exact h
  ⟨hall, fifo_submission_order marker_order_system marker_order_actions rfl rfl rfl rfl rfl hall⟩

/-! ## C2 -/

/-- On a queue holding a single command, `sapi_queue_send` is one pass of
`sapi_queue_exeute`. -/
theorem sapi_queue_send_single (w : World) (cmd : sapi_cmd) (hq : w.lchan.sapi_cmds = [cmd]) :
    ∃ r, sapi_queue_exeute (sapi_queue_send_fuel 1) w = .ok r ∧ sapi_queue_send w = .ok r.1 := by
  obtain ⟨r, hr, hp⟩ := sapi_queue_exeute_post _ (sapi_queue_send_fuel_SendOK 0) w
    (by rw [hq]; simp)
  refine ⟨r, hr, ?_⟩
  unfold sapi_queue_send
  rw [hq]
  show sapi_queue_send_fuel 2 w = _
  unfold sapi_queue_send_fuel
  rw [hr]
  simp only [M_bind_ok]
  split
  · rename_i hcont
    obtain ⟨_, _, _, hemp⟩ := hp.2.2 hcont.1
    exact absurd (by rw [hemp (by rw [hq]; rfl)]; rfl) hcont.2
  · rfl

/-- A command queued behind others is appended and nothing else happens. -/
theorem queue_sapi_command_on_busy (w : World) (cmd : sapi_cmd)
    (hq : w.lchan.sapi_cmds ≠ []) :
    queue_sapi_command sapi_queue_send w cmd = .ok (w.llist_add_tail cmd, 0) := by
  have : w.lchan.sapi_cmds.isEmpty = false := by
    cases hq' : w.lchan.sapi_cmds with
    | nil => exact absurd hq' hq
    | cons _ _ => rfl
  unfold queue_sapi_command
  simp only [this, Bool.not_false, ↓reduceIte, M_pure]

/-- A command put on an empty queue is executed by one pass of
`sapi_queue_exeute`. -/
theorem queue_sapi_command_on_empty (w : World) (cmd : sapi_cmd)
    (hq : w.lchan.sapi_cmds = []) :
    ∃ r, sapi_queue_exeute (sapi_queue_send_fuel 1) (w.llist_add_tail cmd) = .ok r ∧
      (w.llist_add_tail cmd).lchan.sapi_cmds = [cmd] ∧
      queue_sapi_command sapi_queue_send w cmd = .ok (r.1, 1) ∧
      (is_marker cmd = false → r.1 = (w.llist_add_tail cmd).executed cmd) := by
  have hq1 : (w.llist_add_tail cmd).lchan.sapi_cmds = [cmd] := by
    simp [World.llist_add_tail, hq]
  obtain ⟨r, hr, hs⟩ := sapi_queue_send_single (w.llist_add_tail cmd) cmd hq1
  refine ⟨r, hr, hq1, ?_, ?_⟩
  · unfold queue_sapi_command
    simp only [hq, List.isEmpty_nil, Bool.not_true, Bool.false_eq_true, ↓reduceIte, hs,
      M_bind_ok, M_pure]
  · intro hm
    rw [sapi_queue_exeute_non_marker _ _ cmd [] hq1 hm] at hr
    cases hr
    rfl

/-- The steps of `sapi_queue_dispatch` on a non-empty queue: the head command
is removed, its callback (if it has one) is invoked exactly once with the
status and no other callback is, and `sapi_queue_send` is called afterwards if
and only if the queue was non-empty right after the removal and is non-empty
after the callback has run; otherwise the state left by the callback is
returned. -/
theorem sapi_queue_dispatch_steps (w : World) (status : Int) (cmd : sapi_cmd)
    (rest : List sapi_cmd) (hq : w.lchan.sapi_cmds = cmd :: rest) :
    ∃ w1 w', w.llist_del_head.lchan.sapi_cmds = rest ∧
      run_callback cmd w.llist_del_head status = .ok w1 ∧
      callback_events w1.trace = callback_events w.trace ++
        (match cmd.callback with
          | some cb => [(cb, status)]
          | none => []) ∧
      sapi_queue_dispatch w status = .ok w' ∧
      callback_events w'.trace = callback_events w1.trace ∧
      (rest ≠ [] ∧ w1.lchan.sapi_cmds ≠ [] → sapi_queue_send w1 = .ok w') ∧
      (rest = [] ∨ w1.lchan.sapi_cmds = [] → w' = w1) := by
  have hqmid : w.llist_del_head.lchan.sapi_cmds = rest := by simp [World.llist_del_head, hq]
  obtain ⟨w1, hw1, hev⟩ := run_callback_total cmd w.llist_del_head status
  unfold sapi_queue_dispatch
  rw [hq]
  simp only [hw1, M_bind_ok]
  by_cases hcont : rest ≠ [] ∧ w1.lchan.sapi_cmds ≠ []
  · obtain ⟨w', hw', hp⟩ := sapi_queue_send_post w1 hcont.2
    refine ⟨w1, w', hqmid, rfl, hev, ?_, SendPost_callback_events hp, fun _ => hw', ?_⟩
    · rw [if_neg]
      · exact hw'
      · rw [hqmid]
        intro h
        rcases h with h | h
        · exact hcont.1 (List.isEmpty_iff.mp h)
        · exact hcont.2 (List.isEmpty_iff.mp h)
    · intro h
      rcases h with h | h
      · exact absurd h hcont.1
      · exact absurd h hcont.2
  · refine ⟨w1, w1, hqmid, rfl, hev, ?_, rfl, fun h => absurd h hcont, fun _ => rfl⟩
    rw [if_pos]
    · rfl
    · rw [hqmid]
      by_cases h1 : rest = []
      · left; rw [h1]; rfl
      · right
        have : w1.lchan.sapi_cmds = [] := by
          by_contra h2
          exact hcont ⟨h1, h2⟩
        rw [this]; rfl

/-- C3, the code at the failing input.  The last Activate command of the
activation of a TCH/F channel is completed with success.  The head command is
removed and its callback is invoked once with the status; the callback makes
the channel Active and queues the two ConfigureCiphering commands, so the queue
is non-empty after the callback has run.  With the cipher algorithm identifier
4 the new head has been executed and is in flight: its request is the one
request submitted and its transaction is pending.  With the identifier 5 the
queue is the same, but no request has been submitted for the new head and
nothing is pending. -/
theorem sapi_queue_dispatch_head_not_submitted :
    (sapi_queue_dispatch (last_activation 4) GsmL1_Status_Success).toOption.map
        (fun w => (w.lchan.sapi_cmds, callback_events w.trace, w.fl1h.write_q_L1,
          w.fl1h.wlc_list)) =
      some ([ciphering_cmd GsmL1_Dir_RxUplink, ciphering_cmd GsmL1_Dir_TxDownlink],
        [(sapi_cmd_callback.sapi_activate_cb, 0)],
        [.mphConfigReq (.setCipheringParams GsmL1_Dir_RxUplink GsmL1_CipherId_A53)],
        [wlc_for (ciphering_cmd GsmL1_Dir_RxUplink)]) ∧
    (sapi_queue_dispatch (last_activation 5) GsmL1_Status_Success).toOption.map
        (fun w => (w.lchan.sapi_cmds, callback_events w.trace, w.fl1h.write_q_L1,
          w.fl1h.wlc_list)) =
      some ([ciphering_cmd GsmL1_Dir_RxUplink, ciphering_cmd GsmL1_Dir_TxDownlink],
        [(sapi_cmd_callback.sapi_activate_cb, 0)], [], []) :=
  ⟨by decide, by decide⟩

/-! ## C9 -/

/-- C9.  Whatever the lifecycle state and the rest of the queue, the
completion of an Activate command (a command built by `enqueue_sapi_act_cmd`,
at the head of the queue) with a non-success status leaves the channel Broken
with an empty queue, hands exactly one MPH-INFO activation confirmation with
cause `RSL_ERR_EQUIPMENT_FAIL` to `l1sap_up` and leaves the layer-1 handle as
it was: nothing further is submitted.  This holds for `sapi_queue_dispatch` and
for `lchan_act_compl_cb` called with the matching confirmation. -/
theorem activate_failure_breaks_channel (w : World) (status : Int) (sapi : GsmL1_Sapi_t)
    (dir : GsmL1_Dir_t) (rest : List sapi_cmd)
    (hq : w.lchan.sapi_cmds = activate_cmd sapi dir :: rest)
    (hst : status ≠ GsmL1_Status_Success) :
    (∃ w', sapi_queue_dispatch w status = .ok w' ∧
      w'.lchan.state = LCHAN_S_BROKEN ∧ w'.lchan.sapi_cmds = [] ∧
      w'.l1sap_up = w.l1sap_up ++ [⟨PRIM_INFO_ACTIVATE, RSL_ERR_EQUIPMENT_FAIL⟩] ∧
      w'.fl1h = w.fl1h ∧
      callback_events w'.trace =
        callback_events w.trace ++ [(sapi_cmd_callback.sapi_activate_cb, status)]) ∧
    (∃ w', lchan_act_compl_cb w (.mphActivateCnf sapi dir status) = .ok (w', 0) ∧
      w'.lchan.state = LCHAN_S_BROKEN ∧ w'.lchan.sapi_cmds = [] ∧
      w'.l1sap_up = w.l1sap_up ++ [⟨PRIM_INFO_ACTIVATE, RSL_ERR_EQUIPMENT_FAIL⟩] ∧
      w'.fl1h = w.fl1h) := by
  have hdisp : ∀ w0 : World, w0.lchan.sapi_cmds = activate_cmd sapi dir :: rest →
      ∃ w', sapi_queue_dispatch w0 status = .ok w' ∧
        w'.lchan.state = LCHAN_S_BROKEN ∧ w'.lchan.sapi_cmds = [] ∧
        w'.l1sap_up = w0.l1sap_up ++ [⟨PRIM_INFO_ACTIVATE, RSL_ERR_EQUIPMENT_FAIL⟩] ∧
        w'.fl1h = w0.fl1h ∧
        callback_events w'.trace =
          callback_events w0.trace ++ [(sapi_cmd_callback.sapi_activate_cb, status)] := by
    intro w0 hq0
    unfold sapi_queue_dispatch
    rw [hq0]
    simp only [run_callback, activate_cmd, call_sapi_cmd_callback, sapi_activate_cb, hst,
      ne_eq, not_false_eq_true, ↓reduceIte, M_pure, M_bind_ok, mph_info_chan_confirm,
      sapi_clear_queue, lchan_set_state, List.isEmpty_nil, or_true]
    refine ⟨_, rfl, rfl, rfl, rfl, rfl, ?_⟩
    simp [World.llist_del_head, callback_events]
  refine ⟨hdisp w hq, ?_⟩
  obtain ⟨e1, e2, e3, e4, e5, e6, e7, e8⟩ := set_sapi_state_same w sapi dir
    (if status = GsmL1_Status_Success then LCHAN_SAPI_S_ASSIGNED else LCHAN_SAPI_S_ERROR)
  obtain ⟨w', hw', h1, h2, h3, h4, _⟩ := hdisp _ (e3.trans hq)
  refine ⟨w', ?_, h1, h2, by rw [h3, e7], by rw [h4, e6]⟩
  unfold lchan_act_compl_cb
  simp only [e3, hq, activate_cmd, ne_eq, not_true_eq_false, or_self, ↓reduceIte, hw',
    M_bind_ok, M_pure]

/-- Witness of C9: the last activation of a TCH/F channel fails. -/
theorem activate_failure_breaks_channel_witness :
    (last_activation 0).lchan.sapi_cmds =
      activate_cmd GsmL1_Sapi_Sacch GsmL1_Dir_RxUplink :: [] ∧ (1 : Int) ≠ GsmL1_Status_Success ∧
    (∃ w', sapi_queue_dispatch (last_activation 0) 1 = .ok w' ∧
      w'.lchan.state = LCHAN_S_BROKEN ∧ w'.lchan.sapi_cmds = [] ∧
      w'.l1sap_up =
        (last_activation 0).l1sap_up ++ [⟨PRIM_INFO_ACTIVATE, RSL_ERR_EQUIPMENT_FAIL⟩] ∧
      w'.fl1h = (last_activation 0).fl1h ∧
      callback_events w'.trace =
        callback_events (last_activation 0).trace ++
          [(sapi_cmd_callback.sapi_activate_cb, 1)]) ∧
    (∃ w', lchan_act_compl_cb (last_activation 0)
        (.mphActivateCnf GsmL1_Sapi_Sacch GsmL1_Dir_RxUplink 1) = .ok (w', 0) ∧
      w'.lchan.state = LCHAN_S_BROKEN ∧ w'.lchan.sapi_cmds = [] ∧
      w'.l1sap_up =
        (last_activation 0).l1sap_up ++ [⟨PRIM_INFO_ACTIVATE, RSL_ERR_EQUIPMENT_FAIL⟩] ∧
      w'.fl1h = (last_activation 0).fl1h) :=
  ⟨rfl, by decide,
    activate_failure_breaks_channel (last_activation 0) 1 GsmL1_Sapi_Sacch GsmL1_Dir_RxUplink []
      rfl (by decide)⟩

/-! ## C7 -/

/-- With a non-empty queue, the loop of `lchan_activate` only appends. -/
theorem lchan_activate_loop_queued (entries : List sapi_dir) :
    ∀ w : World, w.lchan.sapi_cmds ≠ [] →
      ∃ w', lchan_activate_loop entries w = .ok w' ∧
        w'.lchan.sapi_cmds =
          w.lchan.sapi_cmds ++ entries.map (fun sd => activate_cmd sd.sapi sd.dir) ∧
        w'.lchan.state = w.lchan.state ∧
        w'.fl1h.write_q_L1 = w.fl1h.write_q_L1 ∧ w'.fl1h.wlc_list = w.fl1h.wlc_list ∧
        w'.l1sap_up = w.l1sap_up := by
  induction entries with
  | nil => intro w _; exact ⟨w, rfl, by simp, rfl, rfl, rfl, rfl⟩
  | cons sd entries ih =>
    intro w hq
    unfold lchan_activate_loop enqueue_sapi_act_cmd
    set w1 : World := (if sd.sapi = GsmL1_Sapi_Sch then
        { w with fl1h := { w.fl1h with alive_timer := true, alive_prim_cnt := 0 } }
      else w) with hw1
    have e : w1.lchan = w.lchan ∧ w1.fl1h.write_q_L1 = w.fl1h.write_q_L1 ∧
        w1.fl1h.wlc_list = w.fl1h.wlc_list ∧ w1.l1sap_up = w.l1sap_up := by
      rw [hw1]; split <;> exact ⟨rfl, rfl, rfl, rfl⟩
    have hq1 : w1.lchan.sapi_cmds ≠ [] := by rw [e.1]; exact hq
    have hqc := queue_sapi_command_on_busy w1 (activate_cmd sd.sapi sd.dir) hq1
    simp only [activate_cmd] at hqc
    dsimp only
    rw [hqc]
    simp only [M_bind_ok, M_pure]
    obtain ⟨w', hw', h1, h2, h3, h4, h5⟩ := ih
      (w1.llist_add_tail (activate_cmd sd.sapi sd.dir)) (by simp [World.llist_add_tail])
    simp only [activate_cmd] at hw'
    refine ⟨w', hw', ?_, ?_, ?_, ?_, ?_⟩
    · rw [h1]; simp [World.llist_add_tail, e.1, activate_cmd]
    · rw [h2]; simp [World.llist_add_tail, e.1]
    · rw [h3]; exact e.2.1
    · rw [h4]; exact e.2.2.1
    · rw [h5]; exact e.2.2.2

/-- C7.  `l1if_rsl_chan_act` (`lchan_activate` with ActivationRequested) on a
channel whose queue is empty returns 0 and leaves the lifecycle state
ActivationRequested and the queue holding one Activate command per entry of the
channel type's table `sapis_for_lchan`, in table order; the request of the
first of them, and no other, has been put on the layer-1 write queue together
with its pending transaction.  For TCH/F these are TCH downlink, TCH uplink,
FACCH downlink, FACCH uplink, SACCH downlink, SACCH uplink. -/
theorem l1if_rsl_chan_act_queues_table (w : World) (hq : w.lchan.sapi_cmds = []) :
    ∃ w', l1if_rsl_chan_act w = .ok (w', 0) ∧
      w'.lchan.state = LCHAN_S_ACT_REQ ∧
      w'.lchan.sapi_cmds =
        (sapis_for_lchan w.lchan.type).map (fun sd => activate_cmd sd.sapi sd.dir) ∧
      w'.fl1h.write_q_L1 = w.fl1h.write_q_L1 ++
        ((sapis_for_lchan w.lchan.type).take 1).map (fun sd => .mphActivateReq sd.sapi sd.dir) ∧
      w'.fl1h.wlc_list =
        ((sapis_for_lchan w.lchan.type).take 1).map
          (fun sd => wlc_for (activate_cmd sd.sapi sd.dir)) ++ w.fl1h.wlc_list ∧
      w'.l1sap_up = w.l1sap_up ∧
      (w.lchan.type = GSM_LCHAN_TCH_F →
        w'.lchan.sapi_cmds =
          [ activate_cmd GsmL1_Sapi_TchF GsmL1_Dir_TxDownlink,
            activate_cmd GsmL1_Sapi_TchF GsmL1_Dir_RxUplink,
            activate_cmd GsmL1_Sapi_FacchF GsmL1_Dir_TxDownlink,
            activate_cmd GsmL1_Sapi_FacchF GsmL1_Dir_RxUplink,
            activate_cmd GsmL1_Sapi_Sacch GsmL1_Dir_TxDownlink,
            activate_cmd GsmL1_Sapi_Sacch GsmL1_Dir_RxUplink ]) := by
  unfold l1if_rsl_chan_act lchan_activate
  have hty : (lchan_set_state w LCHAN_S_ACT_REQ).lchan.type = w.lchan.type := rfl
  dsimp only
  rw [hty]
  have key : ∃ w', lchan_activate_loop (sapis_for_lchan w.lchan.type)
        (lchan_set_state w LCHAN_S_ACT_REQ) = .ok w' ∧
      w'.lchan.state = LCHAN_S_ACT_REQ ∧
      w'.lchan.sapi_cmds =
        (sapis_for_lchan w.lchan.type).map (fun sd => activate_cmd sd.sapi sd.dir) ∧
      w'.fl1h.write_q_L1 = w.fl1h.write_q_L1 ++
        ((sapis_for_lchan w.lchan.type).take 1).map (fun sd => .mphActivateReq sd.sapi sd.dir) ∧
      w'.fl1h.wlc_list =
        ((sapis_for_lchan w.lchan.type).take 1).map
          (fun sd => wlc_for (activate_cmd sd.sapi sd.dir)) ++ w.fl1h.wlc_list ∧
      w'.l1sap_up = w.l1sap_up := by
    generalize sapis_for_lchan w.lchan.type = entries
    cases entries with
    | nil => exact ⟨_, rfl, rfl, by simp [lchan_set_state, hq], by simp [lchan_set_state],
        by simp [lchan_set_state], rfl⟩
    | cons sd entries =>
      unfold lchan_activate_loop enqueue_sapi_act_cmd
      set w1 : World := (if sd.sapi = GsmL1_Sapi_Sch then
          { lchan_set_state w LCHAN_S_ACT_REQ with
            fl1h := { (lchan_set_state w LCHAN_S_ACT_REQ).fl1h with
              alive_timer := true, alive_prim_cnt := 0 } }
        else lchan_set_state w LCHAN_S_ACT_REQ) with hw1
      have e : w1.lchan = (lchan_set_state w LCHAN_S_ACT_REQ).lchan ∧
          w1.fl1h.write_q_L1 = w.fl1h.write_q_L1 ∧
          w1.fl1h.wlc_list = w.fl1h.wlc_list ∧ w1.l1sap_up = w.l1sap_up := by
        rw [hw1]; split <;> exact ⟨rfl, rfl, rfl, rfl⟩
      have hq1 : w1.lchan.sapi_cmds = [] := by rw [e.1]; exact hq
      obtain ⟨r, hr, hq2, hqc, hex⟩ := (queue_sapi_command_on_empty w1
        (activate_cmd sd.sapi sd.dir) hq1)
      have hr1 := hex rfl
      simp only [activate_cmd] at hqc
      dsimp only
      rw [hqc]
      simp only [M_bind_ok, M_pure]
      have hne : r.1.lchan.sapi_cmds ≠ [] := by
        rw [hr1]
        simp [World.executed, submits, activate_cmd, World.llist_add_tail]
      obtain ⟨w', hw', h1, h2, h3, h4, h5⟩ := lchan_activate_loop_queued entries r.1 hne
      refine ⟨w', hw', ?_, ?_, ?_, ?_, ?_⟩
      · rw [h2, hr1]
        simp [World.executed, submits, activate_cmd, World.llist_add_tail, e.1, lchan_set_state]
      · rw [h1, hr1]
        simp [World.executed, submits, activate_cmd, World.llist_add_tail, hq1]
      · rw [h3, hr1]
        simp [World.executed, submits, activate_cmd, World.llist_add_tail,
          femtol1_hdl.submitted, e.2.1, request_of, e.1]
      · rw [h4, hr1]
        simp [World.executed, submits, activate_cmd, World.llist_add_tail,
          femtol1_hdl.submitted, e.2.2.1]
      · rw [h5, hr1]
        simp [World.executed, submits, activate_cmd, World.llist_add_tail, e.2.2.2]
  obtain ⟨w', hw', h1, h2, h3, h4, h5⟩ := key
  simp only [hw', M_bind_ok, M_pure]
  refine ⟨w', rfl, h1, h2, h3, h4, h5, fun hT => ?_⟩
  rw [h2, hT]
  rfl

/-- Witness of C7: the activation of an idle TCH/F channel. -/
theorem l1if_rsl_chan_act_queues_table_witness :
    ∃ w', l1if_rsl_chan_act (tchf_channel LCHAN_S_NONE 0) = .ok (w', 0) ∧
      w'.lchan.state = LCHAN_S_ACT_REQ ∧
      w'.lchan.sapi_cmds =
        (sapis_for_lchan (tchf_channel LCHAN_S_NONE 0).lchan.type).map
          (fun sd => activate_cmd sd.sapi sd.dir) ∧
      w'.fl1h.write_q_L1 = (tchf_channel LCHAN_S_NONE 0).fl1h.write_q_L1 ++
        ((sapis_for_lchan (tchf_channel LCHAN_S_NONE 0).lchan.type).take 1).map
          (fun sd => .mphActivateReq sd.sapi sd.dir) ∧
      w'.fl1h.wlc_list =
        ((sapis_for_lchan (tchf_channel LCHAN_S_NONE 0).lchan.type).take 1).map
          (fun sd => wlc_for (activate_cmd sd.sapi sd.dir)) ++
            (tchf_channel LCHAN_S_NONE 0).fl1h.wlc_list ∧
      w'.l1sap_up = (tchf_channel LCHAN_S_NONE 0).l1sap_up ∧
      ((tchf_channel LCHAN_S_NONE 0).lchan.type = GSM_LCHAN_TCH_F →
        w'.lchan.sapi_cmds =
          [ activate_cmd GsmL1_Sapi_TchF GsmL1_Dir_TxDownlink,
            activate_cmd GsmL1_Sapi_TchF GsmL1_Dir_RxUplink,
            activate_cmd GsmL1_Sapi_FacchF GsmL1_Dir_TxDownlink,
            activate_cmd GsmL1_Sapi_FacchF GsmL1_Dir_RxUplink,
            activate_cmd GsmL1_Sapi_Sacch GsmL1_Dir_TxDownlink,
            activate_cmd GsmL1_Sapi_Sacch GsmL1_Dir_RxUplink ]) :=
  l1if_rsl_chan_act_queues_table (tchf_channel LCHAN_S_NONE 0) rfl

/-! ## C6 -/

/-- C6.  `_l1if_req_compl` returns `-EINVAL` if and only if the kind of the
submitted primitive is not of request type in the type table of its domain
(layer 1 for `is_system_prim = 0`, system otherwise); then the handle is
unchanged: nothing is put on a write queue and no transaction is registered.
Otherwise it returns 0, the message is appended to the write queue of its own
domain, the other write queue is unchanged, and exactly one pending transaction
is added, of that domain, with the callback given and with the
request-to-confirm image of the request's kind as expected kind; its deadline
timer is armed with 30 seconds. -/
theorem l1if_req_compl_spec (T : femtobts_tables) (fl1h : femtol1_hdl) (msg : msgb)
    (is_system_prim : Int) (cb : Option l1if_compl_cb) :
    ((_l1if_req_compl T fl1h msg is_system_prim cb).2 = -EINVAL ↔
      (if is_system_prim = 0 then T.femtobts_l1prim_type msg.id
        else T.femtobts_sysprim_type msg.id) ≠ L1P_T_REQ) ∧
    ((if is_system_prim = 0 then T.femtobts_l1prim_type msg.id
        else T.femtobts_sysprim_type msg.id) ≠ L1P_T_REQ →
      (_l1if_req_compl T fl1h msg is_system_prim cb).1 = fl1h) ∧
    ((if is_system_prim = 0 then T.femtobts_l1prim_type msg.id
        else T.femtobts_sysprim_type msg.id) = L1P_T_REQ →
      (_l1if_req_compl T fl1h msg is_system_prim cb).2 = 0 ∧
      (_l1if_req_compl T fl1h msg is_system_prim cb).1.write_q_L1 =
        (if is_system_prim = 0 then fl1h.write_q_L1 ++ [msg] else fl1h.write_q_L1) ∧
      (_l1if_req_compl T fl1h msg is_system_prim cb).1.write_q_SYS =
        (if is_system_prim = 0 then fl1h.write_q_SYS else fl1h.write_q_SYS ++ [msg]) ∧
      (_l1if_req_compl T fl1h msg is_system_prim cb).1.wlc_list =
        { conf_prim_id :=
            if is_system_prim = 0 then T.femtobts_l1prim_req2conf msg.id
            else T.femtobts_sysprim_req2conf msg.id
          is_sys_prim := if is_system_prim = 0 then 0 else 1
          cb := cb } :: fl1h.wlc_list ∧
      (_l1if_req_compl T fl1h msg is_system_prim cb).1.timers.map (fun t => (t.secs, t.usecs)) =
        (30, 0) :: fl1h.timers.map (fun t => (t.secs, t.usecs))) := by
  unfold _l1if_req_compl
  by_cases hs : is_system_prim = 0
  · by_cases ht : T.femtobts_l1prim_type msg.id = L1P_T_REQ
    · simp [hs, ht, EINVAL]
    · simp [hs, ht, EINVAL]
  · by_cases ht : T.femtobts_sysprim_type msg.id = L1P_T_REQ
    · simp [hs, ht, EINVAL]
    · simp [hs, ht, EINVAL]

/-- Witness of C6: an MPH-ACTIVATE request is accepted by `l1if_gsm_req_compl`
with the tables of the channel code, and an MPH-ACTIVATE confirmation is
refused. -/
theorem l1if_req_compl_spec_witness :
    (_l1if_req_compl femtobts fl1h_idle (.mphActivateReq GsmL1_Sapi_TchF 1) 0
        (some .lchan_act_compl_cb)).2 = 0 ∧
    (_l1if_req_compl femtobts fl1h_idle (.mphActivateReq GsmL1_Sapi_TchF 1) 0
        (some .lchan_act_compl_cb)).1.wlc_list =
      [⟨GsmL1_PrimId_MphActivateCnf, 0, some .lchan_act_compl_cb⟩] ∧
    (_l1if_req_compl femtobts fl1h_idle (.mphActivateCnf GsmL1_Sapi_TchF 1 0) 0
        (some .lchan_act_compl_cb)).1 = fl1h_idle :=
  have h1 := (l1if_req_compl_spec femtobts fl1h_idle (.mphActivateReq GsmL1_Sapi_TchF 1) 0
    (some .lchan_act_compl_cb)).2.2 (by decide)
  have h2 := (l1if_req_compl_spec femtobts fl1h_idle (.mphActivateCnf GsmL1_Sapi_TchF 1 0) 0
    (some .lchan_act_compl_cb)).2.1 (by decide)
  ⟨h1.1, h1.2.2.2.1, h2⟩

/-! ## C5 -/

theorem find_eraseP_of_split {α : Type} (p : α → Bool) (pre post : List α) (x : α)
    (hpre : ∀ y ∈ pre, p y = false) (hx : p x = true) :
    (pre ++ x :: post).find? p = some x ∧ (pre ++ x :: post).eraseP p = pre ++ post := by
  induction pre with
  | nil => simp [hx]
  | cons y pre ih =>
    have hy : p y = false := hpre y (List.mem_cons_self _ _)
    have ih' := ih (fun z hz => hpre z (List.mem_cons_of_mem _ hz))
    simp [List.find?_cons, hy, ih'.1, ih'.2]

theorem split_of_exists {α : Type} (p : α → Bool) (l : List α) (h : ∃ x ∈ l, p x = true) :
    ∃ pre x post, l = pre ++ x :: post ∧ (∀ y ∈ pre, p y = false) ∧ p x = true := by
  induction l with
  | nil => simp at h
  | cons y l ih =>
    by_cases hy : p y = true
    · exact ⟨[], y, l, rfl, by simp, hy⟩
    · have hy' : p y = false := by simpa using hy
      obtain ⟨x, hx, hpx⟩ := h
      have hxl : x ∈ l := by
        rcases List.mem_cons.mp hx with h | h
        · rw [h] at hpx; rw [hpx] at hy'; cases hy'
        · exact h
      obtain ⟨pre, x', post, hl, hpre, hx'⟩ := ih ⟨x, hxl, hpx⟩
      refine ⟨y :: pre, x', post, by rw [hl]; rfl, ?_, hx'⟩
      intro z hz
      rcases List.mem_cons.mp hz with h | h
      · rw [h]; exact hy'
      · exact hpre z h

theorem compat_iff_matches (sys : Bool) (msg : msgb) (wlc : wait_l1_conf) :
    (if sys then is_sysprim_compat msg wlc else is_prim_compat msg wlc) = true ↔
      wlc_matches sys msg wlc := by
  cases sys
  · simp only [Bool.false_eq_true, ↓reduceIte, is_prim_compat, wlc_matches]
    have hc : (msg.id = wlc.conf_prim_id) = (wlc.conf_prim_id = msg.id) :=
      propext ⟨Eq.symm, Eq.symm⟩
    by_cases h1 : wlc.is_sys_prim = 0 <;> by_cases h2 : wlc.conf_prim_id = msg.id <;>
      simp [h1, h2, hc]
  · simp only [↓reduceIte, is_sysprim_compat, wlc_matches]
    have hc : (msg.id = wlc.conf_prim_id) = (wlc.conf_prim_id = msg.id) :=
      propext ⟨Eq.symm, Eq.symm⟩
    by_cases h1 : wlc.is_sys_prim = 0 <;> by_cases h2 : wlc.conf_prim_id = msg.id <;>
      simp [h1, h2, hc]

theorem l1if_handle_eq (sys : Bool) (call_cb : l1if_compl_cb → World → msgb → M (World × Int))
    (ind : World → msgb → M (World × Int)) (w : World) (msg : msgb) :
    l1if_handle sys call_cb ind w msg =
      l1if_handle_prim (fun m x => if sys then is_sysprim_compat m x else is_prim_compat m x)
        call_cb ind w msg := by
  cases sys <;> rfl

/-- C5.  For either domain, every inbound primitive, every list of pending
transactions and whatever the callbacks and the indication handler do:
if some pending transaction has the primitive's domain and expects its kind,
the first such transaction `wlc` is the one taken: the callback of `wlc` is
called once, with the primitive, on the state in which `wlc` alone has been
removed from the pending list (the transactions before and behind it are
unchanged), then `release_wlc` cancels the timer of `wlc`, and the value of the
callback is returned (a transaction without callback frees the message and
yields 0); if none matches, the outcome is that of the indication handler on
the unchanged state.  A transaction of the other domain never matches, even
with an equal kind. -/
theorem l1if_handle_prim_correlates (sys : Bool)
    (call_cb : l1if_compl_cb → World → msgb → M (World × Int))
    (ind : World → msgb → M (World × Int)) (w : World) (msg : msgb) :
    ((∃ x ∈ w.fl1h.wlc_list, wlc_matches sys msg x) →
      ∃ pre wlc post, w.fl1h.wlc_list = pre ++ wlc :: post ∧
        (∀ y ∈ pre, ¬ wlc_matches sys msg y) ∧ wlc_matches sys msg wlc ∧
        l1if_handle sys call_cb ind w msg =
          (match wlc.cb with
            | some cb =>
              call_cb cb { w with fl1h := { w.fl1h with wlc_list := pre ++ post } } msg
            | none =>
              pure ({ w with fl1h := { w.fl1h with wlc_list := pre ++ post } }, 0)) >>=
          fun r => pure ({ r.1 with fl1h := release_wlc wlc r.1.fl1h }, r.2)) ∧
    ((∀ x ∈ w.fl1h.wlc_list, ¬ wlc_matches sys msg x) →
      l1if_handle sys call_cb ind w msg = ind w msg) ∧
    (∀ x : wait_l1_conf, wlc_matches sys msg x → ¬ wlc_matches (!sys) msg x) ∧
    (∀ (wlc : wait_l1_conf) (fl1h : femtol1_hdl),
      (release_wlc wlc fl1h).timers = fl1h.timers.eraseP (fun t => t.data = wlc) ∧
      (release_wlc wlc fl1h).wlc_list = fl1h.wlc_list) := by
  refine ⟨?_, ?_, ?_, fun _ _ => ⟨rfl, rfl⟩⟩
  · intro hex
    obtain ⟨pre, wlc, post, hl, hpre, hx⟩ := split_of_exists
      (fun x => if sys then is_sysprim_compat msg x else is_prim_compat msg x) w.fl1h.wlc_list
      (by
        obtain ⟨x, hx, hm⟩ := hex
        exact ⟨x, hx, (compat_iff_matches sys msg x).mpr hm⟩)
    refine ⟨pre, wlc, post, hl, ?_, (compat_iff_matches sys msg wlc).mp hx, ?_⟩
    · intro y hy hm
      have := hpre y hy
      rw [(compat_iff_matches sys msg y).mpr hm] at this
      cases this
    · obtain ⟨hf, he⟩ := find_eraseP_of_split
        (fun x => if sys then is_sysprim_compat msg x else is_prim_compat msg x) pre post wlc
        hpre hx
      rw [l1if_handle_eq]
      unfold l1if_handle_prim
      simp only [hl, hf, he]
      cases wlc.cb <;> rfl
  · intro hnone
    rw [l1if_handle_eq]
    unfold l1if_handle_prim
    have : w.fl1h.wlc_list.find?
        (fun x => if sys then is_sysprim_compat msg x else is_prim_compat msg x) = none := by
      rw [List.find?_eq_none]
      intro x hx hc
      exact hnone x hx ((compat_iff_matches sys msg x).mp hc)
    simp only [this]
  · intro x hm hm'
    cases sys
    · simp only [wlc_matches, Bool.false_eq_true, ↓reduceIte, Bool.not_false] at hm hm'
      exact hm'.1 hm.1
    · simp only [wlc_matches, ↓reduceIte, Bool.not_true, Bool.false_eq_true] at hm hm'
      exact hm.1 hm'.1

/-- Witness of C5: a layer-1 primitive of kind 12 arrives while a layer-1
transaction expecting kind 9, a system transaction expecting kind 12 and a
layer-1 transaction expecting kind 12 are pending; the third one is taken. -/
theorem l1if_handle_prim_correlates_witness :
    (∃ x ∈ three_pending.fl1h.wlc_list, wlc_matches false (.other 12) x) ∧
    ∃ pre wlc post, three_pending.fl1h.wlc_list = pre ++ wlc :: post ∧
      (∀ y ∈ pre, ¬ wlc_matches false (.other 12) y) ∧ wlc_matches false (.other 12) wlc ∧
      l1if_handle false call_l1if_compl_cb l1if_handle_ind_default three_pending (.other 12) =
        (match wlc.cb with
          | some cb =>
            call_l1if_compl_cb cb
              { three_pending with fl1h := { three_pending.fl1h with wlc_list := pre ++ post } }
              (.other 12)
          | none =>
            pure ({ three_pending with
              fl1h := { three_pending.fl1h with wlc_list := pre ++ post } }, 0)) >>=
        fun r => pure ({ r.1 with fl1h := release_wlc wlc r.1.fl1h }, r.2) :=
  have hex : ∃ x ∈ three_pending.fl1h.wlc_list, wlc_matches false (.other 12) x :=
    ⟨⟨12, 0, some (.other_cb 2)⟩, by simp [three_pending], by simp [wlc_matches, msgb.id]⟩
  ⟨hex, (l1if_handle_prim_correlates false call_l1if_compl_cb l1if_handle_ind_default
    three_pending (.other 12)).1 hex⟩

/-! ## Command callbacks and facility states; C10 -/

theorem World_executed_lchan (w : World) (cmd : sapi_cmd) :
    (w.executed cmd).lchan = w.lchan := by
  unfold World.executed
  split <;> rfl

/-- Queueing a non-marker command changes nothing of the channel but its
queue, which gains the command. -/
theorem queue_sapi_command_non_marker (w : World) (cmd : sapi_cmd)
    (hm : is_marker cmd = false) :
    ∃ r, queue_sapi_command sapi_queue_send w cmd = .ok r ∧
      r.1.lchan = (w.llist_add_tail cmd).lchan := by
  by_cases hq : w.lchan.sapi_cmds = []
  · obtain ⟨r, _, _, hr, he⟩ := queue_sapi_command_on_empty w cmd hq
    exact ⟨_, hr, by rw [he hm, World_executed_lchan]⟩
  · exact ⟨_, queue_sapi_command_on_busy w cmd hq, rfl⟩

theorem l1if_set_ciphering_lchan (w : World) (dir_downlink : Int) :
    ∃ r, l1if_set_ciphering w dir_downlink = .ok r ∧
      r.1.lchan.sapis_dl = w.lchan.sapis_dl ∧ r.1.lchan.sapis_ul = w.lchan.sapis_ul ∧
      r.1.lchan.state = w.lchan.state := by
  unfold l1if_set_ciphering enqueue_sapi_ciphering_cmd
  split
  · exact ⟨_, rfl, rfl, rfl, rfl⟩
  · obtain ⟨r, hr, hl⟩ := queue_sapi_command_non_marker w
      { sapi := GsmL1_Sapi_Idle,
        dir := if dir_downlink ≠ 0 then GsmL1_Dir_RxUplink else GsmL1_Dir_TxDownlink,
        type := SAPI_CMD_CONFIG_CIPHERING, callback := none } rfl
    refine ⟨(r.1, 0), by simp only [hr, M_bind_ok, M_pure], ?_, ?_, ?_⟩ <;>
      simp only [hl] <;> rfl

/-- A command callback leaves every facility state as it is; on a non-empty
queue it leaves the queue alone or empties it. -/
theorem call_sapi_cmd_callback_sapis (cb : sapi_cmd_callback) (w : World) (status : Int) :
    ∃ r, call_sapi_cmd_callback cb w status = .ok r ∧
      r.1.lchan.sapis_dl = w.lchan.sapis_dl ∧ r.1.lchan.sapis_ul = w.lchan.sapis_ul ∧
      (w.lchan.sapi_cmds ≠ [] →
        r.1.lchan.sapi_cmds = w.lchan.sapi_cmds ∨ r.1.lchan.sapi_cmds = []) := by
  unfold call_sapi_cmd_callback
  cases cb with
  | sapi_activate_cb =>
    simp only
    unfold sapi_activate_cb
    split
    · exact ⟨_, rfl, rfl, rfl, fun _ => Or.inr rfl⟩
    · split
      · exact ⟨_, rfl, rfl, rfl, fun _ => Or.inl rfl⟩
      · rename_i hne
        split
        · exact ⟨_, rfl, rfl, rfl, fun _ => Or.inl rfl⟩
        · obtain ⟨r1, hr1, hd1, hu1, _⟩ := l1if_set_ciphering_lchan
            (mph_info_chan_confirm
              (lchan_set_state { w with trace := w.trace ++ [Event.callback .sapi_activate_cb status] }
                LCHAN_S_ACTIVE) PRIM_INFO_ACTIVATE 0) 1
          obtain ⟨r2, hr2, hd2, hu2, _⟩ := l1if_set_ciphering_lchan r1.1 0
          simp only [hr1, hr2, M_bind_ok, M_pure]
          refine ⟨_, rfl, ?_, ?_, ?_⟩
          · split <;> simp only [hd2, hd1] <;> rfl
          · split <;> simp only [hu2, hu1] <;> rfl
          · intro hq
            exfalso
            apply hne
            simp only [List.isEmpty_iff]
            exact hq
  | sapi_deactivate_cb =>
    simp only
    unfold sapi_deactivate_cb
    split
    · exact ⟨_, rfl, rfl, rfl, fun _ => Or.inr rfl⟩
    · split
      · exact ⟨_, rfl, rfl, rfl, fun _ => Or.inl rfl⟩
      · split
        · exact ⟨_, rfl, rfl, rfl, fun _ => Or.inl rfl⟩
        · exact ⟨_, rfl, rfl, rfl, fun _ => Or.inl rfl⟩

theorem run_callback_sapis (cmd : sapi_cmd) (w : World) (status : Int) :
    ∃ w1, run_callback cmd w status = .ok w1 ∧
      w1.lchan.sapis_dl = w.lchan.sapis_dl ∧ w1.lchan.sapis_ul = w.lchan.sapis_ul ∧
      (w.lchan.sapi_cmds ≠ [] →
        w1.lchan.sapi_cmds = w.lchan.sapi_cmds ∨ w1.lchan.sapi_cmds = []) := by
  unfold run_callback
  cases hc : cmd.callback with
  | none => exact ⟨w, rfl, rfl, rfl, fun _ => Or.inl rfl⟩
  | some cb =>
    obtain ⟨r, hr, h⟩ := call_sapi_cmd_callback_sapis cb w status
    exact ⟨r.1, by simp only [hr, M_bind_ok, M_pure], h⟩

/-- When the command behind the head is not a marker, `sapi_queue_dispatch`
leaves every facility state as it is. -/
theorem sapi_queue_dispatch_sapis (w : World) (cmd : sapi_cmd) (rest : List sapi_cmd)
    (status : Int) (hq : w.lchan.sapi_cmds = cmd :: rest)
    (hnext : ∀ c, rest.head? = some c → is_marker c = false) :
    ∃ w', sapi_queue_dispatch w status = .ok w' ∧
      w'.lchan.sapis_dl = w.lchan.sapis_dl ∧ w'.lchan.sapis_ul = w.lchan.sapis_ul := by
  unfold sapi_queue_dispatch
  simp only [hq]
  have hdel : w.llist_del_head.lchan.sapi_cmds = rest := by
    simp [World.llist_del_head, hq]
  obtain ⟨w1, hw1, hd, hu, hqq⟩ := run_callback_sapis cmd w.llist_del_head status
  simp only [hw1, M_bind_ok, hdel]
  have hd' : w1.lchan.sapis_dl = w.lchan.sapis_dl := by rw [hd]; rfl
  have hu' : w1.lchan.sapis_ul = w.lchan.sapis_ul := by rw [hu]; rfl
  split
  · exact ⟨_, rfl, hd', hu'⟩
  · rename_i hcond
    simp only [not_or, List.isEmpty_iff] at hcond
    have hrest : w.llist_del_head.lchan.sapi_cmds ≠ [] := by rw [hdel]; exact hcond.1
    have hw1q : w1.lchan.sapi_cmds = rest := by
      rcases hqq hrest with h | h
      · rw [h, hdel]
      · exact absurd h hcond.2
    cases hr : rest with
    | nil => exact absurd hr hcond.1
    | cons c rest' =>
      have hm : is_marker c = false := hnext c (by rw [hr]; rfl)
      rw [sapi_queue_send_non_marker w1 c rest' (by rw [hw1q, hr]) hm]
      exact ⟨_, rfl, by rw [World_executed_lchan, hd'], by rw [World_executed_lchan, hu']⟩

/-- The callback `sapi_activate_cb` called with the status success in the
state `w` (the completed command is already removed).  If the queue of `w` is
empty and the state is ActivationRequested, it returns 0 in a state that is
Active, one positive activation result has been reported upward, the queue is
[ConfigureCiphering(uplink), ConfigureCiphering(downlink)], the cipher state is
requested for both directions exactly when the algorithm identifier is not 0,
and with an algorithm identifier inside `rsl2l1_ciph` exactly the request of
the first of the two commands was submitted and registered, whereas with one
outside the layer-1 handle is untouched.  In every other case it returns 0 and
changes nothing. -/
theorem sapi_activate_cb_success (w : World) :
    (w.lchan.sapi_cmds = [] ∧ w.lchan.state = LCHAN_S_ACT_REQ →
      ∃ w', sapi_activate_cb w GsmL1_Status_Success = .ok (w', 0) ∧
        w'.lchan.state = LCHAN_S_ACTIVE ∧
        w'.l1sap_up = w.l1sap_up ++ [{ type := PRIM_INFO_ACTIVATE, cause := 0 }] ∧
        w'.lchan.sapi_cmds =
          [ciphering_cmd GsmL1_Dir_RxUplink, ciphering_cmd GsmL1_Dir_TxDownlink] ∧
        w'.lchan.ciph_state =
          (if w.lchan.encr_alg_id ≠ 0 then LCHAN_CIPH_RXTX_REQ else LCHAN_CIPH_NONE) ∧
        (w.lchan.encr_alg_id < rsl2l1_ciph.length →
          w'.fl1h.write_q_L1 = w.fl1h.write_q_L1 ++
            [.mphConfigReq (.setCipheringParams GsmL1_Dir_RxUplink
              (rsl2l1_ciph.getD w.lchan.encr_alg_id GsmL1_CipherId_A50))] ∧
          w'.fl1h.wlc_list =
            { conf_prim_id := GsmL1_PrimId_MphConfigCnf, is_sys_prim := 0,
              cb := some .chmod_modif_compl_cb } :: w.fl1h.wlc_list) ∧
        (rsl2l1_ciph.length ≤ w.lchan.encr_alg_id → w'.fl1h = w.fl1h)) ∧
    (¬ (w.lchan.sapi_cmds = [] ∧ w.lchan.state = LCHAN_S_ACT_REQ) →
      sapi_activate_cb w GsmL1_Status_Success = .ok (w, 0)) := by
  constructor
  · rintro ⟨hq, hst⟩
    have hq0 : (mph_info_chan_confirm (lchan_set_state w LCHAN_S_ACTIVE)
        PRIM_INFO_ACTIVATE 0).lchan.sapi_cmds = [] := hq
    obtain ⟨r, _, _, hr, he⟩ := queue_sapi_command_on_empty _
      (ciphering_cmd GsmL1_Dir_RxUplink) hq0
    have he' := he rfl
    have hbusy : r.1.lchan.sapi_cmds ≠ [] := by
      rw [he', World_executed_lchan]
      simp [World.llist_add_tail]
    have hr2 := queue_sapi_command_on_busy r.1 (ciphering_cmd GsmL1_Dir_TxDownlink) hbusy
    have hstate : r.1.lchan.state = LCHAN_S_ACTIVE := by
      rw [he', World_executed_lchan]; rfl
    have hs1 : (mph_info_chan_confirm (lchan_set_state w LCHAN_S_ACTIVE)
        PRIM_INFO_ACTIVATE 0).lchan.state = LCHAN_S_ACTIVE := rfl
    have h1 : l1if_set_ciphering (mph_info_chan_confirm (lchan_set_state w LCHAN_S_ACTIVE)
        PRIM_INFO_ACTIVATE 0) 1 = .ok (r.1, 0) := by
      simp only [ciphering_cmd] at hr
      unfold l1if_set_ciphering enqueue_sapi_ciphering_cmd
      simp only [hs1, ne_eq, not_true_eq_false, ↓reduceIte, one_ne_zero, not_false_eq_true,
        hr, M_bind_ok, M_pure]
    have h2 : l1if_set_ciphering r.1 0 =
        .ok (r.1.llist_add_tail (ciphering_cmd GsmL1_Dir_TxDownlink), 0) := by
      simp only [ciphering_cmd] at hr2
      unfold l1if_set_ciphering enqueue_sapi_ciphering_cmd
      simp only [hstate, ne_eq, not_true_eq_false, ↓reduceIte,
        hr2, M_bind_ok, M_pure, ciphering_cmd]
    have hfin : sapi_activate_cb w GsmL1_Status_Success =
        .ok ((if (r.1.llist_add_tail (ciphering_cmd GsmL1_Dir_TxDownlink)).lchan.encr_alg_id ≠ 0
          then { r.1.llist_add_tail (ciphering_cmd GsmL1_Dir_TxDownlink) with
            lchan := { (r.1.llist_add_tail (ciphering_cmd GsmL1_Dir_TxDownlink)).lchan with
              ciph_state := LCHAN_CIPH_RXTX_REQ } }
          else { r.1.llist_add_tail (ciphering_cmd GsmL1_Dir_TxDownlink) with
            lchan := { (r.1.llist_add_tail (ciphering_cmd GsmL1_Dir_TxDownlink)).lchan with
              ciph_state := LCHAN_CIPH_NONE } }), 0) := by
      unfold sapi_activate_cb
      simp only [hq, hst, List.isEmpty_nil, not_true_eq_false, ne_eq, ↓reduceIte,
        h1, h2, M_bind_ok, M_pure]
    have halg : (r.1.llist_add_tail (ciphering_cmd GsmL1_Dir_TxDownlink)).lchan.encr_alg_id =
        w.lchan.encr_alg_id := by
      show r.1.lchan.encr_alg_id = _
      rw [he', World_executed_lchan]; rfl
    have hlchan : r.1.lchan =
        ((mph_info_chan_confirm (lchan_set_state w LCHAN_S_ACTIVE)
          PRIM_INFO_ACTIVATE 0).llist_add_tail (ciphering_cmd GsmL1_Dir_RxUplink)).lchan := by
      rw [he', World_executed_lchan]
    have hup : r.1.l1sap_up = w.l1sap_up ++ [{ type := PRIM_INFO_ACTIVATE, cause := 0 }] := by
      rw [he']
      unfold World.executed
      split <;> rfl
    refine ⟨_, hfin, ?_, ?_, ?_, ?_, ?_, ?_⟩
    · split <;> exact hstate
    · split <;> exact hup
    · split <;>
        simp [World.llist_add_tail, hlchan, lchan_set_state, mph_info_chan_confirm, hq]
    · rw [halg]
      split <;> rfl
    · intro hlt
      have hs : submits w.lchan.encr_alg_id (ciphering_cmd GsmL1_Dir_RxUplink) = true := by
        simp [submits, hlt]
      have hf : r.1.fl1h = femtol1_hdl.submitted w.fl1h
          (request_of w.lchan.type w.lchan.encr_alg_id (ciphering_cmd GsmL1_Dir_RxUplink))
          (wlc_for (ciphering_cmd GsmL1_Dir_RxUplink)) := by
        rw [he']
        unfold World.executed
        exact (congrArg World.fl1h (if_pos hs)).trans rfl
      split <;>
        simp [World.llist_add_tail, hf, femtol1_hdl.submitted, request_of, wlc_for,
          ciphering_cmd]
    · intro hge
      have hs : submits w.lchan.encr_alg_id (ciphering_cmd GsmL1_Dir_RxUplink) = false := by
        simp [submits, ciphering_cmd, hge]
      have hf : r.1.fl1h = w.fl1h := by
        rw [he']
        unfold World.executed
        have hs' : ¬ submits w.lchan.encr_alg_id (ciphering_cmd GsmL1_Dir_RxUplink) = true := by
          rw [hs]; simp
        exact (congrArg World.fl1h (if_neg hs')).trans rfl
      split <;> exact hf
  · intro hn
    unfold sapi_activate_cb
    by_cases hq : w.lchan.sapi_cmds = []
    · have hst : w.lchan.state ≠ LCHAN_S_ACT_REQ := fun h => hn ⟨hq, h⟩
      simp [hq, hst]
    · have : w.lchan.sapi_cmds.isEmpty = false := by
        cases h : w.lchan.sapi_cmds with
        | nil => exact absurd h hq
        | cons _ _ => rfl
      simp [this]

/-- C10, counterexample.  A release was requested while the activation of a
TCH/F channel was still running, so the release marker is behind the last
Activate command (SACCH uplink).  The matching success confirmation of that
command sets SACCH uplink to Assigned and then executes the marker, which
moves every Assigned facility to Release: at the end of the completion
SACCH uplink is Release, not Assigned, and TCH/F downlink, which the
confirmation does not name, went from Assigned to Release. -/
theorem act_confirmation_then_marker_releases :
    release_during_activation.lchan.sapis_dl GsmL1_Sapi_TchF = LCHAN_SAPI_S_ASSIGNED ∧
    (lchan_act_compl_cb release_during_activation
        (.mphActivateCnf GsmL1_Sapi_Sacch GsmL1_Dir_RxUplink GsmL1_Status_Success)).toOption.map
        (fun r => (r.1.lchan.sapis_ul GsmL1_Sapi_Sacch, r.1.lchan.sapis_dl GsmL1_Sapi_TchF)) =
      some (LCHAN_SAPI_S_REL, LCHAN_SAPI_S_REL) := by
  decide

/-- C10, amended.  Let `cmd` be the head command.  The activation
(deactivation) confirmation that matches it first sets the facility state of
the confirmed facility, in exactly the direction(s) named by the confirmation,
to Assigned (Unassigned) when its status is success and to Error otherwise,
every other facility and the other direction being unchanged, and then
completes the head command with `sapi_queue_dispatch`; when the command behind
the head is not a marker, the facility states at the end of the completion are
the ones so set. -/
theorem compl_cb_sets_sapi_state (w : World) (cmd : sapi_cmd) (rest : List sapi_cmd)
    (status : Int) (hq : w.lchan.sapi_cmds = cmd :: rest) :
    (cmd.type = SAPI_CMD_ACTIVATE →
      lchan_act_compl_cb w (.mphActivateCnf cmd.sapi cmd.dir status) =
        sapi_queue_dispatch
          (set_sapi_state w cmd.sapi cmd.dir
            (if status = GsmL1_Status_Success then LCHAN_SAPI_S_ASSIGNED
              else LCHAN_SAPI_S_ERROR)) status >>= fun w' => pure (w', 0)) ∧
    (cmd.type = SAPI_CMD_DEACTIVATE →
      lchan_deact_compl_cb w (.mphDeactivateCnf cmd.sapi cmd.dir status) =
        sapi_queue_dispatch
          (set_sapi_state w cmd.sapi cmd.dir
            (if status = GsmL1_Status_Success then LCHAN_SAPI_S_NONE
              else LCHAN_SAPI_S_ERROR)) status >>= fun w' => pure (w', 0)) ∧
    (∀ st s, (set_sapi_state w cmd.sapi cmd.dir st).lchan.sapis_dl s =
      if cmd.dir &&& GsmL1_Dir_TxDownlink ≠ 0 ∧ s = cmd.sapi then st
      else w.lchan.sapis_dl s) ∧
    (∀ st s, (set_sapi_state w cmd.sapi cmd.dir st).lchan.sapis_ul s =
      if cmd.dir &&& GsmL1_Dir_RxUplink ≠ 0 ∧ s = cmd.sapi then st
      else w.lchan.sapis_ul s) ∧
    ((∀ c, rest.head? = some c → is_marker c = false) →
      ∀ st, ∃ w', sapi_queue_dispatch (set_sapi_state w cmd.sapi cmd.dir st) status = .ok w' ∧
        w'.lchan.sapis_dl = (set_sapi_state w cmd.sapi cmd.dir st).lchan.sapis_dl ∧
        w'.lchan.sapis_ul = (set_sapi_state w cmd.sapi cmd.dir st).lchan.sapis_ul) := by
  have hset : ∀ st, (set_sapi_state w cmd.sapi cmd.dir st).lchan.sapi_cmds = cmd :: rest := by
    intro st
    unfold set_sapi_state
    split <;> split <;> exact hq
  refine ⟨?_, ?_, ?_, ?_, ?_⟩
  · intro ht
    unfold lchan_act_compl_cb
    simp only [hset, ht, ne_eq, not_true_eq_false, or_self, ↓reduceIte]
  · intro ht
    unfold lchan_deact_compl_cb
    simp only [hset, ht, ne_eq, not_true_eq_false, or_self, ↓reduceIte]
  · intro st s
    unfold set_sapi_state
    by_cases hd : cmd.dir &&& GsmL1_Dir_TxDownlink ≠ 0 <;>
      by_cases hu : cmd.dir &&& GsmL1_Dir_RxUplink ≠ 0 <;>
      by_cases hs : s = cmd.sapi <;>
      simp [hd, hu, hs, Function.update]
  · intro st s
    unfold set_sapi_state
    by_cases hd : cmd.dir &&& GsmL1_Dir_TxDownlink ≠ 0 <;>
      by_cases hu : cmd.dir &&& GsmL1_Dir_RxUplink ≠ 0 <;>
      by_cases hs : s = cmd.sapi <;>
      simp [hd, hu, hs, Function.update]
  · intro hnext st
    exact sapi_queue_dispatch_sapis _ cmd rest status (hset st) hnext

/-- Witness of C10: the success confirmation of the last Activate command of
a TCH/F channel. -/
theorem compl_cb_sets_sapi_state_witness :
    (last_activation 0).lchan.sapi_cmds =
      [activate_cmd GsmL1_Sapi_Sacch GsmL1_Dir_RxUplink] ∧
    ∃ w', sapi_queue_dispatch
        (set_sapi_state (last_activation 0) GsmL1_Sapi_Sacch GsmL1_Dir_RxUplink
          LCHAN_SAPI_S_ASSIGNED) GsmL1_Status_Success = .ok w' ∧
      w'.lchan.sapis_ul GsmL1_Sapi_Sacch = LCHAN_SAPI_S_ASSIGNED :=
  have hq : (last_activation 0).lchan.sapi_cmds =
      [activate_cmd GsmL1_Sapi_Sacch GsmL1_Dir_RxUplink] := rfl
  have h := compl_cb_sets_sapi_state (last_activation 0)
    (activate_cmd GsmL1_Sapi_Sacch GsmL1_Dir_RxUplink) [] GsmL1_Status_Success hq
  match h.2.2.2.2 (by simp) LCHAN_SAPI_S_ASSIGNED with
  | ⟨w', hw', _, hu⟩ =>
    ⟨hq, w', hw', by
      rw [hu, h.2.2.2.1 LCHAN_SAPI_S_ASSIGNED GsmL1_Sapi_Sacch]
      simp [activate_cmd, GsmL1_Dir_RxUplink]⟩

/-! ## The release marker, exactly -/

/-- A `Deactivate` command put on the queue through a `send` that does what
the re-entrant `sapi_queue_send` does: started on an empty queue, appended
otherwise. -/
theorem queue_sapi_command_deact (send : World → M World) (hsend : SendOK send) (w : World)
    (sapi : GsmL1_Sapi_t) (dir : GsmL1_Dir_t) :
    (w.lchan.sapi_cmds = [] →
      queue_sapi_command send w (deactivate_cmd sapi dir) =
        .ok ((w.llist_add_tail (deactivate_cmd sapi dir)).executed (deactivate_cmd sapi dir), 1)) ∧
    (w.lchan.sapi_cmds ≠ [] →
      queue_sapi_command send w (deactivate_cmd sapi dir) =
        .ok (w.llist_add_tail (deactivate_cmd sapi dir), 0)) := by
  constructor
  · intro hq
    have h := hsend (w.llist_add_tail (deactivate_cmd sapi dir)) (deactivate_cmd sapi dir)
      (by simp [World.llist_add_tail, hq]) rfl
    unfold queue_sapi_command
    simp only [hq, List.isEmpty_nil, Bool.not_true, Bool.false_eq_true, ↓reduceIte, h,
      M_bind_ok, M_pure]
  · intro hq
    have : w.lchan.sapi_cmds.isEmpty = false := by
      cases h : w.lchan.sapi_cmds with
      | nil => exact absurd h hq
      | cons _ _ => rfl
    unfold queue_sapi_command
    simp only [this, Bool.not_false, ↓reduceIte, M_pure]

/-- What `check_sapi_release` does for a table entry (a single direction). -/
theorem check_sapi_release_spec (send : World → M World) (hsend : SendOK send) (w : World)
    (sd : sapi_dir) (hd : sd.dir = GsmL1_Dir_TxDownlink ∨ sd.dir = GsmL1_Dir_RxUplink) :
    ∃ r, check_sapi_release send w sd.sapi sd.dir = .ok r ∧
      (entry_assigned w.lchan sd = false → r = (w, 0)) ∧
      (entry_assigned w.lchan sd = true →
        r.1.lchan.sapi_cmds = w.lchan.sapi_cmds ++ [deactivate_cmd sd.sapi sd.dir] ∧
        r.1.lchan.sapis_dl =
          (if sd.dir = GsmL1_Dir_TxDownlink then
            Function.update w.lchan.sapis_dl sd.sapi LCHAN_SAPI_S_REL
          else w.lchan.sapis_dl) ∧
        r.1.lchan.sapis_ul =
          (if sd.dir = GsmL1_Dir_TxDownlink then w.lchan.sapis_ul
          else Function.update w.lchan.sapis_ul sd.sapi LCHAN_SAPI_S_REL) ∧
        r.1.lchan.type = w.lchan.type ∧ r.1.lchan.state = w.lchan.state ∧
        r.1.lchan.ciph_state = w.lchan.ciph_state ∧
        r.1.lchan.encr_alg_id = w.lchan.encr_alg_id ∧ r.1.l1sap_up = w.l1sap_up ∧
        (w.lchan.sapi_cmds = [] →
          r.2 = 1 ∧
          r.1.fl1h.write_q_L1 = w.fl1h.write_q_L1 ++ [.mphDeactivateReq sd.sapi sd.dir] ∧
          r.1.fl1h.wlc_list = wlc_for (deactivate_cmd sd.sapi sd.dir) :: w.fl1h.wlc_list) ∧
        (w.lchan.sapi_cmds ≠ [] →
          r.2 = 0 ∧ r.1.fl1h.write_q_L1 = w.fl1h.write_q_L1 ∧
          r.1.fl1h.wlc_list = w.fl1h.wlc_list)) := by
  have hex : ∀ w' : World,
      ((w'.llist_add_tail (deactivate_cmd sd.sapi sd.dir)).executed
        (deactivate_cmd sd.sapi sd.dir)).fl1h =
      femtol1_hdl.submitted w'.fl1h (.mphDeactivateReq sd.sapi sd.dir)
        (wlc_for (deactivate_cmd sd.sapi sd.dir)) := by
    intro w'
    unfold World.executed
    rw [if_pos (by simp [submits, deactivate_cmd])]
    rfl
  rcases hd with hd | hd
  · -- downlink entry
    by_cases ha : w.lchan.sapis_dl sd.sapi = LCHAN_SAPI_S_ASSIGNED
    · have hea : entry_assigned w.lchan sd = true := by simp [entry_assigned, hd, ha]
      have hcs : check_sapi_release send w sd.sapi sd.dir =
          queue_sapi_command send
            { w with lchan := { w.lchan with
                sapis_dl := Function.update w.lchan.sapis_dl sd.sapi LCHAN_SAPI_S_REL } }
            (deactivate_cmd sd.sapi sd.dir) := by
        unfold check_sapi_release enqueue_sapi_deact_cmd
        rw [hd, if_pos (by decide), if_neg (by simp [ha])]
        rfl
      obtain ⟨h1, h2⟩ := queue_sapi_command_deact send hsend
        { w with lchan := { w.lchan with
            sapis_dl := Function.update w.lchan.sapis_dl sd.sapi LCHAN_SAPI_S_REL } }
        sd.sapi sd.dir
      by_cases hq : w.lchan.sapi_cmds = []
      · refine ⟨_, hcs.trans (h1 hq), fun h => (by rw [hea] at h; cases h), fun _ => ?_⟩
        refine ⟨?_, ?_, ?_, ?_, ?_, ?_, ?_, ?_, fun _ => ⟨rfl, ?_, ?_⟩, fun h => absurd hq h⟩
        · simp [World_executed_lchan, World.llist_add_tail]
        · simp [World_executed_lchan, World.llist_add_tail, hd]
        · simp [World_executed_lchan, World.llist_add_tail, hd]
        · simp [World_executed_lchan, World.llist_add_tail]
        · simp [World_executed_lchan, World.llist_add_tail]
        · simp [World_executed_lchan, World.llist_add_tail]
        · simp [World_executed_lchan, World.llist_add_tail]
        · unfold World.executed
          split <;> rfl
        · show (World.executed _ _).fl1h.write_q_L1 = _
          rw [hex]; rfl
        · show (World.executed _ _).fl1h.wlc_list = _
          rw [hex]; rfl
      · refine ⟨_, hcs.trans (h2 hq), fun h => (by rw [hea] at h; cases h), fun _ => ?_⟩
        refine ⟨rfl, ?_, ?_, rfl, rfl, rfl, rfl, rfl, fun h => absurd h hq,
          fun _ => ⟨rfl, rfl, rfl⟩⟩
        · simp [World.llist_add_tail, hd]
        · simp [World.llist_add_tail, hd]
    · have hea : entry_assigned w.lchan sd = false := by simp [entry_assigned, hd, ha]
      refine ⟨(w, 0), ?_, fun _ => rfl, fun h => (by rw [hea] at h; cases h)⟩
      unfold check_sapi_release
      rw [hd, if_pos (by decide), if_pos ha]
      rfl
  · -- uplink entry
    have hnd : sd.dir ≠ GsmL1_Dir_TxDownlink := by rw [hd]; decide
    by_cases ha : w.lchan.sapis_ul sd.sapi = LCHAN_SAPI_S_ASSIGNED
    · have hea : entry_assigned w.lchan sd = true := by simp [entry_assigned, hnd, ha]
      have hcs : check_sapi_release send w sd.sapi sd.dir =
          queue_sapi_command send
            { w with lchan := { w.lchan with
                sapis_ul := Function.update w.lchan.sapis_ul sd.sapi LCHAN_SAPI_S_REL } }
            (deactivate_cmd sd.sapi sd.dir) := by
        unfold check_sapi_release enqueue_sapi_deact_cmd
        rw [hd, if_neg (by decide), if_pos (by decide), if_neg (by simp [ha])]
        rfl
      obtain ⟨h1, h2⟩ := queue_sapi_command_deact send hsend
        { w with lchan := { w.lchan with
            sapis_ul := Function.update w.lchan.sapis_ul sd.sapi LCHAN_SAPI_S_REL } }
        sd.sapi sd.dir
      by_cases hq : w.lchan.sapi_cmds = []
      · refine ⟨_, hcs.trans (h1 hq), fun h => (by rw [hea] at h; cases h), fun _ => ?_⟩
        refine ⟨?_, ?_, ?_, ?_, ?_, ?_, ?_, ?_, fun _ => ⟨rfl, ?_, ?_⟩, fun h => absurd hq h⟩
        · simp [World_executed_lchan, World.llist_add_tail]
        · simp [World_executed_lchan, World.llist_add_tail, hnd]
        · simp [World_executed_lchan, World.llist_add_tail, hnd]
        · simp [World_executed_lchan, World.llist_add_tail]
        · simp [World_executed_lchan, World.llist_add_tail]
        · simp [World_executed_lchan, World.llist_add_tail]
        · simp [World_executed_lchan, World.llist_add_tail]
        · unfold World.executed
          split <;> rfl
        · show (World.executed _ _).fl1h.write_q_L1 = _
          rw [hex]; rfl
        · show (World.executed _ _).fl1h.wlc_list = _
          rw [hex]; rfl
      · refine ⟨_, hcs.trans (h2 hq), fun h => (by rw [hea] at h; cases h), fun _ => ?_⟩
        refine ⟨rfl, ?_, ?_, rfl, rfl, rfl, rfl, rfl, fun h => absurd h hq,
          fun _ => ⟨rfl, rfl, rfl⟩⟩
        · simp [World.llist_add_tail, hnd]
        · simp [World.llist_add_tail, hnd]
    · have hea : entry_assigned w.lchan sd = false := by simp [entry_assigned, hnd, ha]
      refine ⟨(w, 0), ?_, fun _ => rfl, fun h => (by rw [hea] at h; cases h)⟩
      unfold check_sapi_release
      rw [hd, if_neg (by decide), if_pos (by decide), if_pos ha]
      rfl

/-- Releasing one table entry does not change whether another entry is
Assigned. -/
theorem entry_assigned_after (lchan lchan' : gsm_lchan) (sd sd' : sapi_dir)
    (hdl : lchan'.sapis_dl =
      (if sd.dir = GsmL1_Dir_TxDownlink then
        Function.update lchan.sapis_dl sd.sapi LCHAN_SAPI_S_REL
      else lchan.sapis_dl))
    (hul : lchan'.sapis_ul =
      (if sd.dir = GsmL1_Dir_TxDownlink then lchan.sapis_ul
      else Function.update lchan.sapis_ul sd.sapi LCHAN_SAPI_S_REL))
    (hv : sd.dir = GsmL1_Dir_TxDownlink ∨ sd.dir = GsmL1_Dir_RxUplink)
    (hv' : sd'.dir = GsmL1_Dir_TxDownlink ∨ sd'.dir = GsmL1_Dir_RxUplink)
    (hne : sd' ≠ sd) :
    entry_assigned lchan' sd' = entry_assigned lchan sd' := by
  obtain ⟨s, d⟩ := sd
  obtain ⟨s', d'⟩ := sd'
  simp only at hdl hul hv hv'
  have hne' : ¬ (s' = s ∧ d' = d) := by
    intro h
    apply hne
    rw [h.1, h.2]
  unfold entry_assigned
  simp only [hdl, hul]
  have h12 : GsmL1_Dir_RxUplink ≠ GsmL1_Dir_TxDownlink := by decide
  rcases hv with hd | hd <;> rcases hv' with hd' | hd'
  · have hs : s' ≠ s := fun h => hne' ⟨h, by rw [hd, hd']⟩
    simp [hd, hd', Function.update_noteq hs]
  · simp [hd, hd', h12]
  · simp [hd, hd', h12]
  · have hs : s' ≠ s := fun h => hne' ⟨h, by rw [hd, hd']⟩
    simp [hd, hd', h12, Function.update_noteq hs]

/-- The loop of `lchan_deactivate_sapis` over table entries (single
directions, no entry twice), started with `res = 0` on an empty queue or with
`res = 1` on a non-empty one: one `Deactivate` command is appended for every
Assigned entry, in the order of the loop, the entry becomes PendingRelease, and
only a first command appended to the empty queue is submitted. -/
theorem lchan_deactivate_sapis_loop_spec (send : World → M World) (hsend : SendOK send) :
    ∀ (entries : List sapi_dir) (w : World) (res : Nat),
      (∀ sd ∈ entries, sd.dir = GsmL1_Dir_TxDownlink ∨ sd.dir = GsmL1_Dir_RxUplink) →
      entries.Nodup →
      ((res = 0 ∧ w.lchan.sapi_cmds = []) ∨ (res = 1 ∧ w.lchan.sapi_cmds ≠ [])) →
      ∃ r, lchan_deactivate_sapis_loop send entries w res = .ok r ∧
        r.1.lchan.sapi_cmds = w.lchan.sapi_cmds ++
          (entries.filter (entry_assigned w.lchan)).map
            (fun sd => deactivate_cmd sd.sapi sd.dir) ∧
        (∀ s, r.1.lchan.sapis_dl s =
          if w.lchan.sapis_dl s = LCHAN_SAPI_S_ASSIGNED ∧
              (⟨s, GsmL1_Dir_TxDownlink⟩ : sapi_dir) ∈ entries then LCHAN_SAPI_S_REL
          else w.lchan.sapis_dl s) ∧
        (∀ s, r.1.lchan.sapis_ul s =
          if w.lchan.sapis_ul s = LCHAN_SAPI_S_ASSIGNED ∧
              (⟨s, GsmL1_Dir_RxUplink⟩ : sapi_dir) ∈ entries then LCHAN_SAPI_S_REL
          else w.lchan.sapis_ul s) ∧
        r.1.lchan.type = w.lchan.type ∧ r.1.lchan.state = w.lchan.state ∧
        r.1.lchan.ciph_state = w.lchan.ciph_state ∧
        r.1.lchan.encr_alg_id = w.lchan.encr_alg_id ∧ r.1.l1sap_up = w.l1sap_up ∧
        r.2 = (if res = 0 ∧ entries.filter (entry_assigned w.lchan) = [] then 0 else 1) ∧
        r.1.fl1h.write_q_L1 = w.fl1h.write_q_L1 ++
          (if res = 0 then
            ((entries.filter (entry_assigned w.lchan)).take 1).map
              (fun sd => msgb.mphDeactivateReq sd.sapi sd.dir)
          else []) ∧
        r.1.fl1h.wlc_list =
          (if res = 0 then
            ((entries.filter (entry_assigned w.lchan)).take 1).map
              (fun sd => wlc_for (deactivate_cmd sd.sapi sd.dir))
          else []) ++ w.fl1h.wlc_list := by
  intro entries
  induction entries with
  | nil =>
    intro w res _ _ hres
    refine ⟨(w, res), rfl, by simp, by simp, by simp, rfl, rfl, rfl, rfl, rfl, ?_, ?_, ?_⟩
    · rcases hres with ⟨h, _⟩ | ⟨h, _⟩ <;> simp [h]
    · simp
    · simp
  | cons sd entries ih =>
    intro w res hv hnd hres
    have hvsd := hv sd (List.mem_cons_self _ _)
    have hv' : ∀ x ∈ entries, x.dir = GsmL1_Dir_TxDownlink ∨ x.dir = GsmL1_Dir_RxUplink :=
      fun x hx => hv x (List.mem_cons_of_mem _ hx)
    obtain ⟨hnotin, hnd'⟩ := List.nodup_cons.mp hnd
    -- the alive timer statement
    have htw : ∃ w0 : World, w0 = (if sd.sapi = GsmL1_Sapi_Sch then
          { w with fl1h := { w.fl1h with alive_timer := false } } else w) ∧
        w0.lchan = w.lchan ∧ w0.fl1h.write_q_L1 = w.fl1h.write_q_L1 ∧
        w0.fl1h.wlc_list = w.fl1h.wlc_list ∧ w0.l1sap_up = w.l1sap_up := by
      refine ⟨_, rfl, ?_, ?_, ?_, ?_⟩ <;> split <;> rfl
    obtain ⟨w0, hw0, hl0, hwq0, hwl0, hup0⟩ := htw
    obtain ⟨r1, hr1, hno, hyes⟩ := check_sapi_release_spec send hsend w0 sd hvsd
    have hloop : lchan_deactivate_sapis_loop send (sd :: entries) w res =
        lchan_deactivate_sapis_loop send entries r1.1 (res ||| r1.2) := by
      rw [lchan_deactivate_sapis_loop]
      simp only [← hw0, hr1, M_bind_ok]
    rw [hloop]
    by_cases hea : entry_assigned w.lchan sd = true
    · -- the entry is released
      have hea0 : entry_assigned w0.lchan sd = true := by rw [hl0]; exact hea
      obtain ⟨e1, e2, e3, e4, e5, e6, e7, e8, e9, e10⟩ := hyes hea0
      rw [hl0] at e1 e2 e3 e4 e5 e6 e7 e9 e10
      have hres' : res ||| r1.2 = 1 ∧ r1.1.lchan.sapi_cmds ≠ [] := by
        refine ⟨?_, by rw [e1]; simp⟩
        rcases hres with ⟨h, hq⟩ | ⟨h, hq⟩
        · rw [h, (e9 hq).1]; rfl
        · rw [h, (e10 hq).1]; rfl
      obtain ⟨r, hr, f1, f2, f3, f4, f5, f6, f7, f8, f9, f10, f11⟩ :=
        ih r1.1 (res ||| r1.2) hv' hnd' (Or.inr hres')
      have hfil : entries.filter (entry_assigned r1.1.lchan) =
          entries.filter (entry_assigned w.lchan) := by
        apply List.filter_congr
        intro x hx
        exact entry_assigned_after w.lchan r1.1.lchan sd x e2 e3 hvsd (hv' x hx)
          (fun h => hnotin (h ▸ hx))
      have hfc : (sd :: entries).filter (entry_assigned w.lchan) =
          sd :: entries.filter (entry_assigned w.lchan) := by
        rw [List.filter_cons, if_pos hea]
      refine ⟨r, hr, ?_, ?_, ?_, f4.trans e4, f5.trans e5, f6.trans e6, f7.trans e7,
        f8.trans (e8.trans hup0), ?_, ?_, ?_⟩
      · rw [f1, e1, hfil, hfc]; simp
      · intro s
        rw [f2 s, e2]
        have hea' := hea
        unfold entry_assigned at hea'
        rcases hvsd with hd | hd
        · rw [if_pos hd] at hea' ⊢
          have ha : w.lchan.sapis_dl sd.sapi = LCHAN_SAPI_S_ASSIGNED := by simpa using hea'
          by_cases hs : s = sd.sapi
          · subst hs
            have hmem : (⟨sd.sapi, GsmL1_Dir_TxDownlink⟩ : sapi_dir) ∈ sd :: entries := by
              rw [← hd]; exact List.mem_cons_self _ _
            simp [ha, hmem]
          · have hmem : ((⟨s, GsmL1_Dir_TxDownlink⟩ : sapi_dir) ∈ sd :: entries) ↔
                (⟨s, GsmL1_Dir_TxDownlink⟩ : sapi_dir) ∈ entries := by
              rw [List.mem_cons]
              constructor
              · rintro (h | h)
                · exact absurd (congrArg sapi_dir.sapi h) hs
                · exact h
              · exact Or.inr
            simp only [Function.update_noteq hs, hmem]
        · have hnd12 : sd.dir ≠ GsmL1_Dir_TxDownlink := by rw [hd]; decide
          rw [if_neg hnd12]
          have hmem : ((⟨s, GsmL1_Dir_TxDownlink⟩ : sapi_dir) ∈ sd :: entries) ↔
              (⟨s, GsmL1_Dir_TxDownlink⟩ : sapi_dir) ∈ entries := by
            rw [List.mem_cons]
            constructor
            · rintro (h | h)
              · exact absurd (congrArg sapi_dir.dir h).symm hnd12
              · exact h
            · exact Or.inr
          simp only [hmem]
      · intro s
        rw [f3 s, e3]
        have hea' := hea
        unfold entry_assigned at hea'
        rcases hvsd with hd | hd
        · rw [if_pos hd]
          have hmem : ((⟨s, GsmL1_Dir_RxUplink⟩ : sapi_dir) ∈ sd :: entries) ↔
              (⟨s, GsmL1_Dir_RxUplink⟩ : sapi_dir) ∈ entries := by
            rw [List.mem_cons]
            constructor
            · rintro (h | h)
              · have : GsmL1_Dir_RxUplink = GsmL1_Dir_TxDownlink :=
                  (congrArg sapi_dir.dir h).trans hd
                exact absurd this (by decide)
              · exact h
            · exact Or.inr
          simp only [hmem]
        · have hnd12 : sd.dir ≠ GsmL1_Dir_TxDownlink := by rw [hd]; decide
          rw [if_neg hnd12] at hea' ⊢
          have ha : w.lchan.sapis_ul sd.sapi = LCHAN_SAPI_S_ASSIGNED := by simpa using hea'
          by_cases hs : s = sd.sapi
          · subst hs
            have hmem : (⟨sd.sapi, GsmL1_Dir_RxUplink⟩ : sapi_dir) ∈ sd :: entries := by
              rw [← hd]; exact List.mem_cons_self _ _
            simp [ha, hmem]
          · have hmem : ((⟨s, GsmL1_Dir_RxUplink⟩ : sapi_dir) ∈ sd :: entries) ↔
                (⟨s, GsmL1_Dir_RxUplink⟩ : sapi_dir) ∈ entries := by
              rw [List.mem_cons]
              constructor
              · rintro (h | h)
                · exact absurd (congrArg sapi_dir.sapi h) hs
                · exact h
              · exact Or.inr
            simp only [Function.update_noteq hs, hmem]
      · rw [f9, hres'.1, hfc]; simp
      · rw [f10, hres'.1, hfc]
        rcases hres with ⟨h, hq⟩ | ⟨h, hq⟩
        · rw [(e9 hq).2.1, hwq0, h]; simp
        · rw [(e10 hq).2.1, hwq0, h]; simp
      · rw [f11, hres'.1, hfc]
        rcases hres with ⟨h, hq⟩ | ⟨h, hq⟩
        · rw [(e9 hq).2.2, hwl0, h]; simp
        · rw [(e10 hq).2.2, hwl0, h]; simp
    · -- the entry is not Assigned
      have hea' : entry_assigned w.lchan sd = false := by simpa using hea
      have hea0 : entry_assigned w0.lchan sd = false := by rw [hl0]; exact hea'
      have hr1' := hno hea0
      have hres' : (res ||| r1.2 = 0 ∧ r1.1.lchan.sapi_cmds = []) ∨
          (res ||| r1.2 = 1 ∧ r1.1.lchan.sapi_cmds ≠ []) := by
        rw [hr1']
        simp only [Nat.or_zero, hl0]
        exact hres
      obtain ⟨r, hr, f1, f2, f3, f4, f5, f6, f7, f8, f9, f10, f11⟩ :=
        ih r1.1 (res ||| r1.2) hv' hnd' hres'
      rw [hr1'] at f1 f2 f3 f4 f5 f6 f7 f8 f9 f10 f11
      simp only [Nat.or_zero, hl0, hwq0, hwl0, hup0] at f1 f2 f3 f4 f5 f6 f7 f8 f9 f10 f11
      have hfc : (sd :: entries).filter (entry_assigned w.lchan) =
          entries.filter (entry_assigned w.lchan) := by
        rw [List.filter_cons, if_neg hea]
      refine ⟨r, hr, ?_, ?_, ?_, f4, f5, f6, f7, f8, ?_, ?_, ?_⟩
      · rw [f1, hfc]
      · intro s
        rw [f2 s]
        unfold entry_assigned at hea'
        by_cases hc : w.lchan.sapis_dl s = LCHAN_SAPI_S_ASSIGNED ∧
            (⟨s, GsmL1_Dir_TxDownlink⟩ : sapi_dir) ∈ sd :: entries
        · rw [if_pos hc]
          rcases List.mem_cons.mp hc.2 with h | h
          · exfalso
            rw [← h] at hea'
            simp [hc.1] at hea'
          · rw [if_pos ⟨hc.1, h⟩]
        · rw [if_neg hc, if_neg (fun h => hc ⟨h.1, List.mem_cons_of_mem _ h.2⟩)]
      · intro s
        rw [f3 s]
        unfold entry_assigned at hea'
        by_cases hc : w.lchan.sapis_ul s = LCHAN_SAPI_S_ASSIGNED ∧
            (⟨s, GsmL1_Dir_RxUplink⟩ : sapi_dir) ∈ sd :: entries
        · rw [if_pos hc]
          rcases List.mem_cons.mp hc.2 with h | h
          · exfalso
            rw [← h] at hea'
            have : GsmL1_Dir_RxUplink ≠ GsmL1_Dir_TxDownlink := by decide
            simp [hc.1, this] at hea'
          · rw [if_pos ⟨hc.1, h⟩]
        · rw [if_neg hc, if_neg (fun h => hc ⟨h.1, List.mem_cons_of_mem _ h.2⟩)]
      · rw [f9, hfc]
      · rw [f10, hfc]
      · rw [f11, hfc]

/-- Every table of `sapis_for_lchan` lists single directions and no entry
twice. -/
theorem sapis_for_lchan_wf (t : gsm_chan_t) :
    (∀ sd ∈ (sapis_for_lchan t).reverse,
      sd.dir = GsmL1_Dir_TxDownlink ∨ sd.dir = GsmL1_Dir_RxUplink) ∧
    (sapis_for_lchan t).reverse.Nodup := by
  cases t <;> decide

/-- The function `lchan_deactivate_sapis` on an empty queue (the marker was the
only entry). -/
theorem lchan_deactivate_sapis_spec (send : World → M World) (hsend : SendOK send) (w : World)
    (hq : w.lchan.sapi_cmds = []) :
    ∃ r, lchan_deactivate_sapis send w = .ok r ∧
      r.1.lchan.sapi_cmds =
        (assigned_entries w.lchan).map (fun sd => deactivate_cmd sd.sapi sd.dir) ∧
      (∀ s, r.1.lchan.sapis_dl s =
        if w.lchan.sapis_dl s = LCHAN_SAPI_S_ASSIGNED ∧
            (⟨s, GsmL1_Dir_TxDownlink⟩ : sapi_dir) ∈ sapis_for_lchan w.lchan.type then
          LCHAN_SAPI_S_REL
        else w.lchan.sapis_dl s) ∧
      (∀ s, r.1.lchan.sapis_ul s =
        if w.lchan.sapis_ul s = LCHAN_SAPI_S_ASSIGNED ∧
            (⟨s, GsmL1_Dir_RxUplink⟩ : sapi_dir) ∈ sapis_for_lchan w.lchan.type then
          LCHAN_SAPI_S_REL
        else w.lchan.sapis_ul s) ∧
      r.1.lchan.type = w.lchan.type ∧
      r.1.lchan.state =
        (if assigned_entries w.lchan = [] then LCHAN_S_BROKEN else w.lchan.state) ∧
      r.1.lchan.ciph_state = w.lchan.ciph_state ∧
      r.1.lchan.encr_alg_id = w.lchan.encr_alg_id ∧
      r.1.l1sap_up = w.l1sap_up ++
        (if assigned_entries w.lchan = [] then [{ type := PRIM_INFO_DEACTIVATE, cause := 0 }]
          else []) ∧
      r.2 = (if assigned_entries w.lchan = [] then 0 else 1) ∧
      r.1.fl1h.write_q_L1 = w.fl1h.write_q_L1 ++
        ((assigned_entries w.lchan).take 1).map
          (fun sd => msgb.mphDeactivateReq sd.sapi sd.dir) ∧
      r.1.fl1h.wlc_list =
        ((assigned_entries w.lchan).take 1).map
          (fun sd => wlc_for (deactivate_cmd sd.sapi sd.dir)) ++ w.fl1h.wlc_list := by
  obtain ⟨hv, hnd⟩ := sapis_for_lchan_wf w.lchan.type
  obtain ⟨r, hr, f1, f2, f3, f4, f5, f6, f7, f8, f9, f10, f11⟩ :=
    lchan_deactivate_sapis_loop_spec send hsend (sapis_for_lchan w.lchan.type).reverse w 0
      hv hnd (Or.inl ⟨rfl, hq⟩)
  simp only [true_and, ↓reduceIte, List.mem_reverse] at f2 f3 f9 f10 f11
  rw [hq, List.nil_append] at f1
  unfold lchan_deactivate_sapis
  simp only [hr, M_bind_ok]
  by_cases hnone : assigned_entries w.lchan = []
  · have hnone' := hnone
    unfold assigned_entries at hnone'
    have hr2 : r.2 = 0 := by rw [f9, if_pos hnone']
    simp only [hr2, ↓reduceIte, M_pure]
    refine ⟨_, rfl, ?_, f2, f3, f4, ?_, f6, f7, ?_, ?_, ?_, ?_⟩
    · exact f1
    · rw [if_pos hnone]; rfl
    · rw [if_pos hnone]
      show r.1.l1sap_up ++ _ = _
      rw [f8]
    · rw [if_pos hnone]
    · exact f10
    · exact f11
  · have hnone' := hnone
    unfold assigned_entries at hnone'
    have hr2 : r.2 = 1 := by rw [f9, if_neg hnone']
    simp only [hr2, one_ne_zero, ↓reduceIte, M_pure]
    refine ⟨_, rfl, f1, f2, f3, f4, ?_, f6, f7, ?_, ?_, f10, f11⟩
    · rw [if_neg hnone]; exact f5
    · rw [if_neg hnone, List.append_nil]; exact f8
    · rw [if_neg hnone]

/-! ## One confirmed deactivation of a release -/

/-- The successful completion of a `Deactivate` command at the head of the
queue of a channel in state ReleaseRequested, when the next command, if any, is
a `Deactivate` command too: the next command is submitted, or the release ends
with the channel Idle and one release result reported. -/
theorem sapi_queue_dispatch_deact_success (w : World) (sapi : GsmL1_Sapi_t) (dir : GsmL1_Dir_t)
    (rest : List sapi_cmd) (hq : w.lchan.sapi_cmds = deactivate_cmd sapi dir :: rest)
    (hnext : ∀ c rest', rest = c :: rest' → c.type = SAPI_CMD_DEACTIVATE)
    (hst : w.lchan.state = LCHAN_S_REL_REQ) :
    ∃ w', sapi_queue_dispatch w GsmL1_Status_Success = .ok w' ∧
      w'.lchan.sapi_cmds = rest ∧
      w'.lchan.sapis_dl = w.lchan.sapis_dl ∧ w'.lchan.sapis_ul = w.lchan.sapis_ul ∧
      w'.lchan.type = w.lchan.type ∧ w'.lchan.ciph_state = w.lchan.ciph_state ∧
      w'.lchan.encr_alg_id = w.lchan.encr_alg_id ∧
      w'.lchan.state = (if rest = [] then LCHAN_S_NONE else LCHAN_S_REL_REQ) ∧
      w'.l1sap_up = w.l1sap_up ++
        (if rest = [] then [{ type := PRIM_INFO_DEACTIVATE, cause := 0 }] else []) ∧
      w'.fl1h.write_q_L1 = w.fl1h.write_q_L1 ++
        (rest.take 1).map (fun c => msgb.mphDeactivateReq c.sapi c.dir) ∧
      w'.fl1h.wlc_list = (rest.take 1).map wlc_for ++ w.fl1h.wlc_list := by
  cases rest with
  | nil =>
    unfold sapi_queue_dispatch
    rw [hq]
    have hs' : ({ w.llist_del_head with
        trace := w.llist_del_head.trace ++
          [Event.callback .sapi_deactivate_cb GsmL1_Status_Success] } : World).lchan.state =
        LCHAN_S_REL_REQ := hst
    have hq' : ({ w.llist_del_head with
        trace := w.llist_del_head.trace ++
          [Event.callback .sapi_deactivate_cb GsmL1_Status_Success] } : World).lchan.sapi_cmds =
        [] := by
      simp [World.llist_del_head, hq]
    have hcb : sapi_deactivate_cb
        { w.llist_del_head with
          trace := w.llist_del_head.trace ++
            [Event.callback .sapi_deactivate_cb GsmL1_Status_Success] }
        GsmL1_Status_Success =
        .ok (mph_info_chan_confirm (lchan_set_state
          { w.llist_del_head with
            trace := w.llist_del_head.trace ++
              [Event.callback .sapi_deactivate_cb GsmL1_Status_Success] }
          LCHAN_S_NONE) PRIM_INFO_DEACTIVATE 0, 0) := by
      have hd0 : w.llist_del_head.lchan.sapi_cmds = [] := hq'
      have hs0 : w.llist_del_head.lchan.state = LCHAN_S_REL_REQ := hst
      unfold sapi_deactivate_cb
      simp only [ne_eq, not_true_eq_false, false_and, ↓reduceIte, hd0, List.isEmpty_nil, hs0,
        M_pure]
    simp only [run_callback, deactivate_cmd, call_sapi_cmd_callback, hcb, M_bind_ok, M_pure]
    have hdel : w.llist_del_head.lchan.sapi_cmds = [] := by simp [World.llist_del_head, hq]
    simp only [hdel, List.isEmpty_nil, true_or, ↓reduceIte]
    refine ⟨_, rfl, ?_, rfl, rfl, rfl, rfl, rfl, rfl, ?_, ?_, ?_⟩
    · exact hq'
    · simp [mph_info_chan_confirm, lchan_set_state, World.llist_del_head]
    · simp [mph_info_chan_confirm, lchan_set_state, World.llist_del_head]
    · simp [mph_info_chan_confirm, lchan_set_state, World.llist_del_head]
  | cons c rest' =>
    have hc := hnext c rest' rfl
    have hm : is_marker c = false := by simp [is_marker, hc]
    have hsub : ∀ alg, submits alg c = true := by intro alg; simp [submits, hc]
    unfold sapi_queue_dispatch
    rw [hq]
    have hq' : ({ w.llist_del_head with
        trace := w.llist_del_head.trace ++
          [Event.callback .sapi_deactivate_cb GsmL1_Status_Success] } : World).lchan.sapi_cmds =
        c :: rest' := by
      simp [World.llist_del_head, hq]
    have hcb : sapi_deactivate_cb
        { w.llist_del_head with
          trace := w.llist_del_head.trace ++
            [Event.callback .sapi_deactivate_cb GsmL1_Status_Success] }
        GsmL1_Status_Success =
        .ok ({ w.llist_del_head with
          trace := w.llist_del_head.trace ++
            [Event.callback .sapi_deactivate_cb GsmL1_Status_Success] }, 0) := by
      have hd0 : w.llist_del_head.lchan.sapi_cmds = c :: rest' := hq'
      unfold sapi_deactivate_cb
      simp only [ne_eq, not_true_eq_false, false_and, ↓reduceIte, hd0, List.isEmpty_cons,
        Bool.false_eq_true, not_false_eq_true, M_pure]
    have hsend := sapi_queue_send_non_marker
      { w.llist_del_head with
        trace := w.llist_del_head.trace ++
          [Event.callback .sapi_deactivate_cb GsmL1_Status_Success] } c rest' hq' hm
    have hdel : w.llist_del_head.lchan.sapi_cmds = c :: rest' := by
      simp [World.llist_del_head, hq]
    simp only [run_callback, deactivate_cmd, call_sapi_cmd_callback, hcb, M_bind_ok, M_pure,
      hdel, hq', List.isEmpty_cons, Bool.false_eq_true, or_self, ↓reduceIte, hsend]
    have hfl : (World.executed { w.llist_del_head with
        trace := w.llist_del_head.trace ++
          [Event.callback .sapi_deactivate_cb GsmL1_Status_Success] } c).fl1h =
        femtol1_hdl.submitted w.fl1h (request_of w.lchan.type w.lchan.encr_alg_id c)
          (wlc_for c) := by
      unfold World.executed
      rw [if_pos (hsub _)]
      rfl
    have hup : (World.executed { w.llist_del_head with
        trace := w.llist_del_head.trace ++
          [Event.callback .sapi_deactivate_cb GsmL1_Status_Success] } c).l1sap_up =
        w.l1sap_up := by
      unfold World.executed
      split <;> rfl
    refine ⟨_, rfl, ?_, ?_, ?_, ?_, ?_, ?_, ?_, ?_, ?_, ?_⟩
    · rw [World_executed_lchan]; exact hq'
    · rw [World_executed_lchan]; rfl
    · rw [World_executed_lchan]; rfl
    · rw [World_executed_lchan]; rfl
    · rw [World_executed_lchan]; rfl
    · rw [World_executed_lchan]; rfl
    · rw [World_executed_lchan]; simp [hst, World.llist_del_head]
    · rw [hup]; simp
    · rw [hfl]; simp [femtol1_hdl.submitted, request_of, hc]
    · rw [hfl]; simp [femtol1_hdl.submitted]

/-- The arrival of the success confirmation of the `Deactivate` request in
flight during a release. -/
theorem deact_confirm_step (s : System) (sapi : GsmL1_Sapi_t) (dir : GsmL1_Dir_t)
    (rest : List sapi_cmd) (hq : s.w.lchan.sapi_cmds = deactivate_cmd sapi dir :: rest)
    (hnext : ∀ c rest', rest = c :: rest' → c.type = SAPI_CMD_DEACTIVATE)
    (hst : s.w.lchan.state = LCHAN_S_REL_REQ)
    (hwlc : s.w.fl1h.wlc_list = [wlc_for (deactivate_cmd sapi dir)])
    (hreq : s.w.fl1h.write_q_L1[s.answered]? = some (.mphDeactivateReq sapi dir)) :
    ∃ s', s.step (.confirm GsmL1_Status_Success) = .ok s' ∧
      s'.answered = s.answered + 1 ∧
      s'.w.lchan.sapi_cmds = rest ∧
      s'.w.lchan.sapis_dl = (set_sapi_state s.w sapi dir LCHAN_SAPI_S_NONE).lchan.sapis_dl ∧
      s'.w.lchan.sapis_ul = (set_sapi_state s.w sapi dir LCHAN_SAPI_S_NONE).lchan.sapis_ul ∧
      s'.w.lchan.type = s.w.lchan.type ∧ s'.w.lchan.ciph_state = s.w.lchan.ciph_state ∧
      s'.w.lchan.encr_alg_id = s.w.lchan.encr_alg_id ∧
      s'.w.lchan.state = (if rest = [] then LCHAN_S_NONE else LCHAN_S_REL_REQ) ∧
      s'.w.l1sap_up = s.w.l1sap_up ++
        (if rest = [] then [{ type := PRIM_INFO_DEACTIVATE, cause := 0 }] else []) ∧
      s'.w.fl1h.write_q_L1 = s.w.fl1h.write_q_L1 ++
        (rest.take 1).map (fun c => msgb.mphDeactivateReq c.sapi c.dir) ∧
      s'.w.fl1h.wlc_list = (rest.take 1).map wlc_for := by
  obtain ⟨e1, e2, e3, e4, e5, e6, e7, e8⟩ := set_sapi_state_same
    { s.w with fl1h := { s.w.fl1h with wlc_list := [] } } sapi dir LCHAN_SAPI_S_NONE
  obtain ⟨w', hw', f1, f2, f3, f4, f5, f6, f7, f8, f9, f10⟩ :=
    sapi_queue_dispatch_deact_success
      (set_sapi_state { s.w with fl1h := { s.w.fl1h with wlc_list := [] } } sapi dir
        LCHAN_SAPI_S_NONE) sapi dir rest (e3.trans hq) hnext (e4.trans hst)
  have hcb : lchan_deact_compl_cb { s.w with fl1h := { s.w.fl1h with wlc_list := [] } }
      (.mphDeactivateCnf sapi dir GsmL1_Status_Success) = .ok (w', 0) := by
    unfold lchan_deact_compl_cb
    simp only [↓reduceIte, e3, hq, deactivate_cmd, ne_eq, not_true_eq_false, or_self, hw',
      M_bind_ok, M_pure]
  have hcompat : is_prim_compat (.mphDeactivateCnf sapi dir GsmL1_Status_Success)
      (wlc_for (deactivate_cmd sapi dir)) = true := by
    simp [is_prim_compat, wlc_for, deactivate_cmd, msgb.id]
  have hcbf : (wlc_for (deactivate_cmd sapi dir)).cb = some .lchan_deact_compl_cb := rfl
  have hsd : ∀ (W : World), (set_sapi_state { W with fl1h := { W.fl1h with wlc_list := [] } }
      sapi dir LCHAN_SAPI_S_NONE).lchan =
      (set_sapi_state W sapi dir LCHAN_SAPI_S_NONE).lchan := by
    intro W
    unfold set_sapi_state
    split <;> split <;> rfl
  unfold System.step
  simp only [hreq, confirmation_of, l1if_handle_l1prim, l1if_handle_prim, hwlc,
    List.find?_cons, hcompat, List.eraseP_cons_of_pos, hcbf, call_l1if_compl_cb, hcb,
    M_bind_ok, M_pure]
  refine ⟨_, rfl, rfl, f1, ?_, ?_, f4.trans e1, f5.trans e5, f6.trans e2, f7, ?_, ?_, ?_⟩
  · show w'.lchan.sapis_dl = _
    rw [f2, hsd]
  · show w'.lchan.sapis_ul = _
    rw [f3, hsd]
  · show w'.l1sap_up = _
    rw [f8, e7]
  · show (release_wlc _ w'.fl1h).write_q_L1 = _
    simp only [release_wlc]
    rw [f9, e6]
  · show (release_wlc _ w'.fl1h).wlc_list = _
    simp only [release_wlc]
    rw [f10, e6]
    simp

/-! ## A release, confirmation by confirmation -/

/-- The facility-state update of a confirmation for a single direction. -/
theorem set_sapi_state_single_dir (w : World) (sd : sapi_dir) (st : lchan_sapi_state)
    (hv : sd.dir = GsmL1_Dir_TxDownlink ∨ sd.dir = GsmL1_Dir_RxUplink) :
    (∀ x, (set_sapi_state w sd.sapi sd.dir st).lchan.sapis_dl x =
      if (⟨x, GsmL1_Dir_TxDownlink⟩ : sapi_dir) = sd then st else w.lchan.sapis_dl x) ∧
    (∀ x, (set_sapi_state w sd.sapi sd.dir st).lchan.sapis_ul x =
      if (⟨x, GsmL1_Dir_RxUplink⟩ : sapi_dir) = sd then st else w.lchan.sapis_ul x) := by
  obtain ⟨s, d⟩ := sd
  simp only at hv
  have h11 : GsmL1_Dir_TxDownlink &&& GsmL1_Dir_TxDownlink ≠ 0 := by decide
  have h12 : ¬ (GsmL1_Dir_TxDownlink &&& GsmL1_Dir_RxUplink ≠ 0) := by decide
  have h21 : ¬ (GsmL1_Dir_RxUplink &&& GsmL1_Dir_TxDownlink ≠ 0) := by decide
  have h22 : GsmL1_Dir_RxUplink &&& GsmL1_Dir_RxUplink ≠ 0 := by decide
  have hne : GsmL1_Dir_RxUplink ≠ GsmL1_Dir_TxDownlink := by decide
  rcases hv with hd | hd
  · subst hd
    constructor
    · intro x
      unfold set_sapi_state
      simp only [if_pos h11, if_neg h12, sapi_dir.mk.injEq, and_true, Function.update_apply]
    · intro x
      unfold set_sapi_state
      simp only [if_pos h11, if_neg h12, sapi_dir.mk.injEq, hne, and_false, ↓reduceIte]
  · subst hd
    constructor
    · intro x
      unfold set_sapi_state
      simp only [if_neg h21, if_pos h22, sapi_dir.mk.injEq, hne.symm, and_false, ↓reduceIte]
    · intro x
      unfold set_sapi_state
      simp only [if_neg h21, if_pos h22, sapi_dir.mk.injEq, and_true, Function.update_apply]

/-- A release in progress: the queue holds the `Deactivate` commands of the
entries `d0 :: ds`, the request of the first is in flight.  After `k` success
confirmations the first `k` entries are Unassigned and the request of the next
one is in flight; after the last confirmation the channel is Idle and one
release result has been reported. -/
theorem release_confirmations :
    ∀ (ds : List sapi_dir) (d0 : sapi_dir) (s : System),
      (∀ sd ∈ d0 :: ds, sd.dir = GsmL1_Dir_TxDownlink ∨ sd.dir = GsmL1_Dir_RxUplink) →
      s.w.lchan.sapi_cmds = (d0 :: ds).map (fun sd => deactivate_cmd sd.sapi sd.dir) →
      s.w.lchan.state = LCHAN_S_REL_REQ →
      s.w.fl1h.wlc_list = [wlc_for (deactivate_cmd d0.sapi d0.dir)] →
      s.w.fl1h.write_q_L1[s.answered]? = some (.mphDeactivateReq d0.sapi d0.dir) →
      s.answered + 1 = s.w.fl1h.write_q_L1.length →
      ∀ k, k ≤ ds.length + 1 →
        ∃ s', s.run (List.replicate k (.confirm GsmL1_Status_Success)) = .ok s' ∧
          s'.answered = s.answered + k ∧
          s'.w.lchan.sapi_cmds =
            ((d0 :: ds).drop k).map (fun sd => deactivate_cmd sd.sapi sd.dir) ∧
          (∀ x, s'.w.lchan.sapis_dl x =
            if (⟨x, GsmL1_Dir_TxDownlink⟩ : sapi_dir) ∈ (d0 :: ds).take k then LCHAN_SAPI_S_NONE
            else s.w.lchan.sapis_dl x) ∧
          (∀ x, s'.w.lchan.sapis_ul x =
            if (⟨x, GsmL1_Dir_RxUplink⟩ : sapi_dir) ∈ (d0 :: ds).take k then LCHAN_SAPI_S_NONE
            else s.w.lchan.sapis_ul x) ∧
          s'.w.lchan.type = s.w.lchan.type ∧ s'.w.lchan.ciph_state = s.w.lchan.ciph_state ∧
          s'.w.lchan.state = (if k = ds.length + 1 then LCHAN_S_NONE else LCHAN_S_REL_REQ) ∧
          s'.w.l1sap_up = s.w.l1sap_up ++
            (if k = ds.length + 1 then [{ type := PRIM_INFO_DEACTIVATE, cause := 0 }]
              else []) ∧
          s'.w.fl1h.write_q_L1 = s.w.fl1h.write_q_L1 ++
            (ds.take k).map (fun sd => msgb.mphDeactivateReq sd.sapi sd.dir) ∧
          s'.w.fl1h.wlc_list =
            (((d0 :: ds).drop k).take 1).map
              (fun sd => wlc_for (deactivate_cmd sd.sapi sd.dir)) := by
  intro ds
  induction ds with
  | nil =>
    intro d0 s hv hq hst hwlc hreq hlen k hk
    rcases Nat.eq_zero_or_pos k with h0 | hpos
    · subst h0
      refine ⟨s, rfl, rfl, hq, by simp, by simp, rfl, rfl, by simp [hst], by simp, by simp,
        by simpa using hwlc⟩
    · have hk1 : k = 1 := by simp at hk; omega
      subst hk1
      obtain ⟨s', hs', g1, g2, g3, g4, g5, g6, _, g8, g9, g10, g11⟩ :=
        deact_confirm_step s d0.sapi d0.dir [] (by simpa using hq) (by simp) hst hwlc hreq
      obtain ⟨u1, u2⟩ := set_sapi_state_single_dir s.w d0 LCHAN_SAPI_S_NONE
        (hv d0 (List.mem_cons_self _ _))
      refine ⟨s', ?_, g1, by simpa using g2, ?_, ?_, g5, g6, by simpa using g8,
        by simpa using g9, by simpa using g10, by simpa using g11⟩
      · simp only [List.replicate, System.run, hs', M_bind_ok, M_pure]
      · intro x
        rw [g3, u1 x]
        simp [eq_comm]
      · intro x
        rw [g4, u2 x]
        simp [eq_comm]
  | cons d1 ds ih =>
    intro d0 s hv hq hst hwlc hreq hlen k hk
    rcases Nat.eq_zero_or_pos k with h0 | hpos
    · subst h0
      refine ⟨s, rfl, rfl, hq, by simp, by simp, rfl, rfl, by simp [hst], by simp, by simp,
        by simpa using hwlc⟩
    · obtain ⟨k', rfl⟩ : ∃ k', k = k' + 1 := ⟨k - 1, by omega⟩
      obtain ⟨s1, hs1, g1, g2, g3, g4, g5, g6, _, g8, g9, g10, g11⟩ :=
        deact_confirm_step s d0.sapi d0.dir
          ((d1 :: ds).map (fun sd => deactivate_cmd sd.sapi sd.dir)) (by simpa using hq)
          (by
            intro c rest' h
            simp only [List.map_cons, List.cons.injEq] at h
            rw [← h.1]; rfl)
          hst hwlc hreq
      obtain ⟨u1, u2⟩ := set_sapi_state_single_dir s.w d0 LCHAN_SAPI_S_NONE
        (hv d0 (List.mem_cons_self _ _))
      simp only [List.map_cons, List.take_succ_cons, List.take_zero, List.map_nil,
        reduceCtorEq, ↓reduceIte, List.append_nil] at g8 g9 g10 g11
      have hreq1 : s1.w.fl1h.write_q_L1[s1.answered]? =
          some (.mphDeactivateReq d1.sapi d1.dir) := by
        rw [g10, g1, hlen]
        simp [deactivate_cmd]
      have hlen1 : s1.answered + 1 = s1.w.fl1h.write_q_L1.length := by
        rw [g10, g1]
        simp
        omega
      obtain ⟨s', hs', f1, f2, f3, f4, f5, f6, f7, f8, f9, f10⟩ :=
        ih d1 s1 (fun sd hsd => hv sd (List.mem_cons_of_mem _ hsd)) (by simpa using g2)
          g8 (by simpa [deactivate_cmd] using g11) hreq1 hlen1 k' (by simp at hk ⊢; omega)
      refine ⟨s', ?_, ?_, ?_, ?_, ?_, f5.trans g5, f6.trans g6, ?_, ?_, ?_, ?_⟩
      · simp only [List.replicate, System.run, hs1, M_bind_ok]
        exact hs'
      · rw [f1, g1]; omega
      · simpa using f2
      · intro x
        rw [f3 x, g3, u1 x]
        by_cases hx : (⟨x, GsmL1_Dir_TxDownlink⟩ : sapi_dir) = d0
        · simp [hx]
        · simp [hx]
      · intro x
        rw [f4 x, g4, u2 x]
        by_cases hx : (⟨x, GsmL1_Dir_RxUplink⟩ : sapi_dir) = d0
        · simp [hx]
        · simp [hx]
      · rw [f7]
        simp
      · rw [f8, g9]
        simp
      · rw [f9, g10]
        simp [deactivate_cmd]
      · rw [f10]
        simp

/-- The function `l1if_rsl_chan_rel` on a channel with an empty queue that is
not already being released. -/
theorem l1if_rsl_chan_rel_spec (w : World) (hq : w.lchan.sapi_cmds = [])
    (hs : w.lchan.state ≠ LCHAN_S_REL_REQ) :
    ∃ w', l1if_rsl_chan_rel w = .ok (w', 0) ∧
      w'.lchan.sapi_cmds =
        (assigned_entries w.lchan).map (fun sd => deactivate_cmd sd.sapi sd.dir) ∧
      (∀ s, w'.lchan.sapis_dl s =
        if w.lchan.sapis_dl s = LCHAN_SAPI_S_ASSIGNED ∧
            (⟨s, GsmL1_Dir_TxDownlink⟩ : sapi_dir) ∈ sapis_for_lchan w.lchan.type then
          LCHAN_SAPI_S_REL
        else w.lchan.sapis_dl s) ∧
      (∀ s, w'.lchan.sapis_ul s =
        if w.lchan.sapis_ul s = LCHAN_SAPI_S_ASSIGNED ∧
            (⟨s, GsmL1_Dir_RxUplink⟩ : sapi_dir) ∈ sapis_for_lchan w.lchan.type then
          LCHAN_SAPI_S_REL
        else w.lchan.sapis_ul s) ∧
      w'.lchan.type = w.lchan.type ∧
      w'.lchan.state =
        (if assigned_entries w.lchan = [] then LCHAN_S_BROKEN else LCHAN_S_REL_REQ) ∧
      w'.lchan.ciph_state = LCHAN_CIPH_NONE ∧
      w'.l1sap_up = w.l1sap_up ++
        (if assigned_entries w.lchan = [] then [{ type := PRIM_INFO_DEACTIVATE, cause := 0 }]
          else []) ∧
      w'.fl1h.write_q_L1 = w.fl1h.write_q_L1 ++
        ((assigned_entries w.lchan).take 1).map
          (fun sd => msgb.mphDeactivateReq sd.sapi sd.dir) ∧
      w'.fl1h.wlc_list =
        ((assigned_entries w.lchan).take 1).map
          (fun sd => wlc_for (deactivate_cmd sd.sapi sd.dir)) ++ w.fl1h.wlc_list := by
  have hq1 : ({ lchan_set_state w LCHAN_S_REL_REQ with
      lchan := { (lchan_set_state w LCHAN_S_REL_REQ).lchan with
        ciph_state := LCHAN_CIPH_NONE } } : World).lchan.sapi_cmds = [] := hq
  obtain ⟨r, hr, _, hqc, _⟩ := queue_sapi_command_on_empty
    { lchan_set_state w LCHAN_S_REL_REQ with
      lchan := { (lchan_set_state w LCHAN_S_REL_REQ).lchan with
        ciph_state := LCHAN_CIPH_NONE } } rel_marker hq1
  have hdel : (World.llist_del_head (World.llist_add_tail
      { lchan_set_state w LCHAN_S_REL_REQ with
        lchan := { (lchan_set_state w LCHAN_S_REL_REQ).lchan with
          ciph_state := LCHAN_CIPH_NONE } } rel_marker)).lchan.sapi_cmds = [] := by
    simp [World.llist_del_head, World.llist_add_tail, lchan_set_state, hq]
  obtain ⟨r', hr', f1, f2, f3, f4, f5, f6, _, f8, _, f10, f11⟩ :=
    lchan_deactivate_sapis_spec (sapi_queue_send_fuel 1) (sapi_queue_send_fuel_SendOK 0) _ hdel
  have hrr : r = r' := by
    have : sapi_queue_exeute (sapi_queue_send_fuel 1) (World.llist_add_tail
        { lchan_set_state w LCHAN_S_REL_REQ with
          lchan := { (lchan_set_state w LCHAN_S_REL_REQ).lchan with
            ciph_state := LCHAN_CIPH_NONE } } rel_marker) = .ok r' := by
      have hqa : (World.llist_add_tail
          { lchan_set_state w LCHAN_S_REL_REQ with
            lchan := { (lchan_set_state w LCHAN_S_REL_REQ).lchan with
              ciph_state := LCHAN_CIPH_NONE } } rel_marker).lchan.sapi_cmds = [rel_marker] := by
        simp [World.llist_add_tail, lchan_set_state, hq]
      unfold sapi_queue_exeute
      rw [hqa]
      exact hr'
    rw [this] at hr
    exact (Except.ok.inj hr).symm
  subst hrr
  refine ⟨r.1, ?_, f1, f2, f3, f4, ?_, f6, f8, f10, f11⟩
  · simp only [rel_marker] at hqc
    unfold l1if_rsl_chan_rel lchan_deactivate enqueue_rel_marker
    simp only [hs, ↓reduceIte, hqc, M_bind_ok, M_pure]
  · rw [f5]
    rfl

/-! ## C11 -/

/-- C11.  An Active TCH/F channel has an empty queue, nothing in flight, and
TCH/F, FACCH/F and SACCH Assigned in both directions.  A release is requested
(`l1if_rsl_chan_rel`) and `k` success confirmations arrive, each answering the
Deactivate request in flight.  Then for every `k ≤ 6` the run succeeds; the
requests submitted so far are the first `k + 1` (at most six) Deactivate
requests of `tchf_release_order`: SACCH, then FACCH/F, then TCH/F, uplink
before downlink; the queue holds the Deactivate commands not yet confirmed and
the ciphering state is None.  Before the sixth confirmation the lifecycle state
is ReleaseRequested and nothing has been reported upward.  After it the state
is Idle, the queue is empty, no transaction is pending, exactly one release
result has been reported, and TCH/F, FACCH/F and SACCH are Unassigned in both
directions, the other facility states being untouched (so every facility is
Unassigned when the others were). -/
theorem tchf_release (w : World) (a : Nat)
    (ht : w.lchan.type = GSM_LCHAN_TCH_F) (hs : w.lchan.state = LCHAN_S_ACTIVE)
    (hq : w.lchan.sapi_cmds = []) (hwlc : w.fl1h.wlc_list = [])
    (ha : a = w.fl1h.write_q_L1.length)
    (hass : ∀ x ∈ [GsmL1_Sapi_TchF, GsmL1_Sapi_FacchF, GsmL1_Sapi_Sacch],
      w.lchan.sapis_dl x = LCHAN_SAPI_S_ASSIGNED ∧ w.lchan.sapis_ul x = LCHAN_SAPI_S_ASSIGNED) :
    ∀ k, k ≤ 6 →
      ∃ s, System.run { w := w, answered := a }
          (.release :: List.replicate k (.confirm GsmL1_Status_Success)) = .ok s ∧
        s.w.fl1h.write_q_L1 = w.fl1h.write_q_L1 ++
          (tchf_release_order.take (k + 1)).map
            (fun sd => msgb.mphDeactivateReq sd.sapi sd.dir) ∧
        s.w.lchan.sapi_cmds =
          (tchf_release_order.drop k).map (fun sd => deactivate_cmd sd.sapi sd.dir) ∧
        s.w.lchan.ciph_state = LCHAN_CIPH_NONE ∧
        (k < 6 → s.w.lchan.state = LCHAN_S_REL_REQ ∧ s.w.l1sap_up = w.l1sap_up) ∧
        (k = 6 →
          s.w.lchan.state = LCHAN_S_NONE ∧ s.w.fl1h.wlc_list = [] ∧
          s.w.l1sap_up = w.l1sap_up ++ [{ type := PRIM_INFO_DEACTIVATE, cause := 0 }] ∧
          (∀ x, s.w.lchan.sapis_dl x =
            if x ∈ [GsmL1_Sapi_TchF, GsmL1_Sapi_FacchF, GsmL1_Sapi_Sacch] then
              LCHAN_SAPI_S_NONE
            else w.lchan.sapis_dl x) ∧
          (∀ x, s.w.lchan.sapis_ul x =
            if x ∈ [GsmL1_Sapi_TchF, GsmL1_Sapi_FacchF, GsmL1_Sapi_Sacch] then
              LCHAN_SAPI_S_NONE
            else w.lchan.sapis_ul x) ∧
          ((∀ x, x ∉ [GsmL1_Sapi_TchF, GsmL1_Sapi_FacchF, GsmL1_Sapi_Sacch] →
              w.lchan.sapis_dl x = LCHAN_SAPI_S_NONE ∧ w.lchan.sapis_ul x = LCHAN_SAPI_S_NONE) →
            ∀ x, s.w.lchan.sapis_dl x = LCHAN_SAPI_S_NONE ∧
              s.w.lchan.sapis_ul x = LCHAN_SAPI_S_NONE)) := by
  intro k hk
  have h1 := hass GsmL1_Sapi_TchF (by simp)
  have h2 := hass GsmL1_Sapi_FacchF (by simp)
  have h3 := hass GsmL1_Sapi_Sacch (by simp)
  have hae : assigned_entries w.lchan = tchf_release_order := by
    unfold assigned_entries
    rw [ht]
    simp [sapis_for_lchan, tchf_sapis, entry_assigned, h1, h2, h3, tchf_release_order,
      List.filter_cons, GsmL1_Dir_TxDownlink, GsmL1_Dir_RxUplink]
  obtain ⟨w1, hw1, r1, r2, r3, r4, r5, r6, r7, r8, r9⟩ :=
    l1if_rsl_chan_rel_spec w hq (by rw [hs]; decide)
  rw [hae] at r1 r5 r7 r8 r9
  simp only [tchf_release_order, reduceCtorEq, ↓reduceIte, List.append_nil, List.take_succ_cons,
    List.take_zero, List.map_cons, List.map_nil, hwlc] at r5 r7 r8 r9
  have hrun : System.run { w := w, answered := a }
      (.release :: List.replicate k (.confirm GsmL1_Status_Success)) =
      System.run { w := w1, answered := a }
        (List.replicate k (.confirm GsmL1_Status_Success)) := by
    simp only [System.run, System.step, hw1, M_bind_ok, M_pure]
  obtain ⟨s, hs', f1, f2, f3, f4, f5, f6, f7, f8, f9, f10⟩ :=
    release_confirmations
      [⟨GsmL1_Sapi_Sacch, GsmL1_Dir_TxDownlink⟩, ⟨GsmL1_Sapi_FacchF, GsmL1_Dir_RxUplink⟩,
        ⟨GsmL1_Sapi_FacchF, GsmL1_Dir_TxDownlink⟩, ⟨GsmL1_Sapi_TchF, GsmL1_Dir_RxUplink⟩,
        ⟨GsmL1_Sapi_TchF, GsmL1_Dir_TxDownlink⟩]
      ⟨GsmL1_Sapi_Sacch, GsmL1_Dir_RxUplink⟩ { w := w1, answered := a }
      (by decide) r1 r5 r9
      (by
        show w1.fl1h.write_q_L1[a]? = _
        rw [r8, ha]
        simp)
      (by
        show a + 1 = w1.fl1h.write_q_L1.length
        rw [r8, ha]
        simp)
      k (by simpa using hk)
  simp only [List.length_cons, List.length_nil, Nat.zero_add, Nat.reduceAdd] at f7 f8
  refine ⟨s, hrun.trans hs', ?_, ?_, f6.trans r6, ?_, ?_⟩
  · rw [f9]
    show w1.fl1h.write_q_L1 ++ _ = _
    rw [r8]
    simp [tchf_release_order]
  · exact f2
  · intro hlt
    have hne : k ≠ 6 := by omega
    rw [if_neg hne] at f7 f8
    exact ⟨f7, by rw [f8]; simpa using r7⟩
  · intro h6
    subst h6
    simp only [↓reduceIte] at f7 f8
    have hdl : ∀ x, s.w.lchan.sapis_dl x =
        if x ∈ [GsmL1_Sapi_TchF, GsmL1_Sapi_FacchF, GsmL1_Sapi_Sacch] then LCHAN_SAPI_S_NONE
        else w.lchan.sapis_dl x := by
      intro x
      rw [f3 x]
      show _ = _
      have := r2 x
      simp only [] at this
      rw [ht] at this
      cases x <;>
        simp [this, sapis_for_lchan, tchf_sapis, GsmL1_Dir_TxDownlink, GsmL1_Dir_RxUplink]
    have hul : ∀ x, s.w.lchan.sapis_ul x =
        if x ∈ [GsmL1_Sapi_TchF, GsmL1_Sapi_FacchF, GsmL1_Sapi_Sacch] then LCHAN_SAPI_S_NONE
        else w.lchan.sapis_ul x := by
      intro x
      rw [f4 x]
      show _ = _
      have := r3 x
      simp only [] at this
      rw [ht] at this
      cases x <;>
        simp [this, sapis_for_lchan, tchf_sapis, GsmL1_Dir_TxDownlink, GsmL1_Dir_RxUplink]
    refine ⟨f7, by simpa using f10, by rw [f8]; simpa using r7, hdl, hul, ?_⟩
    intro hoth x
    rw [hdl x, hul x]
    by_cases hx : x ∈ [GsmL1_Sapi_TchF, GsmL1_Sapi_FacchF, GsmL1_Sapi_Sacch]
    · simp [hx]
    · rw [if_neg hx, if_neg hx]
      exact hoth x hx

/-- Witness of C11: the complete release of `tchf_assigned`. -/
theorem tchf_release_witness :
    ∃ s, System.run { w := tchf_assigned, answered := 0 }
        (.release :: List.replicate 6 (.confirm GsmL1_Status_Success)) = .ok s ∧
      s.w.lchan.state = LCHAN_S_NONE ∧ s.w.lchan.sapi_cmds = [] ∧
      s.w.fl1h.write_q_L1 =
        [.mphDeactivateReq GsmL1_Sapi_Sacch GsmL1_Dir_RxUplink,
         .mphDeactivateReq GsmL1_Sapi_Sacch GsmL1_Dir_TxDownlink,
         .mphDeactivateReq GsmL1_Sapi_FacchF GsmL1_Dir_RxUplink,
         .mphDeactivateReq GsmL1_Sapi_FacchF GsmL1_Dir_TxDownlink,
         .mphDeactivateReq GsmL1_Sapi_TchF GsmL1_Dir_RxUplink,
         .mphDeactivateReq GsmL1_Sapi_TchF GsmL1_Dir_TxDownlink] ∧
      s.w.l1sap_up = [{ type := PRIM_INFO_DEACTIVATE, cause := 0 }] :=
  match tchf_release tchf_assigned 0 rfl rfl rfl rfl rfl (by decide) 6 (by decide) with
  | ⟨s, hs, hw, hq, _, _, h6⟩ =>
    ⟨s, hs, (h6 rfl).1, hq.trans (by decide), hw.trans (by decide), (h6 rfl).2.2.1⟩

/-! ## C12 -/

/-- C12.  Let a ReleaseMarker be the only entry of the queue.  Executing it
(`sapi_queue_exeute`, and `sapi_queue_send`, which makes exactly this pass)
leaves the queue holding one Deactivate command for every entry of the channel
type's table whose facility state was Assigned, in the reverse of the table
order (`assigned_entries`); the facility state of each such entry is
PendingRelease (`LCHAN_SAPI_S_REL`), every other facility state is as it was;
the request of the first synthesized Deactivate, and of no other, is submitted
with its pending transaction.  (The result is 1 and the lifecycle state is kept
when some entry was Assigned; otherwise the result is 0, the channel is Broken
and one release result is reported.) -/
theorem rel_marker_only_entry (w : World) (cmd : sapi_cmd)
    (hq : w.lchan.sapi_cmds = [cmd]) (ht : cmd.type = SAPI_CMD_REL_MARKER) :
    ∃ r, sapi_queue_exeute (sapi_queue_send_fuel 1) w = .ok r ∧
      sapi_queue_send w = .ok r.1 ∧
      r.1.lchan.sapi_cmds =
        (assigned_entries w.lchan).map (fun sd => deactivate_cmd sd.sapi sd.dir) ∧
      (∀ s, r.1.lchan.sapis_dl s =
        if w.lchan.sapis_dl s = LCHAN_SAPI_S_ASSIGNED ∧
            (⟨s, GsmL1_Dir_TxDownlink⟩ : sapi_dir) ∈ sapis_for_lchan w.lchan.type then
          LCHAN_SAPI_S_REL
        else w.lchan.sapis_dl s) ∧
      (∀ s, r.1.lchan.sapis_ul s =
        if w.lchan.sapis_ul s = LCHAN_SAPI_S_ASSIGNED ∧
            (⟨s, GsmL1_Dir_RxUplink⟩ : sapi_dir) ∈ sapis_for_lchan w.lchan.type then
          LCHAN_SAPI_S_REL
        else w.lchan.sapis_ul s) ∧
      r.1.fl1h.write_q_L1 = w.fl1h.write_q_L1 ++
        ((assigned_entries w.lchan).take 1).map
          (fun sd => msgb.mphDeactivateReq sd.sapi sd.dir) ∧
      r.1.fl1h.wlc_list =
        ((assigned_entries w.lchan).take 1).map
          (fun sd => wlc_for (deactivate_cmd sd.sapi sd.dir)) ++ w.fl1h.wlc_list ∧
      r.2 = (if assigned_entries w.lchan = [] then 0 else 1) ∧
      r.1.lchan.state =
        (if assigned_entries w.lchan = [] then LCHAN_S_BROKEN else w.lchan.state) ∧
      r.1.l1sap_up = w.l1sap_up ++
        (if assigned_entries w.lchan = [] then [{ type := PRIM_INFO_DEACTIVATE, cause := 0 }]
          else []) := by
  obtain ⟨r0, hr0, hs0⟩ := sapi_queue_send_single w cmd hq
  have hdel : w.llist_del_head.lchan.sapi_cmds = [] := by simp [World.llist_del_head, hq]
  obtain ⟨r, hr, f1, f2, f3, _, f5, _, _, f8, f9, f10, f11⟩ :=
    lchan_deactivate_sapis_spec (sapi_queue_send_fuel 1) (sapi_queue_send_fuel_SendOK 0)
      w.llist_del_head hdel
  have hex : sapi_queue_exeute (sapi_queue_send_fuel 1) w = .ok r := by
    unfold sapi_queue_exeute
    simp only [hq, ht]
    exact hr
  have hrr : r0 = r := by
    rw [hex] at hr0
    exact (Except.ok.inj hr0).symm
  subst hrr
  exact ⟨r0, hex, hs0, f1, f2, f3, f10, f11, f9, f5, f8⟩

/-- Witness of C12: the release marker alone in the queue of a TCH/F channel
whose TCH/F, FACCH/F and SACCH are Assigned in both directions. -/
theorem rel_marker_only_entry_witness :
    ∃ r, sapi_queue_exeute (sapi_queue_send_fuel 1)
        { tchf_assigned with
          lchan := { tchf_assigned.lchan with sapi_cmds := [rel_marker] } } = .ok r ∧
      r.1.lchan.sapi_cmds =
        [deactivate_cmd GsmL1_Sapi_Sacch GsmL1_Dir_RxUplink,
         deactivate_cmd GsmL1_Sapi_Sacch GsmL1_Dir_TxDownlink,
         deactivate_cmd GsmL1_Sapi_FacchF GsmL1_Dir_RxUplink,
         deactivate_cmd GsmL1_Sapi_FacchF GsmL1_Dir_TxDownlink,
         deactivate_cmd GsmL1_Sapi_TchF GsmL1_Dir_RxUplink,
         deactivate_cmd GsmL1_Sapi_TchF GsmL1_Dir_TxDownlink] ∧
      r.1.fl1h.write_q_L1 = [.mphDeactivateReq GsmL1_Sapi_Sacch GsmL1_Dir_RxUplink] :=
  match rel_marker_only_entry
    { tchf_assigned with lchan := { tchf_assigned.lchan with sapi_cmds := [rel_marker] } }
    rel_marker rfl rfl with
  | ⟨r, hr, _, hq, _, _, hw, _⟩ => ⟨r, hr, hq.trans (by decide), hw.trans (by decide)⟩

/-! ## C13, C16 -/

/-- C13, the code at the failing input.  On an Active TCH/F channel with TCH/F,
FACCH/F and SACCH Assigned a mode change is confirmed twice after a release
and an activation were requested, so the ReleaseMarker is executed with the
six Activate commands behind it.  All six table entries were Assigned and six
Deactivate commands are synthesized behind the Activate commands, yet
`lchan_deactivate_sapis` sets the channel Broken and reports the release
upward: `queue_sapi_command` returned 0 (queued) for each of them and `res == 0`
is taken for "nothing was queued". -/
theorem rel_marker_breaks_assigned_channel :
    ((System.run { w := tchf_assigned, answered := 0 }
        [.mode_change, .release, .activate, .confirm 0]).toOption.map
        (fun s => (s.w.lchan.state, s.w.lchan.sapi_cmds.take 2,
          s.w.lchan.sapis_dl GsmL1_Sapi_TchF, s.w.l1sap_up)) =
      some (LCHAN_S_ACT_REQ,
        [{ sapi := GsmL1_Sapi_Idle, dir := GsmL1_Dir_TxDownlink,
           type := SAPI_CMD_CONFIG_LOGCH_PARAM, callback := none }, rel_marker],
        LCHAN_SAPI_S_ASSIGNED, [])) ∧
    (System.run { w := tchf_assigned, answered := 0 }
        [.mode_change, .release, .activate, .confirm 0, .confirm 0]).toOption.map
        (fun s => (s.w.lchan.state, s.w.lchan.sapi_cmds.drop 6,
          s.w.lchan.sapis_dl GsmL1_Sapi_TchF, s.w.l1sap_up)) =
      some (LCHAN_S_BROKEN,
        [deactivate_cmd GsmL1_Sapi_Sacch GsmL1_Dir_RxUplink,
         deactivate_cmd GsmL1_Sapi_Sacch GsmL1_Dir_TxDownlink,
         deactivate_cmd GsmL1_Sapi_FacchF GsmL1_Dir_RxUplink,
         deactivate_cmd GsmL1_Sapi_FacchF GsmL1_Dir_TxDownlink,
         deactivate_cmd GsmL1_Sapi_TchF GsmL1_Dir_RxUplink,
         deactivate_cmd GsmL1_Sapi_TchF GsmL1_Dir_TxDownlink],
        LCHAN_SAPI_S_REL, [{ type := PRIM_INFO_DEACTIVATE, cause := 0 }]) := by
  decide

/-- C16, the code at the failing inputs.  A set-ciphering confirmation and a
set-logical-channel-parameters confirmation given to `chmod_modif_compl_cb`
while the head of the queue is the last Activate command of an activation both
complete that Activate command: its callback runs and the channel becomes
Active.  A set-logical-channel-parameters confirmation for a channel with an
empty queue reaches `sapi_queue_dispatch`, which takes the head of the empty
list. -/
theorem config_confirmation_completes_any_head :
    (chmod_modif_compl_cb (last_activation 0)
        (.mphConfigCnf GsmL1_ConfigParamId_SetCipheringParams GsmL1_Status_Success)).toOption.map
        (fun r => (r.1.lchan.state, r.1.lchan.sapi_cmds.length, callback_events r.1.trace)) =
      some (LCHAN_S_ACTIVE, 2, [(sapi_cmd_callback.sapi_activate_cb, 0)]) ∧
    (chmod_modif_compl_cb (last_activation 0)
        (.mphConfigCnf GsmL1_ConfigParamId_SetLogChParams GsmL1_Status_Success)).toOption.map
        (fun r => (r.1.lchan.state, r.1.lchan.sapi_cmds.length, callback_events r.1.trace)) =
      some (LCHAN_S_ACTIVE, 2, [(sapi_cmd_callback.sapi_activate_cb, 0)]) ∧
    chmod_modif_compl_cb (tchf_channel LCHAN_S_ACTIVE 0)
        (.mphConfigCnf GsmL1_ConfigParamId_SetLogChParams GsmL1_Status_Success) =
      .error Fault.undefined_behaviour := by
  decide

/-! ## C15 -/

/-- C15, counterexample.  The queue is [Activate(RACH uplink),
Activate(SDCCH downlink)] and the success confirmation of the second command
arrives while the first is the head.  `lchan_act_compl_cb` returns 0 with the
lifecycle state still ActivationRequested, the queue as it was and nothing
reported upward; only the facility state of SDCCH downlink has been set. -/
theorem unmatched_confirmation_keeps_channel :
    (lchan_act_compl_cb two_activations
        (.mphActivateCnf GsmL1_Sapi_Sdcch GsmL1_Dir_TxDownlink GsmL1_Status_Success)).toOption.map
        (fun r => (r.2, r.1.lchan.state, r.1.lchan.sapi_cmds, r.1.l1sap_up,
          r.1.lchan.sapis_dl GsmL1_Sapi_Sdcch)) =
      some (0, LCHAN_S_ACT_REQ,
        [activate_cmd GsmL1_Sapi_Rach GsmL1_Dir_RxUplink,
         activate_cmd GsmL1_Sapi_Sdcch GsmL1_Dir_TxDownlink], [], LCHAN_SAPI_S_ASSIGNED) := by
  decide

/-- C15, amended.  An activation (deactivation) confirmation that cannot be
matched to the head command of its channel, because the queue is empty or the
head differs in facility, direction or kind, is handled with result 0 and only
updates the facility state it names (Assigned, resp. Unassigned, on success and
Error otherwise): the lifecycle state, the command queue, the ciphering state,
the reports sent upward and the layer-1 handle are left as they were. -/
theorem unmatched_confirmation_only_updates_sapi (w : World) (sapi : GsmL1_Sapi_t)
    (dir : GsmL1_Dir_t) (status : Int) :
    ((∀ cmd rest, w.lchan.sapi_cmds = cmd :: rest →
        cmd.sapi ≠ sapi ∨ cmd.dir ≠ dir ∨ cmd.type ≠ SAPI_CMD_ACTIVATE) →
      lchan_act_compl_cb w (.mphActivateCnf sapi dir status) =
        .ok (set_sapi_state w sapi dir
          (if status = GsmL1_Status_Success then LCHAN_SAPI_S_ASSIGNED
            else LCHAN_SAPI_S_ERROR), 0)) ∧
    ((∀ cmd rest, w.lchan.sapi_cmds = cmd :: rest →
        cmd.sapi ≠ sapi ∨ cmd.dir ≠ dir ∨ cmd.type ≠ SAPI_CMD_DEACTIVATE) →
      lchan_deact_compl_cb w (.mphDeactivateCnf sapi dir status) =
        .ok (set_sapi_state w sapi dir
          (if status = GsmL1_Status_Success then LCHAN_SAPI_S_NONE
            else LCHAN_SAPI_S_ERROR), 0)) ∧
    (∀ st, (set_sapi_state w sapi dir st).lchan.state = w.lchan.state ∧
      (set_sapi_state w sapi dir st).lchan.sapi_cmds = w.lchan.sapi_cmds ∧
      (set_sapi_state w sapi dir st).lchan.ciph_state = w.lchan.ciph_state ∧
      (set_sapi_state w sapi dir st).l1sap_up = w.l1sap_up ∧
      (set_sapi_state w sapi dir st).fl1h = w.fl1h) := by
  refine ⟨?_, ?_, ?_⟩
  · intro hmis
    unfold lchan_act_compl_cb
    cases hq : (set_sapi_state w sapi dir
        (if status = GsmL1_Status_Success then LCHAN_SAPI_S_ASSIGNED
          else LCHAN_SAPI_S_ERROR)).lchan.sapi_cmds with
    | nil => simp only [hq, M_pure]
    | cons cmd rest =>
      have h := hmis cmd rest (((set_sapi_state_same w sapi dir _).2.2.1).symm.trans hq)
      simp only [hq, ne_eq, h, ↓reduceIte, M_pure]
  · intro hmis
    unfold lchan_deact_compl_cb
    cases hq : (set_sapi_state w sapi dir
        (if status = GsmL1_Status_Success then LCHAN_SAPI_S_NONE
          else LCHAN_SAPI_S_ERROR)).lchan.sapi_cmds with
    | nil => simp only [hq, M_pure]
    | cons cmd rest =>
      have h := hmis cmd rest (((set_sapi_state_same w sapi dir _).2.2.1).symm.trans hq)
      simp only [hq, ne_eq, h, ↓reduceIte, M_pure]
  · intro st
    obtain ⟨_, _, e3, e4, e5, e6, e7, _⟩ := set_sapi_state_same w sapi dir st
    exact ⟨e4, e3, e5, e7, e6⟩

/-- Witness of C15: the confirmation of the counterexample. -/
theorem unmatched_confirmation_only_updates_sapi_witness :
    (∀ cmd rest, two_activations.lchan.sapi_cmds = cmd :: rest →
      cmd.sapi ≠ GsmL1_Sapi_Sdcch ∨ cmd.dir ≠ GsmL1_Dir_TxDownlink ∨
        cmd.type ≠ SAPI_CMD_ACTIVATE) ∧
    lchan_act_compl_cb two_activations
        (.mphActivateCnf GsmL1_Sapi_Sdcch GsmL1_Dir_TxDownlink GsmL1_Status_Success) =
      .ok (set_sapi_state two_activations GsmL1_Sapi_Sdcch GsmL1_Dir_TxDownlink
        (if GsmL1_Status_Success = GsmL1_Status_Success then LCHAN_SAPI_S_ASSIGNED
          else LCHAN_SAPI_S_ERROR), 0) :=
  have hmis : ∀ cmd rest, two_activations.lchan.sapi_cmds = cmd :: rest →
      cmd.sapi ≠ GsmL1_Sapi_Sdcch ∨ cmd.dir ≠ GsmL1_Dir_TxDownlink ∨
        cmd.type ≠ SAPI_CMD_ACTIVATE := by
    intro cmd rest h
    simp only [two_activations, List.cons.injEq] at h
    rw [← h.1]
    left
    simp [activate_cmd]
  ⟨hmis, (unmatched_confirmation_only_updates_sapi two_activations GsmL1_Sapi_Sdcch
    GsmL1_Dir_TxDownlink GsmL1_Status_Success).1 hmis⟩

/-! ## C14 -/

/-- A SacchReleaseMarker at the head of a queue of a channel whose SACCH is
Assigned in neither direction is unlinked and nothing else happens. -/
theorem sapi_queue_exeute_sacch_marker_idle (send : World → M World) (w : World)
    (cmd : sapi_cmd) (rest : List sapi_cmd) (hq : w.lchan.sapi_cmds = cmd :: rest)
    (ht : cmd.type = SAPI_CMD_SACCH_REL_MARKER)
    (hdl : w.lchan.sapis_dl GsmL1_Sapi_Sacch ≠ LCHAN_SAPI_S_ASSIGNED)
    (hul : w.lchan.sapis_ul GsmL1_Sapi_Sacch ≠ LCHAN_SAPI_S_ASSIGNED) :
    sapi_queue_exeute send w = .ok (w.llist_del_head, 0) := by
  have hdl' : w.llist_del_head.lchan.sapis_dl GsmL1_Sapi_Sacch ≠ LCHAN_SAPI_S_ASSIGNED := hdl
  have hul' : w.llist_del_head.lchan.sapis_ul GsmL1_Sapi_Sacch ≠ LCHAN_SAPI_S_ASSIGNED := hul
  have h1 : check_sapi_release send w.llist_del_head GsmL1_Sapi_Sacch GsmL1_Dir_TxDownlink =
      .ok (w.llist_del_head, 0) := by
    unfold check_sapi_release
    rw [if_pos (by decide), if_pos hdl']
    rfl
  have h2 : check_sapi_release send w.llist_del_head GsmL1_Sapi_Sacch GsmL1_Dir_RxUplink =
      .ok (w.llist_del_head, 0) := by
    unfold check_sapi_release
    rw [if_neg (by decide), if_pos (by decide), if_pos hul']
    rfl
  unfold sapi_queue_exeute
  simp only [hq, ht, h1, h2, M_bind_ok, M_pure, Nat.or_self]

/-- C14.  Let the head of the queue be a SacchReleaseMarker and let SACCH be
Assigned in neither direction.  Executing the marker (`sapi_queue_exeute`)
yields 0 in the state in which the marker alone has been removed: no command
is added, no facility or lifecycle state changes, nothing is reported and the
layer-1 handle is untouched.  `sapi_queue_send` then ends there when the queue
has become empty, and otherwise continues as `sapi_queue_send` on the rest of
the queue. -/
theorem sacch_rel_marker_noop (w : World) (cmd : sapi_cmd) (rest : List sapi_cmd)
    (hq : w.lchan.sapi_cmds = cmd :: rest) (ht : cmd.type = SAPI_CMD_SACCH_REL_MARKER)
    (hdl : w.lchan.sapis_dl GsmL1_Sapi_Sacch ≠ LCHAN_SAPI_S_ASSIGNED)
    (hul : w.lchan.sapis_ul GsmL1_Sapi_Sacch ≠ LCHAN_SAPI_S_ASSIGNED) :
    (∀ send, sapi_queue_exeute send w = .ok (w.llist_del_head, 0)) ∧
    w.llist_del_head.lchan = { w.lchan with sapi_cmds := rest } ∧
    w.llist_del_head.fl1h = w.fl1h ∧ w.llist_del_head.l1sap_up = w.l1sap_up ∧
    w.llist_del_head.trace = w.trace ∧
    (rest = [] → sapi_queue_send w = .ok w.llist_del_head) ∧
    (rest ≠ [] → sapi_queue_send w = sapi_queue_send w.llist_del_head) := by
  have hdel : w.llist_del_head.lchan.sapi_cmds = rest := by
    simp [World.llist_del_head, hq]
  have hex := fun send => sapi_queue_exeute_sacch_marker_idle send w cmd rest hq ht hdl hul
  refine ⟨hex, ?_, rfl, rfl, rfl, ?_, ?_⟩
  · simp [World.llist_del_head, hq]
  · intro hr
    unfold sapi_queue_send sapi_queue_send_fuel
    simp only [hq, List.length_cons, hex, M_bind_ok, hdel, hr, List.isEmpty_nil,
      not_true_eq_false, and_false, ↓reduceIte, M_pure]
  · intro hr
    have hne : rest.isEmpty = false := by
      cases rest with
      | nil => exact absurd rfl hr
      | cons _ _ => rfl
    unfold sapi_queue_send
    rw [hq, hdel]
    show sapi_queue_send_fuel (rest.length + 1 + 1) w = _
    rw [sapi_queue_send_fuel]
    simp only [hex, M_bind_ok, hdel, hne, Bool.false_eq_true, not_false_eq_true, and_self,
      ↓reduceIte]

/-- Witness of C14: a SACCH release marker followed by a ConfigureCiphering
command on an Active channel without SACCH. -/
theorem sacch_rel_marker_noop_witness :
    ({ tchf_channel LCHAN_S_ACTIVE 1 with
        lchan := { (tchf_channel LCHAN_S_ACTIVE 1).lchan with
          sapi_cmds := [sacch_rel_marker, ciphering_cmd GsmL1_Dir_RxUplink] } } :
      World).lchan.sapi_cmds = sacch_rel_marker :: [ciphering_cmd GsmL1_Dir_RxUplink] ∧
    sapi_queue_send
        { tchf_channel LCHAN_S_ACTIVE 1 with
          lchan := { (tchf_channel LCHAN_S_ACTIVE 1).lchan with
            sapi_cmds := [sacch_rel_marker, ciphering_cmd GsmL1_Dir_RxUplink] } } =
      sapi_queue_send
        (World.llist_del_head
          { tchf_channel LCHAN_S_ACTIVE 1 with
            lchan := { (tchf_channel LCHAN_S_ACTIVE 1).lchan with
              sapi_cmds := [sacch_rel_marker, ciphering_cmd GsmL1_Dir_RxUplink] } }) :=
  ⟨rfl, (sacch_rel_marker_noop
    { tchf_channel LCHAN_S_ACTIVE 1 with
      lchan := { (tchf_channel LCHAN_S_ACTIVE 1).lchan with
        sapi_cmds := [sacch_rel_marker, ciphering_cmd GsmL1_Dir_RxUplink] } }
    sacch_rel_marker [ciphering_cmd GsmL1_Dir_RxUplink] rfl rfl (by decide)
    (by decide)).2.2.2.2.2.2 (by simp)⟩

/-! ## C17 -/

/-- C17, counterexample.  The release of an Active TCH/F channel was requested
while its two ConfigureCiphering commands were queued.  The completion of the
first of them with a non-success status leaves the lifecycle state
ReleaseRequested, keeps the rest of the queue, reports nothing upward and
submits the request of the second ConfigureCiphering command. -/
theorem config_failure_while_releasing_continues :
    (sapi_queue_dispatch release_during_ciphering 1).toOption.map
        (fun w => (w.lchan.state, w.lchan.sapi_cmds, w.l1sap_up, w.fl1h.write_q_L1)) =
      some (LCHAN_S_REL_REQ, [ciphering_cmd GsmL1_Dir_TxDownlink, rel_marker], [],
        [.mphConfigReq (.setCipheringParams GsmL1_Dir_TxDownlink GsmL1_CipherId_A50)]) := by
  decide

/-- C17, amended.  Let the lifecycle state be ReleaseRequested and let the head
command complete with a non-success status.  If the head is a Deactivate
command, the channel becomes Broken, the queue is emptied, one release result
is reported upward and the layer-1 handle is untouched, so no further
Deactivate is submitted.  If it is an Activate command, the channel becomes
Broken and the queue is emptied likewise, but what is reported is a negative
activation result.  If it is a command without callback (ConfigureCiphering,
ConfigureLogicalParams), the status is ignored: the command is removed and the
execution of the queue goes on with the next entry, if there is one. -/
theorem failure_while_releasing (w : World) (status : Int) (cmd : sapi_cmd)
    (rest : List sapi_cmd) (hq : w.lchan.sapi_cmds = cmd :: rest)
    (hs : w.lchan.state = LCHAN_S_REL_REQ) (hst : status ≠ GsmL1_Status_Success) :
    (cmd.callback = some .sapi_deactivate_cb →
      ∃ w', sapi_queue_dispatch w status = .ok w' ∧
        w'.lchan.state = LCHAN_S_BROKEN ∧ w'.lchan.sapi_cmds = [] ∧
        w'.l1sap_up = w.l1sap_up ++ [{ type := PRIM_INFO_DEACTIVATE, cause := 0 }] ∧
        w'.fl1h = w.fl1h) ∧
    (cmd.callback = some .sapi_activate_cb →
      ∃ w', sapi_queue_dispatch w status = .ok w' ∧
        w'.lchan.state = LCHAN_S_BROKEN ∧ w'.lchan.sapi_cmds = [] ∧
        w'.l1sap_up = w.l1sap_up ++
          [{ type := PRIM_INFO_ACTIVATE, cause := RSL_ERR_EQUIPMENT_FAIL }] ∧
        w'.fl1h = w.fl1h) ∧
    (cmd.callback = none →
      sapi_queue_dispatch w status =
        (if rest = [] then .ok w.llist_del_head else sapi_queue_send w.llist_del_head) ∧
      w.llist_del_head.lchan = { w.lchan with sapi_cmds := rest } ∧
      w.llist_del_head.fl1h = w.fl1h ∧ w.llist_del_head.l1sap_up = w.l1sap_up) := by
  have hdel : w.llist_del_head.lchan.sapi_cmds = rest := by
    simp [World.llist_del_head, hq]
  have hs' : w.llist_del_head.lchan.state = LCHAN_S_REL_REQ := hs
  refine ⟨?_, ?_, ?_⟩
  · intro hcb
    unfold sapi_queue_dispatch
    rw [hq]
    simp only [run_callback, hcb, call_sapi_cmd_callback, sapi_deactivate_cb, hst, hs',
      ne_eq, not_false_eq_true, and_self, ↓reduceIte, M_pure, M_bind_ok,
      mph_info_chan_confirm, sapi_clear_queue, lchan_set_state, List.isEmpty_nil, or_true]
    exact ⟨_, rfl, rfl, rfl, rfl, rfl⟩
  · intro hcb
    unfold sapi_queue_dispatch
    rw [hq]
    simp only [run_callback, hcb, call_sapi_cmd_callback, sapi_activate_cb, hst,
      ne_eq, not_false_eq_true, ↓reduceIte, M_pure, M_bind_ok, mph_info_chan_confirm,
      sapi_clear_queue, lchan_set_state, List.isEmpty_nil, or_true]
    exact ⟨_, rfl, rfl, rfl, rfl, rfl⟩
  · intro hcb
    refine ⟨?_, by simp [World.llist_del_head, hq], rfl, rfl⟩
    unfold sapi_queue_dispatch
    rw [hq]
    simp only [run_callback, hcb, M_pure, M_bind_ok, hdel, or_self]
    cases rest with
    | nil => simp
    | cons c rest' => simp

/-- Witness of C17: the failure of a Deactivate command during a release. -/
theorem failure_while_releasing_witness :
    ({ tchf_channel LCHAN_S_REL_REQ 0 with
        lchan := { (tchf_channel LCHAN_S_REL_REQ 0).lchan with
          sapi_cmds :=
            [deactivate_cmd GsmL1_Sapi_Sacch GsmL1_Dir_RxUplink,
             deactivate_cmd GsmL1_Sapi_Sacch GsmL1_Dir_TxDownlink] } } :
      World).lchan.state = LCHAN_S_REL_REQ ∧
    ∃ w', sapi_queue_dispatch
        { tchf_channel LCHAN_S_REL_REQ 0 with
          lchan := { (tchf_channel LCHAN_S_REL_REQ 0).lchan with
            sapi_cmds :=
              [deactivate_cmd GsmL1_Sapi_Sacch GsmL1_Dir_RxUplink,
               deactivate_cmd GsmL1_Sapi_Sacch GsmL1_Dir_TxDownlink] } } 1 = .ok w' ∧
      w'.lchan.state = LCHAN_S_BROKEN ∧ w'.lchan.sapi_cmds = [] :=
  match (failure_while_releasing
    { tchf_channel LCHAN_S_REL_REQ 0 with
      lchan := { (tchf_channel LCHAN_S_REL_REQ 0).lchan with
        sapi_cmds :=
          [deactivate_cmd GsmL1_Sapi_Sacch GsmL1_Dir_RxUplink,
           deactivate_cmd GsmL1_Sapi_Sacch GsmL1_Dir_TxDownlink] } } 1
    (deactivate_cmd GsmL1_Sapi_Sacch GsmL1_Dir_RxUplink)
    [deactivate_cmd GsmL1_Sapi_Sacch GsmL1_Dir_TxDownlink] rfl rfl (by decide)).1 rfl with
  | ⟨w', hw', h1, h2, _⟩ => ⟨rfl, w', hw', h1, h2⟩

/-! ## C18 -/

theorem run_callback_ciph_state (cmd : sapi_cmd) (w : World) (status : Int)
    (hcb : cmd.callback ≠ some .sapi_activate_cb) :
    ∃ w1, run_callback cmd w status = .ok w1 ∧ w1.lchan.ciph_state = w.lchan.ciph_state := by
  unfold run_callback
  cases hc : cmd.callback with
  | none => exact ⟨w, rfl, rfl⟩
  | some cb =>
    cases cb with
    | sapi_activate_cb => exact absurd hc hcb
    | sapi_deactivate_cb =>
      simp only [call_sapi_cmd_callback]
      unfold sapi_deactivate_cb
      split
      · exact ⟨_, rfl, rfl⟩
      · split
        · exact ⟨_, rfl, rfl⟩
        · split
          · exact ⟨_, rfl, rfl⟩
          · exact ⟨_, rfl, rfl⟩

/-- Completing a head command other than an Activate command keeps the
ciphering state. -/
theorem sapi_queue_dispatch_ciph_state (w : World) (cmd : sapi_cmd) (rest : List sapi_cmd)
    (status : Int) (hq : w.lchan.sapi_cmds = cmd :: rest)
    (hcb : cmd.callback ≠ some .sapi_activate_cb) :
    ∃ w', sapi_queue_dispatch w status = .ok w' ∧
      w'.lchan.ciph_state = w.lchan.ciph_state := by
  obtain ⟨w1, hw1, hc1⟩ := run_callback_ciph_state cmd w.llist_del_head status hcb
  have hc1' : w1.lchan.ciph_state = w.lchan.ciph_state := by rw [hc1]; rfl
  unfold sapi_queue_dispatch
  simp only [hq, hw1, M_bind_ok]
  split
  · exact ⟨_, rfl, hc1'⟩
  · rename_i hcond
    simp only [not_or, List.isEmpty_iff] at hcond
    obtain ⟨w', hw', hp⟩ := sapi_queue_send_post w1 hcond.2
    exact ⟨w', hw', by rw [hp.2.2.1, hc1']⟩

/-- C18.  A set-ciphering confirmation, of any status, for a channel whose
queue is empty or headed by a command other than an Activate command (the
confirmed ConfigureCiphering command in particular), is handled with result 0
and leaves the ciphering state one step further along the fixed sequence
`ciph_step_spec`: UplinkKeyRequested to UplinkKeyConfirmed, BothRequested to
UplinkConfirmedDownlinkRequested, UplinkConfirmedDownlinkRequested to
BothConfirmed, while None, UplinkKeyConfirmed and BothConfirmed stay.  Hence two
steps lead from BothRequested to BothConfirmed, one does not, and
BothConfirmed is a fixed point. -/
theorem ciphering_confirmation_steps (w : World) (status : Int)
    (hcb : ∀ cmd rest, w.lchan.sapi_cmds = cmd :: rest →
      cmd.callback ≠ some .sapi_activate_cb) :
    (∃ w', chmod_modif_compl_cb w (.mphConfigCnf GsmL1_ConfigParamId_SetCipheringParams status) =
        .ok (w', 0) ∧
      w'.lchan.ciph_state = ciph_step_spec w.lchan.ciph_state) ∧
    ciph_step_spec LCHAN_CIPH_RX_REQ = LCHAN_CIPH_RX_CONF ∧
    ciph_step_spec LCHAN_CIPH_RXTX_REQ = LCHAN_CIPH_RX_CONF_TX_REQ ∧
    ciph_step_spec LCHAN_CIPH_RX_CONF_TX_REQ = LCHAN_CIPH_RXTX_CONF ∧
    ciph_step_spec LCHAN_CIPH_NONE = LCHAN_CIPH_NONE ∧
    ciph_step_spec LCHAN_CIPH_RX_CONF = LCHAN_CIPH_RX_CONF ∧
    ciph_step_spec LCHAN_CIPH_RXTX_CONF = LCHAN_CIPH_RXTX_CONF ∧
    ciph_step_spec LCHAN_CIPH_RXTX_REQ ≠ LCHAN_CIPH_RXTX_CONF ∧
    ciph_step_spec (ciph_step_spec LCHAN_CIPH_RXTX_REQ) = LCHAN_CIPH_RXTX_CONF := by
  refine ⟨?_, rfl, rfl, rfl, rfl, rfl, rfl, by decide, rfl⟩
  have hstep : (match w.lchan.ciph_state with
      | LCHAN_CIPH_RX_REQ => LCHAN_CIPH_RX_CONF
      | LCHAN_CIPH_RX_CONF_TX_REQ => LCHAN_CIPH_RXTX_CONF
      | LCHAN_CIPH_RXTX_REQ => LCHAN_CIPH_RX_CONF_TX_REQ
      | s => s) = ciph_step_spec w.lchan.ciph_state := by
    cases w.lchan.ciph_state <;> rfl
  unfold chmod_modif_compl_cb
  simp only [hstep]
  by_cases hq : w.lchan.sapi_cmds = []
  · have hemp : w.lchan.sapi_cmds.isEmpty = true := by rw [hq]; rfl
    simp only [hemp, ↓reduceIte, M_pure]
    exact ⟨_, rfl, rfl⟩
  · obtain ⟨cmd, rest, hq'⟩ := List.exists_cons_of_ne_nil hq
    have hemp : w.lchan.sapi_cmds.isEmpty = false := by rw [hq']; rfl
    obtain ⟨w', hw', hc⟩ := sapi_queue_dispatch_ciph_state
      { w with lchan := { w.lchan with ciph_state := ciph_step_spec w.lchan.ciph_state } }
      cmd rest status hq' (hcb cmd rest hq')
    simp only [hemp, Bool.false_eq_true, ↓reduceIte, hw', M_bind_ok, M_pure]
    exact ⟨_, rfl, hc⟩

/-- Witness of C18: the first of the two ciphering confirmations that follow
an activation. -/
theorem ciphering_confirmation_steps_witness :
    ∃ w', chmod_modif_compl_cb
        { tchf_channel LCHAN_S_ACTIVE 1 with
          lchan := { (tchf_channel LCHAN_S_ACTIVE 1).lchan with
            ciph_state := LCHAN_CIPH_RXTX_REQ
            sapi_cmds := [ciphering_cmd GsmL1_Dir_RxUplink, ciphering_cmd GsmL1_Dir_TxDownlink] } }
        (.mphConfigCnf GsmL1_ConfigParamId_SetCipheringParams GsmL1_Status_Success) =
        .ok (w', 0) ∧
      w'.lchan.ciph_state = LCHAN_CIPH_RX_CONF_TX_REQ :=
  (ciphering_confirmation_steps
    { tchf_channel LCHAN_S_ACTIVE 1 with
      lchan := { (tchf_channel LCHAN_S_ACTIVE 1).lchan with
        ciph_state := LCHAN_CIPH_RXTX_REQ
        sapi_cmds := [ciphering_cmd GsmL1_Dir_RxUplink, ciphering_cmd GsmL1_Dir_TxDownlink] } }
    GsmL1_Status_Success
    (by
      intro cmd rest h
      simp only [List.cons.injEq] at h
      rw [← h.1]
      simp [ciphering_cmd])).1

/-! ## C19, C20 -/

/-- On an Active channel `l1if_set_ciphering` returns 0 and appends one
ConfigureCiphering command; nothing else of the channel changes, and the
layer-1 handle changes only when the queue was empty. -/
theorem l1if_set_ciphering_active (w : World) (dir_downlink : Int)
    (hs : w.lchan.state = LCHAN_S_ACTIVE) :
    ∃ w', l1if_set_ciphering w dir_downlink = .ok (w', 0) ∧
      w'.lchan = { w.lchan with
        sapi_cmds := w.lchan.sapi_cmds ++ [ciphering_cmd (ciphering_dir dir_downlink)] } ∧
      w'.l1sap_up = w.l1sap_up ∧
      (w.lchan.sapi_cmds ≠ [] → w'.fl1h = w.fl1h) := by
  by_cases hq : w.lchan.sapi_cmds = []
  · obtain ⟨r, _, _, hr, he⟩ := queue_sapi_command_on_empty w
      (ciphering_cmd (ciphering_dir dir_downlink)) hq
    have he' := he rfl
    refine ⟨r.1, ?_, ?_, ?_, fun h => absurd hq h⟩
    · simp only [ciphering_cmd, ciphering_dir] at hr
      unfold l1if_set_ciphering enqueue_sapi_ciphering_cmd
      simp only [hs, ne_eq, not_true_eq_false, ↓reduceIte, hr, M_bind_ok, M_pure]
    · rw [he', World_executed_lchan]; rfl
    · rw [he']
      unfold World.executed
      split <;> rfl
  · have hr := queue_sapi_command_on_busy w (ciphering_cmd (ciphering_dir dir_downlink)) hq
    refine ⟨w.llist_add_tail (ciphering_cmd (ciphering_dir dir_downlink)), ?_, rfl, rfl,
      fun _ => rfl⟩
    simp only [ciphering_cmd, ciphering_dir] at hr
    unfold l1if_set_ciphering enqueue_sapi_ciphering_cmd
    simp only [hs, ne_eq, not_true_eq_false, ↓reduceIte, hr, M_bind_ok, M_pure, ciphering_cmd,
      ciphering_dir]

/-- C19.  For every channel and every direction argument: if the lifecycle
state is not Active, `l1if_set_ciphering` returns -1 and changes nothing (no
queue entry, no request); if it is Active, it returns 0 and the queue gains
exactly one ConfigureCiphering command, for uplink when `dir_downlink` is
non-zero and for downlink otherwise, the rest of the channel being unchanged. -/
theorem l1if_set_ciphering_only_active (w : World) (dir_downlink : Int) :
    (w.lchan.state ≠ LCHAN_S_ACTIVE → l1if_set_ciphering w dir_downlink = .ok (w, -1)) ∧
    (w.lchan.state = LCHAN_S_ACTIVE →
      ∃ w', l1if_set_ciphering w dir_downlink = .ok (w', 0) ∧
        w'.lchan.sapi_cmds = w.lchan.sapi_cmds ++
          [{ sapi := GsmL1_Sapi_Idle,
             dir := if dir_downlink ≠ 0 then GsmL1_Dir_RxUplink else GsmL1_Dir_TxDownlink,
             type := SAPI_CMD_CONFIG_CIPHERING, callback := none }] ∧
        w'.lchan.state = LCHAN_S_ACTIVE ∧ w'.lchan.ciph_state = w.lchan.ciph_state ∧
        w'.lchan.sapis_dl = w.lchan.sapis_dl ∧ w'.lchan.sapis_ul = w.lchan.sapis_ul) := by
  constructor
  · intro hs
    unfold l1if_set_ciphering
    simp only [hs, ne_eq, not_false_eq_true, ↓reduceIte, M_pure]
  · intro hs
    obtain ⟨w', hw', hl, _, _⟩ := l1if_set_ciphering_active w dir_downlink hs
    refine ⟨w', hw', ?_, ?_, ?_, ?_, ?_⟩ <;> rw [hl]
    · rfl
    · exact hs

/-- Witness of C19: a channel in state ReleaseRequested and an Active one. -/
theorem l1if_set_ciphering_only_active_witness :
    l1if_set_ciphering (tchf_channel LCHAN_S_REL_REQ 0) 1 =
      .ok (tchf_channel LCHAN_S_REL_REQ 0, -1) ∧
    ∃ w', l1if_set_ciphering (tchf_channel LCHAN_S_ACTIVE 0) 1 = .ok (w', 0) ∧
      w'.lchan.sapi_cmds = [ciphering_cmd GsmL1_Dir_RxUplink] :=
  have h1 := (l1if_set_ciphering_only_active (tchf_channel LCHAN_S_REL_REQ 0) 1).1 (by decide)
  match (l1if_set_ciphering_only_active (tchf_channel LCHAN_S_ACTIVE 0) 1).2 rfl with
  | ⟨w', hw', hq, _⟩ => ⟨h1, w', hw', hq⟩

/-- C20.  On an Active channel (whatever its ciphering state, None in
particular) the `PRIM_INFO_ACT_CIPH` request succeeds; with only uplink
requested the ciphering state becomes UplinkKeyRequested (`LCHAN_CIPH_RX_REQ`)
and the queue gains ConfigureCiphering(RxUplink); with both directions
requested the state becomes BothRequested (`LCHAN_CIPH_RXTX_REQ`) and the queue
gains ConfigureCiphering(RxUplink) followed by ConfigureCiphering(TxDownlink);
the lifecycle state stays Active. -/
theorem act_ciph_request (w : World) (hs : w.lchan.state = LCHAN_S_ACTIVE) :
    (∃ w', bts_model_l1sap_down_act_ciph w true false = .ok w' ∧
      w'.lchan.ciph_state = LCHAN_CIPH_RX_REQ ∧
      w'.lchan.sapi_cmds = w.lchan.sapi_cmds ++ [ciphering_cmd GsmL1_Dir_RxUplink] ∧
      w'.lchan.state = LCHAN_S_ACTIVE) ∧
    (∃ w', bts_model_l1sap_down_act_ciph w true true = .ok w' ∧
      w'.lchan.ciph_state = LCHAN_CIPH_RXTX_REQ ∧
      w'.lchan.sapi_cmds = w.lchan.sapi_cmds ++
        [ciphering_cmd GsmL1_Dir_RxUplink, ciphering_cmd GsmL1_Dir_TxDownlink] ∧
      w'.lchan.state = LCHAN_S_ACTIVE) := by
  obtain ⟨w1, hw1, hl1, _, _⟩ := l1if_set_ciphering_active w 1 hs
  have hs1 : ({ w1 with lchan := { w1.lchan with ciph_state := LCHAN_CIPH_RX_REQ } } :
      World).lchan.state = LCHAN_S_ACTIVE := by
    show w1.lchan.state = _
    rw [hl1]; exact hs
  obtain ⟨w2, hw2, hl2, _, _⟩ := l1if_set_ciphering_active
    { w1 with lchan := { w1.lchan with ciph_state := LCHAN_CIPH_RX_REQ } } 0 hs1
  constructor
  · refine ⟨{ w1 with lchan := { w1.lchan with ciph_state := LCHAN_CIPH_RX_REQ } }, ?_, rfl,
      ?_, hs1⟩
    · unfold bts_model_l1sap_down_act_ciph
      simp only [↓reduceIte, hw1, M_bind_ok, M_pure, Bool.false_eq_true, false_and]
    · show w1.lchan.sapi_cmds = _
      rw [hl1]; rfl
  · refine ⟨{ w2 with lchan := { w2.lchan with ciph_state := LCHAN_CIPH_RXTX_REQ } }, ?_, rfl,
      ?_, ?_⟩
    · unfold bts_model_l1sap_down_act_ciph
      simp only [↓reduceIte, hw1, hw2, M_bind_ok, M_pure, and_self]
    · show w2.lchan.sapi_cmds = _
      rw [hl2]
      show w1.lchan.sapi_cmds ++ _ = _
      rw [hl1]
      simp [ciphering_dir]
    · show w2.lchan.state = _
      rw [hl2]; exact hs1

/-- Witness of C20: an Active TCH/F channel with ciphering state None. -/
theorem act_ciph_request_witness :
    (tchf_channel LCHAN_S_ACTIVE 1).lchan.ciph_state = LCHAN_CIPH_NONE ∧
    ∃ w', bts_model_l1sap_down_act_ciph (tchf_channel LCHAN_S_ACTIVE 1) true true = .ok w' ∧
      w'.lchan.ciph_state = LCHAN_CIPH_RXTX_REQ ∧
      w'.lchan.sapi_cmds =
        [ciphering_cmd GsmL1_Dir_RxUplink, ciphering_cmd GsmL1_Dir_TxDownlink] :=
  match (act_ciph_request (tchf_channel LCHAN_S_ACTIVE 1) rfl).2 with
  | ⟨w', hw', hc, hq, _⟩ => ⟨rfl, w', hw', hc, hq⟩

/-! ## Handover: access detection and the T3105 retry loop -/

/-- The state reached by `handover_rach` on a matching reference. -/
theorem handover_rach_match (w : HoWorld) (chan_nr ra acc_delay : Nat)
    (h : w.lchan.ho.ref = ra) :
    handover_rach w chan_nr ra acc_delay =
      { w with
        lchan :=
          { w.lchan with
            rqd_ta := acc_delay
            ho :=
              { w.lchan.ho with
                active := HANDOVER_WAIT_FRAME
                phys_info_count := 1
                t3105 := some (0, w.btsb.t3105_ms * 1000) } }
        out := w.out ++ [handover_output.l1sap_chan_modify chan_nr,
          handover_output.rsl_tx_hando_det acc_delay, handover_output.phys_info acc_delay] } := by
  unfold handover_rach ho_tx_phys_info
  simp [h]

/-- C29.  When T3105 expires while the lifecycle state of the channel is not
Active, the callback `ho_t3105_cb` returns the state it was called in, whatever
the transmit count is (below, at or above the maximum `ny1`): the expiry sends
no PHYSICAL INFORMATION and no CONNECTION FAILURE (the output log is
unchanged), leaves the transmit count, the handover indicator, the timing
advance and the lifecycle state as they were, and the timer, taken off the
schedule by its expiry, is not scheduled again. -/
theorem ho_t3105_cb_not_active (w : HoWorld) (hs : w.lchan.state ≠ LCHAN_S_ACTIVE) :
    ho_t3105_cb w = w ∧
    (t3105_expire w).out = w.out ∧
    (t3105_expire w).lchan.ho.phys_info_count = w.lchan.ho.phys_info_count ∧
    (t3105_expire w).lchan.ho.active = w.lchan.ho.active ∧
    (t3105_expire w).lchan.rqd_ta = w.lchan.rqd_ta ∧
    (t3105_expire w).lchan.state = w.lchan.state ∧
    (t3105_expire w).lchan.ho.t3105 = none := by
  have hcb : ∀ v : HoWorld, v.lchan.state ≠ LCHAN_S_ACTIVE → ho_t3105_cb v = v := by
    intro v hv
    unfold ho_t3105_cb
    rw [if_pos hv]
  refine ⟨hcb w hs, ?_⟩
  cases ht : w.lchan.ho.t3105 with
  | none =>
    have he : t3105_expire w = w := by
      unfold t3105_expire
      simp only [ht]
    rw [he]
    exact ⟨rfl, rfl, rfl, rfl, rfl, ht⟩
  | some t =>
    have he : t3105_expire w =
        { w with lchan := { w.lchan with ho := { w.lchan.ho with t3105 := none } } } := by
      unfold t3105_expire
      simp only [ht]
      exact hcb _ hs
    rw [he]
    exact ⟨rfl, rfl, rfl, rfl, rfl, rfl⟩

/-- The witness of C29: a channel in state ReleaseRequested whose transmit
count 7 is above the maximum 3 and whose T3105 is scheduled. -/
theorem ho_t3105_cb_not_active_witness :
    ({ ho_channel LCHAN_S_REL_REQ 9 3 with
        lchan := { (ho_channel LCHAN_S_REL_REQ 9 3).lchan with
          ho := { (ho_channel LCHAN_S_REL_REQ 9 3).lchan.ho with
            phys_info_count := 7, t3105 := some (0, 50000) } } } : HoWorld).lchan.state
        ≠ LCHAN_S_ACTIVE ∧
    (t3105_expire { ho_channel LCHAN_S_REL_REQ 9 3 with
        lchan := { (ho_channel LCHAN_S_REL_REQ 9 3).lchan with
          ho := { (ho_channel LCHAN_S_REL_REQ 9 3).lchan.ho with
            phys_info_count := 7, t3105 := some (0, 50000) } } }).out = [] ∧
    (t3105_expire { ho_channel LCHAN_S_REL_REQ 9 3 with
        lchan := { (ho_channel LCHAN_S_REL_REQ 9 3).lchan with
          ho := { (ho_channel LCHAN_S_REL_REQ 9 3).lchan.ho with
            phys_info_count := 7, t3105 := some (0, 50000) } } }).lchan.ho.t3105 = none :=
  ⟨by decide,
    (ho_t3105_cb_not_active _ (by decide)).2.1,
    (ho_t3105_cb_not_active _ (by decide)).2.2.2.2.2.2⟩

/-- C22.  The function `handover_rach` changes the state if and only if the
received access value `ra` equals the expected handover reference
`lchan->ho.ref`.  On a mismatch the state returned is the state given: no field
changes, nothing is sent and no timer is scheduled.  On a match the required
timing advance is the access delay, the handover indicator is
`HANDOVER_WAIT_FRAME`, the transmit count is 1, T3105 is scheduled with the
configured interval (`t3105_ms` milliseconds), and what is sent is, in this
order, the mode change to layer 1, one HANDOVER DETECTION with the access delay
and exactly one PHYSICAL INFORMATION carrying the access delay; the lifecycle
state, the handover reference and the configuration are kept. -/
theorem handover_rach_spec (w : HoWorld) (chan_nr ra acc_delay : Nat) :
    (handover_rach w chan_nr ra acc_delay ≠ w ↔ ra = w.lchan.ho.ref) ∧
    (ra ≠ w.lchan.ho.ref → handover_rach w chan_nr ra acc_delay = w) ∧
    (ra = w.lchan.ho.ref →
      (handover_rach w chan_nr ra acc_delay).lchan.rqd_ta = acc_delay ∧
      (handover_rach w chan_nr ra acc_delay).lchan.ho.active = HANDOVER_WAIT_FRAME ∧
      (handover_rach w chan_nr ra acc_delay).lchan.ho.phys_info_count = 1 ∧
      (handover_rach w chan_nr ra acc_delay).lchan.ho.t3105 =
        some (0, w.btsb.t3105_ms * 1000) ∧
      (handover_rach w chan_nr ra acc_delay).out =
        w.out ++ [handover_output.l1sap_chan_modify chan_nr,
          handover_output.rsl_tx_hando_det acc_delay, handover_output.phys_info acc_delay] ∧
      phys_infos (handover_rach w chan_nr ra acc_delay).out =
        phys_infos w.out ++ [acc_delay] ∧
      conn_fails (handover_rach w chan_nr ra acc_delay).out = conn_fails w.out ∧
      (handover_rach w chan_nr ra acc_delay).lchan.state = w.lchan.state ∧
      (handover_rach w chan_nr ra acc_delay).lchan.ho.ref = w.lchan.ho.ref ∧
      (handover_rach w chan_nr ra acc_delay).btsb = w.btsb) := by
  have hmis : ra ≠ w.lchan.ho.ref → handover_rach w chan_nr ra acc_delay = w := by
    intro h
    unfold handover_rach
    rw [if_pos (fun h' => h h'.symm)]
  refine ⟨⟨?_, ?_⟩, hmis, ?_⟩
  · intro hne
    by_contra h
    exact hne (hmis h)
  · intro h heq
    have hout := congrArg (fun v => v.out.length) heq
    rw [handover_rach_match w chan_nr ra acc_delay h.symm] at hout
    simp at hout
  · intro h
    rw [handover_rach_match w chan_nr ra acc_delay h.symm]
    refine ⟨rfl, rfl, rfl, rfl, rfl, ?_, ?_, rfl, rfl, rfl⟩
    · simp [phys_infos, List.filterMap_append]
    · simp [conn_fails, List.filterMap_append]

/-- The witness of C22: the reference 9 is expected; the access value 9 is
accepted and the access value 8 changes nothing. -/
theorem handover_rach_spec_witness :
    handover_rach (ho_channel LCHAN_S_ACTIVE 9 3) 1 8 5 = ho_channel LCHAN_S_ACTIVE 9 3 ∧
    (handover_rach (ho_channel LCHAN_S_ACTIVE 9 3) 1 9 5).out =
      [handover_output.l1sap_chan_modify 1, handover_output.rsl_tx_hando_det 5,
        handover_output.phys_info 5] ∧
    (handover_rach (ho_channel LCHAN_S_ACTIVE 9 3) 1 9 5).lchan.ho.t3105 = some (0, 50000) :=
  ⟨(handover_rach_spec (ho_channel LCHAN_S_ACTIVE 9 3) 1 8 5).2.1 (by decide),
    ((handover_rach_spec (ho_channel LCHAN_S_ACTIVE 9 3) 1 9 5).2.2 (by decide)).2.2.2.2.1,
    ((handover_rach_spec (ho_channel LCHAN_S_ACTIVE 9 3) 1 9 5).2.2 (by decide)).2.2.2.1⟩

/-- While fewer than `ny1` PHYSICAL INFORMATION messages have been sent, every
expiry of T3105 on an Active channel sends one more and schedules the timer
again. -/
theorem t3105_expiries_below (w : HoWorld) (chan_nr acc_delay : Nat)
    (hs : w.lchan.state = LCHAN_S_ACTIVE) :
    ∀ k, k < w.btsb.ny1 →
      t3105_expiries k (handover_rach w chan_nr w.lchan.ho.ref acc_delay) =
        { w with
          lchan :=
            { w.lchan with
              rqd_ta := acc_delay
              ho :=
                { w.lchan.ho with
                  active := HANDOVER_WAIT_FRAME
                  phys_info_count := k + 1
                  t3105 := some (0, w.btsb.t3105_ms * 1000) } }
          out := w.out ++ [handover_output.l1sap_chan_modify chan_nr,
            handover_output.rsl_tx_hando_det acc_delay] ++
            List.replicate (k + 1) (handover_output.phys_info acc_delay) } := by
  intro k
  induction k with
  | zero =>
    intro _
    rw [t3105_expiries, handover_rach_match w chan_nr _ acc_delay rfl]
    simp
  | succ k ih =>
    intro hk
    rw [t3105_expiries, ih (by omega)]
    unfold t3105_expire ho_t3105_cb ho_tx_phys_info
    have hlt : ¬ (k + 1 ≥ w.btsb.ny1) := by omega
    simp only [hs, ne_eq, not_true_eq_false, ↓reduceIte, hlt]
    congr 1
    rw [List.replicate_succ' (k + 1)]
    simp only [List.append_assoc]

/-- Once `ny1` PHYSICAL INFORMATION messages have been sent, the next expiry of
T3105 reports the failure and leaves the timer off the schedule, and nothing
happens after that. -/
theorem t3105_expiries_above (w : HoWorld) (chan_nr acc_delay : Nat)
    (hs : w.lchan.state = LCHAN_S_ACTIVE) (hN : 1 ≤ w.btsb.ny1) :
    ∀ j, t3105_expiries (w.btsb.ny1 + j) (handover_rach w chan_nr w.lchan.ho.ref acc_delay) =
        { w with
          lchan :=
            { w.lchan with
              rqd_ta := acc_delay
              ho :=
                { w.lchan.ho with
                  active := HANDOVER_WAIT_FRAME
                  phys_info_count := w.btsb.ny1
                  t3105 := none } }
          out := w.out ++ [handover_output.l1sap_chan_modify chan_nr,
            handover_output.rsl_tx_hando_det acc_delay] ++
            List.replicate w.btsb.ny1 (handover_output.phys_info acc_delay) ++
            [handover_output.rsl_tx_conn_fail RSL_ERR_HANDOVER_ACC_FAIL] } := by
  intro j
  induction j with
  | zero =>
    obtain ⟨m, hm⟩ : ∃ m, w.btsb.ny1 = m + 1 := ⟨w.btsb.ny1 - 1, by omega⟩
    rw [Nat.add_zero]
    conv_lhs => rw [hm]
    rw [t3105_expiries, t3105_expiries_below w chan_nr acc_delay hs m (by omega)]
    unfold t3105_expire ho_t3105_cb
    have hge : m + 1 ≥ w.btsb.ny1 := by omega
    simp only [hs, ne_eq, not_true_eq_false, ↓reduceIte, hge]
    rw [← hm]
  | succ j ih =>
    rw [← Nat.add_assoc, t3105_expiries, ih]
    unfold t3105_expire
    rfl

/-- C23.  Let `N ≥ 1` be the configured maximum `ny1`, let the channel be
Active and let a handover access with the expected reference be detected
(`handover_rach`); afterwards only T3105 expires, `k` times, and no first valid
frame arrives.  While `k < N` exactly `k + 1` PHYSICAL INFORMATION messages have
been sent (the immediate one and one per expiry), the transmit count is `k + 1`,
no CONNECTION FAILURE has been raised and T3105 is scheduled with the
configured interval.  From `k = N` on, that is from the expiry that follows the
`N`-th message, exactly `N` PHYSICAL INFORMATION messages and exactly one
CONNECTION FAILURE (cause handover access failure, after the last message) have
been sent, the transmit count is `N` and T3105 is not scheduled, so that no
later expiry adds anything.  At every `k` the transmit count is at most `N`
and the channel is still Active. -/
theorem t3105_retry_budget (w : HoWorld) (chan_nr acc_delay N k : Nat)
    (hN : 1 ≤ N) (hny : w.btsb.ny1 = N) (hs : w.lchan.state = LCHAN_S_ACTIVE) :
    (k < N →
      (t3105_expiries k (handover_rach w chan_nr w.lchan.ho.ref acc_delay)).out =
        w.out ++ [handover_output.l1sap_chan_modify chan_nr,
          handover_output.rsl_tx_hando_det acc_delay] ++
          List.replicate (k + 1) (handover_output.phys_info acc_delay) ∧
      (t3105_expiries k
        (handover_rach w chan_nr w.lchan.ho.ref acc_delay)).lchan.ho.phys_info_count = k + 1 ∧
      (t3105_expiries k (handover_rach w chan_nr w.lchan.ho.ref acc_delay)).lchan.ho.t3105 =
        some (0, w.btsb.t3105_ms * 1000)) ∧
    (N ≤ k →
      (t3105_expiries k (handover_rach w chan_nr w.lchan.ho.ref acc_delay)).out =
        w.out ++ [handover_output.l1sap_chan_modify chan_nr,
          handover_output.rsl_tx_hando_det acc_delay] ++
          List.replicate N (handover_output.phys_info acc_delay) ++
          [handover_output.rsl_tx_conn_fail RSL_ERR_HANDOVER_ACC_FAIL] ∧
      (t3105_expiries k
        (handover_rach w chan_nr w.lchan.ho.ref acc_delay)).lchan.ho.phys_info_count = N ∧
      (t3105_expiries k (handover_rach w chan_nr w.lchan.ho.ref acc_delay)).lchan.ho.t3105 =
        none) ∧
    (phys_infos (t3105_expiries k (handover_rach w chan_nr w.lchan.ho.ref acc_delay)).out).length
      = (phys_infos w.out).length + min (k + 1) N ∧
    (conn_fails (t3105_expiries k (handover_rach w chan_nr w.lchan.ho.ref acc_delay)).out).length
      = (conn_fails w.out).length + (if N ≤ k then 1 else 0) ∧
    (t3105_expiries k
      (handover_rach w chan_nr w.lchan.ho.ref acc_delay)).lchan.ho.phys_info_count ≤ N ∧
    (t3105_expiries k (handover_rach w chan_nr w.lchan.ho.ref acc_delay)).lchan.state =
      LCHAN_S_ACTIVE := by
  subst hny
  have hpi : ∀ n, phys_infos (List.replicate n (handover_output.phys_info acc_delay)) =
      List.replicate n acc_delay := by
    intro n
    induction n with
    | zero => rfl
    | succ n ih =>
      rw [List.replicate_succ, List.replicate_succ]
      unfold phys_infos at ih ⊢
      rw [List.filterMap_cons, ih]
  have hcf : ∀ n, conn_fails (List.replicate n (handover_output.phys_info acc_delay)) = [] := by
    intro n
    induction n with
    | zero => rfl
    | succ n ih =>
      rw [List.replicate_succ]
      unfold conn_fails at ih ⊢
      rw [List.filterMap_cons, ih]
  have hpa : ∀ a b : List handover_output, phys_infos (a ++ b) = phys_infos a ++ phys_infos b :=
    fun a b => List.filterMap_append _ _ _
  have hca : ∀ a b : List handover_output, conn_fails (a ++ b) = conn_fails a ++ conn_fails b :=
    fun a b => List.filterMap_append _ _ _
  by_cases hk : k < w.btsb.ny1
  · have he := t3105_expiries_below w chan_nr acc_delay hs k hk
    rw [he]
    refine ⟨fun _ => ⟨rfl, rfl, rfl⟩, fun h => absurd h (by omega), ?_, ?_, ?_, hs⟩
    · show (phys_infos (w.out ++ _ ++ _)).length = _
      rw [hpa, hpa, hpi]
      simp only [List.length_append, List.length_replicate]
      have : phys_infos [handover_output.l1sap_chan_modify chan_nr,
          handover_output.rsl_tx_hando_det acc_delay] = [] := rfl
      rw [this, List.length_nil, Nat.min_eq_left (by omega)]
      omega
    · show (conn_fails (w.out ++ _ ++ _)).length = _
      rw [hca, hca, hcf]
      have : conn_fails [handover_output.l1sap_chan_modify chan_nr,
          handover_output.rsl_tx_hando_det acc_delay] = [] := rfl
      rw [this, if_neg (by omega)]
      simp
    · show k + 1 ≤ w.btsb.ny1
      omega
  · obtain ⟨j, hj⟩ : ∃ j, k = w.btsb.ny1 + j := ⟨k - w.btsb.ny1, by omega⟩
    have he := t3105_expiries_above w chan_nr acc_delay hs hN j
    rw [hj, he]
    refine ⟨fun h => absurd h (by omega), fun _ => ⟨rfl, rfl, rfl⟩, ?_, ?_, le_refl _, hs⟩
    · show (phys_infos (w.out ++ _ ++ _ ++ _)).length = _
      rw [hpa, hpa, hpa, hpi]
      simp only [List.length_append, List.length_replicate]
      have h1 : phys_infos [handover_output.l1sap_chan_modify chan_nr,
          handover_output.rsl_tx_hando_det acc_delay] = [] := rfl
      have h2 : phys_infos [handover_output.rsl_tx_conn_fail RSL_ERR_HANDOVER_ACC_FAIL] = [] :=
        rfl
      rw [h1, h2, List.length_nil, Nat.min_eq_right (by omega)]
      omega
    · show (conn_fails (w.out ++ _ ++ _ ++ _)).length = _
      rw [hca, hca, hca, hcf]
      have h1 : conn_fails [handover_output.l1sap_chan_modify chan_nr,
          handover_output.rsl_tx_hando_det acc_delay] = [] := rfl
      have h2 : conn_fails [handover_output.rsl_tx_conn_fail RSL_ERR_HANDOVER_ACC_FAIL] =
          [RSL_ERR_HANDOVER_ACC_FAIL] := rfl
      rw [h1, h2, if_pos (by omega)]
      simp

/-- The witness of C23 with `N = 3`: after the access and three expiries of
T3105 the log holds the mode change, the HANDOVER DETECTION, three PHYSICAL
INFORMATION messages and one CONNECTION FAILURE, and T3105 is not scheduled; a
fourth expiry would find the timer off the schedule. -/
theorem t3105_retry_budget_witness :
    (1 ≤ 3 ∧ (ho_channel LCHAN_S_ACTIVE 9 3).btsb.ny1 = 3 ∧
      (ho_channel LCHAN_S_ACTIVE 9 3).lchan.state = LCHAN_S_ACTIVE) ∧
    (t3105_expiries 3 (handover_rach (ho_channel LCHAN_S_ACTIVE 9 3) 1 9 5)).out =
      [handover_output.l1sap_chan_modify 1, handover_output.rsl_tx_hando_det 5,
        handover_output.phys_info 5, handover_output.phys_info 5, handover_output.phys_info 5,
        handover_output.rsl_tx_conn_fail RSL_ERR_HANDOVER_ACC_FAIL] ∧
    (t3105_expiries 3 (handover_rach (ho_channel LCHAN_S_ACTIVE 9 3) 1 9 5)).lchan.ho.t3105 =
      none :=
  ⟨⟨by decide, rfl, rfl⟩,
    ((t3105_retry_budget (ho_channel LCHAN_S_ACTIVE 9 3) 1 5 3 3 (by decide) rfl rfl).2.1
      (le_refl 3)).1,
    ((t3105_retry_budget (ho_channel LCHAN_S_ACTIVE 9 3) 1 5 3 3 (by decide) rfl rfl).2.1
      (le_refl 3)).2.2⟩

/-! ## The correlation handle -/

/-- The handle as a sum: the three numbers occupy disjoint bytes. -/
theorem l1if_lchan_to_hLayer_eq (lchan_nr ts_nr trx_nr : Nat)
    (hl : lchan_nr < 256) (ht : ts_nr < 256) :
    l1if_lchan_to_hLayer lchan_nr ts_nr trx_nr =
      (lchan_nr * 2 ^ 8 + ts_nr * 2 ^ 16 + trx_nr * 2 ^ 24) % 2 ^ 32 := by
  unfold l1if_lchan_to_hLayer
  have h1 : lchan_nr <<< 8 ||| ts_nr <<< 16 = 2 ^ 16 * ts_nr + lchan_nr * 2 ^ 8 := by
    rw [Nat.or_comm, Nat.shiftLeft_eq, Nat.shiftLeft_eq, Nat.mul_comm ts_nr]
    exact (Nat.mul_add_lt_is_or (by omega) ts_nr).symm
  have h2 : lchan_nr <<< 8 ||| ts_nr <<< 16 ||| trx_nr <<< 24 =
      2 ^ 24 * trx_nr + (2 ^ 16 * ts_nr + lchan_nr * 2 ^ 8) := by
    rw [h1, Nat.or_comm, Nat.shiftLeft_eq, Nat.mul_comm trx_nr]
    exact (Nat.mul_add_lt_is_or (by omega) trx_nr).symm
  rw [h2]
  congr 1
  omega

/-- C30.  Let the timeslot number and the channel number of a channel lie
within the array bounds of the transceiver (`n_ts` timeslots, `n_lchan`
channels per timeslot) and below 256.  Then `l1if_hLayer_to_lchan` applied to
the handle built by `l1if_lchan_to_hLayer` yields the channel with these two
numbers, whatever transceiver number is encoded in the top byte; and two
channels of one transceiver whose (timeslot, channel) numbers differ have
different handles. -/
theorem l1if_hLayer_round_trip (n_ts n_lchan lchan_nr ts_nr trx_nr : Nat)
    (hts : ts_nr < n_ts) (hlc : lchan_nr < n_lchan) (ht : ts_nr < 256) (hl : lchan_nr < 256) :
    l1if_hLayer_to_lchan n_ts n_lchan (l1if_lchan_to_hLayer lchan_nr ts_nr trx_nr) =
      some (ts_nr, lchan_nr) ∧
    (∀ lchan_nr' ts_nr', ts_nr' < n_ts → lchan_nr' < n_lchan → ts_nr' < 256 →
      lchan_nr' < 256 → (ts_nr', lchan_nr') ≠ (ts_nr, lchan_nr) →
      l1if_lchan_to_hLayer lchan_nr' ts_nr' trx_nr ≠
        l1if_lchan_to_hLayer lchan_nr ts_nr trx_nr) := by
  have hrt : ∀ l t, t < n_ts → l < n_lchan → t < 256 → l < 256 →
      l1if_hLayer_to_lchan n_ts n_lchan (l1if_lchan_to_hLayer l t trx_nr) = some (t, l) := by
    intro l t h1 h2 h3 h4
    rw [l1if_lchan_to_hLayer_eq l t trx_nr h4 h3]
    unfold l1if_hLayer_to_lchan
    have e1 : (0xff : Nat) = 2 ^ 8 - 1 := by norm_num
    have ets : ((l * 2 ^ 8 + t * 2 ^ 16 + trx_nr * 2 ^ 24) % 2 ^ 32) >>> 16 &&& 0xff = t := by
      rw [e1, Nat.and_pow_two_sub_one_eq_mod, Nat.shiftRight_eq_div_pow]
      omega
    have elc : ((l * 2 ^ 8 + t * 2 ^ 16 + trx_nr * 2 ^ 24) % 2 ^ 32) >>> 8 &&& 0xff = l := by
      rw [e1, Nat.and_pow_two_sub_one_eq_mod, Nat.shiftRight_eq_div_pow]
      omega
    simp only [ets, elc]
    rw [Nat.mod_eq_of_lt (by omega : t < 2 ^ 8), Nat.mod_eq_of_lt (by omega : l < 2 ^ 8)]
    rw [if_neg (by omega), if_neg (by omega)]
  refine ⟨hrt lchan_nr ts_nr hts hlc ht hl, ?_⟩
  intro l' t' h1 h2 h3 h4 hne heq
  have ha := hrt l' t' h1 h2 h3 h4
  rw [heq, hrt lchan_nr ts_nr hts hlc ht hl] at ha
  exact hne (Option.some.inj ha).symm

/-- The witness of C30: channel 2 of timeslot 7 on transceivers 0 and 200 of
eight timeslots with eight channels each. -/
theorem l1if_hLayer_round_trip_witness :
    (7 < 8 ∧ 2 < 8 ∧ 7 < 256 ∧ 2 < 256) ∧
    l1if_hLayer_to_lchan 8 8 (l1if_lchan_to_hLayer 2 7 200) = some (7, 2) :=
  ⟨by decide,
    (l1if_hLayer_round_trip 8 8 2 7 200 (by decide) (by decide) (by decide) (by decide)).1⟩

/-! ## Confirmations that do not match the head command -/

/-- The facility states after the update shared by the two completion
callbacks: the named facility is overwritten in the directions of the mask,
everything else is kept. -/
theorem set_sapi_state_sapis (w : World) (sapi : GsmL1_Sapi_t) (dir : GsmL1_Dir_t)
    (st : lchan_sapi_state) :
    (set_sapi_state w sapi dir st).lchan.sapis_dl =
      (if dir &&& GsmL1_Dir_TxDownlink ≠ 0 then Function.update w.lchan.sapis_dl sapi st
        else w.lchan.sapis_dl) ∧
    (set_sapi_state w sapi dir st).lchan.sapis_ul =
      (if dir &&& GsmL1_Dir_RxUplink ≠ 0 then Function.update w.lchan.sapis_ul sapi st
        else w.lchan.sapis_ul) := by
  unfold set_sapi_state
  split <;> split <;> simp

/-- An activation confirmation that does not match the head command only
updates the facility state. -/
theorem lchan_act_compl_cb_unmatched (w : World) (sapi : GsmL1_Sapi_t) (dir : GsmL1_Dir_t)
    (status : Int)
    (hmis : ∀ cmd rest, w.lchan.sapi_cmds = cmd :: rest →
      cmd.sapi ≠ sapi ∨ cmd.dir ≠ dir ∨ cmd.type ≠ SAPI_CMD_ACTIVATE) :
    lchan_act_compl_cb w (.mphActivateCnf sapi dir status) =
      .ok (set_sapi_state w sapi dir
        (if status = GsmL1_Status_Success then LCHAN_SAPI_S_ASSIGNED
          else LCHAN_SAPI_S_ERROR), 0) := by
  unfold lchan_act_compl_cb
  cases hq : (set_sapi_state w sapi dir
      (if status = GsmL1_Status_Success then LCHAN_SAPI_S_ASSIGNED
        else LCHAN_SAPI_S_ERROR)).lchan.sapi_cmds with
  | nil => simp only [hq, M_pure]
  | cons cmd rest =>
    have h := hmis cmd rest (((set_sapi_state_same w sapi dir _).2.2.1).symm.trans hq)
    simp only [hq, ne_eq, h, ↓reduceIte, M_pure]

/-- A deactivation confirmation that does not match the head command only
updates the facility state. -/
theorem lchan_deact_compl_cb_unmatched (w : World) (sapi : GsmL1_Sapi_t) (dir : GsmL1_Dir_t)
    (status : Int)
    (hmis : ∀ cmd rest, w.lchan.sapi_cmds = cmd :: rest →
      cmd.sapi ≠ sapi ∨ cmd.dir ≠ dir ∨ cmd.type ≠ SAPI_CMD_DEACTIVATE) :
    lchan_deact_compl_cb w (.mphDeactivateCnf sapi dir status) =
      .ok (set_sapi_state w sapi dir
        (if status = GsmL1_Status_Success then LCHAN_SAPI_S_NONE
          else LCHAN_SAPI_S_ERROR), 0) := by
  unfold lchan_deact_compl_cb
  cases hq : (set_sapi_state w sapi dir
      (if status = GsmL1_Status_Success then LCHAN_SAPI_S_NONE
        else LCHAN_SAPI_S_ERROR)).lchan.sapi_cmds with
  | nil => simp only [hq, M_pure]
  | cons cmd rest =>
    have h := hmis cmd rest (((set_sapi_state_same w sapi dir _).2.2.1).symm.trans hq)
    simp only [hq, ne_eq, h, ↓reduceIte, M_pure]

/-- C28.  Let an activation (`activation = true`) or deactivation confirmation
for facility `sapi`, direction mask `dir` and any status reach the completion
callback of its channel while the queue is empty or the head command differs
in facility, direction or kind.  The callback returns 0 in a state `w'` in
which the command queue and the lifecycle state are unchanged, no command
callback has run and no command was appended (the trace is unchanged), nothing
was reported upward and the layer-1 handle is untouched; yet the facility state
of `sapi` is overwritten in every direction of the mask (downlink, uplink or
both) with Assigned, resp. Unassigned, when the status is success and with
Error otherwise, a direction outside the mask and every other facility keeping
its state. -/
theorem unmatched_confirmation_frame (w : World) (activation : Bool) (sapi : GsmL1_Sapi_t)
    (dir : GsmL1_Dir_t) (status : Int)
    (hmis : ∀ cmd rest, w.lchan.sapi_cmds = cmd :: rest →
      cmd.sapi ≠ sapi ∨ cmd.dir ≠ dir ∨
        cmd.type ≠ (if activation then SAPI_CMD_ACTIVATE else SAPI_CMD_DEACTIVATE)) :
    ∃ w', (if activation then lchan_act_compl_cb w (.mphActivateCnf sapi dir status)
        else lchan_deact_compl_cb w (.mphDeactivateCnf sapi dir status)) = .ok (w', 0) ∧
      w'.lchan.sapi_cmds = w.lchan.sapi_cmds ∧
      w'.lchan.state = w.lchan.state ∧
      w'.trace = w.trace ∧
      callback_events w'.trace = callback_events w.trace ∧
      w'.l1sap_up = w.l1sap_up ∧
      w'.fl1h = w.fl1h ∧
      (dir &&& GsmL1_Dir_TxDownlink ≠ 0 →
        w'.lchan.sapis_dl sapi =
          (if status = GsmL1_Status_Success then
            (if activation then LCHAN_SAPI_S_ASSIGNED else LCHAN_SAPI_S_NONE)
          else LCHAN_SAPI_S_ERROR)) ∧
      (dir &&& GsmL1_Dir_RxUplink ≠ 0 →
        w'.lchan.sapis_ul sapi =
          (if status = GsmL1_Status_Success then
            (if activation then LCHAN_SAPI_S_ASSIGNED else LCHAN_SAPI_S_NONE)
          else LCHAN_SAPI_S_ERROR)) ∧
      (dir &&& GsmL1_Dir_TxDownlink = 0 → w'.lchan.sapis_dl = w.lchan.sapis_dl) ∧
      (dir &&& GsmL1_Dir_RxUplink = 0 → w'.lchan.sapis_ul = w.lchan.sapis_ul) ∧
      (∀ s, s ≠ sapi →
        w'.lchan.sapis_dl s = w.lchan.sapis_dl s ∧ w'.lchan.sapis_ul s = w.lchan.sapis_ul s) := by
  have hframe : ∀ st : lchan_sapi_state,
      (set_sapi_state w sapi dir st).lchan.sapi_cmds = w.lchan.sapi_cmds ∧
      (set_sapi_state w sapi dir st).lchan.state = w.lchan.state ∧
      (set_sapi_state w sapi dir st).trace = w.trace ∧
      callback_events (set_sapi_state w sapi dir st).trace = callback_events w.trace ∧
      (set_sapi_state w sapi dir st).l1sap_up = w.l1sap_up ∧
      (set_sapi_state w sapi dir st).fl1h = w.fl1h ∧
      (dir &&& GsmL1_Dir_TxDownlink ≠ 0 →
        (set_sapi_state w sapi dir st).lchan.sapis_dl sapi = st) ∧
      (dir &&& GsmL1_Dir_RxUplink ≠ 0 →
        (set_sapi_state w sapi dir st).lchan.sapis_ul sapi = st) ∧
      (dir &&& GsmL1_Dir_TxDownlink = 0 →
        (set_sapi_state w sapi dir st).lchan.sapis_dl = w.lchan.sapis_dl) ∧
      (dir &&& GsmL1_Dir_RxUplink = 0 →
        (set_sapi_state w sapi dir st).lchan.sapis_ul = w.lchan.sapis_ul) ∧
      (∀ s, s ≠ sapi →
        (set_sapi_state w sapi dir st).lchan.sapis_dl s = w.lchan.sapis_dl s ∧
        (set_sapi_state w sapi dir st).lchan.sapis_ul s = w.lchan.sapis_ul s) := by
    intro st
    obtain ⟨_, _, e3, e4, _, e6, e7, e8⟩ := set_sapi_state_same w sapi dir st
    obtain ⟨d1, d2⟩ := set_sapi_state_sapis w sapi dir st
    refine ⟨e3, e4, e8, by rw [e8], e7, e6, ?_, ?_, ?_, ?_, ?_⟩
    · intro h
      rw [d1, if_pos h, Function.update_same]
    · intro h
      rw [d2, if_pos h, Function.update_same]
    · intro h
      rw [d1, if_neg (not_not.mpr h)]
    · intro h
      rw [d2, if_neg (not_not.mpr h)]
    · intro s hs
      rw [d1, d2]
      constructor
      · split
        · exact Function.update_noteq hs _ _
        · rfl
      · split
        · exact Function.update_noteq hs _ _
        · rfl
  cases activation with
  | true =>
    have hm : ∀ cmd rest, w.lchan.sapi_cmds = cmd :: rest →
        cmd.sapi ≠ sapi ∨ cmd.dir ≠ dir ∨ cmd.type ≠ SAPI_CMD_ACTIVATE := by
      intro cmd rest h
      simpa using hmis cmd rest h
    refine ⟨_, by simpa using lchan_act_compl_cb_unmatched w sapi dir status hm, ?_⟩
    by_cases hst : status = GsmL1_Status_Success
    · simpa [hst] using hframe LCHAN_SAPI_S_ASSIGNED
    · simpa [hst] using hframe LCHAN_SAPI_S_ERROR
  | false =>
    have hm : ∀ cmd rest, w.lchan.sapi_cmds = cmd :: rest →
        cmd.sapi ≠ sapi ∨ cmd.dir ≠ dir ∨ cmd.type ≠ SAPI_CMD_DEACTIVATE := by
      intro cmd rest h
      simpa using hmis cmd rest h
    refine ⟨_, by simpa using lchan_deact_compl_cb_unmatched w sapi dir status hm, ?_⟩
    by_cases hst : status = GsmL1_Status_Success
    · simpa [hst] using hframe LCHAN_SAPI_S_NONE
    · simpa [hst] using hframe LCHAN_SAPI_S_ERROR

/-- The witness of C28: a failed deactivation confirmation for SACCH in both
directions reaches an Active channel with an empty queue; both SACCH states
become Error and the channel stays Active with an empty queue. -/
theorem unmatched_confirmation_frame_witness :
    (∀ cmd rest, (tchf_channel LCHAN_S_ACTIVE 0).lchan.sapi_cmds = cmd :: rest →
      cmd.sapi ≠ GsmL1_Sapi_Sacch ∨ cmd.dir ≠ 3 ∨
        cmd.type ≠ (if false then SAPI_CMD_ACTIVATE else SAPI_CMD_DEACTIVATE)) ∧
    ∃ w', lchan_deact_compl_cb (tchf_channel LCHAN_S_ACTIVE 0)
        (.mphDeactivateCnf GsmL1_Sapi_Sacch 3 (-1)) = .ok (w', 0) ∧
      w'.lchan.sapi_cmds = [] ∧ w'.lchan.state = LCHAN_S_ACTIVE ∧
      w'.lchan.sapis_dl GsmL1_Sapi_Sacch = LCHAN_SAPI_S_ERROR ∧
      w'.lchan.sapis_ul GsmL1_Sapi_Sacch = LCHAN_SAPI_S_ERROR :=
  have hmis : ∀ cmd rest, (tchf_channel LCHAN_S_ACTIVE 0).lchan.sapi_cmds = cmd :: rest →
      cmd.sapi ≠ GsmL1_Sapi_Sacch ∨ cmd.dir ≠ 3 ∨
        cmd.type ≠ (if false then SAPI_CMD_ACTIVATE else SAPI_CMD_DEACTIVATE) :=
    fun _ _ h => absurd h (by simp [tchf_channel])
  ⟨hmis,
    match unmatched_confirmation_frame (tchf_channel LCHAN_S_ACTIVE 0) false GsmL1_Sapi_Sacch 3
      (-1) hmis with
    | ⟨w', h0, h1, h2, _, _, _, _, h7, h8, _⟩ =>
      ⟨w', h0, h1, h2, h7 (by decide), h8 (by decide)⟩⟩

/-! ## C27 -/

/-- C27, the code at the failing input.  The channel uses the cipher algorithm
identifier 5 and the ConfigureCiphering command is the only entry of its queue.
One pass of `sapi_queue_exeute` reports 1 (a request was sent) although
`mph_send_config_ciphering` returned `-EINVAL` before submitting anything, so
`sapi_queue_send` returns with the command still at the head of a non-empty
queue, no request on the write queue and no transaction pending.  The same
happens when the last Activate command of the activation of such a channel is
confirmed: the channel becomes Active with both ConfigureCiphering commands
queued and nothing submitted. -/
theorem sapi_queue_send_ciphering_not_submitted :
    (sapi_queue_exeute sapi_queue_send ciphering_unsupported).toOption.map
        (fun r => (r.2, r.1.lchan.sapi_cmds, r.1.fl1h.write_q_L1, r.1.fl1h.wlc_list)) =
      some (1, [ciphering_cmd GsmL1_Dir_RxUplink], [], []) ∧
    (sapi_queue_send ciphering_unsupported).toOption.map
        (fun w => (w.lchan.sapi_cmds, w.fl1h.write_q_L1, w.fl1h.wlc_list)) =
      some ([ciphering_cmd GsmL1_Dir_RxUplink], [], []) ∧
    (lchan_act_compl_cb (last_activation 5)
        (.mphActivateCnf GsmL1_Sapi_Sacch GsmL1_Dir_RxUplink GsmL1_Status_Success)).toOption.map
        (fun r => (r.1.lchan.state, r.1.lchan.sapi_cmds, r.1.fl1h.write_q_L1,
          r.1.fl1h.wlc_list)) =
      some (LCHAN_S_ACTIVE,
        [ciphering_cmd GsmL1_Dir_RxUplink, ciphering_cmd GsmL1_Dir_TxDownlink], [], []) :=
  ⟨by decide, by decide, by decide⟩

/-! ## C21, C25, C26: counterexamples -/

/-- C21, counterexample.  An idle TCH/F channel with cipher algorithm 1 is
activated and its six Activate requests are confirmed with success, which
makes it Active and submits the set-ciphering request of the uplink direction.
The confirmation of that request arrives with the non-success status -1.  The
lifecycle state is still Active, not Broken; the ciphering state has advanced
to UplinkConfirmedDownlinkRequested and the set-ciphering request of the
downlink direction has been submitted, exactly as with the status success.
The third part is a set-logical-channel-parameters confirmation with status -1
after which the lifecycle state differs: a release marker is queued behind the
two ConfigureLogicalParams commands (followed by the Activate commands of a new
activation), the second confirmation lets the queue go on to the marker, and
the marker sets Broken where the state was ActivationRequested before. -/
theorem ciphering_failure_keeps_active :
    (System.run { w := tchf_channel LCHAN_S_NONE 1, answered := 0 }
        (activation_then_ciphering_status (-1))).toOption.map
        (fun s => (s.w.lchan.state, s.w.lchan.ciph_state, s.w.lchan.sapi_cmds,
          s.w.fl1h.write_q_L1.drop 6)) =
      some (LCHAN_S_ACTIVE, LCHAN_CIPH_RX_CONF_TX_REQ, [ciphering_cmd GsmL1_Dir_TxDownlink],
        [.mphConfigReq (.setCipheringParams GsmL1_Dir_RxUplink GsmL1_CipherId_A50),
         .mphConfigReq (.setCipheringParams GsmL1_Dir_TxDownlink GsmL1_CipherId_A50)]) ∧
    System.run { w := tchf_channel LCHAN_S_NONE 1, answered := 0 }
        (activation_then_ciphering_status (-1)) =
      System.run { w := tchf_channel LCHAN_S_NONE 1, answered := 0 }
        (activation_then_ciphering_status GsmL1_Status_Success) ∧
    ((System.run { w := tchf_assigned, answered := 0 }
        [.mode_change, .release, .activate, .confirm (-1)]).toOption.map
        (fun s => s.w.lchan.state) = some LCHAN_S_ACT_REQ ∧
      (System.run { w := tchf_assigned, answered := 0 }
        [.mode_change, .release, .activate, .confirm (-1), .confirm (-1)]).toOption.map
        (fun s => s.w.lchan.state) = some LCHAN_S_BROKEN) :=
  ⟨by decide, by decide, by decide, by decide⟩

/-- C25, counterexample.  Two activation requests are submitted, as two
channels of one transceiver do, before a confirmation arrives: both are
accepted and two transactions of the pair (layer 1, MphActivateCnf) are
pending. -/
theorem two_pending_of_one_pair :
    (corr_run femtobts (tchf_channel LCHAN_S_NONE 0)
        [.submit (.mphActivateReq GsmL1_Sapi_TchF GsmL1_Dir_TxDownlink) 0
            (some .lchan_act_compl_cb),
         .submit (.mphActivateReq GsmL1_Sapi_Sdcch GsmL1_Dir_TxDownlink) 0
            (some .lchan_act_compl_cb)]).toOption.map
        (fun w => pending w.fl1h (false, GsmL1_PrimId_MphActivateCnf)) = some 2 := by
  decide

/-- C26, counterexample.  An activation request for a Broken channel moves it
to ActivationRequested and submits the first Activate request; a release
request for a Broken channel whose TCH/F is Assigned moves it to
ReleaseRequested. -/
theorem broken_left_by_activate_and_release :
    (l1if_rsl_chan_act (tchf_channel LCHAN_S_BROKEN 0)).toOption.map
        (fun r => (r.1.lchan.state, r.1.fl1h.write_q_L1)) =
      some (LCHAN_S_ACT_REQ, [.mphActivateReq GsmL1_Sapi_TchF GsmL1_Dir_TxDownlink]) ∧
    (l1if_rsl_chan_rel { tchf_assigned with
        lchan := { tchf_assigned.lchan with state := LCHAN_S_BROKEN } }).toOption.map
        (fun r => r.1.lchan.state) = some LCHAN_S_REL_REQ := by
  decide

/-! ## C24: the deadline of a pending transaction -/

/-- A process that has ended stays as it is, whatever events follow. -/
theorem Proc_run_exited (code : Nat) (s : System) (es : List ProcEvent) :
    Proc.run (.exited code s) es = .ok (.exited code s) := by
  induction es with
  | nil => rfl
  | cons e es ih =>
    simp only [Proc.run, Proc.step, M_pure, M_bind_ok, ih]

/-- C24.  Every request that `_l1if_req_compl` accepts, in the layer-1 domain
or in the system domain and whatever the tables and the callback are, gets a
pending transaction whose deadline timer is scheduled for 30 seconds (and 0
microseconds).  If that timer, or the timer of any transaction still pending,
expires, `l1if_req_timeout` ends the process with `exit(23)` in the state in
which the timer expired: the callback of the transaction has not been invoked
and the transaction is still in the pending list, the command queue, the
channel, the reports sent upward and the trace of callbacks are untouched.
Whatever events follow (requests of the upper layer, confirmations, further
expiries), the process stays ended with code 23 in that same state, so the
termination is raised once and no queue or channel activity takes place after
it. -/
theorem l1if_req_timeout_ends_process (T : femtobts_tables) :
    (∀ (fl1h : femtol1_hdl) (msg : msgb) (is_system_prim : Int) (cb : Option l1if_compl_cb),
      (_l1if_req_compl T fl1h msg is_system_prim cb).2 = 0 →
      ∃ wlc, wlc.cb = cb ∧
        (_l1if_req_compl T fl1h msg is_system_prim cb).1.wlc_list = wlc :: fl1h.wlc_list ∧
        (_l1if_req_compl T fl1h msg is_system_prim cb).1.timers =
          { data := wlc, secs := 30, usecs := 0 } :: fl1h.timers) ∧
    (∀ (s : System) (t : osmo_timer_list), t ∈ s.w.fl1h.timers →
      Proc.step (.running s) (.expire t) = .ok (.exited 23 s)) ∧
    (∀ (s : System) (t : osmo_timer_list) (es : List ProcEvent), t ∈ s.w.fl1h.timers →
      Proc.run (.running s) (.expire t :: es) = .ok (.exited 23 s)) ∧
    (∀ (code : Nat) (s : System) (es : List ProcEvent),
      Proc.run (.exited code s) es = .ok (.exited code s)) := by
  have hstep : ∀ (s : System) (t : osmo_timer_list), t ∈ s.w.fl1h.timers →
      Proc.step (.running s) (.expire t) = .ok (.exited 23 s) := by
    intro s t ht
    simp only [Proc.step, ht, ↓reduceIte, l1if_req_timeout, M_pure]
  refine ⟨?_, hstep, ?_, Proc_run_exited⟩
  · intro fl1h msg isp cb hacc
    unfold _l1if_req_compl at hacc ⊢
    have hE : (-EINVAL : Int) ≠ 0 := by decide
    by_cases h0 : isp = 0
    · simp only [h0, ↓reduceIte] at hacc ⊢
      by_cases hty : T.femtobts_l1prim_type msg.id ≠ L1P_T_REQ
      · rw [if_pos hty] at hacc
        exact absurd hacc hE
      · rw [if_neg hty]
        exact ⟨_, rfl, rfl, rfl⟩
    · simp only [h0, ↓reduceIte] at hacc ⊢
      by_cases hty : T.femtobts_sysprim_type msg.id ≠ L1P_T_REQ
      · rw [if_pos hty] at hacc
        exact absurd hacc hE
      · rw [if_neg hty]
        exact ⟨_, rfl, rfl, rfl⟩
  · intro s t es ht
    simp only [Proc.run, hstep s t ht, M_bind_ok]
    exact Proc_run_exited 23 s es

/-- The witness of C24: of three pending transactions the deadline of the one
of the system domain expires; a confirmation, an activation request and the
expiry of another deadline follow. -/
theorem l1if_req_timeout_ends_process_witness :
    (⟨⟨12, 1, some (.other_cb 1)⟩, 30, 0⟩ : osmo_timer_list) ∈ three_pending.fl1h.timers ∧
    Proc.run (.running { w := three_pending, answered := 0 })
        [.expire ⟨⟨12, 1, some (.other_cb 1)⟩, 30, 0⟩, .act (.confirm 0), .act .activate,
          .expire ⟨⟨9, 0, some (.other_cb 0)⟩, 30, 0⟩] =
      .ok (.exited 23 { w := three_pending, answered := 0 }) :=
  ⟨by decide,
    (l1if_req_timeout_ends_process femtobts).2.2.1 { w := three_pending, answered := 0 }
      ⟨⟨12, 1, some (.other_cb 1)⟩, 30, 0⟩ _ (by decide)⟩

/-! ## C25: pending transactions per domain and kind -/

/-- An accepted submission registers one transaction, of the pair of the
request; a rejected one changes nothing. -/
theorem l1if_req_compl_wlc_list (T : femtobts_tables) (fl1h : femtol1_hdl) (msg : msgb)
    (is_system_prim : Int) (cb : Option l1if_compl_cb) :
    ((_l1if_req_compl T fl1h msg is_system_prim cb).2 = 0 ∧
      ∃ wlc, wlc.pair = submit_pair T msg is_system_prim ∧
        (_l1if_req_compl T fl1h msg is_system_prim cb).1.wlc_list = wlc :: fl1h.wlc_list) ∨
    ((_l1if_req_compl T fl1h msg is_system_prim cb).2 ≠ 0 ∧
      (_l1if_req_compl T fl1h msg is_system_prim cb).1 = fl1h) := by
  unfold _l1if_req_compl submit_pair
  have hE : (-EINVAL : Int) ≠ 0 := by decide
  by_cases h0 : is_system_prim = 0
  · simp only [h0, ↓reduceIte]
    by_cases hty : T.femtobts_l1prim_type msg.id ≠ L1P_T_REQ
    · rw [if_pos hty]
      exact Or.inr ⟨hE, rfl⟩
    · rw [if_neg hty]
      refine Or.inl ⟨rfl, _, ?_, rfl⟩
      simp [wait_l1_conf.pair]
  · simp only [h0, ↓reduceIte]
    by_cases hty : T.femtobts_sysprim_type msg.id ≠ L1P_T_REQ
    · rw [if_pos hty]
      exact Or.inr ⟨hE, rfl⟩
    · rw [if_neg hty]
      refine Or.inl ⟨rfl, _, ?_, rfl⟩
      simp [wait_l1_conf.pair]

/-- The arrival of a primitive, with callbacks that leave the correlator
alone, removes at most one transaction from the pending list. -/
theorem l1if_handle_inert (sys : Bool) (w : World) (msg : msgb) :
    ∃ r, l1if_handle sys inert_cb l1if_handle_ind_default w msg = .ok r ∧
      r.1.fl1h.wlc_list.Sublist w.fl1h.wlc_list := by
  rw [l1if_handle_eq]
  unfold l1if_handle_prim
  cases hf : w.fl1h.wlc_list.find?
      (fun x => if sys = true then is_sysprim_compat msg x else is_prim_compat msg x) with
  | none =>
    simp only [l1if_handle_ind_default, M_pure]
    exact ⟨_, rfl, List.Sublist.refl _⟩
  | some wlc =>
    obtain ⟨cid, isp, cb⟩ := wlc
    cases cb with
    | none => exact ⟨_, rfl, List.eraseP_sublist _⟩
    | some cb => exact ⟨_, rfl, List.eraseP_sublist _⟩

/-- C25, amended.  The correlator does not limit the pending transactions of
a pair: an accepted submission always adds exactly one pending transaction to
the pair (domain, expected confirmation kind) of its request, also when one is
already pending.  When the callers keep the rule stated in `is_prim_compat`,
that is when every request is submitted while no transaction of its pair is
pending, then from a state with at most one pending transaction per pair every
sequence of submissions and arrivals of primitives (of either domain, matching
or not) runs to a state with at most one pending transaction per pair. -/
theorem pending_per_pair (T : femtobts_tables) :
    (∀ (fl1h : femtol1_hdl) (msg : msgb) (is_system_prim : Int) (cb : Option l1if_compl_cb),
      (_l1if_req_compl T fl1h msg is_system_prim cb).2 = 0 →
      pending (_l1if_req_compl T fl1h msg is_system_prim cb).1
          (submit_pair T msg is_system_prim) =
        pending fl1h (submit_pair T msg is_system_prim) + 1) ∧
    (∀ (es : List CorrEvent) (w : World), (∀ p, pending w.fl1h p ≤ 1) →
      exclusive_callers T w es = true →
      ∃ w', corr_run T w es = .ok w' ∧ ∀ p, pending w'.fl1h p ≤ 1) := by
  constructor
  · intro fl1h msg isp cb hacc
    rcases l1if_req_compl_wlc_list T fl1h msg isp cb with ⟨_, wlc, hp, hl⟩ | ⟨hne, _⟩
    · unfold pending
      rw [hl, List.countP_cons_of_pos _ _ (by simpa using hp)]
    · exact absurd hacc hne
  · intro es
    induction es with
    | nil => intro w h _; exact ⟨w, rfl, h⟩
    | cons e es ih =>
      intro w hinv hex
      unfold exclusive_callers at hex
      rw [Bool.and_eq_true] at hex
      obtain ⟨hg, hrest⟩ := hex
      cases e with
      | submit msg isp cb =>
        have hs : corr_step T w (.submit msg isp cb) =
            .ok { w with fl1h := (_l1if_req_compl T w.fl1h msg isp cb).1 } := rfl
        rw [hs] at hrest
        simp only [decide_eq_true_eq] at hg
        have hinv' : ∀ p, pending
            ({ w with fl1h := (_l1if_req_compl T w.fl1h msg isp cb).1 } : World).fl1h p ≤ 1 := by
          intro p
          show pending (_l1if_req_compl T w.fl1h msg isp cb).1 p ≤ 1
          rcases l1if_req_compl_wlc_list T w.fl1h msg isp cb with ⟨_, wlc, hp, hl⟩ | ⟨_, heq⟩
          · unfold pending
            rw [hl]
            by_cases hpp : wlc.pair = p
            · rw [List.countP_cons_of_pos _ _ (by simpa using hpp)]
              have : pending w.fl1h p = 0 := by rw [← hpp, hp]; exact hg
              unfold pending at this
              rw [this]
            · rw [List.countP_cons_of_neg _ _ (by simpa using hpp)]
              exact hinv p
          · rw [heq]
            exact hinv p
        obtain ⟨w', hw', hfin⟩ := ih _ hinv' hrest
        exact ⟨w', by simp only [corr_run, hs, M_bind_ok, hw'], hfin⟩
      | arrive sys msg =>
        obtain ⟨r, hr, hsub⟩ := l1if_handle_inert sys w msg
        have hs : corr_step T w (.arrive sys msg) = .ok r.1 := by
          simp only [corr_step, hr, M_bind_ok, M_pure]
        rw [hs] at hrest
        have hinv' : ∀ p, pending r.1.fl1h p ≤ 1 := fun p =>
          le_trans (List.Sublist.countP_le _ hsub) (hinv p)
        obtain ⟨w', hw', hfin⟩ := ih _ hinv' hrest
        exact ⟨w', by simp only [corr_run, hs, M_bind_ok, hw'], hfin⟩

/-- The witness of C25: an activation request is submitted, its confirmation
arrives, and a second activation request is submitted; one transaction of the
pair (layer 1, MphActivateCnf) is pending. -/
theorem pending_per_pair_witness :
    ((∀ p, pending (tchf_channel LCHAN_S_NONE 0).fl1h p ≤ 1) ∧
      exclusive_callers femtobts (tchf_channel LCHAN_S_NONE 0)
        [.submit (.mphActivateReq GsmL1_Sapi_TchF GsmL1_Dir_TxDownlink) 0
            (some .lchan_act_compl_cb),
         .arrive false (.mphActivateCnf GsmL1_Sapi_TchF GsmL1_Dir_TxDownlink 0),
         .submit (.mphActivateReq GsmL1_Sapi_Sdcch GsmL1_Dir_TxDownlink) 0
            (some .lchan_act_compl_cb)] = true) ∧
    ∃ w', corr_run femtobts (tchf_channel LCHAN_S_NONE 0)
        [.submit (.mphActivateReq GsmL1_Sapi_TchF GsmL1_Dir_TxDownlink) 0
            (some .lchan_act_compl_cb),
         .arrive false (.mphActivateCnf GsmL1_Sapi_TchF GsmL1_Dir_TxDownlink 0),
         .submit (.mphActivateReq GsmL1_Sapi_Sdcch GsmL1_Dir_TxDownlink) 0
            (some .lchan_act_compl_cb)] = .ok w' ∧
      ∀ p, pending w'.fl1h p ≤ 1 :=
  have h0 : ∀ p, pending (tchf_channel LCHAN_S_NONE 0).fl1h p ≤ 1 := fun _ => Nat.zero_le 1
  have hex : exclusive_callers femtobts (tchf_channel LCHAN_S_NONE 0)
      [.submit (.mphActivateReq GsmL1_Sapi_TchF GsmL1_Dir_TxDownlink) 0
          (some .lchan_act_compl_cb),
       .arrive false (.mphActivateCnf GsmL1_Sapi_TchF GsmL1_Dir_TxDownlink 0),
       .submit (.mphActivateReq GsmL1_Sapi_Sdcch GsmL1_Dir_TxDownlink) 0
          (some .lchan_act_compl_cb)] = true := by decide
  ⟨⟨h0, hex⟩, (pending_per_pair femtobts).2 _ _ h0 hex⟩

/-! ## The lifecycle state along the queue code -/

theorem SendState_refl (w : World) : SendState w w :=
  ⟨Or.inl rfl, fun _ h _ => h⟩

theorem SendState_trans (w w1 w2 : World) (h1 : SendState w w1) (h2 : SendState w1 w2) :
    SendState w w2 := by
  obtain ⟨a1, b1⟩ := h1
  obtain ⟨a2, b2⟩ := h2
  refine ⟨?_, fun c hc ht => b1 c (b2 c hc ht) ht⟩
  rcases a2 with e2 | ⟨e2, c, hc, ht⟩
  · rcases a1 with e1 | ⟨e1, hex⟩
    · exact Or.inl (e2.trans e1)
    · exact Or.inr ⟨e2.trans e1, hex⟩
  · exact Or.inr ⟨e2, c, b1 c hc ht, ht⟩

theorem SendState_broken (w w' : World) (h : SendState w w')
    (hb : w.lchan.state = LCHAN_S_BROKEN) : w'.lchan.state = LCHAN_S_BROKEN := by
  rcases h.1 with e | ⟨e, _⟩
  · exact e.trans hb
  · exact e

theorem SendState_no_marker (w w' : World) (h : SendState w w')
    (hn : ∀ c ∈ w.lchan.sapi_cmds, c.type ≠ SAPI_CMD_REL_MARKER) :
    w'.lchan.state = w.lchan.state := by
  rcases h.1 with e | ⟨_, c, hc, ht⟩
  · exact e
  · exact absurd ht (hn c hc)

/-- The outcome of the marker code for the lifecycle state and the markers of
the queue. -/
theorem MarkerInv_state (w w' : World) (res : Nat) (h : MarkerInv w.llist_del_head w' res) :
    w'.lchan.state = w.lchan.state ∧
    ∀ c ∈ w'.lchan.sapi_cmds, c.type = SAPI_CMD_REL_MARKER → c ∈ w.lchan.sapi_cmds := by
  obtain ⟨_, _, hst, _, _, _, ds, hds, hq', _, _⟩ := h
  refine ⟨hst, ?_⟩
  intro c hc ht
  rw [hq'] at hc
  rcases List.mem_append.mp hc with h1 | h1
  · exact List.mem_of_mem_tail h1
  · have := hds c h1
    rw [ht] at this
    cases this

/-- One pass of `sapi_queue_exeute` keeps the lifecycle state, unless the head
is a release marker, which may set Broken. -/
theorem sapi_queue_exeute_state (send : World → M World) (hs : SendOK send) (w : World)
    (hq : w.lchan.sapi_cmds ≠ []) :
    ∃ r, sapi_queue_exeute send w = .ok r ∧ SendState w r.1 := by
  obtain ⟨cmd, rest, hq'⟩ := List.exists_cons_of_ne_nil hq
  by_cases hm : is_marker cmd = true
  · have hinv0 := MarkerInv_refl w.llist_del_head
    unfold sapi_queue_exeute
    rw [hq']
    simp only [is_marker, Bool.or_eq_true, decide_eq_true_eq] at hm
    rcases hm with hm | hm
    · simp only [hm]
      obtain ⟨r1, hr1, hi1⟩ := check_sapi_release_inv send hs _ _ 0 GsmL1_Sapi_Sacch
        GsmL1_Dir_TxDownlink hinv0
      obtain ⟨r2, hr2, hi2⟩ := check_sapi_release_inv send hs _ _ _ GsmL1_Sapi_Sacch
        GsmL1_Dir_RxUplink hi1
      simp only [hr1, hr2, M_bind_ok, M_pure]
      refine ⟨_, rfl, ?_⟩
      obtain ⟨e1, e2⟩ := MarkerInv_state w r2.1 _ hi2
      exact ⟨Or.inl e1, e2⟩
    · simp only [hm]
      unfold lchan_deactivate_sapis
      obtain ⟨r, hr, hi⟩ := lchan_deactivate_sapis_loop_inv send hs _
        (sapis_for_lchan w.llist_del_head.lchan.type).reverse _ 0 hinv0
      simp only [hr, M_bind_ok]
      obtain ⟨e1, e2⟩ := MarkerInv_state w r.1 _ hi
      split
      · refine ⟨_, rfl, Or.inr ⟨rfl, cmd, ?_, hm⟩, e2⟩
        rw [hq']
        exact List.mem_cons_self _ _
      · exact ⟨_, rfl, Or.inl e1, e2⟩
  · have hm' : is_marker cmd = false := by simpa using hm
    refine ⟨_, sapi_queue_exeute_non_marker send w cmd rest hq' hm', ?_⟩
    have hl := World_executed_lchan w cmd
    refine ⟨Or.inl (by rw [hl]), ?_⟩
    intro c hc _
    rw [hl] at hc
    exact hc

theorem sapi_queue_send_fuel_state :
    ∀ (n : Nat) (w : World), w.lchan.sapi_cmds ≠ [] →
      w.lchan.sapi_cmds.countP is_marker < n →
      ∃ w', sapi_queue_send_fuel n w = .ok w' ∧ SendState w w' := by
  intro n
  induction n with
  | zero => intro w _ h; omega
  | succ n ih =>
    intro w hq hc
    obtain ⟨cmd, rest, hq'⟩ := List.exists_cons_of_ne_nil hq
    unfold sapi_queue_send_fuel
    by_cases hm : is_marker cmd = true
    · have hn : 0 < n := by
        rw [hq', List.countP_cons] at hc
        simp [hm] at hc
        omega
      obtain ⟨m, rfl⟩ : ∃ m, n = m + 1 := ⟨n - 1, by omega⟩
      obtain ⟨r, hr, hp⟩ := sapi_queue_exeute_post _ (sapi_queue_send_fuel_SendOK m) w hq
      obtain ⟨r', hr', hst⟩ := sapi_queue_exeute_state _ (sapi_queue_send_fuel_SendOK m) w hq
      have hrr : r' = r := by
        rw [hr] at hr'
        exact (Except.ok.inj hr').symm
      subst hrr
      simp only [hr, M_bind_ok]
      obtain ⟨_, _, hzero⟩ := hp
      split
      · rename_i hcont
        obtain ⟨_, _, h3, _⟩ := hzero hcont.1
        have hne : r'.1.lchan.sapi_cmds ≠ [] := by
          intro h
          apply hcont.2
          simp [h]
        obtain ⟨w', hw', hp'⟩ := ih r'.1 hne (by omega)
        exact ⟨w', hw', SendState_trans w r'.1 w' hst hp'⟩
      · exact ⟨_, rfl, hst⟩
    · have hm' : is_marker cmd = false := by simpa using hm
      rw [sapi_queue_exeute_non_marker _ w cmd rest hq' hm']
      simp only [M_bind_ok]
      refine ⟨w.executed cmd, by simp, ?_⟩
      have hl := World_executed_lchan w cmd
      refine ⟨Or.inl (by rw [hl]), ?_⟩
      intro c hc _
      rw [hl] at hc
      exact hc

/-- The function `sapi_queue_send` on a non-empty queue returns, and keeps the
lifecycle state unless a release marker of the queue sets Broken. -/
theorem sapi_queue_send_state (w : World) (hq : w.lchan.sapi_cmds ≠ []) :
    ∃ w', sapi_queue_send w = .ok w' ∧ SendState w w' :=
  sapi_queue_send_fuel_state _ w hq (countP_is_marker_lt w)

/-- The function `queue_sapi_command` for the lifecycle state: `r.1` is related
to the state with the command appended. -/
theorem queue_sapi_command_state (w : World) (cmd : sapi_cmd) :
    ∃ r, queue_sapi_command sapi_queue_send w cmd = .ok r ∧
      SendState (w.llist_add_tail cmd) r.1 := by
  by_cases hq : w.lchan.sapi_cmds = []
  · have hne : (w.llist_add_tail cmd).lchan.sapi_cmds ≠ [] := by
      simp [World.llist_add_tail]
    obtain ⟨w', hw', hst⟩ := sapi_queue_send_state (w.llist_add_tail cmd) hne
    refine ⟨(w', 1), ?_, hst⟩
    unfold queue_sapi_command
    simp only [hq, List.isEmpty_nil, Bool.not_true, Bool.false_eq_true, ↓reduceIte, hw',
      M_bind_ok, M_pure]
  · exact ⟨_, queue_sapi_command_on_busy w cmd hq, SendState_refl _⟩

theorem llist_add_tail_state (w : World) (cmd : sapi_cmd) :
    (w.llist_add_tail cmd).lchan.state = w.lchan.state := rfl

/-! ## Completion of a command without callback -/

/-- The completion dispatch for a head command without callback: the status is
not looked at. -/
theorem sapi_queue_dispatch_no_callback (w : World) (cmd : sapi_cmd) (rest : List sapi_cmd)
    (status : Int) (hq : w.lchan.sapi_cmds = cmd :: rest) (hcb : cmd.callback = none) :
    sapi_queue_dispatch w status =
      if rest = [] then .ok w.llist_del_head else sapi_queue_send w.llist_del_head := by
  have hd : w.llist_del_head.lchan.sapi_cmds = rest := by
    simp [World.llist_del_head, hq]
  unfold sapi_queue_dispatch
  rw [hq]
  simp only [run_callback, hcb, M_bind_ok, M_pure, hd]
  by_cases hr : rest = []
  · simp [hr]
  · have he : rest.isEmpty = false := by
      cases rest with
      | nil => exact absurd rfl hr
      | cons _ _ => rfl
    simp [hr, he]

/-! ## A Broken channel -/

/-- A command callback leaves a Broken channel Broken. -/
theorem run_callback_broken (cmd : sapi_cmd) (w : World) (status : Int)
    (hb : w.lchan.state = LCHAN_S_BROKEN) :
    ∃ w1, run_callback cmd w status = .ok w1 ∧ w1.lchan.state = LCHAN_S_BROKEN := by
  unfold run_callback
  cases hcb : cmd.callback with
  | none => exact ⟨w, rfl, hb⟩
  | some cb =>
    simp only
    unfold call_sapi_cmd_callback
    cases cb with
    | sapi_activate_cb =>
      simp only
      unfold sapi_activate_cb
      have hne : ({ w with trace := w.trace ++ [Event.callback .sapi_activate_cb status] }
          : World).lchan.state ≠ LCHAN_S_ACT_REQ := by
        show w.lchan.state ≠ LCHAN_S_ACT_REQ
        rw [hb]
        decide
      by_cases hst : status ≠ GsmL1_Status_Success
      · rw [if_pos hst]
        exact ⟨_, rfl, rfl⟩
      · rw [if_neg hst]
        split
        · exact ⟨_, rfl, hb⟩
        · exact ⟨_, rfl, hb⟩
    | sapi_deactivate_cb =>
      simp only
      unfold sapi_deactivate_cb
      have hne : ({ w with trace := w.trace ++ [Event.callback .sapi_deactivate_cb status] }
          : World).lchan.state ≠ LCHAN_S_REL_REQ := by
        show w.lchan.state ≠ LCHAN_S_REL_REQ
        rw [hb]
        decide
      rw [if_neg (fun h => hne h.2)]
      split
      · exact ⟨_, rfl, hb⟩
      · exact ⟨_, rfl, hb⟩

/-- The completion dispatch leaves a Broken channel Broken. -/
theorem sapi_queue_dispatch_broken (w : World) (status : Int) (hq : w.lchan.sapi_cmds ≠ [])
    (hb : w.lchan.state = LCHAN_S_BROKEN) :
    ∃ w', sapi_queue_dispatch w status = .ok w' ∧ w'.lchan.state = LCHAN_S_BROKEN := by
  obtain ⟨cmd, rest, hq'⟩ := List.exists_cons_of_ne_nil hq
  obtain ⟨w1, hw1, hb1⟩ := run_callback_broken cmd w.llist_del_head status hb
  unfold sapi_queue_dispatch
  rw [hq']
  simp only [hw1, M_bind_ok]
  split
  · exact ⟨w1, rfl, hb1⟩
  · rename_i hcont
    have hne : w1.lchan.sapi_cmds ≠ [] := by
      intro h
      apply hcont
      right
      simp [h]
    obtain ⟨w', hw', hst⟩ := sapi_queue_send_state w1 hne
    exact ⟨w', hw', SendState_broken w1 w' hst hb1⟩

/-- A completion callback that returns leaves a Broken channel Broken. -/
theorem call_l1if_compl_cb_broken (cb : l1if_compl_cb) (w : World) (msg : msgb)
    (r : World × Int) (h : call_l1if_compl_cb cb w msg = .ok r)
    (hb : w.lchan.state = LCHAN_S_BROKEN) : r.1.lchan.state = LCHAN_S_BROKEN := by
  have hset : ∀ sapi dir st, (set_sapi_state w sapi dir st).lchan.state = LCHAN_S_BROKEN :=
    fun sapi dir st => ((set_sapi_state_same w sapi dir st).2.2.2.1).trans hb
  have hdisp : ∀ (v : World) (status : Int) (x : World × Int), v.lchan.sapi_cmds ≠ [] →
      v.lchan.state = LCHAN_S_BROKEN →
      (do let w' ← sapi_queue_dispatch v status; pure (w', (0 : Int)) : M (World × Int)) = .ok x →
      x.1.lchan.state = LCHAN_S_BROKEN := by
    intro v status x hv hvb hx
    obtain ⟨w', hw', hb'⟩ := sapi_queue_dispatch_broken v status hv hvb
    simp only [hw', M_bind_ok, M_pure] at hx
    rw [← Except.ok.inj hx]
    exact hb'
  cases cb with
  | other_cb n =>
    simp only [call_l1if_compl_cb, M_pure] at h
    rw [← Except.ok.inj h]
    exact hb
  | lchan_act_compl_cb =>
    simp only [call_l1if_compl_cb] at h
    unfold lchan_act_compl_cb at h
    cases msg with
    | mphActivateCnf sapi dir status =>
      simp only at h
      split at h
      · simp only [M_pure] at h
        rw [← Except.ok.inj h]
        exact hset _ _ _
      · rename_i cmd rest hq
        split at h
        · simp only [M_pure] at h
          rw [← Except.ok.inj h]
          exact hset _ _ _
        · exact hdisp _ _ _ (by rw [hq]; exact List.cons_ne_nil _ _) (hset _ _ _) h
    | mphActivateReq _ _ => cases h
    | mphDeactivateReq _ _ => cases h
    | mphConfigReq _ => cases h
    | mphDeactivateCnf _ _ _ => cases h
    | mphConfigCnf _ _ => cases h
    | other _ => cases h
  | lchan_deact_compl_cb =>
    simp only [call_l1if_compl_cb] at h
    unfold lchan_deact_compl_cb at h
    cases msg with
    | mphDeactivateCnf sapi dir status =>
      simp only at h
      split at h
      · simp only [M_pure] at h
        rw [← Except.ok.inj h]
        exact hset _ _ _
      · rename_i cmd rest hq
        split at h
        · simp only [M_pure] at h
          rw [← Except.ok.inj h]
          exact hset _ _ _
        · exact hdisp _ _ _ (by rw [hq]; exact List.cons_ne_nil _ _) (hset _ _ _) h
    | mphActivateReq _ _ => cases h
    | mphDeactivateReq _ _ => cases h
    | mphConfigReq _ => cases h
    | mphActivateCnf _ _ _ => cases h
    | mphConfigCnf _ _ => cases h
    | other _ => cases h
  | chmod_modif_compl_cb =>
    simp only [call_l1if_compl_cb] at h
    unfold chmod_modif_compl_cb at h
    cases msg with
    | mphConfigCnf p status =>
      cases p with
      | GsmL1_ConfigParamId_SetLogChParams =>
        simp only at h
        by_cases hq : w.lchan.sapi_cmds = []
        · unfold sapi_queue_dispatch at h
          rw [hq] at h
          cases h
        · exact hdisp _ _ _ hq hb h
      | GsmL1_ConfigParamId_SetCipheringParams =>
        simp only at h
        split at h
        · simp only [M_pure] at h
          rw [← Except.ok.inj h]
          exact hb
        · rename_i hne
          refine hdisp _ _ _ ?_ ?_ h
          · intro hq
            have hq' : w.lchan.sapi_cmds = [] := hq
            apply hne
            simp [hq']
          · exact hb
      | GsmL1_ConfigParamId_SetNbTsc =>
        simp only [M_pure] at h
        rw [← Except.ok.inj h]
        exact hb
      | GsmL1_ConfigParamId_SetTxPowerLevel =>
        simp only [M_pure] at h
        rw [← Except.ok.inj h]
        exact hb
    | mphActivateReq _ _ => cases h
    | mphDeactivateReq _ _ => cases h
    | mphConfigReq _ => cases h
    | mphActivateCnf _ _ _ => cases h
    | mphDeactivateCnf _ _ _ => cases h
    | other _ => cases h

/-- An inbound layer-1 primitive whose handling returns leaves a Broken
channel Broken. -/
theorem l1if_handle_l1prim_broken (w : World) (msg : msgb) (r : World × Int)
    (h : l1if_handle_l1prim call_l1if_compl_cb l1if_handle_ind_default w msg = .ok r)
    (hb : w.lchan.state = LCHAN_S_BROKEN) : r.1.lchan.state = LCHAN_S_BROKEN := by
  unfold l1if_handle_l1prim l1if_handle_prim at h
  split at h
  · rename_i wlc _
    obtain ⟨cid, isp, cb⟩ := wlc
    cases cb with
    | none =>
      simp only [M_pure, M_bind_ok] at h
      rw [← Except.ok.inj h]
      exact hb
    | some cb =>
      simp only at h
      cases hc : call_l1if_compl_cb cb
          { w with fl1h := { w.fl1h with
              wlc_list := w.fl1h.wlc_list.eraseP (is_prim_compat msg) } } msg with
      | error e =>
        rw [hc] at h
        cases h
      | ok x =>
        rw [hc] at h
        simp only [M_bind_ok, M_pure] at h
        rw [← Except.ok.inj h]
        exact call_l1if_compl_cb_broken cb _ msg x hc hb
  · simp only [l1if_handle_ind_default, M_pure] at h
    rw [← Except.ok.inj h]
    exact hb

/-- The loop of `lchan_activate` keeps the lifecycle state: it only appends
Activate commands and executes the first one. -/
theorem lchan_activate_loop_state (entries : List sapi_dir) :
    ∀ w : World, ∃ w', lchan_activate_loop entries w = .ok w' ∧
      w'.lchan.state = w.lchan.state := by
  induction entries with
  | nil => intro w; exact ⟨w, rfl, rfl⟩
  | cons sd entries ih =>
    intro w
    unfold lchan_activate_loop
    have hw1 : ∀ v : World, v = (if sd.sapi = GsmL1_Sapi_Sch then
        { w with fl1h := { w.fl1h with alive_timer := true, alive_prim_cnt := 0 } }
      else w) → v.lchan.state = w.lchan.state := by
      intro v hv
      rw [hv]
      split <;> rfl
    obtain ⟨r, hr, hl⟩ := queue_sapi_command_non_marker
      (if sd.sapi = GsmL1_Sapi_Sch then
        { w with fl1h := { w.fl1h with alive_timer := true, alive_prim_cnt := 0 } }
      else w)
      { sapi := sd.sapi, dir := sd.dir, type := SAPI_CMD_ACTIVATE,
        callback := some .sapi_activate_cb } rfl
    obtain ⟨w', hw', hs'⟩ := ih r.1
    refine ⟨w', ?_, ?_⟩
    · simp only [enqueue_sapi_act_cmd, hr, M_bind_ok, M_pure, hw']
    · rw [hs', hl]
      exact (llist_add_tail_state _ _).trans (hw1 _ rfl)

/-- One step of a channel whose lifecycle state is Broken: an activation
request sets ActivationRequested, a release request ReleaseRequested (or Broken
again, when the release marker is executed at once and finds nothing to
release), and every other step leaves Broken. -/
theorem System_step_broken (s s' : System) (act : Action) (h : s.step act = .ok s')
    (hb : s.w.lchan.state = LCHAN_S_BROKEN) :
    (act = .activate → s'.w.lchan.state = LCHAN_S_ACT_REQ) ∧
    (act = .release →
      s'.w.lchan.state = LCHAN_S_REL_REQ ∨ s'.w.lchan.state = LCHAN_S_BROKEN) ∧
    (act ≠ .activate → act ≠ .release → s'.w.lchan.state = LCHAN_S_BROKEN) := by
  have hna : s.w.lchan.state ≠ LCHAN_S_ACTIVE := by rw [hb]; decide
  have hnr : s.w.lchan.state ≠ LCHAN_S_REL_REQ := by rw [hb]; decide
  cases act with
  | activate =>
    refine ⟨fun _ => ?_, (fun h' => by cases h'), fun h' => absurd rfl h'⟩
    obtain ⟨w', hw', hs'⟩ := lchan_activate_loop_state
      (sapis_for_lchan (lchan_set_state s.w LCHAN_S_ACT_REQ).lchan.type)
      (lchan_set_state s.w LCHAN_S_ACT_REQ)
    simp only [System.step, l1if_rsl_chan_act, lchan_activate, hw', M_bind_ok, M_pure] at h
    rw [← Except.ok.inj h]
    exact hs'
  | release =>
    refine ⟨(fun h' => by cases h'), fun _ => ?_, fun _ h' => absurd rfl h'⟩
    obtain ⟨r, hr, hst⟩ := queue_sapi_command_state
      { lchan_set_state s.w LCHAN_S_REL_REQ with
        lchan := { (lchan_set_state s.w LCHAN_S_REL_REQ).lchan with
          ciph_state := LCHAN_CIPH_NONE } }
      { sapi := GsmL1_Sapi_Idle, dir := 0, type := SAPI_CMD_REL_MARKER, callback := none }
    simp only [System.step, l1if_rsl_chan_rel, hnr, ↓reduceIte, lchan_deactivate,
      enqueue_rel_marker, hr, M_bind_ok, M_pure] at h
    rw [← Except.ok.inj h]
    rcases hst.1 with e | ⟨e, _⟩
    · exact Or.inl e
    · exact Or.inr e
  | sacch_release =>
    refine ⟨(fun h' => by cases h'), (fun h' => by cases h'), fun _ _ => ?_⟩
    simp only [System.step, l1if_rsl_deact_sacch, hna, ne_eq, not_false_eq_true, ↓reduceIte,
      M_bind_ok, M_pure] at h
    rw [← Except.ok.inj h]
    exact hb
  | mode_change =>
    refine ⟨(fun h' => by cases h'), (fun h' => by cases h'), fun _ _ => ?_⟩
    simp only [System.step, l1if_rsl_mode_modify, hna, ne_eq, not_false_eq_true, ↓reduceIte,
      M_bind_ok, M_pure] at h
    rw [← Except.ok.inj h]
    exact hb
  | cipher uplink downlink =>
    refine ⟨(fun h' => by cases h'), (fun h' => by cases h'), fun _ _ => ?_⟩
    have hc : ∀ (v : World) (d : Int), v.lchan.state = LCHAN_S_BROKEN →
        l1if_set_ciphering v d = .ok (v, -1) := by
      intro v d hv
      unfold l1if_set_ciphering
      rw [if_pos (by rw [hv]; decide)]
      rfl
    simp only [System.step, bts_model_l1sap_down_act_ciph] at h
    cases uplink <;> cases downlink <;>
      simp only [hc, hb, Bool.false_eq_true, ↓reduceIte, M_bind_ok, M_pure, and_self,
        false_and, and_false] at h <;>
      (rw [← Except.ok.inj h]; first | done | exact hb)
  | enqueue cmd =>
    refine ⟨(fun h' => by cases h'), (fun h' => by cases h'), fun _ _ => ?_⟩
    obtain ⟨r, hr, hst⟩ := queue_sapi_command_state s.w cmd
    simp only [System.step, hr, M_bind_ok, M_pure] at h
    rw [← Except.ok.inj h]
    exact SendState_broken _ _ hst hb
  | confirm status =>
    refine ⟨(fun h' => by cases h'), (fun h' => by cases h'), fun _ _ => ?_⟩
    simp only [System.step] at h
    split at h
    · simp only [M_pure] at h
      rw [← Except.ok.inj h]
      exact hb
    · rename_i req _
      cases hc : l1if_handle_l1prim call_l1if_compl_cb l1if_handle_ind_default s.w
          (confirmation_of req status) with
      | error e =>
        rw [hc] at h
        cases h
      | ok x =>
        rw [hc] at h
        simp only [M_bind_ok, M_pure] at h
        rw [← Except.ok.inj h]
        exact l1if_handle_l1prim_broken s.w _ x hc hb

/-! ## C21 -/

/-- The completion of a head command without callback: it returns, the status
plays no role, the ciphering state is kept and the lifecycle state is kept
unless a release marker of the rest of the queue sets Broken. -/
theorem sapi_queue_dispatch_config (v : World) (cmd : sapi_cmd) (rest : List sapi_cmd)
    (status : Int) (hq : v.lchan.sapi_cmds = cmd :: rest) (hcb : cmd.callback = none) :
    sapi_queue_dispatch v status = sapi_queue_dispatch v GsmL1_Status_Success ∧
    ∃ v', sapi_queue_dispatch v status = .ok v' ∧
      v'.lchan.ciph_state = v.lchan.ciph_state ∧
      (v'.lchan.state = v.lchan.state ∨
        (v'.lchan.state = LCHAN_S_BROKEN ∧ ∃ c ∈ rest, c.type = SAPI_CMD_REL_MARKER)) := by
  have hd : v.llist_del_head.lchan.sapi_cmds = rest := by
    simp [World.llist_del_head, hq]
  refine ⟨?_, ?_⟩
  · rw [sapi_queue_dispatch_no_callback v cmd rest status hq hcb,
      sapi_queue_dispatch_no_callback v cmd rest _ hq hcb]
  · rw [sapi_queue_dispatch_no_callback v cmd rest status hq hcb]
    by_cases hr : rest = []
    · rw [if_pos hr]
      exact ⟨_, rfl, rfl, Or.inl rfl⟩
    · rw [if_neg hr]
      have hne : v.llist_del_head.lchan.sapi_cmds ≠ [] := by rw [hd]; exact hr
      obtain ⟨v', hv', hp⟩ := sapi_queue_send_post v.llist_del_head hne
      obtain ⟨v'', hv'', hst⟩ := sapi_queue_send_state v.llist_del_head hne
      have hvv : v'' = v' := by
        rw [hv'] at hv''
        exact (Except.ok.inj hv'').symm
      subst hvv
      refine ⟨v'', hv', hp.2.2.1, ?_⟩
      rcases hst.1 with e | ⟨e, c, hc, ht⟩
      · exact Or.inl e
      · exact Or.inr ⟨e, c, by rw [hd] at hc; exact hc, ht⟩

/-- C21, amended.  Let the confirmed configuration command be at the head of
the queue; like every ConfigureCiphering and ConfigureLogicalParams command it
has no callback.  Then `chmod_modif_compl_cb` ignores the status of the
confirmation: the outcome for any status is the outcome for the status
success.  It returns 0.  A set-ciphering confirmation, also one with a
non-success status, advances the ciphering state by one step of the fixed
sequence and does not set the lifecycle state to Broken; a
set-logical-channel-parameters confirmation, also one with a non-success
status, leaves the ciphering state as it is.  In both cases the lifecycle
state is unchanged whenever no release marker is queued behind the command;
the only other outcome is Broken, set by a release marker of the rest of the
queue when the queue goes on. -/
theorem config_status_ignored (w : World) (cmd : sapi_cmd) (rest : List sapi_cmd)
    (p : GsmL1_ConfigParamId_t) (status : Int)
    (hq : w.lchan.sapi_cmds = cmd :: rest) (hcb : cmd.callback = none) :
    chmod_modif_compl_cb w (.mphConfigCnf p status) =
      chmod_modif_compl_cb w (.mphConfigCnf p GsmL1_Status_Success) ∧
    ∃ w', chmod_modif_compl_cb w (.mphConfigCnf p status) = .ok (w', 0) ∧
      w'.lchan.ciph_state =
        (if p = GsmL1_ConfigParamId_SetCipheringParams then ciph_step_spec w.lchan.ciph_state
          else w.lchan.ciph_state) ∧
      ((∀ c ∈ rest, c.type ≠ SAPI_CMD_REL_MARKER) → w'.lchan.state = w.lchan.state) ∧
      (w'.lchan.state = w.lchan.state ∨
        (w'.lchan.state = LCHAN_S_BROKEN ∧ ∃ c ∈ rest, c.type = SAPI_CMD_REL_MARKER)) := by
  have hfin : ∀ (w' : World) (s0 : gsm_lchan_state),
      (w'.lchan.state = s0 ∨
        (w'.lchan.state = LCHAN_S_BROKEN ∧ ∃ c ∈ rest, c.type = SAPI_CMD_REL_MARKER)) →
      (∀ c ∈ rest, c.type ≠ SAPI_CMD_REL_MARKER) → w'.lchan.state = s0 := by
    intro w' s0 h hn
    rcases h with e | ⟨_, c, hc, ht⟩
    · exact e
    · exact absurd ht (hn c hc)
  cases p with
  | GsmL1_ConfigParamId_SetLogChParams =>
    obtain ⟨heq, w', hw', hc, hs⟩ := sapi_queue_dispatch_config w cmd rest status hq hcb
    refine ⟨?_, w', ?_, ?_, hfin w' _ hs, hs⟩
    · unfold chmod_modif_compl_cb
      simp only [heq]
    · unfold chmod_modif_compl_cb
      simp only [hw', M_bind_ok, M_pure]
    · rw [hc]
      simp
  | GsmL1_ConfigParamId_SetCipheringParams =>
    have hstep : (match w.lchan.ciph_state with
        | LCHAN_CIPH_RX_REQ => LCHAN_CIPH_RX_CONF
        | LCHAN_CIPH_RX_CONF_TX_REQ => LCHAN_CIPH_RXTX_CONF
        | LCHAN_CIPH_RXTX_REQ => LCHAN_CIPH_RX_CONF_TX_REQ
        | s => s) = ciph_step_spec w.lchan.ciph_state := by
      cases w.lchan.ciph_state <;> rfl
    have hq2 : ({ w with lchan := { w.lchan with
        ciph_state := ciph_step_spec w.lchan.ciph_state } } : World).lchan.sapi_cmds =
        cmd :: rest := hq
    obtain ⟨heq, w', hw', hc, hs⟩ := sapi_queue_dispatch_config
      { w with lchan := { w.lchan with ciph_state := ciph_step_spec w.lchan.ciph_state } }
      cmd rest status hq2 hcb
    have hemp : w.lchan.sapi_cmds.isEmpty = false := by rw [hq]; rfl
    refine ⟨?_, w', ?_, ?_, hfin w' _ hs, hs⟩
    · unfold chmod_modif_compl_cb
      simp only [hstep, hemp, Bool.false_eq_true, ↓reduceIte, heq]
    · unfold chmod_modif_compl_cb
      simp only [hstep, hemp, Bool.false_eq_true, ↓reduceIte, hw', M_bind_ok, M_pure]
    · rw [hc]
      simp
  | GsmL1_ConfigParamId_SetNbTsc =>
    exact ⟨rfl, w, rfl, by simp, fun _ => rfl, Or.inl rfl⟩
  | GsmL1_ConfigParamId_SetTxPowerLevel =>
    exact ⟨rfl, w, rfl, by simp, fun _ => rfl, Or.inl rfl⟩

/-- The witness of C21: a set-ciphering confirmation with status -1 for the
ConfigureCiphering command at the head of a queue. -/
theorem config_status_ignored_witness :
    (ciphering_unsupported.lchan.sapi_cmds = ciphering_cmd GsmL1_Dir_RxUplink :: [] ∧
      (ciphering_cmd GsmL1_Dir_RxUplink).callback = none) ∧
    chmod_modif_compl_cb ciphering_unsupported
        (.mphConfigCnf GsmL1_ConfigParamId_SetCipheringParams (-1)) =
      chmod_modif_compl_cb ciphering_unsupported
        (.mphConfigCnf GsmL1_ConfigParamId_SetCipheringParams GsmL1_Status_Success) :=
  ⟨⟨rfl, rfl⟩,
    (config_status_ignored ciphering_unsupported (ciphering_cmd GsmL1_Dir_RxUplink) []
      GsmL1_ConfigParamId_SetCipheringParams (-1) rfl rfl).1⟩

/-! ## C26 -/

/-- C26, amended.  Let the lifecycle state of a channel be Broken, in a state
in which at most the request of the head command is in flight (as in every
reachable state).  Every step returns.  A SACCH release, a cipher request, a
mode change, a command put on the queue and a confirmation (with any status)
leave the lifecycle state Broken, and so does every sequence of such steps.
An activation request sets ActivationRequested, and a release request sets
ReleaseRequested, or Broken again when the release marker is executed at once
and finds nothing to release. -/
theorem broken_kept_except_activate_release (s : System)
    (hs : SingleFlight s.answered s.w) (hb : s.w.lchan.state = LCHAN_S_BROKEN) :
    (∀ act : Action, ∃ s', s.step act = .ok s' ∧
      (act = .activate → s'.w.lchan.state = LCHAN_S_ACT_REQ) ∧
      (act = .release →
        s'.w.lchan.state = LCHAN_S_REL_REQ ∨ s'.w.lchan.state = LCHAN_S_BROKEN) ∧
      (act ≠ .activate → act ≠ .release → s'.w.lchan.state = LCHAN_S_BROKEN)) ∧
    (∀ actions : List Action, (∀ a ∈ actions, a ≠ .activate ∧ a ≠ .release) →
      ∃ s', s.run actions = .ok s' ∧ s'.w.lchan.state = LCHAN_S_BROKEN) := by
  constructor
  · intro act
    obtain ⟨s', hs', _⟩ := System_step_kept s act hs
    exact ⟨s', hs', System_step_broken s s' act hs' hb⟩
  · intro actions
    induction actions generalizing s with
    | nil => intro _; exact ⟨s, rfl, hb⟩
    | cons a actions ih =>
      intro hall
      obtain ⟨s1, hs1, _, _, hsf1, _⟩ := System_step_kept s a hs
      obtain ⟨ha1, ha2⟩ := hall a (List.mem_cons_self _ _)
      have hb1 := (System_step_broken s s1 a hs1 hb).2.2 ha1 ha2
      obtain ⟨s', hs', hb'⟩ := ih s1 hsf1 hb1
        (fun x hx => hall x (List.mem_cons_of_mem _ hx))
      exact ⟨s', by simp only [System.run, hs1, M_bind_ok, hs'], hb'⟩

/-- The witness of C26: a Broken TCH/F channel with nothing queued and nothing
in flight receives a SACCH release, a cipher request for both directions, a
mode change and a confirmation. -/
theorem broken_kept_except_activate_release_witness :
    (SingleFlight 0 (tchf_channel LCHAN_S_BROKEN 0) ∧
      (tchf_channel LCHAN_S_BROKEN 0).lchan.state = LCHAN_S_BROKEN ∧
      ∀ a ∈ [Action.sacch_release, Action.cipher true true, Action.mode_change,
          Action.confirm 0], a ≠ Action.activate ∧ a ≠ Action.release) ∧
    ∃ s', System.run { w := tchf_channel LCHAN_S_BROKEN 0, answered := 0 }
        [.sacch_release, .cipher true true, .mode_change, .confirm 0] = .ok s' ∧
      s'.w.lchan.state = LCHAN_S_BROKEN :=
  have hsf : SingleFlight 0 (tchf_channel LCHAN_S_BROKEN 0) := ⟨rfl, Or.inl rfl⟩
  have hall : ∀ a ∈ [Action.sacch_release, Action.cipher true true, Action.mode_change,
      Action.confirm 0], a ≠ Action.activate ∧ a ≠ Action.release := by decide
  ⟨⟨hsf, rfl, hall⟩,
    (broken_kept_except_activate_release { w := tchf_channel LCHAN_S_BROKEN 0, answered := 0 }
      hsf rfl).2 _ hall⟩

/-! ## The head command is in flight when the queue code returns

The statements of this section are for a cipher algorithm identifier inside the
table `rsl2l1_ciph`, for which every non-marker command submits its request. -/

theorem submits_of_lt (alg_id : Nat) (cmd : sapi_cmd) (h : alg_id < rsl2l1_ciph.length) :
    submits alg_id cmd = true := by
  have : ¬ (alg_id ≥ rsl2l1_ciph.length) := by omega
  simp [submits, this]

/-- Executing a non-marker head, with an algorithm inside the table, puts it in
flight. -/
theorem World_executed_started (w : World) (cmd : sapi_cmd) (rest : List sapi_cmd)
    (hq : w.lchan.sapi_cmds = cmd :: rest) (hm : is_marker cmd = false)
    (halg : w.lchan.encr_alg_id < rsl2l1_ciph.length) :
    Started w (w.executed cmd) ∧ (w.executed cmd).lchan = w.lchan := by
  have hs := submits_of_lt w.lchan.encr_alg_id cmd halg
  have he : w.executed cmd =
      { w with fl1h :=
        (femtol1_hdl.submitted w.fl1h (request_of w.lchan.type w.lchan.encr_alg_id cmd)
          (wlc_for cmd)) } := by
    unfold World.executed
    rw [if_pos hs]
  refine ⟨⟨cmd, rest, ?_, hm, ?_, ?_⟩, World_executed_lchan w cmd⟩
  · rw [World_executed_lchan]
    exact hq
  · rw [he]; rfl
  · rw [he]; rfl

/-- A pass of `sapi_queue_exeute` that reports 1 has registered a
transaction. -/
theorem sapi_queue_exeute_started (send : World → M World) (hs : SendOK send) (w : World)
    (hq : w.lchan.sapi_cmds ≠ []) (halg : w.lchan.encr_alg_id < rsl2l1_ciph.length) :
    ∃ r, sapi_queue_exeute send w = .ok r ∧
      (r.2 = 1 → r.1.fl1h.wlc_list.length = w.fl1h.wlc_list.length + 1) := by
  have hinv : ∀ (w' : World) (res : Nat), MarkerInv w.llist_del_head w' res → res = 1 →
      w'.fl1h.wlc_list.length = w.fl1h.wlc_list.length + 1 := by
    intro w' res h hres
    obtain ⟨_, _, _, _, _, _, ds, _, _, _, hcase⟩ := h
    rcases hcase with ⟨h0, _⟩ | ⟨_, _, d, ds', _, _, hwl⟩
    · omega
    · rw [hwl]
      rfl
  obtain ⟨cmd, rest, hq'⟩ := List.exists_cons_of_ne_nil hq
  by_cases hm : is_marker cmd = true
  · have hinv0 := MarkerInv_refl w.llist_del_head
    unfold sapi_queue_exeute
    rw [hq']
    simp only [is_marker, Bool.or_eq_true, decide_eq_true_eq] at hm
    rcases hm with hm | hm
    · simp only [hm]
      obtain ⟨r1, hr1, hi1⟩ := check_sapi_release_inv send hs _ _ 0 GsmL1_Sapi_Sacch
        GsmL1_Dir_TxDownlink hinv0
      obtain ⟨r2, hr2, hi2⟩ := check_sapi_release_inv send hs _ _ _ GsmL1_Sapi_Sacch
        GsmL1_Dir_RxUplink hi1
      simp only [hr1, hr2, M_bind_ok, M_pure]
      refine ⟨_, rfl, ?_⟩
      rw [Nat.zero_or] at hi2
      exact hinv r2.1 _ hi2
    · simp only [hm]
      unfold lchan_deactivate_sapis
      obtain ⟨r, hr, hi⟩ := lchan_deactivate_sapis_loop_inv send hs _
        (sapis_for_lchan w.llist_del_head.lchan.type).reverse _ 0 hinv0
      simp only [hr, M_bind_ok]
      split
      · rename_i h0
        refine ⟨_, rfl, ?_⟩
        intro h1
        simp only [M_pure] at h1
        omega
      · exact ⟨_, rfl, hinv r.1 r.2 hi⟩
  · have hm' : is_marker cmd = false := by simpa using hm
    refine ⟨_, sapi_queue_exeute_non_marker send w cmd rest hq' hm', fun _ => ?_⟩
    obtain ⟨⟨c, r, _, _, _, hwl⟩, _⟩ := World_executed_started w cmd rest hq' hm' halg
    show (w.executed cmd).fl1h.wlc_list.length = _
    rw [hwl]
    rfl

theorem sapi_queue_send_fuel_started :
    ∀ (n : Nat) (w : World), w.lchan.sapi_cmds ≠ [] →
      w.lchan.sapi_cmds.countP is_marker < n →
      w.lchan.encr_alg_id < rsl2l1_ciph.length →
      ∃ w', sapi_queue_send_fuel n w = .ok w' ∧
        (w'.lchan.sapi_cmds = [] ∨
          w'.fl1h.wlc_list.length = w.fl1h.wlc_list.length + 1) := by
  intro n
  induction n with
  | zero => intro w _ h; omega
  | succ n ih =>
    intro w hq hc halg
    obtain ⟨cmd, rest, hq'⟩ := List.exists_cons_of_ne_nil hq
    unfold sapi_queue_send_fuel
    by_cases hm : is_marker cmd = true
    · have hn : 0 < n := by
        rw [hq', List.countP_cons] at hc
        simp [hm] at hc
        omega
      obtain ⟨m, rfl⟩ : ∃ m, n = m + 1 := ⟨n - 1, by omega⟩
      obtain ⟨r, hr, hp⟩ := sapi_queue_exeute_post _ (sapi_queue_send_fuel_SendOK m) w hq
      obtain ⟨r', hr', hst⟩ := sapi_queue_exeute_started _ (sapi_queue_send_fuel_SendOK m) w hq
        halg
      have hrr : r' = r := by
        rw [hr] at hr'
        exact (Except.ok.inj hr').symm
      subst hrr
      simp only [hr, M_bind_ok]
      obtain ⟨hsp, hres, hzero⟩ := hp
      split
      · rename_i hcont
        obtain ⟨_, h2, h3, _⟩ := hzero hcont.1
        have hne : r'.1.lchan.sapi_cmds ≠ [] := by
          intro h
          apply hcont.2
          simp [h]
        obtain ⟨w', hw', hp'⟩ := ih r'.1 hne (by omega) (by rw [hsp.2.1]; exact halg)
        refine ⟨w', hw', ?_⟩
        rw [h2] at hp'
        exact hp'
      · rename_i hstop
        refine ⟨_, rfl, ?_⟩
        rcases hres with h0 | h1
        · left
          by_contra hne
          apply hstop
          refine ⟨h0, ?_⟩
          simp only [List.isEmpty_iff]
          exact hne
        · exact Or.inr (hst h1)
    · have hm' : is_marker cmd = false := by simpa using hm
      rw [sapi_queue_exeute_non_marker _ w cmd rest hq' hm']
      simp only [M_bind_ok]
      refine ⟨w.executed cmd, by simp, Or.inr ?_⟩
      obtain ⟨⟨c, r, _, _, _, hwl⟩, _⟩ := World_executed_started w cmd rest hq' hm' halg
      rw [hwl]
      rfl

/-- The function `sapi_queue_send` on a non-empty queue, with an algorithm
inside the table: it returns, and then either the queue is empty and nothing
was submitted, or the command at the head of the queue is in flight, its
request being the one request submitted. -/
theorem sapi_queue_send_effect (w : World) (hq : w.lchan.sapi_cmds ≠ [])
    (halg : w.lchan.encr_alg_id < rsl2l1_ciph.length) :
    ∃ w', sapi_queue_send w = .ok w' ∧
      ((w'.lchan.sapi_cmds = [] ∧ Quiet w w') ∨ Started w w') := by
  obtain ⟨w', hw', hp⟩ := sapi_queue_send_post w hq
  obtain ⟨w'', hw'', hst⟩ := sapi_queue_send_fuel_started _ w hq (countP_is_marker_lt w) halg
  have hww : w'' = w' := by
    unfold sapi_queue_send at hw'
    rw [hw'] at hw''
    exact (Except.ok.inj hw'').symm
  subst hww
  refine ⟨w'', hw', ?_⟩
  obtain ⟨_, _, _, _, hg, _⟩ := hp
  rcases hg with ⟨g1, g2⟩ | hstarted
  · left
    refine ⟨?_, g1, g2⟩
    rcases hst with h | h
    · exact h
    · rw [g2] at h
      omega
  · exact Or.inr hstarted

/-- What a command callback does to the queue and to the layer-1 handle: it
leaves the handle alone and keeps or empties the queue; or, called by the
successful completion of the last Activate command of an activation, it queues
the two ConfigureCiphering commands on the empty queue, the first of which is
put in flight. -/
theorem run_callback_effect (cmd : sapi_cmd) (w : World) (status : Int)
    (halg : w.lchan.encr_alg_id < rsl2l1_ciph.length) :
    ∃ w1, run_callback cmd w status = .ok w1 ∧
      ((w1.fl1h = w.fl1h ∧ w1.lchan.type = w.lchan.type ∧
          w1.lchan.encr_alg_id = w.lchan.encr_alg_id ∧
          (w1.lchan.sapi_cmds = w.lchan.sapi_cmds ∨ w1.lchan.sapi_cmds = [])) ∨
        (w.lchan.sapi_cmds = [] ∧ Started w w1 ∧
          w1.lchan.sapi_cmds =
            [ciphering_cmd GsmL1_Dir_RxUplink, ciphering_cmd GsmL1_Dir_TxDownlink])) := by
  unfold run_callback
  cases hcb : cmd.callback with
  | none => exact ⟨w, rfl, Or.inl ⟨rfl, rfl, rfl, Or.inl rfl⟩⟩
  | some cb =>
    simp only
    unfold call_sapi_cmd_callback
    cases cb with
    | sapi_activate_cb =>
      simp only
      by_cases hst : status = GsmL1_Status_Success
      · subst hst
        by_cases hpre : ({ w with trace := w.trace ++
            [Event.callback .sapi_activate_cb GsmL1_Status_Success] } : World).lchan.sapi_cmds
              = [] ∧
            ({ w with trace := w.trace ++
              [Event.callback .sapi_activate_cb GsmL1_Status_Success] } : World).lchan.state
              = LCHAN_S_ACT_REQ
        · obtain ⟨w', hw', _, _, hq', _, hsub, _⟩ := (sapi_activate_cb_success _).1 hpre
          obtain ⟨hwq, hwl⟩ := hsub halg
          simp only [hw', M_bind_ok, M_pure]
          refine ⟨w', rfl, Or.inr ⟨hpre.1, ⟨ciphering_cmd GsmL1_Dir_RxUplink,
            [ciphering_cmd GsmL1_Dir_TxDownlink], hq', rfl, ?_, ?_⟩, hq'⟩⟩
          · rw [hwq]; rfl
          · rw [hwl]; rfl
        · rw [(sapi_activate_cb_success _).2 hpre]
          exact ⟨_, rfl, Or.inl ⟨rfl, rfl, rfl, Or.inl rfl⟩⟩
      · unfold sapi_activate_cb
        rw [if_pos hst]
        exact ⟨_, rfl, Or.inl ⟨rfl, rfl, rfl, Or.inr rfl⟩⟩
    | sapi_deactivate_cb =>
      simp only
      unfold sapi_deactivate_cb
      split
      · exact ⟨_, rfl, Or.inl ⟨rfl, rfl, rfl, Or.inr rfl⟩⟩
      · split
        · exact ⟨_, rfl, Or.inl ⟨rfl, rfl, rfl, Or.inl rfl⟩⟩
        · split
          · exact ⟨_, rfl, Or.inl ⟨rfl, rfl, rfl, Or.inl rfl⟩⟩
          · exact ⟨_, rfl, Or.inl ⟨rfl, rfl, rfl, Or.inl rfl⟩⟩

/-- The completion dispatch by its effect, with an algorithm inside the table.
The head command is removed and its callback runs once, giving `w1`.  If the
queue of `w1` is empty, the dispatch returns `w1` and no request has been
submitted.  If it is not empty, its head has been executed once: when that head
is not a marker it is in flight at the end, its request being the one request
submitted since the dispatch began; when it is a marker, the marker code has
run, and at the end the queue is empty with nothing submitted or the command at
its head is in flight. -/
theorem sapi_queue_dispatch_effect (w : World) (status : Int) (cmd : sapi_cmd)
    (rest : List sapi_cmd) (hq : w.lchan.sapi_cmds = cmd :: rest)
    (halg : w.lchan.encr_alg_id < rsl2l1_ciph.length) :
    ∃ w1 w', run_callback cmd w.llist_del_head status = .ok w1 ∧
      callback_events w1.trace = callback_events w.trace ++
        (match cmd.callback with
          | some cb => [(cb, status)]
          | none => []) ∧
      sapi_queue_dispatch w status = .ok w' ∧
      callback_events w'.trace = callback_events w1.trace ∧
      (w1.lchan.sapi_cmds = [] → w' = w1 ∧ Quiet w w') ∧
      (w1.lchan.sapi_cmds ≠ [] →
        ((w'.lchan.sapi_cmds = [] ∧ Quiet w w') ∨ Started w w') ∧
        (∀ c rest', w1.lchan.sapi_cmds = c :: rest' → is_marker c = false →
          w'.lchan.sapi_cmds = c :: rest' ∧ Started w w')) := by
  have hqmid : w.llist_del_head.lchan.sapi_cmds = rest := by simp [World.llist_del_head, hq]
  obtain ⟨w1, hw1, heff⟩ := run_callback_effect cmd w.llist_del_head status halg
  obtain ⟨w1', hw1', hev⟩ := run_callback_total cmd w.llist_del_head status
  have h11 : w1' = w1 := by
    rw [hw1] at hw1'
    exact (Except.ok.inj hw1').symm
  subst h11
  have hstarted_head : ∀ (v : World), Started w v →
      ∀ c rest', v.lchan.sapi_cmds = c :: rest' → Started w v := fun v h _ _ _ => h
  by_cases hr : rest = []
  · -- the removed command was the last one: the dispatch returns after the callback
    have hd : sapi_queue_dispatch w status = .ok w1' := by
      unfold sapi_queue_dispatch
      rw [hq]
      simp only [hw1, M_bind_ok, hqmid, hr, List.isEmpty_nil, true_or, ↓reduceIte, M_pure]
    refine ⟨w1', w1', hw1, hev, hd, rfl, ?_, ?_⟩
    · intro he
      refine ⟨rfl, ?_⟩
      rcases heff with ⟨hf, _⟩ | ⟨_, _, hq2⟩
      · exact ⟨by rw [hf]; rfl, by rw [hf]; rfl⟩
      · rw [he] at hq2
        cases hq2
    · intro hne
      rcases heff with ⟨_, _, _, hqq⟩ | ⟨_, hs, hq2⟩
      · exfalso
        rcases hqq with h | h
        · rw [h, hqmid, hr] at hne
          exact hne rfl
        · exact hne h
      · have hs' : Started w w1' := hs
        exact ⟨Or.inr hs', fun c rest' hc _ => ⟨hc, hs'⟩⟩
  · -- commands are queued behind the removed one
    rcases heff with ⟨hf, hty, hal, hqq⟩ | ⟨he, _⟩
    · by_cases h1 : w1'.lchan.sapi_cmds = []
      · have hd : sapi_queue_dispatch w status = .ok w1' := by
          unfold sapi_queue_dispatch
          rw [hq]
          simp only [hw1, M_bind_ok, h1, List.isEmpty_nil, or_true, ↓reduceIte, M_pure]
        refine ⟨w1', w1', hw1, hev, hd, rfl, fun _ => ⟨rfl, by rw [hf]; rfl, by rw [hf]; rfl⟩,
          fun hne => absurd h1 hne⟩
      · have halg1 : w1'.lchan.encr_alg_id < rsl2l1_ciph.length := by
          rw [hal]
          exact halg
        obtain ⟨w', hw', heff'⟩ := sapi_queue_send_effect w1' h1 halg1
        obtain ⟨w'', hw'', hp⟩ := sapi_queue_send_post w1' h1
        have hww : w'' = w' := by
          rw [hw'] at hw''
          exact (Except.ok.inj hw'').symm
        subst hww
        have hd : sapi_queue_dispatch w status = .ok w'' := by
          unfold sapi_queue_dispatch
          rw [hq]
          simp only [hw1, M_bind_ok, hqmid]
          rw [if_neg]
          · exact hw'
          · intro h
            rcases h with h | h
            · exact hr (List.isEmpty_iff.mp h)
            · exact h1 (List.isEmpty_iff.mp h)
        have hquiet : ∀ v : World, Quiet w1' v → Quiet w v := by
          intro v hv
          exact ⟨by rw [hv.1, hf]; rfl, by rw [hv.2, hf]; rfl⟩
        have hstart : ∀ v : World, Started w1' v → Started w v := by
          rintro v ⟨c, r, a, b, e1, e2⟩
          refine ⟨c, r, a, b, ?_, ?_⟩
          · rw [e1, hf, hty, hal]; rfl
          · rw [e2, hf]; rfl
        refine ⟨w1', w'', hw1, hev, hd, SendPost_callback_events hp,
          fun he => absurd he h1, fun _ => ⟨?_, ?_⟩⟩
        · rcases heff' with ⟨a, b⟩ | b
          · exact Or.inl ⟨a, hquiet _ b⟩
          · exact Or.inr (hstart _ b)
        · intro c rest' hc hm
          have hsn := sapi_queue_send_non_marker w1' c rest' hc hm
          rw [hw'] at hsn
          have hex : w'' = w1'.executed c := Except.ok.inj hsn
          obtain ⟨hs2, hl2⟩ := World_executed_started w1' c rest' hc hm halg1
          rw [hex]
          exact ⟨by rw [hl2]; exact hc, hstart _ hs2⟩
    · rw [hqmid] at he
      exact absurd he hr

/-- The successful completion of an Activate command through
`sapi_queue_dispatch`, with an algorithm inside the table.  If the queue is
empty once the command is removed and the state is ActivationRequested, the
channel becomes Active, one positive activation result is reported upward, the
queue is [ConfigureCiphering(uplink), ConfigureCiphering(downlink)] and exactly
the first of the two is in flight.  In every other case the lifecycle state is
unchanged provided no release marker is queued behind the command. -/
theorem activate_completion_effect (w : World) (cmd : sapi_cmd) (rest : List sapi_cmd)
    (hq : w.lchan.sapi_cmds = cmd :: rest)
    (hcb : cmd.callback = some .sapi_activate_cb)
    (halg : w.lchan.encr_alg_id < rsl2l1_ciph.length) :
    (rest = [] ∧ w.lchan.state = LCHAN_S_ACT_REQ →
      ∃ w', sapi_queue_dispatch w GsmL1_Status_Success = .ok w' ∧
        w'.lchan.state = LCHAN_S_ACTIVE ∧
        w'.l1sap_up = w.l1sap_up ++ [{ type := PRIM_INFO_ACTIVATE, cause := 0 }] ∧
        w'.lchan.sapi_cmds =
          [ciphering_cmd GsmL1_Dir_RxUplink, ciphering_cmd GsmL1_Dir_TxDownlink] ∧
        w'.fl1h.write_q_L1 = w.fl1h.write_q_L1 ++
          [.mphConfigReq (.setCipheringParams GsmL1_Dir_RxUplink
            (rsl2l1_ciph.getD w.lchan.encr_alg_id GsmL1_CipherId_A50))] ∧
        w'.fl1h.wlc_list = wlc_for (ciphering_cmd GsmL1_Dir_RxUplink) :: w.fl1h.wlc_list) ∧
    (¬ (rest = [] ∧ w.lchan.state = LCHAN_S_ACT_REQ) →
      ∃ w', sapi_queue_dispatch w GsmL1_Status_Success = .ok w' ∧
        ((∀ c ∈ rest, c.type ≠ SAPI_CMD_REL_MARKER) → w'.lchan.state = w.lchan.state)) := by
  have hqmid : w.llist_del_head.lchan.sapi_cmds = rest := by simp [World.llist_del_head, hq]
  have hrun : ∀ v : World, sapi_activate_cb
      { w.llist_del_head with trace := w.llist_del_head.trace ++
        [Event.callback .sapi_activate_cb GsmL1_Status_Success] } GsmL1_Status_Success
        = .ok (v, 0) →
      run_callback cmd w.llist_del_head GsmL1_Status_Success = .ok v := by
    intro v hv
    unfold run_callback
    simp only [hcb, call_sapi_cmd_callback, hv, M_bind_ok, M_pure]
  constructor
  · rintro ⟨hr, hst⟩
    have hpre : ({ w.llist_del_head with trace := w.llist_del_head.trace ++
        [Event.callback .sapi_activate_cb GsmL1_Status_Success] } : World).lchan.sapi_cmds
          = [] ∧
        ({ w.llist_del_head with trace := w.llist_del_head.trace ++
          [Event.callback .sapi_activate_cb GsmL1_Status_Success] } : World).lchan.state
          = LCHAN_S_ACT_REQ := ⟨by rw [← hr]; exact hqmid, hst⟩
    obtain ⟨w', hw', h1, h2, h3, _, hsub, _⟩ := (sapi_activate_cb_success _).1 hpre
    obtain ⟨hwq, hwl⟩ := hsub halg
    refine ⟨w', ?_, h1, h2, h3, hwq, hwl⟩
    unfold sapi_queue_dispatch
    rw [hq]
    simp only [hrun w' hw', M_bind_ok, hqmid, hr, List.isEmpty_nil, true_or, ↓reduceIte,
      M_pure]
  · intro hn
    have hpre : ¬ (({ w.llist_del_head with trace := w.llist_del_head.trace ++
        [Event.callback .sapi_activate_cb GsmL1_Status_Success] } : World).lchan.sapi_cmds
          = [] ∧
        ({ w.llist_del_head with trace := w.llist_del_head.trace ++
          [Event.callback .sapi_activate_cb GsmL1_Status_Success] } : World).lchan.state
          = LCHAN_S_ACT_REQ) := by
      rintro ⟨a, b⟩
      exact hn ⟨by rw [← hqmid]; exact a, b⟩
    have hw1 := hrun _ ((sapi_activate_cb_success _).2 hpre)
    by_cases hr : rest = []
    · refine ⟨{ w.llist_del_head with trace := w.llist_del_head.trace ++
        [Event.callback .sapi_activate_cb GsmL1_Status_Success] }, ?_, fun _ => rfl⟩
      unfold sapi_queue_dispatch
      rw [hq]
      simp only [hw1, M_bind_ok, hqmid, hr, List.isEmpty_nil, true_or, ↓reduceIte, M_pure]
    · have hne : ({ w.llist_del_head with trace := w.llist_del_head.trace ++
          [Event.callback .sapi_activate_cb GsmL1_Status_Success] } : World).lchan.sapi_cmds
            ≠ [] := by
        show w.llist_del_head.lchan.sapi_cmds ≠ []
        rw [hqmid]
        exact hr
      obtain ⟨w', hw', hst⟩ := sapi_queue_send_state _ hne
      obtain ⟨w'', hw'', hp⟩ := sapi_queue_send_post _ hne
      have hww : w'' = w' := by
        rw [hw'] at hw''
        exact (Except.ok.inj hw'').symm
      subst hww
      refine ⟨w'', ?_, ?_⟩
      · unfold sapi_queue_dispatch
        rw [hq]
        simp only [hw1, M_bind_ok, hqmid]
        rw [if_neg]
        · exact hw'
        · intro h
          rcases h with h | h
          · exact hr (List.isEmpty_iff.mp h)
          · exact hr (List.isEmpty_iff.mp h)
      · intro hno
        have := SendState_no_marker _ _ hst (by
          intro c hc
          have hc' : c ∈ w.llist_del_head.lchan.sapi_cmds := hc
          rw [hqmid] at hc'
          exact hno c hc')
        rw [this]
        rfl

/-! ## C8 -/

/-- C8, the code at the failing inputs.  First input: an idle TCH/F channel
with the cipher algorithm identifier 5 is activated and its six Activate
requests are confirmed with success.  The sixth completion finds the queue
empty and the state ActivationRequested: the channel becomes Active, one
positive activation result is reported and the queue is
[ConfigureCiphering(uplink), ConfigureCiphering(downlink)], but no seventh
request has been submitted and no transaction is pending, whereas with the
identifier 4 the request of the first of the two is submitted.  Second input:
an activation, a release and a second activation are requested for an idle
TCH/F channel before any confirmation arrives.  The sixth success confirmation
completes the last Activate command of the first activation with a non-empty
queue behind it; the state was ActivationRequested before and is Broken
after. -/
theorem activate_completion_diverges :
    ((System.run { w := tchf_channel LCHAN_S_NONE 5, answered := 0 }
        (activation_confirmed 6)).toOption.map
        (fun s => (s.w.lchan.state, s.w.l1sap_up, s.w.lchan.sapi_cmds)) =
      some (LCHAN_S_ACTIVE, [{ type := PRIM_INFO_ACTIVATE, cause := 0 }],
        [ciphering_cmd GsmL1_Dir_RxUplink, ciphering_cmd GsmL1_Dir_TxDownlink]) ∧
      (System.run { w := tchf_channel LCHAN_S_NONE 5, answered := 0 }
        (activation_confirmed 6)).toOption.map
        (fun s => (s.w.fl1h.write_q_L1.drop 6, s.w.fl1h.wlc_list)) = some ([], [])) ∧
    ((System.run { w := tchf_channel LCHAN_S_NONE 4, answered := 0 }
        (activation_confirmed 6)).toOption.map
        (fun s => (s.w.lchan.state, s.w.l1sap_up, s.w.lchan.sapi_cmds)) =
      some (LCHAN_S_ACTIVE, [{ type := PRIM_INFO_ACTIVATE, cause := 0 }],
        [ciphering_cmd GsmL1_Dir_RxUplink, ciphering_cmd GsmL1_Dir_TxDownlink]) ∧
      (System.run { w := tchf_channel LCHAN_S_NONE 4, answered := 0 }
        (activation_confirmed 6)).toOption.map
        (fun s => (s.w.fl1h.write_q_L1.drop 6, s.w.fl1h.wlc_list)) =
      some ([.mphConfigReq (.setCipheringParams GsmL1_Dir_RxUplink GsmL1_CipherId_A53)],
        [wlc_for (ciphering_cmd GsmL1_Dir_RxUplink)])) ∧
    (System.run { w := tchf_channel LCHAN_S_NONE 0, answered := 0 }
        (reactivation_confirmed 5)).toOption.map
        (fun s => (s.w.lchan.state, s.w.lchan.sapi_cmds.take 2)) =
      some (LCHAN_S_ACT_REQ,
        [activate_cmd GsmL1_Sapi_Sacch GsmL1_Dir_RxUplink, rel_marker]) ∧
    (System.run { w := tchf_channel LCHAN_S_NONE 0, answered := 0 }
        (reactivation_confirmed 6)).toOption.map
        (fun s => (s.w.lchan.state, s.w.lchan.sapi_cmds.take 1, s.w.lchan.sapi_cmds.length)) =
      some (LCHAN_S_BROKEN, [activate_cmd GsmL1_Sapi_TchF GsmL1_Dir_TxDownlink], 12) :=
  ⟨⟨by decide, by decide⟩, ⟨by decide, by decide⟩, by decide, by decide⟩

end OsmoBts
